import Mathlib

/-!
# Compositing layer assignment (`CompositingLayerAssigner.cpp`)

A shallow embedding of `blink::CompositingLayerAssigner`: the pure decision
functions (`needsOwnBacking`, `computeCompositedLayerUpdate`,
`getReasonsPreventingSquashing`, `squashingWouldExceedSparsityTolerance`) and the
paint-order walk (`assign`, `assignLayersToBackingsInternal`,
`updateSquashingAssignment`, `updateSquashingStateForNewMapping`).

Conventions.

* A `RenderLayer*` is a `LayerId`.  A `CompositedLayerMapping*` is named by the
  id of its owning layer (`owningLayer()` and `compositedLayerMapping()` are
  inverse to each other), a null pointer is `none`.
* What the walk reads but never writes (renderer flags, geometry, ancestors,
  the stacking tree) is static; what the walk or the compositor writes is in
  `World`.
* Functions of the repository that are declared outside
  `CompositingLayerAssigner.cpp` are fields of `Env`; the theorems state what
  they assume of them.
* `ASSERT` is a no-op, as in a release build.  Dereferencing a null
  `mostRecentMapping` has no result: the functions that do it return `Option`.
* `uint64_t` arithmetic is `Nat` arithmetic modulo `2 ^ 64`.
  `nextSquashedLayerIndex` (a `size_t`) is a `Nat`: it counts layers visited.
-/

namespace blink

/-! ## Data model -/

abbrev LayerId := Nat

/-- The type `CompositingReasons` is a `uint64_t` bit mask; merging is bitwise or. -/
abbrev CompositingReasons := Nat

/-- The enum `CompositingStateTransitionType`. -/
inductive CompositingStateTransitionType where
  | NoCompositingStateChange
  | AllocateOwnCompositedLayerMapping
  | RemoveOwnCompositedLayerMapping
  | PutInSquashingLayer
  | RemoveFromSquashingLayer
  deriving DecidableEq, Repr

open CompositingStateTransitionType

/-- The named reason constants that `getReasonsPreventingSquashing` returns. -/
inductive CompositingReason where
  | CompositingReasonNone
  | CompositingReasonSquashingWouldBreakPaintOrder
  | CompositingReasonSquashingVideoIsDisallowed
  | CompositingReasonSquashingRenderPartIsDisallowed
  | CompositingReasonSquashingReflectionIsDisallowed
  | CompositingReasonSquashingSparsityExceeded
  | CompositingReasonSquashingBlendingIsDisallowed
  | CompositingReasonSquashingClippingContainerMismatch
  | CompositingReasonSquashedLayerClipsCompositingDescendants
  | CompositingReasonScrollsWithRespectToSquashingLayer
  | CompositingReasonSquashingOpacityAncestorMismatch
  | CompositingReasonSquashingTransformAncestorMismatch
  | CompositingReasonSquashingFilterMismatch
  deriving DecidableEq, Repr

open CompositingReason

/-- Modelled from the spec: `IntRect` (platform/geometry, not under src/), the
"bounding rectangle in absolute coordinates" of a layer. -/
structure IntRect where
  x : Int
  y : Int
  width : Int
  height : Int
  deriving DecidableEq, Repr

/-- Modelled from the spec: `IntRect()`, the rectangle the running union starts from. -/
def IntRect.zero : IntRect := ⟨0, 0, 0, 0⟩

/-- Modelled from the spec: `IntRect::isEmpty`, a rectangle without area. -/
def IntRect.isEmpty (r : IntRect) : Bool := decide (r.width ≤ 0) || decide (r.height ≤ 0)

/-- Modelled from the spec: `IntRect::unite`, the "running union" of bounding
rectangles: the smallest rectangle containing both, an empty one being ignored. -/
def IntRect.unite (a b : IntRect) : IntRect :=
  if b.isEmpty then a
  else if a.isEmpty then b
  else
    let left := min a.x b.x
    let top := min a.y b.y
    let right := max (a.x + a.width) (b.x + b.width)
    let bottom := max (a.y + a.height) (b.y + b.height)
    ⟨left, top, right - left, bottom - top⟩

/-- Modelled from the spec: `IntRect::size().area()` read into a `uint64_t`:
width times height modulo `2 ^ 64`. -/
def IntRect.area (r : IntRect) : Nat := ((r.width * r.height) % (2 ^ 64 : Int)).toNat

/-- What the walk reads of a `RenderLayer` and never writes. -/
structure RenderLayer where
  isRootLayer : Bool
  subtreeIsInvisible : Bool
  isVideo : Bool
  isRenderPart : Bool
  hasBlendMode : Bool
  hasFilter : Bool
  reflectionInfo : Option LayerId
  clippedAbsoluteBoundingBox : IntRect
  clippingContainer : Option Nat
  opacityAncestor : Option LayerId
  transformAncestor : Option LayerId
  filterAncestor : Option LayerId
  scrollParent : Option LayerId
  needsCompositedScrolling : Bool

/-- The part of a `RenderLayer` that the walk or the compositor writes.
`squashedLayers` is the squashing list of the layer's own mapping. -/
structure LayerCompositing where
  compositingReasons : CompositingReasons
  hasCompositedLayerMapping : Bool
  groupedMapping : Option LayerId
  lostGroupedMapping : Bool
  squashedLayers : List LayerId

/-- The mutable render-layer table and the compositor's compositing-mode flag. -/
structure World where
  layers : LayerId → LayerCompositing
  inCompositingMode : Bool

/-- The `RenderLayerStackingNode` tree: a layer, whether it is a stacking
context, its negative z-order children, and its normal-flow and positive
z-order children, each list in paint order. -/
inductive StackingNode where
  | mk (layer : LayerId) (isStackingContext : Bool)
      (negativeZOrderChildren : List StackingNode)
      (normalFlowAndPositiveZOrderChildren : List StackingNode)

/-- The `void` calls the assigner makes into code outside this file. -/
inductive ExternalCall where
  | finishAccumulatingSquashingLayers (mapping : LayerId) (nextSquashedLayerIndex : Nat)
  | setNeedsGraphicsLayerUpdate (mapping : LayerId)
  | clearClipRectsIncludingDescendants (layer : LayerId)
  | paintInvalidationOnCompositingChange (layer : LayerId)
  | updateDirectCompositingReasons (layer : LayerId)
  | updateGraphicsLayerConfiguration (mapping : LayerId)
  | setTopmostScrollChild (scrollableAreaOf : LayerId) (child : Option LayerId)
  deriving DecidableEq, Repr

/-- The members of `CompositingLayerAssigner::SquashingState`. -/
structure SquashingState where
  mostRecentMapping : Option LayerId
  hasMostRecentMapping : Bool
  haveAssignedBackingsToEntireSquashingLayerSubtree : Bool
  nextSquashedLayerIndex : Nat
  boundingRect : IntRect
  totalAreaOfSquashedRects : Nat
  deriving DecidableEq, Repr

/-- Modelled from the spec: the `SquashingState()` constructor (declared in
CompositingLayerAssigner.h, not under src/): "a fresh SquashingState", no
candidate host, next index 0, subtree flag false, no accumulated geometry. -/
def SquashingState.fresh : SquashingState :=
  { mostRecentMapping := none
    hasMostRecentMapping := false
    haveAssignedBackingsToEntireSquashingLayerSubtree := false
    nextSquashedLayerIndex := 0
    boundingRect := IntRect.zero
    totalAreaOfSquashedRects := 0 }

/-- What a run of the walk leaves in the log, oldest first. -/
inductive Event where
  | visit (layer : LayerId) (onEntry : SquashingState)
  | allocateOrClearCompositedLayerMapping (layer : LayerId) (update : CompositingStateTransitionType)
  | updateSquashingAssignment (layer : LayerId) (update : CompositingStateTransitionType)
  | updateSquashingLayerAssignment (mapping : LayerId) (layer : LayerId) (index : Nat)
  | updateSquashingStateForNewMapping (mapping : Option LayerId) (hasMapping : Bool)
  | call (c : ExternalCall)
  | subtreeAssigned (layer : LayerId)
  deriving DecidableEq, Repr

/-- Everything `CompositingLayerAssigner.cpp` uses and does not define: the
construction-time squashing flag, the static render-layer data, the predicates
of CompositingReasons.h, and the compositor and mapping operations. -/
structure Env where
  layerSquashingEnabled : Bool
  layer : LayerId → RenderLayer
  canBeComposited : LayerId → Bool
  clipsCompositingDescendants : LayerId → Bool
  scrollsWithRespectTo : LayerId → LayerId → Bool
  containingSquashedLayer : World → LayerId → Option Nat → Nat → Bool
  requiresCompositing : CompositingReasons → Bool
  requiresSquashing : CompositingReasons → Bool
  reasonBit : CompositingReason → Nat
  allocateOrClearCompositedLayerMapping :
    World → LayerId → CompositingStateTransitionType → World × Bool
  updateSquashingLayerAssignment : World → LayerId → LayerId → Nat → World × Bool
  perform : ExternalCall → World → World

/-- The `uint64_t` value of a named reason: `CompositingReasonNone` is 0, every
other reason is one bit. -/
def Env.mask (env : Env) : CompositingReason → CompositingReasons
  | CompositingReasonNone => 0
  | r => 2 ^ env.reasonBit r

/-- The state a walk threads: the world, the `SquashingState`, the caller's
`layersNeedingPaintInvalidation` vector, `m_layersChanged`, and the log. -/
structure Assigner where
  world : World
  squashingState : SquashingState
  layersNeedingPaintInvalidation : List LayerId
  m_layersChanged : Bool
  trace : List Event

/-! ## The decision functions -/

/-- The constant `gSquashingSparsityTolerance`. -/
def gSquashingSparsityTolerance : Nat := 6

/-- The function `CompositingLayerAssigner::squashingWouldExceedSparsityTolerance`. -/
def squashingWouldExceedSparsityTolerance (env : Env) (candidate : LayerId)
    (squashingState : SquashingState) : Bool :=
  let bounds := (env.layer candidate).clippedAbsoluteBoundingBox
  let newBoundingRect := squashingState.boundingRect.unite bounds
  let newBoundingRectArea := newBoundingRect.area
  let newSquashedArea := (squashingState.totalAreaOfSquashedRects + bounds.area) % 2 ^ 64
  decide (newBoundingRectArea > (gSquashingSparsityTolerance * newSquashedArea) % 2 ^ 64)

/-- The function `CompositingLayerAssigner::needsOwnBacking`. -/
def needsOwnBacking (env : Env) (w : World) (layer : LayerId) : Bool :=
  if !env.canBeComposited layer then false
  else
    let needsOwnBackingForDisabledSquashing :=
      !env.layerSquashingEnabled && env.requiresSquashing (w.layers layer).compositingReasons
    env.requiresCompositing (w.layers layer).compositingReasons
      || needsOwnBackingForDisabledSquashing
      || (w.inCompositingMode && (env.layer layer).isRootLayer)

/-- The function `CompositingLayerAssigner::computeCompositedLayerUpdate`. -/
def computeCompositedLayerUpdate (env : Env) (w : World) (layer : LayerId) :
    CompositingStateTransitionType :=
  let update := NoCompositingStateChange
  if needsOwnBacking env w layer then
    if !(w.layers layer).hasCompositedLayerMapping then AllocateOwnCompositedLayerMapping
    else update
  else
    let update :=
      if (w.layers layer).hasCompositedLayerMapping then RemoveOwnCompositedLayerMapping
      else update
    if env.layerSquashingEnabled then
      if !(env.layer layer).subtreeIsInvisible
          && env.requiresSquashing (w.layers layer).compositingReasons then
        PutInSquashingLayer
      else if (w.layers layer).groupedMapping.isSome || (w.layers layer).lostGroupedMapping then
        RemoveFromSquashingLayer
      else update
    else update

/-- The function `CompositingLayerAssigner::getReasonsPreventingSquashing`.
There is no result when `mostRecentMapping` is dereferenced and is null. -/
def getReasonsPreventingSquashing (env : Env) (w : World) (layer : LayerId)
    (squashingState : SquashingState) : Option CompositingReason :=
  if !squashingState.haveAssignedBackingsToEntireSquashingLayerSubtree then
    some CompositingReasonSquashingWouldBreakPaintOrder
  else
    match squashingState.mostRecentMapping with
    | none => none
    | some squashingLayer =>
      if (env.layer layer).isVideo || (env.layer squashingLayer).isVideo then
        some CompositingReasonSquashingVideoIsDisallowed
      else if (env.layer layer).isRenderPart || (env.layer squashingLayer).isRenderPart then
        some CompositingReasonSquashingRenderPartIsDisallowed
      else if (env.layer layer).reflectionInfo.isSome then
        some CompositingReasonSquashingReflectionIsDisallowed
      else if squashingWouldExceedSparsityTolerance env layer squashingState then
        some CompositingReasonSquashingSparsityExceeded
      else if (env.layer layer).hasBlendMode then
        some CompositingReasonSquashingBlendingIsDisallowed
      else if decide ((env.layer layer).clippingContainer
            ≠ (env.layer squashingLayer).clippingContainer)
          && !env.containingSquashedLayer w squashingLayer (env.layer layer).clippingContainer
                squashingState.nextSquashedLayerIndex then
        some CompositingReasonSquashingClippingContainerMismatch
      else if env.clipsCompositingDescendants layer then
        some CompositingReasonSquashedLayerClipsCompositingDescendants
      else if env.scrollsWithRespectTo layer squashingLayer then
        some CompositingReasonScrollsWithRespectToSquashingLayer
      else if decide ((env.layer layer).opacityAncestor
            ≠ (env.layer squashingLayer).opacityAncestor) then
        some CompositingReasonSquashingOpacityAncestorMismatch
      else if decide ((env.layer layer).transformAncestor
            ≠ (env.layer squashingLayer).transformAncestor) then
        some CompositingReasonSquashingTransformAncestorMismatch
      else if (env.layer layer).hasFilter
          || decide ((env.layer layer).filterAncestor
            ≠ (env.layer squashingLayer).filterAncestor) then
        some CompositingReasonSquashingFilterMismatch
      else some CompositingReasonNone

/-! ## The walk -/

/-- Append an event to the log. -/
def Assigner.log (a : Assigner) (e : Event) : Assigner :=
  { a with trace := a.trace ++ [e] }

/-- Make a `void` call into the compositor, a mapping or a layer, and log it. -/
def performCall (env : Env) (c : ExternalCall) (a : Assigner) : Assigner :=
  { a with world := env.perform c a.world, trace := a.trace ++ [Event.call c] }

/-- The setter `RenderLayer::setCompositingReasons`. -/
def World.setCompositingReasons (w : World) (layer : LayerId) (reasons : CompositingReasons) :
    World :=
  { w with layers := fun i =>
      if i = layer then { w.layers i with compositingReasons := reasons } else w.layers i }

/-- The setter `RenderLayer::setGroupedMapping`. -/
def World.setGroupedMapping (w : World) (layer : LayerId) (mapping : Option LayerId) : World :=
  { w with layers := fun i =>
      if i = layer then { w.layers i with groupedMapping := mapping } else w.layers i }

/-- The setter `RenderLayer::setLostGroupedMapping`. -/
def World.setLostGroupedMapping (w : World) (layer : LayerId) (b : Bool) : World :=
  { w with layers := fun i =>
      if i = layer then { w.layers i with lostGroupedMapping := b } else w.layers i }

/-- Modelled from the spec: `RenderLayer::compositingState()` (RenderLayer.cpp, not
under src/) being `PaintsIntoOwnBacking` or `HasOwnBackingButPaintsIntoAncestor`:
"the node itself ends up with a dedicated backing (whether paintable directly or
only providing a backing for descendants)". -/
def hasOwnBackingState (w : World) (layer : LayerId) : Bool :=
  (w.layers layer).hasCompositedLayerMapping

/-- The pointer `layer->compositedLayerMapping()`: null without a mapping. -/
def compositedLayerMapping (w : World) (layer : LayerId) : Option LayerId :=
  if (w.layers layer).hasCompositedLayerMapping then some layer else none

/-- The method `SquashingState::updateSquashingStateForNewMapping`. -/
def updateSquashingStateForNewMapping (env : Env) (newCompositedLayerMapping : Option LayerId)
    (hasNewCompositedLayerMapping : Bool) (a : Assigner) : Option Assigner :=
  let a := a.log (Event.updateSquashingStateForNewMapping newCompositedLayerMapping
    hasNewCompositedLayerMapping)
  let finished : Option Assigner :=
    if a.squashingState.hasMostRecentMapping then
      match a.squashingState.mostRecentMapping with
      | none => none
      | some m =>
        some (performCall env
          (ExternalCall.finishAccumulatingSquashingLayers m a.squashingState.nextSquashedLayerIndex) a)
    else some a
  finished.map fun a =>
    { a with squashingState :=
        { a.squashingState with
          nextSquashedLayerIndex := 0
          boundingRect := IntRect.zero
          mostRecentMapping := newCompositedLayerMapping
          hasMostRecentMapping := hasNewCompositedLayerMapping
          haveAssignedBackingsToEntireSquashingLayerSubtree := false } }

/-- The function `CompositingLayerAssigner::updateSquashingAssignment`. -/
def updateSquashingAssignment (env : Env) (layer : LayerId)
    (compositedLayerUpdate : CompositingStateTransitionType) (a : Assigner) : Option Assigner :=
  let a := a.log (Event.updateSquashingAssignment layer compositedLayerUpdate)
  if compositedLayerUpdate = PutInSquashingLayer then
    match a.squashingState.mostRecentMapping with
    | none => none
    | some m =>
      let r := env.updateSquashingLayerAssignment a.world m layer
        a.squashingState.nextSquashedLayerIndex
      let changedSquashingLayer := r.2
      let a := { a with
        world := r.1
        trace := a.trace ++ [Event.updateSquashingLayerAssignment m layer
          a.squashingState.nextSquashedLayerIndex] }
      if !changedSquashingLayer then some a
      else
        let a := performCall env (ExternalCall.setNeedsGraphicsLayerUpdate m) a
        let a := performCall env (ExternalCall.clearClipRectsIncludingDescendants layer) a
        some { a with
          layersNeedingPaintInvalidation := a.layersNeedingPaintInvalidation ++ [layer]
          m_layersChanged := true }
  else if compositedLayerUpdate = RemoveFromSquashingLayer then
    let removed : Option Assigner :=
      if (a.world.layers layer).groupedMapping.isSome then
        let a := performCall env (ExternalCall.paintInvalidationOnCompositingChange layer) a
        match (a.world.layers layer).groupedMapping with
        | none => none
        | some g =>
          let a := performCall env (ExternalCall.setNeedsGraphicsLayerUpdate g) a
          some { a with world := a.world.setGroupedMapping layer none }
      else some a
    removed.map fun a =>
      { a with
        layersNeedingPaintInvalidation := a.layersNeedingPaintInvalidation ++ [layer]
        m_layersChanged := true
        world := a.world.setLostGroupedMapping layer false }
  else some a

/-- The function `CompositingLayerAssigner::assignLayersToBackingsForReflectionLayer`. -/
def assignLayersToBackingsForReflectionLayer (env : Env) (reflectionLayer : LayerId)
    (a : Assigner) : Assigner :=
  let compositedLayerUpdate := computeCompositedLayerUpdate env a.world reflectionLayer
  let a :=
    if compositedLayerUpdate ≠ NoCompositingStateChange then
      { a with
        layersNeedingPaintInvalidation := a.layersNeedingPaintInvalidation ++ [reflectionLayer]
        m_layersChanged := true
        world := (env.allocateOrClearCompositedLayerMapping a.world reflectionLayer
          compositedLayerUpdate).1
        trace := a.trace ++ [Event.allocateOrClearCompositedLayerMapping reflectionLayer
          compositedLayerUpdate] }
    else a
  let a := performCall env (ExternalCall.updateDirectCompositingReasons reflectionLayer) a
  if (a.world.layers reflectionLayer).hasCompositedLayerMapping then
    performCall env (ExternalCall.updateGraphicsLayerConfiguration reflectionLayer) a
  else a

/-- Lines 249-253 of `assignLayersToBackingsInternal`: merge the reason that
prevents squashing into the layer's compositing reasons. -/
def mergeReasonsPreventingSquashing (env : Env) (layer : LayerId) (a : Assigner) :
    Option Assigner :=
  if env.layerSquashingEnabled
      && env.requiresSquashing (a.world.layers layer).compositingReasons then
    match getReasonsPreventingSquashing env a.world layer a.squashingState with
    | none => none
    | some reasonsPreventingSquashing =>
      if env.mask reasonsPreventingSquashing ≠ 0 then
        let merged :=
          (a.world.layers layer).compositingReasons ||| env.mask reasonsPreventingSquashing
        some { a with world := a.world.setCompositingReasons layer merged }
      else some a
  else some a

/-- Lines 267-278 of `assignLayersToBackingsInternal`: add the layer to a
squashing backing if needed and account for it in the squashing state. -/
def squashIfNeeded (env : Env) (layer : LayerId)
    (compositedLayerUpdate : CompositingStateTransitionType) (a : Assigner) : Option Assigner :=
  if env.layerSquashingEnabled then
    (updateSquashingAssignment env layer compositedLayerUpdate a).map fun a =>
      let layerIsSquashed :=
        decide (compositedLayerUpdate = PutInSquashingLayer)
          || (decide (compositedLayerUpdate = NoCompositingStateChange)
              && (a.world.layers layer).groupedMapping.isSome)
      if layerIsSquashed then
        let layerBounds := (env.layer layer).clippedAbsoluteBoundingBox
        { a with squashingState :=
            { a.squashingState with
              nextSquashedLayerIndex := a.squashingState.nextSquashedLayerIndex + 1
              totalAreaOfSquashedRects :=
                (a.squashingState.totalAreaOfSquashedRects + layerBounds.area) % 2 ^ 64
              boundingRect := a.squashingState.boundingRect.unite layerBounds } }
      else a
  else some a

/-- Lines 257-261 of `assignLayersToBackingsInternal`: have the compositor
allocate or clear the mapping of the layer, and record the layer when that
changed something. -/
def allocateOrClearAndInvalidate (env : Env) (layer : LayerId)
    (compositedLayerUpdate : CompositingStateTransitionType) (a : Assigner) : Assigner :=
  let r := env.allocateOrClearCompositedLayerMapping a.world layer compositedLayerUpdate
  let a := { a with
    world := r.1
    trace := a.trace ++ [Event.allocateOrClearCompositedLayerMapping layer
      compositedLayerUpdate] }
  if r.2 then
    { a with
      layersNeedingPaintInvalidation := a.layersNeedingPaintInvalidation ++ [layer]
      m_layersChanged := true }
  else a

/-- Lines 263-265 of `assignLayersToBackingsInternal`: the reflection layer, if any. -/
def assignReflection (env : Env) (layer : LayerId) (a : Assigner) : Assigner :=
  match (env.layer layer).reflectionInfo with
  | some reflectionLayer => assignLayersToBackingsForReflectionLayer env reflectionLayer a
  | none => a

/-- Lines 249-278 of `assignLayersToBackingsInternal`: what is done for the
layer itself, before any child is walked. -/
def assignSelf (env : Env) (layer : LayerId) (a : Assigner) : Option Assigner :=
  let a := a.log (Event.visit layer a.squashingState)
  (mergeReasonsPreventingSquashing env layer a).bind fun a =>
    let compositedLayerUpdate := computeCompositedLayerUpdate env a.world layer
    let a := allocateOrClearAndInvalidate env layer compositedLayerUpdate a
    let a := assignReflection env layer a
    squashIfNeeded env layer compositedLayerUpdate a

/-- Lines 294-298 of `assignLayersToBackingsInternal`: the scroll bookkeeping. -/
def updateTopmostScrollChild (env : Env) (layer : LayerId) (a : Assigner) : Assigner :=
  let a :=
    match (env.layer layer).scrollParent with
    | some p => performCall env (ExternalCall.setTopmostScrollChild p (some layer)) a
    | none => a
  if (env.layer layer).needsCompositedScrolling then
    performCall env (ExternalCall.setTopmostScrollChild layer none) a
  else a

/-- Lines 286-298 of `assignLayersToBackingsInternal`: after the negative
z-order children, the backing of a separately composited layer becomes the most
recent one in paint order; then the scroll bookkeeping. -/
def becomeMostRecentMapping (env : Env) (layer : LayerId) (a : Assigner) : Option Assigner :=
  let promoted : Option Assigner :=
    if env.layerSquashingEnabled && hasOwnBackingState a.world layer then
      updateSquashingStateForNewMapping env (compositedLayerMapping a.world layer)
        (a.world.layers layer).hasCompositedLayerMapping a
    else some a
  promoted.map (updateTopmostScrollChild env layer)

/-- Lines 304-305 of `assignLayersToBackingsInternal`: once every child is
walked, a layer that owns the most recent mapping has its whole subtree assigned. -/
def finishSubtree (layer : LayerId) (a : Assigner) : Option Assigner :=
  let a := a.log (Event.subtreeAssigned layer)
  if a.squashingState.hasMostRecentMapping then
    match a.squashingState.mostRecentMapping with
    | none => none
    | some m =>
      if m = layer then
        some { a with squashingState :=
          { a.squashingState with haveAssignedBackingsToEntireSquashingLayerSubtree := true } }
      else some a
  else some a

mutual
/-- The function `CompositingLayerAssigner::assignLayersToBackingsInternal`. -/
def assignLayersToBackingsInternal (env : Env) : StackingNode → Assigner → Option Assigner
  | StackingNode.mk layer isStackingContext negZ rest, a =>
    (assignSelf env layer a).bind fun a =>
      (if isStackingContext then assignChildren env negZ a else some a).bind fun a =>
        (becomeMostRecentMapping env layer a).bind fun a =>
          (assignChildren env rest a).bind fun a => finishSubtree layer a
/-- The `while (curNode = iterator.next())` loops of `assignLayersToBackingsInternal`. -/
def assignChildren (env : Env) : List StackingNode → Assigner → Option Assigner
  | [], a => some a
  | n :: ns, a => (assignLayersToBackingsInternal env n a).bind fun a => assignChildren env ns a
end

/-- The function `CompositingLayerAssigner::assign`, run on an assigner that
holds the world, the caller's vector and `m_layersChanged`; the log is that of
this run. -/
def assign (env : Env) (updateRoot : StackingNode) (a : Assigner) : Option Assigner :=
  let a := { a with squashingState := SquashingState.fresh, trace := [] }
  (assignLayersToBackingsInternal env updateRoot a).bind fun a =>
    if a.squashingState.hasMostRecentMapping then
      match a.squashingState.mostRecentMapping with
      | none => none
      | some m =>
        some (performCall env
          (ExternalCall.finishAccumulatingSquashingLayers m a.squashingState.nextSquashedLayerIndex) a)
    else some a

/-! ## The precedence table of the eligibility check, as the specification words it -/

/-- The first reason of an ordered table of checks whose condition holds,
`CompositingReasonNone` when none holds ("first match wins"). -/
def firstFiringCheck : List (Bool × CompositingReason) → CompositingReason
  | [] => CompositingReasonNone
  | (fires, reason) :: rest => if fires then reason else firstFiringCheck rest

/-- The checks 2 to 10 of the squashing eligibility, in the fixed order in which
the specification lists them, for a candidate `layer` and the owning layer
`host` of the prospective host backing. -/
def disqualifyingChecks (env : Env) (w : World) (layer : LayerId) (s : SquashingState)
    (host : LayerId) : List (Bool × CompositingReason) :=
  [ ((env.layer layer).isVideo || (env.layer host).isVideo,
      CompositingReasonSquashingVideoIsDisallowed),
    ((env.layer layer).isRenderPart || (env.layer host).isRenderPart,
      CompositingReasonSquashingRenderPartIsDisallowed),
    ((env.layer layer).reflectionInfo.isSome,
      CompositingReasonSquashingReflectionIsDisallowed),
    (squashingWouldExceedSparsityTolerance env layer s,
      CompositingReasonSquashingSparsityExceeded),
    ((env.layer layer).hasBlendMode,
      CompositingReasonSquashingBlendingIsDisallowed),
    (decide ((env.layer layer).clippingContainer ≠ (env.layer host).clippingContainer)
        && !env.containingSquashedLayer w host (env.layer layer).clippingContainer
              s.nextSquashedLayerIndex,
      CompositingReasonSquashingClippingContainerMismatch),
    (env.clipsCompositingDescendants layer,
      CompositingReasonSquashedLayerClipsCompositingDescendants),
    (env.scrollsWithRespectTo layer host,
      CompositingReasonScrollsWithRespectToSquashingLayer),
    (decide ((env.layer layer).opacityAncestor ≠ (env.layer host).opacityAncestor),
      CompositingReasonSquashingOpacityAncestorMismatch),
    (decide ((env.layer layer).transformAncestor ≠ (env.layer host).transformAncestor),
      CompositingReasonSquashingTransformAncestorMismatch),
    ((env.layer layer).hasFilter
        || decide ((env.layer layer).filterAncestor ≠ (env.layer host).filterAncestor),
      CompositingReasonSquashingFilterMismatch) ]

/-! ## An example compositor and example trees -/

/-- Modelled from the spec: `requiresCompositing` of CompositingReasons.h (not
under src/), "reasons directly require compositing": here bit 0 is a direct
reason, bit 1 is the squashable reason, and every higher bit (the reasons that
prevent squashing among them) requires compositing. -/
def Demo.requiresCompositing (r : CompositingReasons) : Bool :=
  decide (r &&& 1 ≠ 0) || decide (r / 4 ≠ 0)

/-- Modelled from the spec: `requiresSquashing` of CompositingReasons.h (not
under src/), "reasons require squashing": the squashable bit is set and nothing
requires compositing. -/
def Demo.requiresSquashing (r : CompositingReasons) : Bool :=
  !Demo.requiresCompositing r && decide (r &&& 2 ≠ 0)

/-- Bit positions for the reasons that prevent squashing, all above bit 1. -/
def Demo.reasonBit : CompositingReason → Nat
  | CompositingReasonNone => 0
  | CompositingReasonSquashingWouldBreakPaintOrder => 2
  | CompositingReasonSquashingVideoIsDisallowed => 3
  | CompositingReasonSquashingRenderPartIsDisallowed => 4
  | CompositingReasonSquashingReflectionIsDisallowed => 5
  | CompositingReasonSquashingSparsityExceeded => 6
  | CompositingReasonSquashingBlendingIsDisallowed => 7
  | CompositingReasonSquashingClippingContainerMismatch => 8
  | CompositingReasonSquashedLayerClipsCompositingDescendants => 9
  | CompositingReasonScrollsWithRespectToSquashingLayer => 10
  | CompositingReasonSquashingOpacityAncestorMismatch => 11
  | CompositingReasonSquashingTransformAncestorMismatch => 12
  | CompositingReasonSquashingFilterMismatch => 13

/-- Change the mutable part of one layer. -/
def World.modify (w : World) (layer : LayerId) (f : LayerCompositing → LayerCompositing) :
    World :=
  { w with layers := fun i => if i = layer then f (w.layers i) else w.layers i }

/-- Modelled from the spec: `RenderLayerCompositor::allocateOrClearCompositedLayerMapping`
(RenderLayerCompositor.cpp, not under src/): "allocate or free a dedicated
backing for node given transition kind, returns whether the backing set
changed"; a layer given a dedicated backing keeps no grouped mapping, and a
layer put in a squashing layer "must not already have a dedicated backing". -/
def Demo.allocateOrClearCompositedLayerMapping (w : World) (layer : LayerId)
    (update : CompositingStateTransitionType) : World × Bool :=
  match update with
  | AllocateOwnCompositedLayerMapping =>
    ({ (w.modify layer fun lc =>
          { lc with
            hasCompositedLayerMapping := true
            groupedMapping := none
            lostGroupedMapping := false
            squashedLayers := [] }) with inCompositingMode := true }, true)
  | RemoveOwnCompositedLayerMapping | PutInSquashingLayer =>
    if (w.layers layer).hasCompositedLayerMapping then
      (w.modify layer fun lc =>
        { lc with hasCompositedLayerMapping := false, squashedLayers := [] }, true)
    else (w, false)
  | _ => (w, false)

/-- Modelled from the spec: `CompositedLayerMapping::updateSquashingLayerAssignment`
(CompositedLayerMapping.cpp, not under src/): "assign the node into the host's
squashing sub-layer at the host's next index", reporting whether "this changes
the host's squashed membership"; the node's grouped mapping becomes the host. -/
def Demo.updateSquashingLayerAssignment (w : World) (mapping layer : LayerId) (index : Nat) :
    World × Bool :=
  let squashed := (w.layers mapping).squashedLayers
  let r : List LayerId × Bool :=
    if index < squashed.length then
      if squashed.get? index ≠ some layer then (squashed.set index layer, true)
      else (squashed, false)
    else (squashed ++ [layer], true)
  ((w.modify mapping fun lc => { lc with squashedLayers := r.1 }).setGroupedMapping layer
    (some mapping), r.2)

/-- Modelled from the spec: the `void` collaborator calls (not under src/):
`finishAccumulatingSquashingLayers` "finalizes the squashed-member index count"
of a host, dropping the members from that index on; the other calls are
"invoked, not interpreted" and change nothing the walk reads. -/
def Demo.perform (c : ExternalCall) (w : World) : World :=
  match c with
  | ExternalCall.finishAccumulatingSquashingLayers m n =>
    w.modify m fun lc => { lc with squashedLayers := lc.squashedLayers.take n }
  | _ => w

/-- A layer with nothing special: 1 by 1 at the origin, no reflection, no
ancestors, not video, not a frame or plugin. -/
def Demo.plainLayer : RenderLayer :=
  { isRootLayer := false
    subtreeIsInvisible := false
    isVideo := false
    isRenderPart := false
    hasBlendMode := false
    hasFilter := false
    reflectionInfo := none
    clippedAbsoluteBoundingBox := ⟨0, 0, 1, 1⟩
    clippingContainer := none
    opacityAncestor := none
    transformAncestor := none
    filterAncestor := none
    scrollParent := none
    needsCompositedScrolling := false }

/-- The example environment over given static layers: every layer can be
composited, none clips or scrolls. -/
def Demo.env (squashing : Bool) (layer : LayerId → RenderLayer) : Env :=
  { layerSquashingEnabled := squashing
    layer := layer
    canBeComposited := fun _ => true
    clipsCompositingDescendants := fun _ => false
    scrollsWithRespectTo := fun _ _ => false
    containingSquashedLayer := fun _ _ _ _ => false
    requiresCompositing := Demo.requiresCompositing
    requiresSquashing := Demo.requiresSquashing
    reasonBit := Demo.reasonBit
    allocateOrClearCompositedLayerMapping := Demo.allocateOrClearCompositedLayerMapping
    updateSquashingLayerAssignment := Demo.updateSquashingLayerAssignment
    perform := Demo.perform }

/-- A world in which no layer has a mapping of either kind yet. -/
def Demo.world (reasons : LayerId → CompositingReasons) : World :=
  { layers := fun i =>
      { compositingReasons := reasons i
        hasCompositedLayerMapping := false
        groupedMapping := none
        lostGroupedMapping := false
        squashedLayers := [] }
    inCompositingMode := true }

/-- A newly constructed assigner (`m_layersChanged` false) with an empty vector. -/
def Demo.start (w : World) : Assigner :=
  { world := w
    squashingState := SquashingState.fresh
    layersNeedingPaintInvalidation := []
    m_layersChanged := false
    trace := [] }

/-- A video candidate, layer 1, whose clipping container differs from the one of the host. -/
def Demo.videoLayers : LayerId → RenderLayer := fun i =>
  if i = 1 then { Demo.plainLayer with isVideo := true, clippingContainer := some 7 }
  else Demo.plainLayer

/-- A squashing state whose host, layer 0, has its whole subtree assigned. -/
def Demo.openHost : SquashingState :=
  { SquashingState.fresh with
    mostRecentMapping := some 0
    hasMostRecentMapping := true
    haveAssignedBackingsToEntireSquashingLayerSubtree := true }

/-- A world in which layer 1 has a composited layer mapping. -/
def Demo.worldWithMapping (reasons : LayerId → CompositingReasons) : World :=
  (Demo.world reasons).modify 1 fun lc => { lc with hasCompositedLayerMapping := true }

/-- A world in which layer 1 was squashed and has lost its grouped mapping. -/
def Demo.worldLostGroupedMapping (reasons : LayerId → CompositingReasons) : World :=
  (Demo.world reasons).modify 1 fun lc => { lc with lostGroupedMapping := true }

/-- The example environment in which no layer can be composited. -/
def Demo.envNotComposited : Env :=
  { Demo.env true (fun _ => Demo.plainLayer) with canBeComposited := fun _ => false }

/-! ## Assertions about worlds and the contract of the collaborators -/

/-- Mutual exclusion: no layer has both a composited layer mapping of its own and
a grouped mapping. -/
def Exclusive (w : World) : Prop :=
  ∀ l, (w.layers l).hasCompositedLayerMapping = true → (w.layers l).groupedMapping = none

/-- Layer `l` has gained neither a composited layer mapping nor a grouped mapping
from `w` to `w'`. -/
def NothingGainedAt (w w' : World) (l : LayerId) : Prop :=
  ((w'.layers l).hasCompositedLayerMapping = true → (w.layers l).hasCompositedLayerMapping = true)
    ∧ ((w'.layers l).groupedMapping.isSome = true → (w.layers l).groupedMapping.isSome = true)

/-- What the walk assumes of the compositor and of the mappings, whose code is
outside `CompositingLayerAssigner.cpp`: only `AllocateOwnCompositedLayerMapping`
gives a layer a mapping, and only to the layer it is called for, clearing the
grouped mapping of that layer; only `updateSquashingLayerAssignment` gives a
layer a grouped mapping, and only to the layer it is called for; and after
`PutInSquashingLayer` the layer has no mapping of its own; and a paint
invalidation does not take the grouped mapping of the layer away. -/
structure CompositorContract (env : Env) : Prop where
  allocate_other : ∀ w l u l', l' ≠ l →
    NothingGainedAt w (env.allocateOrClearCompositedLayerMapping w l u).1 l'
  allocate_grouped : ∀ w l u,
    (((env.allocateOrClearCompositedLayerMapping w l u).1.layers l).groupedMapping.isSome = true →
      (w.layers l).groupedMapping.isSome = true)
  allocate_mapping : ∀ w l u, u ≠ AllocateOwnCompositedLayerMapping →
    ((env.allocateOrClearCompositedLayerMapping w l u).1.layers l).hasCompositedLayerMapping = true →
      (w.layers l).hasCompositedLayerMapping = true
  allocate_clears : ∀ w l,
    ((env.allocateOrClearCompositedLayerMapping w l
      AllocateOwnCompositedLayerMapping).1.layers l).groupedMapping = none
  put_removes : ∀ w l,
    ((env.allocateOrClearCompositedLayerMapping w l
      PutInSquashingLayer).1.layers l).hasCompositedLayerMapping = false
  assignment_other : ∀ w m l i l', l' ≠ l →
    NothingGainedAt w (env.updateSquashingLayerAssignment w m l i).1 l'
  assignment_mapping : ∀ w m l i,
    ((env.updateSquashingLayerAssignment w m l i).1.layers l).hasCompositedLayerMapping = true →
      (w.layers l).hasCompositedLayerMapping = true
  perform_gains : ∀ c w l, NothingGainedAt w (env.perform c w) l
  invalidation_keeps : ∀ w l, (w.layers l).groupedMapping.isSome = true →
    ((env.perform (ExternalCall.paintInvalidationOnCompositingChange l) w).layers
      l).groupedMapping.isSome = true

/-- No layer is its own reflection. -/
def NoSelfReflection (env : Env) : Prop :=
  ∀ l, (env.layer l).reflectionInfo ≠ some l

/-- Static layers of the example trees: layer 0 is the root, layer `i` is a 10 by
10 box at `(10 * i, 0)`. -/
def Demo.boxes : LayerId → RenderLayer := fun i =>
  if i = 0 then
    { Demo.plainLayer with isRootLayer := true, clippedAbsoluteBoundingBox := ⟨0, 0, 100, 100⟩ }
  else { Demo.plainLayer with clippedAbsoluteBoundingBox := ⟨10 * i, 0, 10, 10⟩ }

/-- A root, layer 0, with three children in normal flow, layers 1, 2 and 3. -/
def Demo.rootWithThreeChildren : StackingNode :=
  StackingNode.mk 0 true []
    [StackingNode.mk 1 false [] [], StackingNode.mk 2 false [] [], StackingNode.mk 3 false [] []]

/-- A world for `Demo.rootWithThreeChildren` left by an earlier walk: layers 0 and
1 have a mapping, layers 2 and 3 are squashed into the mapping of layer 1; by
now layer 2 has a direct compositing reason and layer 3 is still squashable. -/
def Demo.worldPreviouslySquashed : World :=
  { layers := fun i =>
      { compositingReasons := if i = 0 then 0 else if i = 3 then 2 else 1
        hasCompositedLayerMapping := decide (i = 0 ∨ i = 1)
        groupedMapping := if i = 2 ∨ i = 3 then some 1 else none
        lostGroupedMapping := false
        squashedLayers := if i = 1 then [2, 3] else [] }
    inCompositingMode := true }

/-- Hypothesis from CompositingReasons.h: a reason set that contains a reason
preventing squashing does not require squashing. -/
def PreventingReasonsExcludeSquashing (env : Env) : Prop :=
  ∀ (reasons : CompositingReasons) (r : CompositingReason), r ≠ CompositingReasonNone →
    env.requiresSquashing (reasons ||| env.mask r) = false

/-! ## Stacking trees and logs -/

mutual
/-- Every node of the subtree rooted at a node that the child iterators reach, the
node itself first: the negative z-order children are iterated for a stacking
context only. -/
def StackingNode.subnodes : StackingNode → List StackingNode
  | StackingNode.mk layer sc negZ rest =>
    StackingNode.mk layer sc negZ rest
      :: ((if sc then StackingNode.subnodesOfList negZ else [])
          ++ StackingNode.subnodesOfList rest)
/-- Every node of the subtrees rooted at the nodes of a list. -/
def StackingNode.subnodesOfList : List StackingNode → List StackingNode
  | [] => []
  | n :: ns => n.subnodes ++ StackingNode.subnodesOfList ns
end

/-- The layer of a stacking node. -/
def StackingNode.layer : StackingNode → LayerId
  | StackingNode.mk layer _ _ _ => layer

/-- The layers of the subtree rooted at a node. -/
def StackingNode.layers (n : StackingNode) : List LayerId :=
  n.subnodes.map StackingNode.layer

/-- Layer `x` has been visited in the log `tr`. -/
def Visited (tr : List Event) (x : LayerId) : Prop :=
  ∃ s, Event.visit x s ∈ tr

/-- There is a subtree of `root` whose root node is layer `m`, and every layer of
it has been visited in the log `tr`. -/
def SubtreeVisited (root : StackingNode) (tr : List Event) (m : LayerId) : Prop :=
  ∃ n ∈ root.subnodes, n.layer = m ∧ ∀ x ∈ n.layers, Visited tr x

/-- Every event of a log satisfies `G`, which may look at the events before it. -/
def TraceAll (G : List Event → Event → Prop) (tr : List Event) : Prop :=
  ∀ pre e post, tr = pre ++ e :: post → G pre e

/-- The events that tell nothing about visits, squashing assignments, changes of
the candidate host, or closed subtrees. -/
def Event.quiet : Event → Bool
  | Event.allocateOrClearCompositedLayerMapping _ _ => true
  | Event.updateSquashingAssignment _ _ => true
  | Event.call _ => true
  | _ => false

/-- What the log must satisfy for paint-order safety, event by event: a squashing
assignment into the mapping of `m` comes after the subtree of `m` was closed,
and a visit that finds the subtree flag set finds a candidate host whose subtree
was closed. -/
def PaintOrderSafe (pre : List Event) (e : Event) : Prop :=
  (∀ m l i, e = Event.updateSquashingLayerAssignment m l i → Event.subtreeAssigned m ∈ pre)
  ∧ (∀ l s, e = Event.visit l s →
      s.haveAssignedBackingsToEntireSquashingLayerSubtree = true →
      ∃ m, s.mostRecentMapping = some m ∧ Event.subtreeAssigned m ∈ pre)

/-- A subtree is logged as assigned only after every layer of it was visited. -/
def ClosedAfterVisits (root : StackingNode) (pre : List Event) (e : Event) : Prop :=
  ∀ m, e = Event.subtreeAssigned m → SubtreeVisited root pre m

/-- The assertion the walk keeps for paint-order safety: while the subtree flag
is set there is a candidate host whose subtree is logged as assigned, and the
log so far is paint-order safe. -/
def PaintOrderInvariant (a : Assigner) : Prop :=
  (a.squashingState.haveAssignedBackingsToEntireSquashingLayerSubtree = true →
    ∃ m, a.squashingState.mostRecentMapping = some m ∧ Event.subtreeAssigned m ∈ a.trace)
  ∧ TraceAll PaintOrderSafe a.trace

/-- A world for `Demo.rootWithThreeChildren` before any walk: the three children
are flagged as requiring squashing. -/
def Demo.worldSquashable : World :=
  Demo.world fun i => if i = 0 then 0 else 2

/-- The events a walk may log while squashing is disabled: visits that find the
fresh squashing state, compositor allocations, closed subtrees, and `void` calls
other than `finishAccumulatingSquashingLayers`; no `updateSquashingAssignment`,
no squashing assignment, no change of the candidate host. -/
def Event.withoutSquashing : Event → Bool
  | Event.visit _ s => decide (s = SquashingState.fresh)
  | Event.allocateOrClearCompositedLayerMapping _ _ => true
  | Event.call (ExternalCall.finishAccumulatingSquashingLayers _ _) => false
  | Event.call _ => true
  | Event.subtreeAssigned _ => true
  | _ => false

/-- The assertion a walk keeps while squashing is disabled: the squashing state
is the fresh one and nothing about squashing is logged. -/
def SquashingUntouched (a : Assigner) : Prop :=
  a.squashingState = SquashingState.fresh ∧ ∀ e ∈ a.trace, e.withoutSquashing = true

/-- The number of squashing assignments logged since the candidate host last
changed. -/
def assignmentsSinceHostChange (tr : List Event) : Nat :=
  tr.foldl (fun n e =>
    match e with
    | Event.updateSquashingLayerAssignment _ _ _ => n + 1
    | Event.updateSquashingStateForNewMapping _ _ => 0
    | _ => n) 0

/-- The mapping that the last logged change of candidate host made the candidate. -/
def candidateHost (tr : List Event) : Option LayerId :=
  tr.foldl (fun host e =>
    match e with
    | Event.updateSquashingStateForNewMapping m _ => m
    | _ => host) none

/-- What the log must satisfy for index monotonicity, event by event: a squashing
assignment goes into the current candidate host at the index that counts the
assignments since that host became the candidate, and every visit finds that
count in `nextSquashedLayerIndex`. -/
def IndexInOrder (pre : List Event) (e : Event) : Prop :=
  (∀ m l i, e = Event.updateSquashingLayerAssignment m l i →
    i = assignmentsSinceHostChange pre ∧ candidateHost pre = some m)
  ∧ (∀ l s, e = Event.visit l s →
    s.nextSquashedLayerIndex = assignmentsSinceHostChange pre
      ∧ s.mostRecentMapping = candidateHost pre)

/-- The assertion the walk keeps for index monotonicity. -/
def IndexInvariant (a : Assigner) : Prop :=
  Exclusive a.world
  ∧ a.squashingState.nextSquashedLayerIndex = assignmentsSinceHostChange a.trace
  ∧ a.squashingState.mostRecentMapping = candidateHost a.trace
  ∧ TraceAll IndexInOrder a.trace

/-- The layers put in the squashing layer of the current candidate host, in the
order of their assignments. -/
def squashedSinceHostChange (tr : List Event) : List LayerId :=
  tr.foldl (fun ls e =>
    match e with
    | Event.updateSquashingLayerAssignment _ l _ => ls ++ [l]
    | Event.updateSquashingStateForNewMapping _ _ => []
    | _ => ls) []

/-- Static layers of `Demo.rootWithFiveChildren`: layer 2 is a 10 by 10 box at
the origin, layer 4 a 1 by 1 box at the origin, layer 5 a 1 by 1 box at
`(20, 0)`. -/
def Demo.sparseBoxes : LayerId → RenderLayer := fun i =>
  if i = 0 then { Demo.plainLayer with isRootLayer := true }
  else if i = 2 then { Demo.plainLayer with clippedAbsoluteBoundingBox := ⟨0, 0, 10, 10⟩ }
  else if i = 5 then { Demo.plainLayer with clippedAbsoluteBoundingBox := ⟨20, 0, 1, 1⟩ }
  else Demo.plainLayer

/-- A root, layer 0, with five children in normal flow, layers 1 to 5. -/
def Demo.rootWithFiveChildren : StackingNode :=
  StackingNode.mk 0 true []
    [StackingNode.mk 1 false [] [], StackingNode.mk 2 false [] [], StackingNode.mk 3 false [] [],
     StackingNode.mk 4 false [] [], StackingNode.mk 5 false [] []]

/-- A world for `Demo.rootWithFiveChildren` before any walk: layers 1 and 3 have
a direct compositing reason, layers 2, 4 and 5 require squashing. -/
def Demo.worldTwoHosts : World :=
  Demo.world fun i => if i = 1 ∨ i = 3 then 1 else if i = 0 then 0 else 2

/-- The squashing state that the visit of layer 5 finds in the walk of
`Demo.rootWithFiveChildren`: host 3 with layer 4 squashed, and the area of
layer 2, squashed into the earlier host 1, still in the running total. -/
def Demo.stateAtLayerFive : SquashingState :=
  { mostRecentMapping := some 3
    hasMostRecentMapping := true
    haveAssignedBackingsToEntireSquashingLayerSubtree := true
    nextSquashedLayerIndex := 1
    boundingRect := ⟨0, 0, 1, 1⟩
    totalAreaOfSquashedRects := 101 }

/-- The assertion that keeps the walk from dereferencing a null
`mostRecentMapping`: whenever the subtree flag or `hasMostRecentMapping` is set,
there is a most recent mapping. -/
def HostKnown (a : Assigner) : Prop :=
  (a.squashingState.haveAssignedBackingsToEntireSquashingLayerSubtree = true →
    a.squashingState.mostRecentMapping.isSome = true)
  ∧ (a.squashingState.hasMostRecentMapping = true →
    a.squashingState.mostRecentMapping.isSome = true)

/-- A squashing state with a running bounding rectangle and no squashed area
yet, for the boundary of the sparsity tolerance. -/
def Demo.stateWithBounds (r : IntRect) : SquashingState :=
  { Demo.openHost with boundingRect := r }

/-- An assigner whose squashing state is the one that the visit of layer 5
finds in the walk of `Demo.rootWithFiveChildren`. -/
def Demo.startAtLayerFive : Assigner :=
  { Demo.start Demo.worldTwoHosts with squashingState := Demo.stateAtLayerFive }

/-- Hypothesis from CompositingReasons.h: a reason set that contains a reason
preventing squashing requires compositing. -/
def PreventingReasonsRequireCompositing (env : Env) : Prop :=
  ∀ (reasons : CompositingReasons) (r : CompositingReason), r ≠ CompositingReasonNone →
    env.requiresCompositing (reasons ||| env.mask r) = true

/-! ## Assertions about compositing reasons -/

/-- What the walk assumes of the collaborators about compositing reasons: none
of them writes the reasons of a layer, except `updateDirectCompositingReasons`
those of the layer it is called for. -/
structure ReasonsContract (env : Env) : Prop where
  allocate_reasons : ∀ w l u l',
    ((env.allocateOrClearCompositedLayerMapping w l u).1.layers l').compositingReasons
      = (w.layers l').compositingReasons
  assignment_reasons : ∀ w m l i l',
    ((env.updateSquashingLayerAssignment w m l i).1.layers l').compositingReasons
      = (w.layers l').compositingReasons
  perform_reasons : ∀ c w l', c ≠ ExternalCall.updateDirectCompositingReasons l' →
    ((env.perform c w).layers l').compositingReasons = (w.layers l').compositingReasons

/-- The reasons `reasons` with the masks of the reasons `rs` merged in by
bitwise or, one after the other. -/
def mergedReasons (env : Env) (reasons : CompositingReasons) (rs : List CompositingReason) :
    CompositingReasons :=
  rs.foldl (fun acc r => acc ||| env.mask r) reasons

/-- Layer `l` is the reflection of no layer. -/
def NotAReflection (env : Env) (l : LayerId) : Prop :=
  ∀ x, (env.layer x).reflectionInfo ≠ some l

/-- Modelled from the spec: `RenderLayerCompositor::updateDirectCompositingReasons`
(RenderLayerCompositor.cpp, not under src/), by which in the reflection handling
"direct compositing reasons are refreshed": the direct reason of the example
environment, bit 0, is set anew from `direct`; the other calls are those of
`Demo.perform`. -/
def Demo.performRefreshing (direct : LayerId → Bool) (c : ExternalCall) (w : World) : World :=
  match c with
  | ExternalCall.updateDirectCompositingReasons l =>
    w.modify l fun lc =>
      { lc with compositingReasons :=
          lc.compositingReasons - lc.compositingReasons % 2 + (if direct l then 1 else 0) }
  | c => Demo.perform c w

/-- The example environment with the refresh of direct reasons. -/
def Demo.envRefreshing (direct : LayerId → Bool) (layer : LayerId → RenderLayer) : Env :=
  { Demo.env true layer with perform := Demo.performRefreshing direct }

/-- A root, layer 0, whose reflection is layer 9. -/
def Demo.reflectedRoot : LayerId → RenderLayer := fun i =>
  if i = 0 then { Demo.plainLayer with isRootLayer := true, reflectionInfo := some 9 }
  else Demo.plainLayer

/-- A tree of the root alone. -/
def Demo.rootAlone : StackingNode := StackingNode.mk 0 true [] []

/-! ## The ledger of candidate hosts -/

/-- The calls of `finishAccumulatingSquashingLayers` in a log, oldest first, each
as the mapping finalized and the count passed. -/
def finalizations (tr : List Event) : List (LayerId × Nat) :=
  tr.filterMap fun e =>
    match e with
    | Event.call (ExternalCall.finishAccumulatingSquashingLayers m n) => some (m, n)
    | _ => none

/-- What a log tells about candidate hosts: the hosts that were replaced, each
with the number of squashing assignments logged while it was the candidate, the
host that is the candidate at the end, and the number of assignments since it
became the candidate. -/
structure HostLedger where
  closed : List (LayerId × Nat)
  current : Option LayerId
  count : Nat

/-- The ledger after one more event. -/
def HostLedger.step (g : HostLedger) : Event → HostLedger
  | Event.updateSquashingStateForNewMapping m has =>
    { closed := g.closed ++ (g.current.map fun h => (h, g.count)).toList
      current := if has then m else none
      count := 0 }
  | Event.updateSquashingLayerAssignment _ _ _ => { g with count := g.count + 1 }
  | _ => g

/-- The ledger of a log. -/
def hostLedger (tr : List Event) : HostLedger :=
  tr.foldl HostLedger.step { closed := [], current := none, count := 0 }

/-- Every mapping that was the candidate host in a log, in the order in which
they became it, each with the number of squashing assignments logged while it
was the candidate. -/
def hostsWithCounts (tr : List Event) : List (LayerId × Nat) :=
  (hostLedger tr).closed ++ ((hostLedger tr).current.map fun h => (h, (hostLedger tr).count)).toList

/-- The events that leave the closed hosts and the candidate of a ledger as they
are and are no finalization: all but a change of the candidate host and a call
of `finishAccumulatingSquashingLayers`. -/
def Event.keepsHosts : Event → Bool
  | Event.updateSquashingStateForNewMapping _ _ => false
  | Event.call (ExternalCall.finishAccumulatingSquashingLayers _ _) => false
  | _ => true

/-- The assertion the walk keeps about finalizations: every host that was
replaced has been finalized, once, with its count, and the candidate of the
ledger is the most recent mapping when one is recorded. -/
def HostsFinalized (a : Assigner) : Prop :=
  finalizations a.trace = (hostLedger a.trace).closed
  ∧ (hostLedger a.trace).current
      = (if a.squashingState.hasMostRecentMapping then a.squashingState.mostRecentMapping
         else none)

/-- The log of `b` is the log of `a` followed by events that keep the hosts of
the ledger. -/
def KeepsHosts (a b : Assigner) : Prop :=
  ∃ q, b.trace = a.trace ++ q ∧ ∀ e ∈ q, e.keepsHosts = true

/-! ## Scenario A: a root and three squashable siblings -/

/-- A root `r`, a stacking context, whose children in normal flow are the
childless layers `cs`. -/
def rootWithChildren (r : LayerId) (cs : List LayerId) : StackingNode :=
  StackingNode.mk r true [] (cs.map fun c => StackingNode.mk c false [] [])

/-- The squashing state in which the mapping of `host` is the candidate host with
its whole subtree assigned, `index` layers squashed into it, and the given
running geometry. -/
def SquashingState.withHost (host : LayerId) (index : Nat) (boundingRect : IntRect)
    (total : Nat) : SquashingState :=
  { mostRecentMapping := some host
    hasMostRecentMapping := true
    haveAssignedBackingsToEntireSquashingLayerSubtree := true
    nextSquashedLayerIndex := index
    boundingRect := boundingRect
    totalAreaOfSquashedRects := total }

/-- What scenario A asks of a candidate `c` against the layer `h` that owns the
host mapping: neither is video nor a frame or plugin; the candidate has no
reflection, blend mode or filter, is not the root and is visible; it shares the
clipping container and the opacity, transform and filter ancestors with the
host; it neither clips compositing descendants nor scrolls with respect to the
host. -/
structure NothingSpecial (env : Env) (c h : LayerId) : Prop where
  video : (env.layer c).isVideo = false ∧ (env.layer h).isVideo = false
  renderPart : (env.layer c).isRenderPart = false ∧ (env.layer h).isRenderPart = false
  reflection : (env.layer c).reflectionInfo = none
  blendMode : (env.layer c).hasBlendMode = false
  filter : (env.layer c).hasFilter = false
  root : (env.layer c).isRootLayer = false
  visible : (env.layer c).subtreeIsInvisible = false
  clippingContainer : (env.layer c).clippingContainer = (env.layer h).clippingContainer
  opacityAncestor : (env.layer c).opacityAncestor = (env.layer h).opacityAncestor
  transformAncestor : (env.layer c).transformAncestor = (env.layer h).transformAncestor
  filterAncestor : (env.layer c).filterAncestor = (env.layer h).filterAncestor
  clips : env.clipsCompositingDescendants c = false
  scrolls : env.scrollsWithRespectTo c h = false

/-- Scenario A: squashing is enabled; the root `r` has no reflection, no grouped
mapping and reasons that do not request squashing; the children `c₁`, `c₂`, `c₃`
have reasons that request squashing and do not require compositing; the first
child can be composited, has no reflection and no mapping yet; the second and
the third are nothing special against the first, and squashing them after one
another keeps within the sparsity tolerance. -/
structure ScenarioA (env : Env) (w : World) (r c₁ c₂ c₃ : LayerId) : Prop where
  enabled : env.layerSquashingEnabled = true
  distinct : r ≠ c₁ ∧ c₂ ≠ c₁ ∧ c₃ ≠ c₁
  rootReflection : (env.layer r).reflectionInfo = none
  rootReasons : env.requiresSquashing (w.layers r).compositingReasons = false
  rootGrouped : (w.layers r).groupedMapping = none
  squashing : ∀ c ∈ [c₁, c₂, c₃],
    env.requiresSquashing (w.layers c).compositingReasons = true
      ∧ env.requiresCompositing (w.layers c).compositingReasons = false
  firstCan : env.canBeComposited c₁ = true
  firstReflection : (env.layer c₁).reflectionInfo = none
  firstUnmapped : (w.layers c₁).hasCompositedLayerMapping = false
  second : NothingSpecial env c₂ c₁
  third : NothingSpecial env c₃ c₁
  secondSparsity : squashingWouldExceedSparsityTolerance env c₂
    (SquashingState.withHost c₁ 0 IntRect.zero 0) = false
  thirdSparsity : squashingWouldExceedSparsityTolerance env c₃
    (SquashingState.withHost c₁ 1
      (IntRect.zero.unite (env.layer c₂).clippedAbsoluteBoundingBox)
      ((0 + (env.layer c₂).clippedAbsoluteBoundingBox.area) % 2 ^ 64)) = false

/-- Static layers as `Demo.boxes`, the 10 by 10 boxes now 1000 apart: layer `i`
is at `(1000 * i, 0)`. -/
def Demo.farBoxes : LayerId → RenderLayer := fun i =>
  if i = 0 then
    { Demo.plainLayer with isRootLayer := true, clippedAbsoluteBoundingBox := ⟨0, 0, 100, 100⟩ }
  else { Demo.plainLayer with clippedAbsoluteBoundingBox := ⟨1000 * i, 0, 10, 10⟩ }

/-! ## Assertions for a second run of the walk -/

/-- Layer `l` has in `w'` the reasons, the mapping of its own, the grouped
mapping and the lost-grouped-mapping flag that it has in `w`. -/
def SameLayerData (w w' : World) (l : LayerId) : Prop :=
  (w'.layers l).compositingReasons = (w.layers l).compositingReasons
  ∧ (w'.layers l).hasCompositedLayerMapping = (w.layers l).hasCompositedLayerMapping
  ∧ (w'.layers l).groupedMapping = (w.layers l).groupedMapping
  ∧ (w'.layers l).lostGroupedMapping = (w.layers l).lostGroupedMapping

/-- What a world satisfies between the walks: compositing mode is on, and a layer
with a mapping of its own has no grouped mapping and has not lost one. -/
structure Settleable (w : World) : Prop where
  mode : w.inCompositingMode = true
  mapped : ∀ l, (w.layers l).hasCompositedLayerMapping = true →
    (w.layers l).groupedMapping = none ∧ (w.layers l).lostGroupedMapping = false

/-- What a second run assumes of the compositor and of the mappings, whose code
is outside `CompositingLayerAssigner.cpp`: on the layer it is called for,
`allocateOrClearCompositedLayerMapping` gives a mapping without a grouped mapping
for `AllocateOwnCompositedLayerMapping`, takes the mapping away for
`RemoveOwnCompositedLayerMapping` and `PutInSquashingLayer`, and does nothing for
the other two transitions; the squashing assignment sets the grouped mapping of
the layer; neither changes another layer, nor does a `void` call change any;
compositing mode stays on; and where there is nothing to change, they change
nothing and report no change: no mapping to clear, a layer already held at the
index by the mapping that is its grouped mapping, no more layers held than the
count finalized. The check of the clipping container does not depend on the
world. -/
structure SettlingContract (env : Env) : Prop where
  containing_world : ∀ w w' m c i,
    env.containingSquashedLayer w m c i = env.containingSquashedLayer w' m c i
  allocate_frame : ∀ w l u l', l' ≠ l →
    SameLayerData w (env.allocateOrClearCompositedLayerMapping w l u).1 l'
  allocate_mode : ∀ w l u, w.inCompositingMode = true →
    (env.allocateOrClearCompositedLayerMapping w l u).1.inCompositingMode = true
  allocate_own : ∀ w l,
    ((env.allocateOrClearCompositedLayerMapping w l
        AllocateOwnCompositedLayerMapping).1.layers l).hasCompositedLayerMapping = true
    ∧ ((env.allocateOrClearCompositedLayerMapping w l
        AllocateOwnCompositedLayerMapping).1.layers l).groupedMapping = none
    ∧ ((env.allocateOrClearCompositedLayerMapping w l
        AllocateOwnCompositedLayerMapping).1.layers l).lostGroupedMapping = false
  allocate_clear : ∀ w l u,
    u = RemoveOwnCompositedLayerMapping ∨ u = PutInSquashingLayer →
    ((env.allocateOrClearCompositedLayerMapping w l u).1.layers l).hasCompositedLayerMapping
        = false
    ∧ ((env.allocateOrClearCompositedLayerMapping w l u).1.layers l).groupedMapping
        = (w.layers l).groupedMapping
    ∧ ((env.allocateOrClearCompositedLayerMapping w l u).1.layers l).lostGroupedMapping
        = (w.layers l).lostGroupedMapping
  allocate_none : ∀ w l u,
    u = NoCompositingStateChange ∨ u = RemoveFromSquashingLayer →
    env.allocateOrClearCompositedLayerMapping w l u = (w, false)
  allocate_unmapped : ∀ w l, (w.layers l).hasCompositedLayerMapping = false →
    env.allocateOrClearCompositedLayerMapping w l PutInSquashingLayer = (w, false)
  assignment_frame : ∀ w m l i l', l' ≠ l →
    SameLayerData w (env.updateSquashingLayerAssignment w m l i).1 l'
  assignment_mode : ∀ w m l i, w.inCompositingMode = true →
    (env.updateSquashingLayerAssignment w m l i).1.inCompositingMode = true
  assignment_own : ∀ w m l i,
    ((env.updateSquashingLayerAssignment w m l i).1.layers l).groupedMapping = some m
    ∧ ((env.updateSquashingLayerAssignment w m l i).1.layers l).hasCompositedLayerMapping
        = (w.layers l).hasCompositedLayerMapping
    ∧ ((env.updateSquashingLayerAssignment w m l i).1.layers l).lostGroupedMapping
        = (w.layers l).lostGroupedMapping
  assignment_held : ∀ w m l i, (w.layers m).squashedLayers.get? i = some l →
    (w.layers l).groupedMapping = some m →
    env.updateSquashingLayerAssignment w m l i = (w, false)
  perform_frame : ∀ c w l, SameLayerData w (env.perform c w) l
  perform_mode : ∀ c w, w.inCompositingMode = true → (env.perform c w).inCompositingMode = true
  finish_held : ∀ w m n, (w.layers m).squashedLayers.length ≤ n →
    env.perform (ExternalCall.finishAccumulatingSquashingLayers m n) w = w
  scroll_none : ∀ w p q, env.perform (ExternalCall.setTopmostScrollChild p q) w = w

/-- What the first run has left in the mappings, event by event of its log: the
mapping that a layer was assigned into still holds the layer at the index
given, and a mapping that was finalized holds no more layers than the count
given. -/
def MembersKept (w : World) : Event → Prop
  | Event.updateSquashingLayerAssignment m l i => (w.layers m).squashedLayers.get? i = some l
  | Event.call (ExternalCall.finishAccumulatingSquashingLayers m n) =>
    (w.layers m).squashedLayers.length ≤ n
  | _ => True

/-- What a second run may log of transitions: `NoCompositingStateChange`, for a
layer without a grouped mapping when squashing is enabled, or
`PutInSquashingLayer` for a layer that is squashed. -/
def SettledTransition (env : Env) (w : World) : Event → Prop
  | Event.allocateOrClearCompositedLayerMapping l u =>
    (u = NoCompositingStateChange
      ∧ (env.layerSquashingEnabled = true → (w.layers l).groupedMapping = none))
    ∨ (u = PutInSquashingLayer ∧ (w.layers l).groupedMapping.isSome = true)
  | _ => True

/-- The layers of the subtrees rooted at the nodes of a list. -/
def StackingNode.layersOfList (ns : List StackingNode) : List LayerId :=
  (StackingNode.subnodesOfList ns).map StackingNode.layer

/-- What a part of the first run that walks the layers `ls` does, from `a` to
`b`: the world stays settleable, the layers outside `ls` keep their data, and the
log only grows. -/
def FirstRun (ls : List LayerId) (a b : Assigner) : Prop :=
  Settleable b.world ∧ (∀ l, l ∉ ls → SameLayerData a.world b.world l) ∧ a.trace ⊆ b.trace

/-- What a part of the second run does, from `a` to `b`: it changes neither the
world nor the paint-invalidation list nor `m_layersChanged`, it leaves the
squashing state `s`, and the transitions it logs are settled ones. -/
def Replays (env : Env) (a b : Assigner) (s : SquashingState) : Prop :=
  b.world = a.world
  ∧ b.layersNeedingPaintInvalidation = a.layersNeedingPaintInvalidation
  ∧ b.m_layersChanged = a.m_layersChanged
  ∧ b.squashingState = s
  ∧ ∃ t, b.trace = a.trace ++ t ∧ ∀ e ∈ t, SettledTransition env a.world e

/-- Whether a mapping keeps a member of the first run can be decided. -/
instance MembersKept.decidable (w : World) : DecidablePred (MembersKept w) := fun e =>
  match e with
  | Event.updateSquashingLayerAssignment m l i =>
    inferInstanceAs (Decidable ((w.layers m).squashedLayers.get? i = some l))
  | Event.call (ExternalCall.finishAccumulatingSquashingLayers m n) =>
    inferInstanceAs (Decidable ((w.layers m).squashedLayers.length ≤ n))
  | Event.call (ExternalCall.setNeedsGraphicsLayerUpdate _) => isTrue trivial
  | Event.call (ExternalCall.clearClipRectsIncludingDescendants _) => isTrue trivial
  | Event.call (ExternalCall.paintInvalidationOnCompositingChange _) => isTrue trivial
  | Event.call (ExternalCall.updateDirectCompositingReasons _) => isTrue trivial
  | Event.call (ExternalCall.updateGraphicsLayerConfiguration _) => isTrue trivial
  | Event.call (ExternalCall.setTopmostScrollChild _ _) => isTrue trivial
  | Event.visit _ _ => isTrue trivial
  | Event.allocateOrClearCompositedLayerMapping _ _ => isTrue trivial
  | Event.updateSquashingAssignment _ _ => isTrue trivial
  | Event.updateSquashingStateForNewMapping _ _ => isTrue trivial
  | Event.subtreeAssigned _ => isTrue trivial

/-! ## Clipping of compositing descendants -/

/-- The example environment over plain layers in which the layers picked by
`clips` clip their compositing descendants. -/
def Demo.envClipping (clips : LayerId → Bool) : Env :=
  { Demo.env true (fun _ => Demo.plainLayer) with clipsCompositingDescendants := clips }

/-! ## The phases of the walk and the squashing state along the log -/

/-- What the log shows of the phases of a walk: the visit of a layer itself, the
change of candidate host to a mapping, and the closing of the subtree of a
layer. -/
inductive Phase where
  | visit (layer : LayerId)
  | promotion (mapping : Option LayerId)
  | closing (layer : LayerId)
  deriving DecidableEq, Repr

/-- The phase that an event of the log stands for, if any. -/
def Event.phase : Event → Option Phase
  | Event.visit l _ => some (Phase.visit l)
  | Event.updateSquashingStateForNewMapping m _ => some (Phase.promotion m)
  | Event.subtreeAssigned l => some (Phase.closing l)
  | _ => none

/-- The phases of a log, oldest first. -/
def phases (tr : List Event) : List Phase :=
  tr.filterMap Event.phase

mutual
/-- Paint order over the subtree rooted at a node, with every layer promoted: the
layer itself, the subtrees of its negative z-order children when it is a
stacking context, the promotion of the layer to candidate host, the subtrees of
its normal-flow and positive z-order children, the closing of its subtree. -/
def StackingNode.paintOrder : StackingNode → List Phase
  | StackingNode.mk layer sc negZ rest =>
    Phase.visit layer
      :: ((if sc then StackingNode.paintOrderOfList negZ else [])
          ++ Phase.promotion (some layer)
            :: (StackingNode.paintOrderOfList rest ++ [Phase.closing layer]))
/-- Paint order over the subtrees rooted at the nodes of a list, one after the other. -/
def StackingNode.paintOrderOfList : List StackingNode → List Phase
  | [] => []
  | n :: ns => n.paintOrder ++ StackingNode.paintOrderOfList ns
end

/-- The phases that are logged for every node: all but the promotion, which is
logged only for a layer that has a backing of its own, with squashing enabled. -/
def Phase.unconditional : Phase → Bool
  | Phase.promotion _ => false
  | _ => true

/-- The layer that a phase visits, if it is a visit. -/
def Phase.visited : Phase → Option LayerId
  | Phase.visit l => some l
  | _ => none

/-- What one event of the log does to the squashing state: a squashing
assignment accounts for the layer (lines 273-276), a change of candidate host
restarts the index and the bounding rectangle and clears the subtree flag (lines
67-71), the closing of the subtree of the layer that owns the candidate host sets
the subtree flag (lines 304-305); no other event writes the squashing state. -/
def SquashingState.afterEvent (env : Env) (s : SquashingState) : Event → SquashingState
  | Event.updateSquashingLayerAssignment _ layer _ =>
    let layerBounds := (env.layer layer).clippedAbsoluteBoundingBox
    { s with
      nextSquashedLayerIndex := s.nextSquashedLayerIndex + 1
      totalAreaOfSquashedRects := (s.totalAreaOfSquashedRects + layerBounds.area) % 2 ^ 64
      boundingRect := s.boundingRect.unite layerBounds }
  | Event.updateSquashingStateForNewMapping m has =>
    { s with
      nextSquashedLayerIndex := 0
      boundingRect := IntRect.zero
      mostRecentMapping := m
      hasMostRecentMapping := has
      haveAssignedBackingsToEntireSquashingLayerSubtree := false }
  | Event.subtreeAssigned layer =>
    if s.hasMostRecentMapping && decide (s.mostRecentMapping = some layer) then
      { s with haveAssignedBackingsToEntireSquashingLayerSubtree := true }
    else s
  | _ => s

/-- The squashing state that a log leaves, from the fresh one. -/
def squashingStateAfter (env : Env) (tr : List Event) : SquashingState :=
  tr.foldl (SquashingState.afterEvent env) SquashingState.fresh

/-- Every visit finds the squashing state that the whole log before it has left. -/
def VisitFindsState (env : Env) (pre : List Event) (e : Event) : Prop :=
  ∀ l s, e = Event.visit l s → s = squashingStateAfter env pre

/-- The assertion the walk keeps about the one squashing state it threads: the
world keeps mutual exclusion, the squashing state is the one the log has left,
and so it was at every visit. -/
def Threaded (env : Env) (a : Assigner) : Prop :=
  Exclusive a.world
  ∧ a.squashingState = squashingStateAfter env a.trace
  ∧ TraceAll (VisitFindsState env) a.trace

/-! ## The assigners a walk passes through -/

/-- The assigners that a walk started by `assign` passes through between the
steps of its visits: the one `assign` starts from, with the fresh squashing
state, and what the three steps of a visit make of one that is reachable,
whatever the layer. -/
inductive Reachable (env : Env) : Assigner → Prop
  | start (a : Assigner) :
    Reachable env { a with squashingState := SquashingState.fresh, trace := [] }
  | self {a a' : Assigner} (layer : LayerId) :
    Reachable env a → assignSelf env layer a = some a' → Reachable env a'
  | become {a a' : Assigner} (layer : LayerId) :
    Reachable env a → becomeMostRecentMapping env layer a = some a' → Reachable env a'
  | finish {a a' : Assigner} (layer : LayerId) :
    Reachable env a → finishSubtree layer a = some a' → Reachable env a'

/-! ## The paint-invalidation list and the changed flag -/

/-- From `a` to `b` the paint-invalidation list has only grown at its end, by
layers that `allowed` accepts, and `m_layersChanged` is set if it was set or if
the list has grown. -/
def InvalidationsAppended (allowed : LayerId → Prop) (a b : Assigner) : Prop :=
  ∃ t, b.layersNeedingPaintInvalidation = a.layersNeedingPaintInvalidation ++ t
    ∧ b.m_layersChanged = (a.m_layersChanged || !t.isEmpty)
    ∧ ∀ x ∈ t, allowed x

/-- The layers that a walk over the layers `ls` may record for paint
invalidation: one of `ls` or the reflection layer of one. -/
def MayInvalidate (env : Env) (ls : List LayerId) (x : LayerId) : Prop :=
  x ∈ ls ∨ ∃ l ∈ ls, (env.layer l).reflectionInfo = some x

/-- The walk of `Demo.rootWithThreeChildren` up to the closing of the subtree of
layer 1, step by step: the visit of the root and its promotion, then the visit
of layer 1, its promotion and the closing of its subtree. -/
def Demo.afterFirstChild : Option Assigner :=
  (assignSelf (Demo.env true Demo.boxes) 0 (Demo.start Demo.worldSquashable)).bind fun a =>
    (becomeMostRecentMapping (Demo.env true Demo.boxes) 0 a).bind fun a =>
      (assignSelf (Demo.env true Demo.boxes) 1 a).bind fun a =>
        (becomeMostRecentMapping (Demo.env true Demo.boxes) 1 a).bind fun a =>
          finishSubtree 1 a

/-- A squashing state with a running bounding rectangle of 3 by 1 and a running
total so large that 6 times the total plus 1 passes `2 ^ 64`. -/
def Demo.stateNearOverflow : SquashingState :=
  { Demo.openHost with
    boundingRect := ⟨0, 0, 3, 1⟩
    totalAreaOfSquashedRects := 3074457345618258602 }

/-- The reason `r` is one that a pre-check of the log `tr` has found against
layer `l`: squashing is enabled, and `r`, which is not `CompositingReasonNone`,
is what `getReasonsPreventingSquashing` returns for `l` on the squashing state
that a visit of `l` in the log found, in a world in which the reasons of `l`
request squashing. -/
def MergedAtVisit (env : Env) (tr : List Event) (l : LayerId) (r : CompositingReason) : Prop :=
  r ≠ CompositingReasonNone ∧ env.layerSquashingEnabled = true
  ∧ ∃ (w : World) (s : SquashingState), Event.visit l s ∈ tr
      ∧ env.requiresSquashing (w.layers l).compositingReasons = true
      ∧ getReasonsPreventingSquashing env w l s = some r

/-- The reasons of every layer that is no reflection are those of the world `w`
with the reasons merged in that the pre-checks of the visits of the layer have
found, and nothing else. -/
def ReasonsMergedAtVisits (env : Env) (w : World) (a : Assigner) : Prop :=
  ∀ l, NotAReflection env l →
    ∃ rs, (a.world.layers l).compositingReasons
        = mergedReasons env (w.layers l).compositingReasons rs
      ∧ ∀ r ∈ rs, MergedAtVisit env a.trace l r

/-- What scenario A assumes of the compositor and of the mappings about grouped
mappings, whose code is outside `CompositingLayerAssigner.cpp`: the squashing
assignment makes the mapping the grouped mapping of the layer it is called for;
neither it nor `allocateOrClearCompositedLayerMapping` writes the grouped mapping
of another layer, and no `void` call writes any. -/
structure GroupedMappingContract (env : Env) : Prop where
  assignment_sets : ∀ w m l i,
    ((env.updateSquashingLayerAssignment w m l i).1.layers l).groupedMapping = some m
  assignment_keeps : ∀ w m l i l', l' ≠ l →
    ((env.updateSquashingLayerAssignment w m l i).1.layers l').groupedMapping
      = (w.layers l').groupedMapping
  allocate_keeps : ∀ w l u l', l' ≠ l →
    ((env.allocateOrClearCompositedLayerMapping w l u).1.layers l').groupedMapping
      = (w.layers l').groupedMapping
  perform_keeps : ∀ c w l,
    ((env.perform c w).layers l).groupedMapping = (w.layers l).groupedMapping

/-- A world for `Demo.rootAlone` over `Demo.reflectedRoot` before any walk: the
reasons of layer 9, the reflection layer of the root, request squashing. -/
def Demo.worldReflectionSquashable : World :=
  Demo.world fun i => if i = 9 then 2 else 0

/-- A world for `Demo.rootWithThreeChildren` before any walk, the compositor not
yet in compositing mode: layer 1 has a direct compositing reason. -/
def Demo.worldModeOff : World :=
  { Demo.world (fun i => if i = 1 then 1 else 0) with inCompositingMode := false }

/-- A world for `Demo.rootWithThreeChildren` in which layer 1, without any
reason, has a mapping of its own and has lost a grouped mapping. -/
def Demo.worldMappedLost : World :=
  (Demo.world fun _ => 0).modify 1 fun lc =>
    { lc with hasCompositedLayerMapping := true, lostGroupedMapping := true }

/-- The example environment over `Demo.boxes` with some layers that clip their
compositing descendants, some that scroll with respect to any other layer, some
whose subtree is invisible, and some that cannot be composited. -/
def Demo.envBoxesWith (clips scrolls invisible notComposited : LayerId → Bool) : Env :=
  { Demo.env true (fun i => { Demo.boxes i with subtreeIsInvisible := invisible i }) with
    clipsCompositingDescendants := clips
    scrollsWithRespectTo := fun l _ => scrolls l
    canBeComposited := fun l => !notComposited l }

/-- The world of scenario A in which layer 1 already has a mapping of its own. -/
def Demo.worldSquashableMapped : World :=
  Demo.worldSquashable.modify 1 fun lc => { lc with hasCompositedLayerMapping := true }

/-! # Theorems -/

/-! ## The decision functions -/

theorem firstFiringCheck_eq_none (cs : List (Bool × CompositingReason))
    (h : ∀ c ∈ cs, c.2 ≠ CompositingReasonNone) :
    firstFiringCheck cs = CompositingReasonNone ↔ ∀ c ∈ cs, c.1 = false := by
  induction cs with
  | nil => simp [firstFiringCheck]
  | cons c cs ih =>
    obtain ⟨fires, reason⟩ := c
    have hr : reason ≠ CompositingReasonNone := h (fires, reason) (List.mem_cons_self _ _)
    have ih := ih (fun c hc => h c (List.mem_cons_of_mem _ hc))
    cases fires
    · simp [firstFiringCheck, ih]
    · simp [firstFiringCheck, hr]

theorem disqualifyingChecks_ne_none (env : Env) (w : World) (layer : LayerId)
    (s : SquashingState) (host : LayerId) :
    ∀ c ∈ disqualifyingChecks env w layer s host, c.2 ≠ CompositingReasonNone := by
  intro c hc
  simp only [disqualifyingChecks, List.mem_cons, List.mem_singleton, List.not_mem_nil,
    or_false] at hc
  rcases hc with h | h | h | h | h | h | h | h | h | h | h <;> simp [h]

theorem getReasonsPreventingSquashing_eq_firstFiringCheck (env : Env) (w : World)
    (layer : LayerId) (s : SquashingState) (host : LayerId)
    (h : s.haveAssignedBackingsToEntireSquashingLayerSubtree = true)
    (hm : s.mostRecentMapping = some host) :
    getReasonsPreventingSquashing env w layer s
      = some (firstFiringCheck (disqualifyingChecks env w layer s host)) := by
  simp only [getReasonsPreventingSquashing, h, hm, disqualifyingChecks, firstFiringCheck]
  simp only [Bool.not_true, Bool.false_eq_true, if_false, apply_ite some]

theorem getReasonsPreventingSquashing_eq_breakPaintOrder (env : Env) (w : World)
    (layer : LayerId) (s : SquashingState)
    (h : s.haveAssignedBackingsToEntireSquashingLayerSubtree = false) :
    getReasonsPreventingSquashing env w layer s
      = some CompositingReasonSquashingWouldBreakPaintOrder := by
  simp [getReasonsPreventingSquashing, h]

/-- C5 (disqualification precedence): `getReasonsPreventingSquashing` returns the
reason of the first check that fires, in the fixed order: without the subtree
flag it returns `SquashingWouldBreakPaintOrder`; with the flag and a host it
returns the first firing entry of the table `disqualifyingChecks` (video, render
part, reflection, sparsity, blending, clipping container, clips compositing
descendants, scrolls, opacity, transform, filter); it returns
`CompositingReasonNone` exactly when no check fires; and a video candidate gets
`SquashingVideoIsDisallowed` whatever the later checks say. -/
theorem getReasonsPreventingSquashing_precedence (env : Env) (w : World) (layer : LayerId)
    (s : SquashingState) :
    (s.haveAssignedBackingsToEntireSquashingLayerSubtree = false →
      getReasonsPreventingSquashing env w layer s
        = some CompositingReasonSquashingWouldBreakPaintOrder) ∧
    (∀ host, s.haveAssignedBackingsToEntireSquashingLayerSubtree = true →
      s.mostRecentMapping = some host →
      getReasonsPreventingSquashing env w layer s
        = some (firstFiringCheck (disqualifyingChecks env w layer s host))) ∧
    (∀ host, s.mostRecentMapping = some host →
      (getReasonsPreventingSquashing env w layer s = some CompositingReasonNone ↔
        s.haveAssignedBackingsToEntireSquashingLayerSubtree = true ∧
          ∀ c ∈ disqualifyingChecks env w layer s host, c.1 = false)) ∧
    (∀ host, s.haveAssignedBackingsToEntireSquashingLayerSubtree = true →
      s.mostRecentMapping = some host →
      ((env.layer layer).isVideo = true ∨ (env.layer host).isVideo = true) →
      getReasonsPreventingSquashing env w layer s
        = some CompositingReasonSquashingVideoIsDisallowed) := by
  refine ⟨?_, ?_, ?_, ?_⟩
  · intro h
    exact getReasonsPreventingSquashing_eq_breakPaintOrder env w layer s h
  · intro host h hm
    exact getReasonsPreventingSquashing_eq_firstFiringCheck env w layer s host h hm
  · intro host hm
    cases h : s.haveAssignedBackingsToEntireSquashingLayerSubtree
    · simp [getReasonsPreventingSquashing, h]
    · rw [getReasonsPreventingSquashing_eq_firstFiringCheck env w layer s host h hm]
      simp only [Option.some.injEq, true_and]
      exact firstFiringCheck_eq_none _ (disqualifyingChecks_ne_none env w layer s host)
  · intro host h hm hv
    simp only [getReasonsPreventingSquashing, h, hm]
    simp only [Bool.not_true, Bool.false_eq_true, if_false]
    rw [if_pos (by simpa using hv)]

/-- Witness for C5: a video candidate whose clipping container also mismatches is
reported as video. -/
theorem getReasonsPreventingSquashing_precedence_witness :
    getReasonsPreventingSquashing (Demo.env true Demo.videoLayers) (Demo.world fun _ => 2) 1
        Demo.openHost = some CompositingReasonSquashingVideoIsDisallowed
    ∧ (CompositingReasonSquashingClippingContainerMismatch,
        true) ∈ (disqualifyingChecks (Demo.env true Demo.videoLayers) (Demo.world fun _ => 2) 1
        Demo.openHost 0).map (fun c => (c.2, c.1)) :=
  ⟨(getReasonsPreventingSquashing_precedence (Demo.env true Demo.videoLayers)
      (Demo.world fun _ => 2) 1 Demo.openHost).2.2.2 0 rfl rfl (Or.inl rfl), by decide⟩

/-- C6: when `needsOwnBacking` holds, `computeCompositedLayerUpdate` returns
`AllocateOwnCompositedLayerMapping` without a mapping and
`NoCompositingStateChange` with one, whatever the squashing flag, the grouped
mapping and the lost-grouped-mapping flag; and it returns
`NoCompositingStateChange` for a layer that needs no backing, has none, and
matches neither squashing row. -/
theorem computeCompositedLayerUpdate_own_backing (env : Env) (w : World) (layer : LayerId) :
    (needsOwnBacking env w layer = true →
      computeCompositedLayerUpdate env w layer
        = if (w.layers layer).hasCompositedLayerMapping then NoCompositingStateChange
          else AllocateOwnCompositedLayerMapping) ∧
    (needsOwnBacking env w layer = false →
      (w.layers layer).hasCompositedLayerMapping = false →
      ¬ (env.layerSquashingEnabled = true ∧
          (env.layer layer).subtreeIsInvisible = false ∧
          env.requiresSquashing (w.layers layer).compositingReasons = true) →
      ¬ (env.layerSquashingEnabled = true ∧
          ((w.layers layer).groupedMapping.isSome = true
            ∨ (w.layers layer).lostGroupedMapping = true)) →
      computeCompositedLayerUpdate env w layer = NoCompositingStateChange) := by
  constructor
  · intro h
    cases hm : (w.layers layer).hasCompositedLayerMapping <;>
      simp [computeCompositedLayerUpdate, h, hm]
  · intro h hm h1 h2
    cases hs : env.layerSquashingEnabled
    · simp [computeCompositedLayerUpdate, h, hm, hs]
    · simp only [hs, true_and, not_and, not_or] at h1 h2
      simp only [computeCompositedLayerUpdate, h, hm, hs]
      cases hv : (env.layer layer).subtreeIsInvisible <;>
        cases hr : env.requiresSquashing (w.layers layer).compositingReasons <;>
        simp_all

/-- C7, amended: for a layer that needs no backing of its own and has a mapping,
`computeCompositedLayerUpdate` returns `RemoveOwnCompositedLayerMapping` when
squashing is disabled or neither squashing row matches; with squashing enabled,
a visible layer whose reasons require squashing is given `PutInSquashingLayer`
instead: that squashing row overrides this one. -/
theorem computeCompositedLayerUpdate_remove_own (env : Env) (w : World) (layer : LayerId)
    (hneeds : needsOwnBacking env w layer = false)
    (hmapping : (w.layers layer).hasCompositedLayerMapping = true) :
    ((env.layerSquashingEnabled = false
        ∨ (¬ ((env.layer layer).subtreeIsInvisible = false
              ∧ env.requiresSquashing (w.layers layer).compositingReasons = true)
            ∧ (w.layers layer).groupedMapping.isSome = false
            ∧ (w.layers layer).lostGroupedMapping = false)) →
      computeCompositedLayerUpdate env w layer = RemoveOwnCompositedLayerMapping)
    ∧ (env.layerSquashingEnabled = true → (env.layer layer).subtreeIsInvisible = false →
        env.requiresSquashing (w.layers layer).compositingReasons = true →
        computeCompositedLayerUpdate env w layer = PutInSquashingLayer) := by
  simp only [computeCompositedLayerUpdate, hneeds, hmapping]
  cases hs : env.layerSquashingEnabled <;>
    cases hv : (env.layer layer).subtreeIsInvisible <;>
    cases hr : env.requiresSquashing (w.layers layer).compositingReasons <;>
    cases hg : (w.layers layer).groupedMapping.isSome <;>
    cases hl : (w.layers layer).lostGroupedMapping <;>
    simp

/-- Witness for the amended C7: squashing disabled, layer 1 has a mapping and no
reason. -/
theorem computeCompositedLayerUpdate_remove_own_witness :
    computeCompositedLayerUpdate (Demo.env false fun _ => Demo.plainLayer)
      (Demo.worldWithMapping fun _ => 0) 1 = RemoveOwnCompositedLayerMapping :=
  (computeCompositedLayerUpdate_remove_own (Demo.env false fun _ => Demo.plainLayer)
    (Demo.worldWithMapping fun _ => 0) 1 (by decide) (by decide)).1 (Or.inl rfl)

/-- Counterexample to C7 as stated: with squashing enabled, a visible layer that
has a mapping, needs no backing and requires squashing is given
`PutInSquashingLayer`, not `RemoveOwnCompositedLayerMapping`. -/
theorem computeCompositedLayerUpdate_remove_own_counterexample :
    needsOwnBacking (Demo.env true fun _ => Demo.plainLayer) (Demo.worldWithMapping fun _ => 2) 1
        = false
    ∧ ((Demo.worldWithMapping fun _ => 2).layers 1).hasCompositedLayerMapping = true
    ∧ computeCompositedLayerUpdate (Demo.env true fun _ => Demo.plainLayer)
        (Demo.worldWithMapping fun _ => 2) 1 ≠ RemoveOwnCompositedLayerMapping := by
  decide

/-- C8: with squashing enabled, for a layer that needs no backing of its own and
has no mapping, `computeCompositedLayerUpdate` returns `PutInSquashingLayer` if
the subtree is not invisible and the reasons require squashing, otherwise
`RemoveFromSquashingLayer` if the layer has or has lost a grouped mapping,
otherwise `NoCompositingStateChange`; in particular a layer whose reasons no
longer require squashing and that has lost its grouped mapping is given
`RemoveFromSquashingLayer`. -/
theorem computeCompositedLayerUpdate_squashing_rows (env : Env) (w : World) (layer : LayerId)
    (henabled : env.layerSquashingEnabled = true)
    (hneeds : needsOwnBacking env w layer = false)
    (hmapping : (w.layers layer).hasCompositedLayerMapping = false) :
    computeCompositedLayerUpdate env w layer =
      (if (env.layer layer).subtreeIsInvisible = false
          ∧ env.requiresSquashing (w.layers layer).compositingReasons = true then
        PutInSquashingLayer
      else if (w.layers layer).groupedMapping.isSome = true
          ∨ (w.layers layer).lostGroupedMapping = true then
        RemoveFromSquashingLayer
      else NoCompositingStateChange) ∧
    (env.requiresSquashing (w.layers layer).compositingReasons = false →
      (w.layers layer).lostGroupedMapping = true →
      computeCompositedLayerUpdate env w layer = RemoveFromSquashingLayer) := by
  simp only [computeCompositedLayerUpdate, hneeds, hmapping, henabled]
  cases hv : (env.layer layer).subtreeIsInvisible <;>
    cases hr : env.requiresSquashing (w.layers layer).compositingReasons <;>
    cases hg : (w.layers layer).groupedMapping.isSome <;>
    cases hl : (w.layers layer).lostGroupedMapping <;>
    simp

/-- Witness for C8: a layer without reasons that has lost its grouped mapping. -/
theorem computeCompositedLayerUpdate_squashing_rows_witness :
    computeCompositedLayerUpdate (Demo.env true fun _ => Demo.plainLayer)
      (Demo.worldLostGroupedMapping fun _ => 0) 1 = RemoveFromSquashingLayer :=
  (computeCompositedLayerUpdate_squashing_rows (Demo.env true fun _ => Demo.plainLayer)
    (Demo.worldLostGroupedMapping fun _ => 0) 1 rfl (by decide) (by decide)).2
    (by decide) (by decide)

/-- C9, amended: `needsOwnBacking` holds if and only if the layer can be
composited and (1) its reasons require compositing, or (2) squashing is disabled
and its reasons require squashing, or (3) it is the root layer and the
compositor is in compositing mode. -/
theorem needsOwnBacking_iff (env : Env) (w : World) (layer : LayerId) :
    needsOwnBacking env w layer = true ↔
      env.canBeComposited layer = true ∧
        (env.requiresCompositing (w.layers layer).compositingReasons = true
          ∨ (env.layerSquashingEnabled = false
              ∧ env.requiresSquashing (w.layers layer).compositingReasons = true)
          ∨ ((env.layer layer).isRootLayer = true ∧ w.inCompositingMode = true)) := by
  cases hc : env.canBeComposited layer <;>
    cases hs : env.layerSquashingEnabled <;>
    cases hq : env.requiresCompositing (w.layers layer).compositingReasons <;>
    cases hr : env.requiresSquashing (w.layers layer).compositingReasons <;>
    cases hi : w.inCompositingMode <;>
    cases ho : (env.layer layer).isRootLayer <;>
    simp [needsOwnBacking, hc, hs, hq, hr, hi, ho]

/-- Counterexample to C9 as stated: a layer that cannot be composited does not
need a backing of its own although its reasons require compositing. -/
theorem needsOwnBacking_iff_counterexample :
    ¬ (needsOwnBacking Demo.envNotComposited (Demo.world fun _ => 1) 1 = true ↔
        (Demo.envNotComposited.requiresCompositing
            ((Demo.world fun _ => 1).layers 1).compositingReasons = true
          ∨ (Demo.envNotComposited.layerSquashingEnabled = false
              ∧ Demo.envNotComposited.requiresSquashing
                  ((Demo.world fun _ => 1).layers 1).compositingReasons = true)
          ∨ ((Demo.envNotComposited.layer 1).isRootLayer = true
              ∧ (Demo.world fun _ => 1).inCompositingMode = true))) := by
  decide

/-- Witness for C6: a layer with a direct reason and no mapping, and a layer with
no reason and no mapping. -/
theorem computeCompositedLayerUpdate_own_backing_witness :
    computeCompositedLayerUpdate (Demo.env true fun _ => Demo.plainLayer)
        (Demo.world fun _ => 1) 1 = AllocateOwnCompositedLayerMapping
    ∧ computeCompositedLayerUpdate (Demo.env true fun _ => Demo.plainLayer)
        (Demo.world fun _ => 0) 1 = NoCompositingStateChange :=
  ⟨(computeCompositedLayerUpdate_own_backing (Demo.env true fun _ => Demo.plainLayer)
      (Demo.world fun _ => 1) 1).1 (by decide),
   (computeCompositedLayerUpdate_own_backing (Demo.env true fun _ => Demo.plainLayer)
      (Demo.world fun _ => 0) 1).2 (by decide) (by decide) (by decide) (by decide)⟩

/-! ## The walk: unfolding and induction -/

theorem assignLayersToBackingsInternal_mk (env : Env) (layer : LayerId) (sc : Bool)
    (negZ rest : List StackingNode) (a : Assigner) :
    assignLayersToBackingsInternal env (StackingNode.mk layer sc negZ rest) a =
      (assignSelf env layer a).bind fun a =>
        (if sc then assignChildren env negZ a else some a).bind fun a =>
          (becomeMostRecentMapping env layer a).bind fun a =>
            (assignChildren env rest a).bind fun a => finishSubtree layer a := by
  rw [assignLayersToBackingsInternal]

theorem assignChildren_nil (env : Env) (a : Assigner) : assignChildren env [] a = some a := by
  rw [assignChildren]

theorem assignChildren_cons (env : Env) (n : StackingNode) (ns : List StackingNode)
    (a : Assigner) :
    assignChildren env (n :: ns) a =
      (assignLayersToBackingsInternal env n a).bind fun a => assignChildren env ns a := by
  rw [assignChildren]

/-- Induction over a stacking tree and its lists of children together. -/
theorem StackingNode.induction (P : StackingNode → Prop) (Q : List StackingNode → Prop)
    (hmk : ∀ layer sc negZ rest, Q negZ → Q rest → P (StackingNode.mk layer sc negZ rest))
    (hnil : Q []) (hcons : ∀ n ns, P n → Q ns → Q (n :: ns)) : ∀ n, P n :=
  fun n => StackingNode.rec (motive_1 := P) (motive_2 := Q) hmk hnil hcons n

/-- An assertion kept by the three steps of a visit is kept by the whole walk. -/
theorem assignLayersToBackingsInternal_preserves (env : Env) (I : Assigner → Prop)
    (hself : ∀ layer a a', I a → assignSelf env layer a = some a' → I a')
    (hbecome : ∀ layer a a', I a → becomeMostRecentMapping env layer a = some a' → I a')
    (hfinish : ∀ layer a a', I a → finishSubtree layer a = some a' → I a') :
    ∀ n a a', I a → assignLayersToBackingsInternal env n a = some a' → I a' := by
  refine StackingNode.induction
    (fun n => ∀ a a', I a → assignLayersToBackingsInternal env n a = some a' → I a')
    (fun ns => ∀ a a', I a → assignChildren env ns a = some a' → I a') ?_ ?_ ?_
  · intro layer sc negZ rest hneg hrest a a' hI h
    rw [assignLayersToBackingsInternal_mk] at h
    simp only [Option.bind_eq_some] at h
    obtain ⟨a1, h1, a2, h2, a3, h3, a4, h4, h5⟩ := h
    have I1 := hself layer a a1 hI h1
    have I2 : I a2 := by
      cases sc
      · simp at h2; exact h2 ▸ I1
      · exact hneg a1 a2 I1 (by simpa using h2)
    exact hfinish layer a4 a' (hrest a3 a4 (hbecome layer a2 a3 I2 h3) h4) h5
  · intro a a' hI h
    rw [assignChildren_nil] at h
    cases h; exact hI
  · intro n ns hn hns a a' hI h
    rw [assignChildren_cons] at h
    simp only [Option.bind_eq_some] at h
    obtain ⟨a1, h1, h2⟩ := h
    exact hns a1 a' (hn a a1 hI h1) h2

/-- When each step of a visit has a result and keeps an assertion, so does the walk. -/
theorem assignLayersToBackingsInternal_total (env : Env) (I : Assigner → Prop)
    (hself : ∀ layer a, I a → ∃ a', assignSelf env layer a = some a' ∧ I a')
    (hbecome : ∀ layer a, I a → ∃ a', becomeMostRecentMapping env layer a = some a' ∧ I a')
    (hfinish : ∀ layer a, I a → ∃ a', finishSubtree layer a = some a' ∧ I a') :
    ∀ n a, I a → ∃ a', assignLayersToBackingsInternal env n a = some a' ∧ I a' := by
  refine StackingNode.induction
    (fun n => ∀ a, I a → ∃ a', assignLayersToBackingsInternal env n a = some a' ∧ I a')
    (fun ns => ∀ a, I a → ∃ a', assignChildren env ns a = some a' ∧ I a') ?_ ?_ ?_
  · intro layer sc negZ rest hneg hrest a hI
    rw [assignLayersToBackingsInternal_mk]
    obtain ⟨a1, h1, I1⟩ := hself layer a hI
    obtain ⟨a2, h2, I2⟩ : ∃ a2, (if sc then assignChildren env negZ a1 else some a1) = some a2
        ∧ I a2 := by
      cases sc
      · exact ⟨a1, by simp, I1⟩
      · simpa using hneg a1 I1
    obtain ⟨a3, h3, I3⟩ := hbecome layer a2 I2
    obtain ⟨a4, h4, I4⟩ := hrest a3 I3
    obtain ⟨a5, h5, I5⟩ := hfinish layer a4 I4
    exact ⟨a5, by simp [h1, h2, h3, h4, h5], I5⟩
  · intro a hI
    exact ⟨a, assignChildren_nil env a, hI⟩
  · intro n ns hn hns a hI
    rw [assignChildren_cons]
    obtain ⟨a1, h1, I1⟩ := hn a hI
    obtain ⟨a2, h2, I2⟩ := hns a1 I1
    exact ⟨a2, by simp [h1, h2], I2⟩

/-! ## Mutual exclusion -/

theorem NothingGainedAt.refl (w : World) (l : LayerId) : NothingGainedAt w w l :=
  ⟨id, id⟩

theorem NothingGainedAt.trans {w₁ w₂ w₃ : World} {l : LayerId}
    (h₁ : NothingGainedAt w₁ w₂ l) (h₂ : NothingGainedAt w₂ w₃ l) : NothingGainedAt w₁ w₃ l :=
  ⟨fun h => h₁.1 (h₂.1 h), fun h => h₁.2 (h₂.2 h)⟩

theorem Exclusive.of_nothingGained {w w' : World} (hex : Exclusive w)
    (h : ∀ l, NothingGainedAt w w' l) : Exclusive w' := by
  intro l hm
  have h1 := hex l ((h l).1 hm)
  cases hg : (w'.layers l).groupedMapping with
  | none => rfl
  | some g =>
    have := (h l).2 (by simp [hg])
    simp [h1] at this

theorem NothingGainedAt.setCompositingReasons (w : World) (layer : LayerId)
    (r : CompositingReasons) (l : LayerId) :
    NothingGainedAt w (w.setCompositingReasons layer r) l := by
  unfold NothingGainedAt World.setCompositingReasons
  by_cases h : l = layer <;> simp [h]

theorem NothingGainedAt.setLostGroupedMapping (w : World) (layer : LayerId)
    (b : Bool) (l : LayerId) :
    NothingGainedAt w (w.setLostGroupedMapping layer b) l := by
  unfold NothingGainedAt World.setLostGroupedMapping
  by_cases h : l = layer <;> simp [h]

theorem NothingGainedAt.setGroupedMapping_none (w : World) (layer : LayerId) (l : LayerId) :
    NothingGainedAt w (w.setGroupedMapping layer none) l := by
  unfold NothingGainedAt World.setGroupedMapping
  by_cases h : l = layer <;> simp [h]

theorem performCall_world (env : Env) (c : ExternalCall) (a : Assigner) :
    (performCall env c a).world = env.perform c a.world := rfl

/-- The merge of a reason only writes compositing reasons. -/
theorem mergeReasonsPreventingSquashing_gains (env : Env) (layer : LayerId) (a a' : Assigner)
    (h : mergeReasonsPreventingSquashing env layer a = some a') (l : LayerId) :
    NothingGainedAt a.world a'.world l := by
  unfold mergeReasonsPreventingSquashing at h
  split at h
  · split at h
    · cases h
    · split at h
      · cases h; exact NothingGainedAt.setCompositingReasons _ _ _ _
      · cases h; exact NothingGainedAt.refl _ _
  · cases h; exact NothingGainedAt.refl _ _

theorem allocateOrClearAndInvalidate_world (env : Env) (layer : LayerId)
    (u : CompositingStateTransitionType) (a : Assigner) :
    (allocateOrClearAndInvalidate env layer u a).world
      = (env.allocateOrClearCompositedLayerMapping a.world layer u).1 := by
  unfold allocateOrClearAndInvalidate
  simp only
  split <;> rfl

/-- Allocating or clearing the mapping of a layer keeps mutual exclusion. -/
theorem Exclusive.allocate {env : Env} (hc : CompositorContract env) {w : World}
    (hex : Exclusive w) (layer : LayerId) (u : CompositingStateTransitionType) :
    Exclusive (env.allocateOrClearCompositedLayerMapping w layer u).1 := by
  intro l hm
  by_cases hl : l = layer
  · subst hl
    by_cases hu : u = AllocateOwnCompositedLayerMapping
    · subst hu; exact hc.allocate_clears w l
    · have h1 := hex l (hc.allocate_mapping w l u hu hm)
      cases hg : ((env.allocateOrClearCompositedLayerMapping w l u).1.layers l).groupedMapping with
      | none => rfl
      | some g =>
        have := hc.allocate_grouped w l u (by simp [hg])
        simp [h1] at this
  · have hn := hc.allocate_other w layer u l hl
    have h1 := hex l (hn.1 hm)
    cases hg : ((env.allocateOrClearCompositedLayerMapping w layer u).1.layers l).groupedMapping with
    | none => rfl
    | some g =>
      have := hn.2 (by simp [hg])
      simp [h1] at this

/-- The walk of a reflection layer keeps mutual exclusion, and a layer other than
the reflection layer gains nothing from it. -/
theorem assignLayersToBackingsForReflectionLayer_world {env : Env} (hc : CompositorContract env)
    (r : LayerId) (a : Assigner) :
    (Exclusive a.world → Exclusive (assignLayersToBackingsForReflectionLayer env r a).world)
    ∧ (∀ l, l ≠ r →
        NothingGainedAt a.world (assignLayersToBackingsForReflectionLayer env r a).world l)
    ∧ (∀ l, ((assignLayersToBackingsForReflectionLayer env r a).world.layers l).groupedMapping.isSome
          = true → (a.world.layers l).groupedMapping.isSome = true) := by
  unfold assignLayersToBackingsForReflectionLayer
  simp only
  -- the world after the optional allocation
  generalize hb : (if computeCompositedLayerUpdate env a.world r ≠ NoCompositingStateChange then
      ({ a with
        layersNeedingPaintInvalidation := a.layersNeedingPaintInvalidation ++ [r]
        m_layersChanged := true
        world := (env.allocateOrClearCompositedLayerMapping a.world r
          (computeCompositedLayerUpdate env a.world r)).1
        trace := a.trace ++ [Event.allocateOrClearCompositedLayerMapping r
          (computeCompositedLayerUpdate env a.world r)] } : Assigner)
    else a) = b
  have hb1 : Exclusive a.world → Exclusive b.world := by
    intro hex
    subst hb
    split
    · exact Exclusive.allocate hc hex _ _
    · exact hex
  have hb2 : ∀ l, l ≠ r → NothingGainedAt a.world b.world l := by
    intro l hl
    subst hb
    split
    · exact hc.allocate_other _ _ _ _ hl
    · exact NothingGainedAt.refl _ _
  have hb3 : ∀ l, (b.world.layers l).groupedMapping.isSome = true →
      (a.world.layers l).groupedMapping.isSome = true := by
    intro l
    subst hb
    split
    · by_cases hl : l = r
      · subst hl; exact hc.allocate_grouped _ _ _
      · exact (hc.allocate_other _ _ _ _ hl).2
    · exact id
  have hp : ∀ l, NothingGainedAt b.world
      (if ((performCall env (ExternalCall.updateDirectCompositingReasons r) b).world.layers
            r).hasCompositedLayerMapping = true then
          performCall env (ExternalCall.updateGraphicsLayerConfiguration r)
            (performCall env (ExternalCall.updateDirectCompositingReasons r) b)
        else performCall env (ExternalCall.updateDirectCompositingReasons r) b).world l := by
    intro l
    split
    · exact (hc.perform_gains _ _ l).trans (hc.perform_gains _ _ l)
    · exact hc.perform_gains _ _ l
  refine ⟨fun hex => (hb1 hex).of_nothingGained hp, fun l hl => (hb2 l hl).trans (hp l),
    fun l h => hb3 l ((hp l).2 h)⟩

/-- Putting a layer without a mapping of its own in a squashing layer keeps
mutual exclusion. -/
theorem Exclusive.assignment {env : Env} (hc : CompositorContract env) {w : World}
    (hex : Exclusive w) (m layer : LayerId) (i : Nat)
    (hno : (w.layers layer).hasCompositedLayerMapping = false) :
    Exclusive (env.updateSquashingLayerAssignment w m layer i).1 := by
  intro l hm
  by_cases hl : l = layer
  · subst hl
    have := hc.assignment_mapping w m l i hm
    simp [hno] at this
  · have hn := hc.assignment_other w m layer i l hl
    have h1 := hex l (hn.1 hm)
    cases hg : ((env.updateSquashingLayerAssignment w m layer i).1.layers l).groupedMapping with
    | none => rfl
    | some g =>
      have := hn.2 (by simp [hg])
      simp [h1] at this

theorem updateSquashingAssignment_exclusive {env : Env} (hc : CompositorContract env)
    (layer : LayerId) (u : CompositingStateTransitionType) (a a' : Assigner)
    (hex : Exclusive a.world)
    (hno : u = PutInSquashingLayer → (a.world.layers layer).hasCompositedLayerMapping = false)
    (h : updateSquashingAssignment env layer u a = some a') : Exclusive a'.world := by
  unfold updateSquashingAssignment at h
  simp only [Assigner.log] at h
  split at h
  · rename_i hu
    split at h
    · cases h
    · rename_i m hm
      have hex1 := Exclusive.assignment hc hex m layer a.squashingState.nextSquashedLayerIndex
        (hno hu)
      split at h
      · cases h; exact hex1
      · cases h
        exact hex1.of_nothingGained fun l =>
          (hc.perform_gains _ _ l).trans (hc.perform_gains _ _ l)
  · split at h
    · simp only [Option.map_eq_some'] at h
      obtain ⟨b, hb, rfl⟩ := h
      have hexb : Exclusive b.world := by
        split at hb
        · split at hb
          · cases hb
          · cases hb
            refine hex.of_nothingGained fun l => ?_
            exact ((hc.perform_gains _ _ l).trans (hc.perform_gains _ _ l)).trans
              (NothingGainedAt.setGroupedMapping_none _ _ _)
        · cases hb; exact hex
      exact hexb.of_nothingGained fun l => NothingGainedAt.setLostGroupedMapping _ _ _ _
    · cases h; exact hex

theorem squashIfNeeded_world (env : Env) (layer : LayerId)
    (u : CompositingStateTransitionType) (a a' : Assigner)
    (h : squashIfNeeded env layer u a = some a') :
    a'.world = a.world ∨ ∃ b, updateSquashingAssignment env layer u a = some b
      ∧ a'.world = b.world := by
  unfold squashIfNeeded at h
  split at h
  · simp only [Option.map_eq_some'] at h
    obtain ⟨b, hb, rfl⟩ := h
    refine Or.inr ⟨b, hb, ?_⟩
    split <;> rfl
  · cases h; exact Or.inl rfl

/-- What is done for a layer itself keeps mutual exclusion. -/
theorem assignSelf_exclusive {env : Env} (hc : CompositorContract env)
    (hrefl : NoSelfReflection env) (layer : LayerId) (a a' : Assigner)
    (hex : Exclusive a.world) (h : assignSelf env layer a = some a') : Exclusive a'.world := by
  unfold assignSelf at h
  simp only [Option.bind_eq_some] at h
  obtain ⟨a1, h1, h2⟩ := h
  have hex1 : Exclusive a1.world :=
    Exclusive.of_nothingGained (w := a.world) hex
      (mergeReasonsPreventingSquashing_gains env layer
        (a.log (Event.visit layer a.squashingState)) a1 h1)
  generalize hu : computeCompositedLayerUpdate env a1.world layer = u at h2
  have hex2 : Exclusive (allocateOrClearAndInvalidate env layer u a1).world := by
    rw [allocateOrClearAndInvalidate_world]; exact Exclusive.allocate hc hex1 _ _
  have hno2 : u = PutInSquashingLayer →
      ((allocateOrClearAndInvalidate env layer u a1).world.layers layer).hasCompositedLayerMapping
        = false := by
    intro hput; subst hput
    rw [allocateOrClearAndInvalidate_world]; exact hc.put_removes _ _
  generalize allocateOrClearAndInvalidate env layer u a1 = a2 at h2 hex2 hno2
  have hex3 : Exclusive (assignReflection env layer a2).world := by
    unfold assignReflection
    split
    · exact (assignLayersToBackingsForReflectionLayer_world hc _ a2).1 hex2
    · exact hex2
  have hno3 : u = PutInSquashingLayer →
      ((assignReflection env layer a2).world.layers layer).hasCompositedLayerMapping = false := by
    intro hput
    have := hno2 hput
    unfold assignReflection
    split
    · rename_i r hr
      have hne : layer ≠ r := fun e => hrefl layer (e ▸ hr)
      have hg := ((assignLayersToBackingsForReflectionLayer_world hc r a2).2.1 layer hne).1
      cases hm : ((assignLayersToBackingsForReflectionLayer env r a2).world.layers
        layer).hasCompositedLayerMapping with
      | false => rfl
      | true => have := hg hm; simp_all
    · exact this
  generalize assignReflection env layer a2 = a3 at h2 hex3 hno3
  rcases squashIfNeeded_world env layer u a3 a' h2 with hw | ⟨b, hb, hw⟩
  · rw [hw]; exact hex3
  · rw [hw]; exact updateSquashingAssignment_exclusive hc layer u a3 b hex3 hno3 hb

theorem becomeMostRecentMapping_gains {env : Env} (hc : CompositorContract env)
    (layer : LayerId) (a a' : Assigner) (h : becomeMostRecentMapping env layer a = some a')
    (l : LayerId) : NothingGainedAt a.world a'.world l := by
  unfold becomeMostRecentMapping at h
  simp only [Option.map_eq_some'] at h
  obtain ⟨b, hb, rfl⟩ := h
  have hab : NothingGainedAt a.world b.world l := by
    split at hb
    · unfold updateSquashingStateForNewMapping at hb
      simp only [Option.map_eq_some', Assigner.log] at hb
      obtain ⟨c, hc', rfl⟩ := hb
      split at hc'
      · split at hc'
        · cases hc'
        · cases hc'; exact hc.perform_gains _ _ l
      · cases hc'; exact NothingGainedAt.refl _ _
    · cases hb; exact NothingGainedAt.refl _ _
  refine hab.trans ?_
  unfold updateTopmostScrollChild
  simp only
  split <;> split
  · exact (hc.perform_gains _ _ l).trans (hc.perform_gains _ _ l)
  · exact hc.perform_gains _ _ l
  · exact hc.perform_gains _ _ l
  · exact NothingGainedAt.refl _ _

theorem finishSubtree_world (layer : LayerId) (a a' : Assigner)
    (h : finishSubtree layer a = some a') : a'.world = a.world := by
  unfold finishSubtree at h
  simp only [Assigner.log] at h
  split at h
  · split at h
    · cases h
    · split at h <;> cases h <;> rfl
  · cases h; rfl

/-- The visit that gives a layer `AllocateOwnCompositedLayerMapping` leaves the
layer without a grouped mapping. -/
theorem assignSelf_allocate_grouped {env : Env} (hc : CompositorContract env)
    (layer : LayerId) (a a' b : Assigner)
    (h : assignSelf env layer a = some a')
    (hb : mergeReasonsPreventingSquashing env layer (a.log (Event.visit layer a.squashingState))
      = some b)
    (hu : computeCompositedLayerUpdate env b.world layer = AllocateOwnCompositedLayerMapping) :
    (a'.world.layers layer).groupedMapping = none := by
  unfold assignSelf at h
  simp only [hb, Option.some_bind, hu] at h
  have h2 : ((allocateOrClearAndInvalidate env layer AllocateOwnCompositedLayerMapping
      b).world.layers layer).groupedMapping = none := by
    rw [allocateOrClearAndInvalidate_world]
    exact hc.allocate_clears _ _
  generalize allocateOrClearAndInvalidate env layer AllocateOwnCompositedLayerMapping b = a2
    at h h2
  have h3 : ((assignReflection env layer a2).world.layers layer).groupedMapping = none := by
    unfold assignReflection
    split
    · rename_i r hr
      cases hg : ((assignLayersToBackingsForReflectionLayer env r a2).world.layers
        layer).groupedMapping with
      | none => rfl
      | some g =>
        have := (assignLayersToBackingsForReflectionLayer_world hc r a2).2.2 layer
          (by simp [hg])
        simp [h2] at this
    · exact h2
  generalize assignReflection env layer a2 = a3 at h h3
  rcases squashIfNeeded_world env layer AllocateOwnCompositedLayerMapping a3 a' h with
    hw | ⟨c, hcq, hw⟩
  · rw [hw]; exact h3
  · rw [hw]
    unfold updateSquashingAssignment at hcq
    simp at hcq
    subst hcq
    exact h3

/-- The walk keeps mutual exclusion. -/
theorem assignLayersToBackingsInternal_exclusive {env : Env} (hc : CompositorContract env)
    (hrefl : NoSelfReflection env) (n : StackingNode) (a a' : Assigner)
    (hex : Exclusive a.world) (h : assignLayersToBackingsInternal env n a = some a') :
    Exclusive a'.world :=
  assignLayersToBackingsInternal_preserves env (fun a => Exclusive a.world)
    (fun layer a a' hI h => assignSelf_exclusive hc hrefl layer a a' hI h)
    (fun layer a a' hI h =>
      Exclusive.of_nothingGained hI (becomeMostRecentMapping_gains hc layer a a' h))
    (fun layer a a' hI h => by
      show Exclusive a'.world
      rw [finishSubtree_world layer a a' h]; exact hI)
    n a a' hex h

/-- C1 (mutual exclusion): under the contract of the collaborators, starting
from a world in which no layer has both a composited layer mapping of its own
and a grouped mapping, after `assign` no layer has both; and the visit that
gives a layer `AllocateOwnCompositedLayerMapping` leaves that layer, previously
squashed or not, without a grouped mapping. -/
theorem assign_mutual_exclusion (env : Env) (hc : CompositorContract env)
    (hrefl : NoSelfReflection env) (updateRoot : StackingNode) (a a' : Assigner)
    (hex : Exclusive a.world) (h : assign env updateRoot a = some a') :
    (∀ l, ¬ ((a'.world.layers l).hasCompositedLayerMapping = true
      ∧ (a'.world.layers l).groupedMapping.isSome = true))
    ∧ (∀ layer b b' c, assignSelf env layer b = some b' →
        mergeReasonsPreventingSquashing env layer (b.log (Event.visit layer b.squashingState))
          = some c →
        computeCompositedLayerUpdate env c.world layer = AllocateOwnCompositedLayerMapping →
        (b'.world.layers layer).groupedMapping = none) := by
  have hfinal : Exclusive a'.world := by
    unfold assign at h
    simp only [Option.bind_eq_some] at h
    obtain ⟨b, hb, h⟩ := h
    have hexb : Exclusive b.world :=
      assignLayersToBackingsInternal_exclusive hc hrefl updateRoot _ b (by exact hex) hb
    split at h
    · split at h
      · cases h
      · cases h; exact hexb.of_nothingGained fun l => hc.perform_gains _ _ l
    · cases h; exact hexb
  refine ⟨?_, fun layer b b' c hs hm hu => assignSelf_allocate_grouped hc layer b b' c hs hm hu⟩
  intro l ⟨hm, hg⟩
  simp [hfinal l hm] at hg

theorem Demo.contract (squashing : Bool) (layer : LayerId → RenderLayer) :
    CompositorContract (Demo.env squashing layer) where
  allocate_other := by
    intro w l u l' h
    cases u <;>
      simp [Demo.env, Demo.allocateOrClearCompositedLayerMapping, NothingGainedAt, World.modify, h]
    all_goals split <;> simp [h]
  allocate_grouped := by
    intro w l u
    cases u <;>
      simp [Demo.env, Demo.allocateOrClearCompositedLayerMapping, World.modify]
    all_goals split <;> simp
  allocate_mapping := by
    intro w l u hu
    cases u <;>
      simp [Demo.env, Demo.allocateOrClearCompositedLayerMapping, World.modify] at hu ⊢
    all_goals split <;> simp
  allocate_clears := by
    intro w l
    simp [Demo.env, Demo.allocateOrClearCompositedLayerMapping, World.modify]
  put_removes := by
    intro w l
    simp only [Demo.env, Demo.allocateOrClearCompositedLayerMapping, World.modify]
    split <;> simp_all
  assignment_other := by
    intro w m l i l' h
    simp only [Demo.env, Demo.updateSquashingLayerAssignment, NothingGainedAt, World.modify,
      World.setGroupedMapping, h, if_false]
    by_cases hm : l' = m <;> simp [hm]
  assignment_mapping := by
    intro w m l i
    simp only [Demo.env, Demo.updateSquashingLayerAssignment, World.modify,
      World.setGroupedMapping, if_true]
    by_cases hm : l = m <;> simp [hm]
  perform_gains := by
    intro c w l
    cases c <;> simp only [Demo.env, Demo.perform, NothingGainedAt, World.modify]
    all_goals first | (split <;> simp) | simp
  invalidation_keeps := by
    intro w l h
    exact h

theorem Demo.boxes_noSelfReflection (squashing : Bool) :
    NoSelfReflection (Demo.env squashing Demo.boxes) := by
  intro l
  simp only [Demo.env, Demo.boxes]
  split <;> simp [Demo.plainLayer]

theorem Demo.worldPreviouslySquashed_exclusive : Exclusive Demo.worldPreviouslySquashed := by
  intro l
  simp only [Demo.worldPreviouslySquashed, decide_eq_true_eq]
  rintro (h | h) <;> simp [h]

set_option maxRecDepth 100000 in
theorem Demo.assign_previouslySquashed_isSome :
    (assign (Demo.env true Demo.boxes) Demo.rootWithThreeChildren
      (Demo.start Demo.worldPreviouslySquashed)).isSome = true := by
  decide!

/-- Witness for C1: layer 2 was squashed into the mapping of layer 1 and is given
a mapping of its own by the walk. -/
theorem assign_mutual_exclusion_witness :
    ∃ a', assign (Demo.env true Demo.boxes) Demo.rootWithThreeChildren
        (Demo.start Demo.worldPreviouslySquashed) = some a'
      ∧ ∀ l, ¬ ((a'.world.layers l).hasCompositedLayerMapping = true
          ∧ (a'.world.layers l).groupedMapping.isSome = true) :=
  ⟨_, (Option.some_get Demo.assign_previouslySquashed_isSome).symm,
    (assign_mutual_exclusion (Demo.env true Demo.boxes) (Demo.contract true Demo.boxes)
      (Demo.boxes_noSelfReflection true) Demo.rootWithThreeChildren
      (Demo.start Demo.worldPreviouslySquashed) _ Demo.worldPreviouslySquashed_exclusive
      (Option.some_get Demo.assign_previouslySquashed_isSome).symm).1⟩

/-! ## What each step does to the squashing state and to the log -/

theorem TraceAll.nil (G : List Event → Event → Prop) : TraceAll G [] := by
  intro pre e post h
  simp at h

theorem TraceAll.snoc {G : List Event → Event → Prop} {tr : List Event} {e : Event}
    (h : TraceAll G tr) (he : G tr e) : TraceAll G (tr ++ [e]) := by
  intro pre e' post heq
  rcases List.eq_nil_or_concat post with rfl | ⟨post', x, rfl⟩
  · have h2 : tr ++ [e] = pre ++ [e'] := heq
    obtain ⟨h3, h4⟩ := List.append_inj' h2 rfl
    simp only [List.cons.injEq, and_true] at h4
    subst h3 h4
    exact he
  · have h2 : tr ++ [e] = (pre ++ e' :: post') ++ [x] := by simpa using heq
    obtain ⟨h3, -⟩ := List.append_inj' h2 rfl
    exact h pre e' post' h3

/-- Appending events that `G` accepts wherever they stand. -/
theorem TraceAll.append {G : List Event → Event → Prop} {tr : List Event} (t : List Event)
    (h : TraceAll G tr) (ht : ∀ pre e, e ∈ t → G pre e) : TraceAll G (tr ++ t) := by
  induction t using List.reverseRecOn with
  | nil => simpa using h
  | append_singleton t e ih =>
    rw [← List.append_assoc]
    exact (ih fun pre e' he' => ht pre e' (List.mem_append_left _ he')).snoc
      (ht _ e (by simp))

theorem mergeReasonsPreventingSquashing_state (env : Env) (layer : LayerId) (a a' : Assigner)
    (h : mergeReasonsPreventingSquashing env layer a = some a') :
    a'.squashingState = a.squashingState ∧ a'.trace = a.trace := by
  unfold mergeReasonsPreventingSquashing at h
  split at h
  · split at h
    · cases h
    · split at h <;> cases h <;> exact ⟨rfl, rfl⟩
  · cases h; exact ⟨rfl, rfl⟩

theorem allocateOrClearAndInvalidate_state (env : Env) (layer : LayerId)
    (u : CompositingStateTransitionType) (a : Assigner) :
    (allocateOrClearAndInvalidate env layer u a).squashingState = a.squashingState
    ∧ (allocateOrClearAndInvalidate env layer u a).trace
        = a.trace ++ [Event.allocateOrClearCompositedLayerMapping layer u] := by
  unfold allocateOrClearAndInvalidate
  simp only
  split <;> exact ⟨rfl, rfl⟩

theorem performCall_state (env : Env) (c : ExternalCall) (a : Assigner) :
    (performCall env c a).squashingState = a.squashingState
    ∧ (performCall env c a).trace = a.trace ++ [Event.call c] := ⟨rfl, rfl⟩

theorem assignReflection_state (env : Env) (layer : LayerId) (a : Assigner) :
    (assignReflection env layer a).squashingState = a.squashingState
    ∧ ∃ q, (assignReflection env layer a).trace = a.trace ++ q ∧ ∀ e ∈ q, e.quiet = true := by
  unfold assignReflection
  split
  · unfold assignLayersToBackingsForReflectionLayer
    simp only
    split <;> split
    all_goals
      refine ⟨rfl, ?_⟩
      simp only [performCall_state, List.append_assoc]
      refine ⟨_, rfl, ?_⟩
      simp [Event.quiet]
  · exact ⟨rfl, [], by simp, by simp⟩

/-- The log of `updateSquashingAssignment`: for `PutInSquashingLayer` one
assignment into the most recent mapping at the next index, among quiet events;
for any other update quiet events only.  The squashing state is not written. -/
theorem updateSquashingAssignment_state (env : Env) (layer : LayerId)
    (u : CompositingStateTransitionType) (a a' : Assigner)
    (h : updateSquashingAssignment env layer u a = some a') :
    a'.squashingState = a.squashingState
    ∧ ((u = PutInSquashingLayer ∧ ∃ m q, a.squashingState.mostRecentMapping = some m
          ∧ a'.trace = a.trace ++ Event.updateSquashingAssignment layer u
              :: Event.updateSquashingLayerAssignment m layer
                  a.squashingState.nextSquashedLayerIndex :: q
          ∧ ∀ e ∈ q, e.quiet = true)
      ∨ (u ≠ PutInSquashingLayer ∧ ∃ q, a'.trace = a.trace ++ q ∧ ∀ e ∈ q, e.quiet = true)) := by
  unfold updateSquashingAssignment at h
  simp only [Assigner.log] at h
  split at h
  · rename_i hu
    split at h
    · cases h
    · rename_i m hm
      split at h
      all_goals
        cases h
        refine ⟨rfl, Or.inl ⟨hu, m, ?_⟩⟩
        simp only [performCall_state, List.append_assoc, List.cons_append, List.nil_append]
        refine ⟨_, hm, rfl, ?_⟩
        simp [Event.quiet]
  · rename_i hu
    split at h
    · simp only [Option.map_eq_some'] at h
      obtain ⟨b, hb, rfl⟩ := h
      split at hb
      · split at hb
        · cases hb
        · cases hb
          refine ⟨rfl, Or.inr ⟨hu, ?_⟩⟩
          simp only [performCall_state, List.append_assoc]
          refine ⟨_, rfl, ?_⟩
          simp [Event.quiet]
      · cases hb
        exact ⟨rfl, Or.inr ⟨hu, _, rfl, by simp [Event.quiet]⟩⟩
    · cases h
      exact ⟨rfl, Or.inr ⟨hu, _, rfl, by simp [Event.quiet]⟩⟩

theorem computeCompositedLayerUpdate_eq_put (env : Env) (w : World) (layer : LayerId)
    (h : computeCompositedLayerUpdate env w layer = PutInSquashingLayer) :
    env.layerSquashingEnabled = true
    ∧ env.requiresSquashing (w.layers layer).compositingReasons = true := by
  unfold computeCompositedLayerUpdate at h
  simp only at h
  split at h
  · split at h <;> cases h
  · split at h
    · split at h
      · rename_i h1 h2
        simp only [Bool.and_eq_true] at h2
        exact ⟨h1, h2.2⟩
      · split at h
        · cases h
        · split at h <;> cases h
    · split at h <;> cases h

theorem Env.mask_ne_zero (env : Env) (r : CompositingReason) (h : env.mask r ≠ 0) :
    r ≠ CompositingReasonNone := by
  rintro rfl
  exact h rfl

theorem Env.mask_eq_zero (env : Env) (r : CompositingReason) (h : env.mask r = 0) :
    r = CompositingReasonNone := by
  cases r <;> first | rfl | (simp [Env.mask] at h)

/-- A layer is given `PutInSquashingLayer` only when the whole subtree of the
candidate host is assigned. -/
theorem mergeReasonsPreventingSquashing_put {env : Env}
    (hrs : PreventingReasonsExcludeSquashing env) (layer : LayerId) (a a' : Assigner)
    (h : mergeReasonsPreventingSquashing env layer a = some a')
    (hu : computeCompositedLayerUpdate env a'.world layer = PutInSquashingLayer) :
    a.squashingState.haveAssignedBackingsToEntireSquashingLayerSubtree = true := by
  obtain ⟨hen, hreq⟩ := computeCompositedLayerUpdate_eq_put env a'.world layer hu
  unfold mergeReasonsPreventingSquashing at h
  split at h
  · split at h
    · cases h
    · rename_i r hr
      split at h
      · rename_i hm
        cases h
        have := hrs (a.world.layers layer).compositingReasons r (env.mask_ne_zero r hm)
        simp [World.setCompositingReasons, this] at hreq
      · rename_i hm
        have hnone := env.mask_eq_zero r (by simpa using hm)
        subst hnone
        cases hs : a.squashingState.haveAssignedBackingsToEntireSquashingLayerSubtree
        · simp [getReasonsPreventingSquashing, hs] at hr
        · rfl
  · rename_i hc
    cases h
    simp [hen, hreq] at hc

/-- What `squashIfNeeded` does to the squashing state and to the log. -/
theorem squashIfNeeded_state (env : Env) (layer : LayerId)
    (u : CompositingStateTransitionType) (a a' : Assigner)
    (h : squashIfNeeded env layer u a = some a') :
    a'.squashingState.mostRecentMapping = a.squashingState.mostRecentMapping
    ∧ a'.squashingState.hasMostRecentMapping = a.squashingState.hasMostRecentMapping
    ∧ a'.squashingState.haveAssignedBackingsToEntireSquashingLayerSubtree
        = a.squashingState.haveAssignedBackingsToEntireSquashingLayerSubtree
    ∧ ((env.layerSquashingEnabled = true ∧ u = PutInSquashingLayer
          ∧ a'.squashingState.nextSquashedLayerIndex = a.squashingState.nextSquashedLayerIndex + 1
          ∧ ∃ m q, a.squashingState.mostRecentMapping = some m
            ∧ a'.trace = a.trace ++ Event.updateSquashingAssignment layer u
                :: Event.updateSquashingLayerAssignment m layer
                    a.squashingState.nextSquashedLayerIndex :: q
            ∧ ∀ e ∈ q, e.quiet = true)
      ∨ ((env.layerSquashingEnabled = false ∨ u ≠ PutInSquashingLayer)
          ∧ (∃ q, a'.trace = a.trace ++ q ∧ ∀ e ∈ q, e.quiet = true)
          ∧ (a'.squashingState.nextSquashedLayerIndex = a.squashingState.nextSquashedLayerIndex
            ∨ (a'.squashingState.nextSquashedLayerIndex
                  = a.squashingState.nextSquashedLayerIndex + 1
                ∧ env.layerSquashingEnabled = true
                ∧ u = NoCompositingStateChange
                ∧ (a'.world.layers layer).groupedMapping.isSome = true)))) := by
  unfold squashIfNeeded at h
  split at h
  · rename_i hen
    simp only [Option.map_eq_some'] at h
    obtain ⟨b, hb, rfl⟩ := h
    obtain ⟨hs, ht⟩ := updateSquashingAssignment_state env layer u a b hb
    have e1 : b.squashingState.mostRecentMapping = a.squashingState.mostRecentMapping := by
      rw [hs]
    have e2 : b.squashingState.hasMostRecentMapping = a.squashingState.hasMostRecentMapping := by
      rw [hs]
    have e3 : b.squashingState.haveAssignedBackingsToEntireSquashingLayerSubtree
        = a.squashingState.haveAssignedBackingsToEntireSquashingLayerSubtree := by
      rw [hs]
    have e4 : b.squashingState.nextSquashedLayerIndex
        = a.squashingState.nextSquashedLayerIndex := by
      rw [hs]
    rcases ht with ⟨hu, m, q, hm, htr, hq⟩ | ⟨hu, q, htr, hq⟩
    · subst hu
      rw [if_pos (by simp)]
      exact ⟨e1, e2, e3, Or.inl ⟨hen, rfl, congrArg (· + 1) e4, m, q, hm, htr, hq⟩⟩
    · split
      · rename_i hsq
        simp only [decide_eq_false hu, Bool.false_or, Bool.and_eq_true, decide_eq_true_eq] at hsq
        exact ⟨e1, e2, e3,
          Or.inr ⟨Or.inr hu, ⟨q, htr, hq⟩, Or.inr ⟨congrArg (· + 1) e4, hen, hsq.1, hsq.2⟩⟩⟩
      · exact ⟨e1, e2, e3, Or.inr ⟨Or.inr hu, ⟨q, htr, hq⟩, Or.inl e4⟩⟩
  · rename_i hen
    cases h
    exact ⟨rfl, rfl, rfl,
      Or.inr ⟨Or.inl (by simpa using hen), ⟨[], by simp, by simp⟩, Or.inl rfl⟩⟩

/-- What the visit of a layer itself does to the squashing state and to the log:
the candidate host and the subtree flag are not written; either the layer is
given `PutInSquashingLayer`, the subtree flag is set, and one assignment into
the candidate host at the next index is logged and the index advances by one,
or nothing but quiet events follow the visit. -/
theorem assignSelf_state {env : Env} (hrs : PreventingReasonsExcludeSquashing env)
    (layer : LayerId) (a a' : Assigner) (h : assignSelf env layer a = some a') :
    a'.squashingState.mostRecentMapping = a.squashingState.mostRecentMapping
    ∧ a'.squashingState.hasMostRecentMapping = a.squashingState.hasMostRecentMapping
    ∧ a'.squashingState.haveAssignedBackingsToEntireSquashingLayerSubtree
        = a.squashingState.haveAssignedBackingsToEntireSquashingLayerSubtree
    ∧ ∃ b, mergeReasonsPreventingSquashing env layer (a.log (Event.visit layer a.squashingState))
        = some b
      ∧ ((env.layerSquashingEnabled = true
          ∧ computeCompositedLayerUpdate env b.world layer = PutInSquashingLayer
          ∧ a.squashingState.haveAssignedBackingsToEntireSquashingLayerSubtree = true
          ∧ a'.squashingState.nextSquashedLayerIndex = a.squashingState.nextSquashedLayerIndex + 1
          ∧ ∃ m q₁ q₂, a.squashingState.mostRecentMapping = some m
            ∧ a'.trace = a.trace ++ Event.visit layer a.squashingState
                :: (q₁ ++ Event.updateSquashingLayerAssignment m layer
                      a.squashingState.nextSquashedLayerIndex :: q₂)
            ∧ (∀ e ∈ q₁, e.quiet = true) ∧ ∀ e ∈ q₂, e.quiet = true)
        ∨ ((∃ q, a'.trace = a.trace ++ Event.visit layer a.squashingState :: q
              ∧ ∀ e ∈ q, e.quiet = true)
          ∧ (a'.squashingState.nextSquashedLayerIndex = a.squashingState.nextSquashedLayerIndex
            ∨ (a'.squashingState.nextSquashedLayerIndex
                  = a.squashingState.nextSquashedLayerIndex + 1
                ∧ env.layerSquashingEnabled = true
                ∧ computeCompositedLayerUpdate env b.world layer = NoCompositingStateChange
                ∧ (a'.world.layers layer).groupedMapping.isSome = true)))) := by
  unfold assignSelf at h
  simp only [Option.bind_eq_some] at h
  obtain ⟨b, hb, h2⟩ := h
  obtain ⟨hbs, hbt⟩ := mergeReasonsPreventingSquashing_state env layer _ b hb
  have hput := mergeReasonsPreventingSquashing_put hrs layer _ b hb
  simp only [Assigner.log] at hbs hbt hput
  generalize hu : computeCompositedLayerUpdate env b.world layer = u at h2 hput
  obtain ⟨h2s, h2t⟩ := allocateOrClearAndInvalidate_state env layer u b
  generalize allocateOrClearAndInvalidate env layer u b = a2 at h2 h2s h2t
  obtain ⟨h3s, q3, h3t, hq3⟩ := assignReflection_state env layer a2
  generalize assignReflection env layer a2 = a3 at h2 h3s h3t
  obtain ⟨e1, e2, e3, h4⟩ := squashIfNeeded_state env layer u a3 a' h2
  have hs3 : a3.squashingState = a.squashingState := by rw [h3s, h2s, hbs]
  have ht3 : a3.trace = a.trace ++ Event.visit layer a.squashingState
      :: (Event.allocateOrClearCompositedLayerMapping layer u :: q3) := by
    rw [h3t, h2t, hbt]; simp
  rw [hs3] at e1 e2 e3 h4
  refine ⟨e1, e2, e3, b, hb, ?_⟩
  rcases h4 with ⟨hen, hput', hidx, m, q, hm, htr, hq⟩ | ⟨-, ⟨q, htr, hq⟩, hidx⟩
  · refine Or.inl ⟨hen, hu.trans hput', hput hput', hidx, m,
      Event.allocateOrClearCompositedLayerMapping layer u :: q3
        ++ [Event.updateSquashingAssignment layer u], q, hm, ?_, ?_, hq⟩
    · rw [htr, ht3]; simp
    · intro e he
      simp only [List.cons_append, List.mem_cons, List.mem_append, List.mem_singleton,
        List.not_mem_nil, or_false] at he
      rcases he with rfl | he | rfl
      · rfl
      · exact hq3 e he
      · rfl
  · refine Or.inr ⟨⟨Event.allocateOrClearCompositedLayerMapping layer u :: q3 ++ q, ?_, ?_⟩, ?_⟩
    · rw [htr, ht3]; simp
    · intro e he
      simp only [List.cons_append, List.mem_cons, List.mem_append] at he
      rcases he with rfl | he | he
      · rfl
      · exact hq3 e he
      · exact hq e he
    · rcases hidx with h | ⟨h, hen, hno, hg⟩
      · exact Or.inl h
      · exact Or.inr ⟨h, hen, hu.trans hno, hg⟩

theorem updateTopmostScrollChild_state (env : Env) (layer : LayerId) (a : Assigner) :
    (updateTopmostScrollChild env layer a).squashingState = a.squashingState
    ∧ ∃ q, (updateTopmostScrollChild env layer a).trace = a.trace ++ q
      ∧ ∀ e ∈ q, e.quiet = true := by
  unfold updateTopmostScrollChild
  cases hn : (env.layer layer).needsCompositedScrolling <;>
    cases hp : (env.layer layer).scrollParent
  · exact ⟨rfl, [], by simp, by simp⟩
  · exact ⟨rfl, [_], rfl, by simp [Event.quiet]⟩
  · exact ⟨rfl, [_], rfl, by simp [Event.quiet]⟩
  · rename_i p
    exact ⟨rfl, [Event.call (ExternalCall.setTopmostScrollChild p (some layer)),
      Event.call (ExternalCall.setTopmostScrollChild layer none)],
      by simp [performCall_state], by simp [Event.quiet]⟩

/-- What `becomeMostRecentMapping` does to the squashing state and to the log:
nothing but quiet events, or a change of the candidate host to the mapping of
the layer, which restarts the index at 0 and clears the subtree flag. -/
theorem becomeMostRecentMapping_state (env : Env) (layer : LayerId) (a a' : Assigner)
    (h : becomeMostRecentMapping env layer a = some a') :
    (a'.squashingState = a.squashingState
      ∧ ∃ q, a'.trace = a.trace ++ q ∧ ∀ e ∈ q, e.quiet = true)
    ∨ (a'.squashingState.mostRecentMapping = compositedLayerMapping a.world layer
      ∧ a'.squashingState.hasMostRecentMapping = (a.world.layers layer).hasCompositedLayerMapping
      ∧ a'.squashingState.haveAssignedBackingsToEntireSquashingLayerSubtree = false
      ∧ a'.squashingState.nextSquashedLayerIndex = 0
      ∧ ∃ q, a'.trace = a.trace ++ Event.updateSquashingStateForNewMapping
            (compositedLayerMapping a.world layer)
            (a.world.layers layer).hasCompositedLayerMapping :: q
        ∧ ∀ e ∈ q, e.quiet = true) := by
  unfold becomeMostRecentMapping at h
  simp only [Option.map_eq_some'] at h
  obtain ⟨b, hb, rfl⟩ := h
  obtain ⟨hs, q, ht, hq⟩ := updateTopmostScrollChild_state env layer b
  split at hb
  · unfold updateSquashingStateForNewMapping at hb
    simp only [Option.map_eq_some', Assigner.log] at hb
    obtain ⟨c, hc, rfl⟩ := hb
    have hct : ∃ q', c.trace = a.trace ++ Event.updateSquashingStateForNewMapping
          (compositedLayerMapping a.world layer)
          (a.world.layers layer).hasCompositedLayerMapping :: q'
        ∧ ∀ e ∈ q', e.quiet = true := by
      split at hc
      · split at hc
        · cases hc
        · rename_i m hm
          cases hc
          exact ⟨[Event.call (ExternalCall.finishAccumulatingSquashingLayers m
            a.squashingState.nextSquashedLayerIndex)], by simp [performCall_state],
            by simp [Event.quiet]⟩
      · cases hc
        exact ⟨[], rfl, by simp⟩
    obtain ⟨q', hct, hq'⟩ := hct
    refine Or.inr ⟨by rw [hs], by rw [hs], by rw [hs], by rw [hs], q' ++ q, ?_, ?_⟩
    · rw [ht]
      show c.trace ++ q = _
      rw [hct]; simp
    · intro e he
      rcases List.mem_append.1 he with he | he
      · exact hq' e he
      · exact hq e he
  · cases hb
    exact Or.inl ⟨hs, q, ht, hq⟩

/-- What `finishSubtree` does: it logs that the subtree is assigned and sets the
subtree flag when the layer owns the candidate host; nothing else is written. -/
theorem finishSubtree_state (layer : LayerId) (a a' : Assigner)
    (h : finishSubtree layer a = some a') :
    a'.trace = a.trace ++ [Event.subtreeAssigned layer]
    ∧ a'.squashingState.mostRecentMapping = a.squashingState.mostRecentMapping
    ∧ a'.squashingState.hasMostRecentMapping = a.squashingState.hasMostRecentMapping
    ∧ a'.squashingState.nextSquashedLayerIndex = a.squashingState.nextSquashedLayerIndex
    ∧ (a'.squashingState.haveAssignedBackingsToEntireSquashingLayerSubtree
          = a.squashingState.haveAssignedBackingsToEntireSquashingLayerSubtree
        ∨ (a.squashingState.mostRecentMapping = some layer
            ∧ a'.squashingState.haveAssignedBackingsToEntireSquashingLayerSubtree = true)) := by
  unfold finishSubtree at h
  simp only [Assigner.log] at h
  split at h
  · split at h
    · cases h
    · rename_i m hm
      split at h
      · rename_i hml
        cases h
        exact ⟨rfl, rfl, rfl, rfl, Or.inr ⟨by rw [hm, hml], rfl⟩⟩
      · cases h
        exact ⟨rfl, rfl, rfl, rfl, Or.inl rfl⟩
  · cases h
    exact ⟨rfl, rfl, rfl, rfl, Or.inl rfl⟩

/-! ## Paint-order safety -/

theorem StackingNode.subnodes_mk (layer : LayerId) (sc : Bool) (negZ rest : List StackingNode) :
    (StackingNode.mk layer sc negZ rest).subnodes =
      StackingNode.mk layer sc negZ rest
        :: ((if sc then StackingNode.subnodesOfList negZ else [])
            ++ StackingNode.subnodesOfList rest) := by
  rw [StackingNode.subnodes]

theorem StackingNode.subnodesOfList_nil : StackingNode.subnodesOfList [] = [] := by
  rw [StackingNode.subnodesOfList]

theorem StackingNode.subnodesOfList_cons (n : StackingNode) (ns : List StackingNode) :
    StackingNode.subnodesOfList (n :: ns) = n.subnodes ++ StackingNode.subnodesOfList ns := by
  rw [StackingNode.subnodesOfList]

theorem Visited.mono {tr : List Event} {x : LayerId} (h : Visited tr x) (t : List Event) :
    Visited (tr ++ t) x := by
  obtain ⟨s, hs⟩ := h
  exact ⟨s, List.mem_append_left _ hs⟩

/-- The walk of a subtree of `root` visits every layer of the subtree, only
appends to the log, and logs the subtree as assigned after those visits. -/
theorem assignLayersToBackingsInternal_visits {env : Env}
    (hrs : PreventingReasonsExcludeSquashing env) (root : StackingNode) :
    ∀ n a a', n.subnodes ⊆ root.subnodes → assignLayersToBackingsInternal env n a = some a' →
      TraceAll (ClosedAfterVisits root) a.trace →
      TraceAll (ClosedAfterVisits root) a'.trace ∧ (∃ t, a'.trace = a.trace ++ t)
        ∧ ∀ x ∈ n.layers, Visited a'.trace x := by
  refine StackingNode.induction
    (fun n => ∀ a a', n.subnodes ⊆ root.subnodes →
      assignLayersToBackingsInternal env n a = some a' →
      TraceAll (ClosedAfterVisits root) a.trace →
      TraceAll (ClosedAfterVisits root) a'.trace ∧ (∃ t, a'.trace = a.trace ++ t)
        ∧ ∀ x ∈ n.layers, Visited a'.trace x)
    (fun ns => ∀ a a', StackingNode.subnodesOfList ns ⊆ root.subnodes →
      assignChildren env ns a = some a' →
      TraceAll (ClosedAfterVisits root) a.trace →
      TraceAll (ClosedAfterVisits root) a'.trace ∧ (∃ t, a'.trace = a.trace ++ t)
        ∧ ∀ x ∈ (StackingNode.subnodesOfList ns).map StackingNode.layer, Visited a'.trace x)
    ?_ ?_ ?_
  · intro layer sc negZ rest hneg hrest a a' hsub h hT
    rw [assignLayersToBackingsInternal_mk] at h
    simp only [Option.bind_eq_some] at h
    obtain ⟨a1, h1, a2, h2, a3, h3, a4, h4, h5⟩ := h
    rw [StackingNode.subnodes_mk] at hsub
    have hself : StackingNode.mk layer sc negZ rest ∈ root.subnodes :=
      hsub (List.mem_cons_self _ _)
    have hsubneg : (if sc then StackingNode.subnodesOfList negZ else []) ⊆ root.subnodes :=
      fun x hx => hsub (List.mem_cons_of_mem _ (List.mem_append_left _ hx))
    have hsubrest : StackingNode.subnodesOfList rest ⊆ root.subnodes :=
      fun x hx => hsub (List.mem_cons_of_mem _ (List.mem_append_right _ hx))
    -- the layer itself
    obtain ⟨t1, ht1, hq1⟩ : ∃ t, a1.trace = a.trace ++ Event.visit layer a.squashingState :: t
        ∧ ∀ e ∈ t, ∀ m, e ≠ Event.subtreeAssigned m := by
      obtain ⟨-, -, -, b, -, hcase⟩ := assignSelf_state hrs layer a a1 h1
      rcases hcase with ⟨-, -, -, -, m, q1, q2, -, ht, hq1, hq2⟩ | ⟨⟨q, ht, hq⟩, -⟩
      · refine ⟨_, ht, ?_⟩
        intro e he m' hm'
        subst hm'
        simp only [List.mem_append, List.mem_cons] at he
        rcases he with he | he | he
        · simpa [Event.quiet] using hq1 _ he
        · cases he
        · simpa [Event.quiet] using hq2 _ he
      · refine ⟨_, ht, ?_⟩
        intro e he m' hm'
        subst hm'
        simpa [Event.quiet] using hq _ he
    have hT1 : TraceAll (ClosedAfterVisits root) a1.trace := by
      rw [ht1]
      refine hT.append _ ?_
      intro pre e he m hm
      subst hm
      simp only [List.mem_cons] at he
      rcases he with he | he
      · cases he
      · exact absurd rfl (hq1 _ he m)
    have hv1 : Visited a1.trace layer := ⟨a.squashingState, by rw [ht1]; simp⟩
    -- the negative z-order children
    obtain ⟨hT2, ⟨t2, ht2⟩, hv2⟩ : TraceAll (ClosedAfterVisits root) a2.trace
        ∧ (∃ t, a2.trace = a1.trace ++ t)
        ∧ ∀ x ∈ (if sc then StackingNode.subnodesOfList negZ else []).map StackingNode.layer,
            Visited a2.trace x := by
      cases sc
      · simp only [Bool.false_eq_true, if_false, Option.some.injEq] at h2
        subst h2
        exact ⟨hT1, ⟨[], by simp⟩, by simp⟩
      · simp only [if_true] at h2 hsubneg ⊢
        exact hneg a1 a2 hsubneg h2 hT1
    -- the promotion
    obtain ⟨t3, ht3, hq3⟩ : ∃ t, a3.trace = a2.trace ++ t
        ∧ ∀ e ∈ t, ∀ m, e ≠ Event.subtreeAssigned m := by
      rcases becomeMostRecentMapping_state env layer a2 a3 h3 with
        ⟨-, q, ht, hq⟩ | ⟨-, -, -, -, q, ht, hq⟩
      · refine ⟨_, ht, ?_⟩
        intro e he m' hm'
        subst hm'
        simpa [Event.quiet] using hq _ he
      · refine ⟨_, ht, ?_⟩
        intro e he m' hm'
        subst hm'
        simp only [List.mem_cons] at he
        rcases he with he | he
        · cases he
        · simpa [Event.quiet] using hq _ he
    have hT3 : TraceAll (ClosedAfterVisits root) a3.trace := by
      rw [ht3]
      refine hT2.append _ ?_
      intro pre e he m hm
      exact absurd hm (hq3 _ he m)
    -- the other children
    obtain ⟨hT4, ⟨t4, ht4⟩, hv4⟩ := hrest a3 a4 hsubrest h4 hT3
    -- every layer of the subtree is visited by now
    have hall : ∀ x ∈ (StackingNode.mk layer sc negZ rest).layers, Visited a4.trace x := by
      intro x hx
      simp only [StackingNode.layers, StackingNode.subnodes_mk, List.map_cons, List.map_append,
        List.mem_cons, List.mem_append] at hx
      rcases hx with hx | hx | hx
      · subst hx
        rw [ht4, ht3, ht2]
        exact ((hv1.mono _).mono _).mono _
      · rw [ht4, ht3]
        exact ((hv2 x hx).mono _).mono _
      · exact hv4 x hx
    obtain ⟨ht5, -⟩ := finishSubtree_state layer a4 a' h5
    refine ⟨?_, ⟨Event.visit layer a.squashingState :: t1 ++ t2 ++ t3 ++ t4
      ++ [Event.subtreeAssigned layer], ?_⟩, ?_⟩
    · rw [ht5]
      refine hT4.snoc ?_
      intro m hm
      cases hm
      exact ⟨_, hself, rfl, hall⟩
    · rw [ht5, ht4, ht3, ht2, ht1]; simp
    · intro x hx
      rw [ht5]
      exact (hall x hx).mono _
  · intro a a' _ h hT
    rw [assignChildren_nil] at h
    cases h
    exact ⟨hT, ⟨[], by simp⟩, by simp [StackingNode.subnodesOfList_nil]⟩
  · intro n ns hn hns a a' hsub h hT
    rw [assignChildren_cons] at h
    simp only [Option.bind_eq_some] at h
    obtain ⟨a1, h1, h2⟩ := h
    rw [StackingNode.subnodesOfList_cons] at hsub
    obtain ⟨hT1, ⟨t1, ht1⟩, hv1⟩ := hn a a1 (fun x hx => hsub (List.mem_append_left _ hx)) h1 hT
    obtain ⟨hT2, ⟨t2, ht2⟩, hv2⟩ :=
      hns a1 a' (fun x hx => hsub (List.mem_append_right _ hx)) h2 hT1
    refine ⟨hT2, ⟨t1 ++ t2, by rw [ht2, ht1]; simp⟩, ?_⟩
    intro x hx
    simp only [StackingNode.subnodesOfList_cons, List.map_append, List.mem_append] at hx
    rcases hx with hx | hx
    · rw [ht2]
      exact (hv1 x hx).mono _
    · exact hv2 x hx

theorem PaintOrderSafe.of_quiet_event (pre : List Event) (e : Event) (h : e.quiet = true) :
    PaintOrderSafe pre e := by
  constructor
  · intro m l i he; subst he; simp [Event.quiet] at h
  · intro l s he; subst he; simp [Event.quiet] at h

theorem TraceAll.append_quiet {tr : List Event} (h : TraceAll PaintOrderSafe tr)
    (q : List Event) (hq : ∀ e ∈ q, e.quiet = true) : TraceAll PaintOrderSafe (tr ++ q) :=
  h.append q fun pre e he => PaintOrderSafe.of_quiet_event pre e (hq e he)

theorem assignSelf_paintOrder {env : Env} (hrs : PreventingReasonsExcludeSquashing env)
    (layer : LayerId) (a a' : Assigner) (hI : PaintOrderInvariant a)
    (h : assignSelf env layer a = some a') : PaintOrderInvariant a' := by
  obtain ⟨hA, hB⟩ := hI
  obtain ⟨e1, -, e3, b, -, hcase⟩ := assignSelf_state hrs layer a a' h
  have hvisit : TraceAll PaintOrderSafe (a.trace ++ [Event.visit layer a.squashingState]) := by
    refine hB.snoc ⟨?_, ?_⟩
    · intro m l i he; cases he
    · intro l s he hs
      cases he
      exact hA hs
  have hgrow : ∀ t, a'.trace = a.trace ++ t →
      (a'.squashingState.haveAssignedBackingsToEntireSquashingLayerSubtree = true →
        ∃ m, a'.squashingState.mostRecentMapping = some m
          ∧ Event.subtreeAssigned m ∈ a'.trace) := by
    intro t ht hs
    rw [e3] at hs
    obtain ⟨m, hm, hmem⟩ := hA hs
    exact ⟨m, by rw [e1, hm], by rw [ht]; exact List.mem_append_left _ hmem⟩
  rcases hcase with ⟨-, -, hflag, -, m, q1, q2, hm, ht, hq1, hq2⟩ | ⟨⟨q, ht, hq⟩, -⟩
  · refine ⟨hgrow _ ht, ?_⟩
    have heq : a'.trace = (((a.trace ++ [Event.visit layer a.squashingState]) ++ q1)
        ++ [Event.updateSquashingLayerAssignment m layer
              a.squashingState.nextSquashedLayerIndex]) ++ q2 := by
      rw [ht]; simp
    rw [heq]
    refine TraceAll.append_quiet (TraceAll.snoc (hvisit.append_quiet q1 hq1) ⟨?_, ?_⟩) q2 hq2
    · intro m' l i he
      cases he
      obtain ⟨m'', hm'', hmem⟩ := hA hflag
      rw [hm] at hm''
      cases hm''
      exact List.mem_append_left _ (List.mem_append_left _ hmem)
    · intro l s he; cases he
  · refine ⟨hgrow _ ht, ?_⟩
    have heq : a'.trace = (a.trace ++ [Event.visit layer a.squashingState]) ++ q := by
      rw [ht]; simp
    rw [heq]
    exact hvisit.append_quiet q hq

theorem becomeMostRecentMapping_paintOrder (env : Env) (layer : LayerId) (a a' : Assigner)
    (hI : PaintOrderInvariant a) (h : becomeMostRecentMapping env layer a = some a') :
    PaintOrderInvariant a' := by
  obtain ⟨hA, hB⟩ := hI
  rcases becomeMostRecentMapping_state env layer a a' h with
    ⟨hs, q, ht, hq⟩ | ⟨-, -, hflag, -, q, ht, hq⟩
  · constructor
    · intro hf
      rw [hs] at hf ⊢
      obtain ⟨m, hm, hmem⟩ := hA hf
      exact ⟨m, hm, by rw [ht]; exact List.mem_append_left _ hmem⟩
    · rw [ht]; exact hB.append_quiet q hq
  · constructor
    · intro hf
      rw [hflag] at hf
      cases hf
    · have heq : a'.trace = (a.trace ++ [Event.updateSquashingStateForNewMapping
          (compositedLayerMapping a.world layer)
          (a.world.layers layer).hasCompositedLayerMapping]) ++ q := by
        rw [ht]; simp
      rw [heq]
      refine TraceAll.append_quiet (hB.snoc ⟨?_, ?_⟩) q hq
      · intro m l i he; cases he
      · intro l s he; cases he

theorem finishSubtree_paintOrder (layer : LayerId) (a a' : Assigner)
    (hI : PaintOrderInvariant a) (h : finishSubtree layer a = some a') :
    PaintOrderInvariant a' := by
  obtain ⟨hA, hB⟩ := hI
  obtain ⟨ht, e1, -, -, hflag⟩ := finishSubtree_state layer a a' h
  constructor
  · intro hf
    rcases hflag with hsame | ⟨hm, -⟩
    · rw [hsame] at hf
      obtain ⟨m, hm, hmem⟩ := hA hf
      exact ⟨m, by rw [e1, hm], by rw [ht]; exact List.mem_append_left _ hmem⟩
    · exact ⟨layer, by rw [e1, hm], by rw [ht]; simp⟩
  · rw [ht]
    refine hB.snoc ⟨?_, ?_⟩
    · intro m l i he; cases he
    · intro l s he; cases he

/-- Subtrees of a tree whose layers are pairwise distinct are told apart by their
root layer. -/
theorem StackingNode.eq_of_layer_eq {root n n' : StackingNode} (hnodup : root.layers.Nodup)
    (hn : n ∈ root.subnodes) (hn' : n' ∈ root.subnodes) (h : n.layer = n'.layer) : n = n' :=
  List.inj_on_of_nodup_map hnodup hn hn' h

/-- C2 (paint-order safety): in the log of `assign` over a tree of pairwise
distinct layers, every squashing assignment into the mapping of a layer `m`
comes after the visit of every layer of the subtree rooted at `m`; and whenever
a visit finds `haveAssignedBackingsToEntireSquashingLayerSubtree` set, there is a
candidate host and every layer of the subtree of its owner was visited before. -/
theorem assign_paint_order_safety (env : Env) (hrs : PreventingReasonsExcludeSquashing env)
    (updateRoot : StackingNode) (hnodup : updateRoot.layers.Nodup) (a a' : Assigner)
    (h : assign env updateRoot a = some a') :
    (∀ pre post m l i, a'.trace = pre ++ Event.updateSquashingLayerAssignment m l i :: post →
      (∃ n ∈ updateRoot.subnodes, n.layer = m)
      ∧ ∀ n ∈ updateRoot.subnodes, n.layer = m → ∀ x ∈ n.layers, Visited pre x)
    ∧ (∀ pre post l s, a'.trace = pre ++ Event.visit l s :: post →
      s.haveAssignedBackingsToEntireSquashingLayerSubtree = true →
      ∃ m, s.mostRecentMapping = some m ∧ (∃ n ∈ updateRoot.subnodes, n.layer = m)
        ∧ ∀ n ∈ updateRoot.subnodes, n.layer = m → ∀ x ∈ n.layers, Visited pre x) := by
  unfold assign at h
  simp only [Option.bind_eq_some] at h
  obtain ⟨b, hb, h⟩ := h
  -- the log of the walk
  have hI : PaintOrderInvariant b :=
    assignLayersToBackingsInternal_preserves env PaintOrderInvariant
      (fun layer a a' hI h => assignSelf_paintOrder hrs layer a a' hI h)
      (fun layer a a' hI h => becomeMostRecentMapping_paintOrder env layer a a' hI h)
      (fun layer a a' hI h => finishSubtree_paintOrder layer a a' hI h)
      updateRoot _ b ⟨by simp [SquashingState.fresh], TraceAll.nil _⟩ hb
  have hT : TraceAll (ClosedAfterVisits updateRoot) b.trace :=
    (assignLayersToBackingsInternal_visits hrs updateRoot updateRoot _ b
      (fun _ hx => hx) hb (TraceAll.nil _)).1
  -- the final call appends a quiet event
  obtain ⟨q, hq, hquiet⟩ : ∃ q, a'.trace = b.trace ++ q ∧ ∀ e ∈ q, e.quiet = true := by
    split at h
    · split at h
      · cases h
      · cases h; exact ⟨[_], rfl, by simp [Event.quiet]⟩
    · cases h; exact ⟨[], by simp, by simp⟩
  have hI' : TraceAll PaintOrderSafe a'.trace := by
    rw [hq]; exact hI.2.append_quiet q hquiet
  have hT' : TraceAll (ClosedAfterVisits updateRoot) a'.trace := by
    rw [hq]
    refine hT.append q ?_
    intro pre e he m hm
    subst hm
    simpa [Event.quiet] using hquiet _ he
  -- a subtree logged as assigned before `pre` ends has all its layers visited in `pre`
  have key : ∀ pre e post m, a'.trace = pre ++ e :: post → Event.subtreeAssigned m ∈ pre →
      (∃ n ∈ updateRoot.subnodes, n.layer = m)
      ∧ ∀ n ∈ updateRoot.subnodes, n.layer = m → ∀ x ∈ n.layers, Visited pre x := by
    intro pre e post m htr hmem
    obtain ⟨p1, p2, rfl⟩ := List.append_of_mem hmem
    obtain ⟨n, hn, hnm, hv⟩ := hT' p1 (Event.subtreeAssigned m) (p2 ++ e :: post)
      (by rw [htr]; simp) m rfl
    refine ⟨⟨n, hn, hnm⟩, ?_⟩
    intro n' hn' hnm' x hx
    have : n' = n := StackingNode.eq_of_layer_eq hnodup hn' hn (hnm'.trans hnm.symm)
    subst this
    exact (hv x hx).mono _
  constructor
  · intro pre post m l i htr
    exact key pre _ post m htr ((hI' pre _ post htr).1 m l i rfl)
  · intro pre post l s htr hs
    obtain ⟨m, hm, hmem⟩ := (hI' pre _ post htr).2 l s rfl hs
    exact ⟨m, hm, key pre _ post m htr hmem⟩

theorem Demo.requiresSquashing_or_two_pow (reasons k : Nat) (hk : 2 ≤ k) :
    Demo.requiresSquashing (reasons ||| 2 ^ k) = false := by
  have h1 : (reasons ||| 2 ^ k).testBit k = true := by
    simp [Nat.testBit_two_pow_self]
  have h2 : 2 ^ k ≤ reasons ||| 2 ^ k := Nat.testBit_implies_ge h1
  have h3 : 2 ^ 2 ≤ 2 ^ k := Nat.pow_le_pow_right (by decide) hk
  have h4 : 0 < (reasons ||| 2 ^ k) / 4 := Nat.div_pos (le_trans h3 h2) (by decide)
  have h5 : Demo.requiresCompositing (reasons ||| 2 ^ k) = true := by
    simp only [Demo.requiresCompositing, Bool.or_eq_true, decide_eq_true_eq]
    exact Or.inr (Nat.pos_iff_ne_zero.1 h4)
  simp [Demo.requiresSquashing, h5]

theorem Demo.preventingReasonsExcludeSquashing (squashing : Bool)
    (layer : LayerId → RenderLayer) :
    PreventingReasonsExcludeSquashing (Demo.env squashing layer) := by
  intro reasons r hr
  cases r
  · exact absurd rfl hr
  all_goals exact Demo.requiresSquashing_or_two_pow reasons _ (by simp [Demo.env, Demo.reasonBit])

theorem Demo.rootWithThreeChildren_nodup : Demo.rootWithThreeChildren.layers.Nodup := by
  decide

set_option maxRecDepth 100000 in
theorem Demo.assign_squashable_isSome :
    (assign (Demo.env true Demo.boxes) Demo.rootWithThreeChildren
      (Demo.start Demo.worldSquashable)).isSome = true := by
  decide!

/-- Witness for C2: three squashable children of a root. -/
theorem assign_paint_order_safety_witness :
    ∃ a', assign (Demo.env true Demo.boxes) Demo.rootWithThreeChildren
        (Demo.start Demo.worldSquashable) = some a'
      ∧ ∀ pre post m l i,
          a'.trace = pre ++ Event.updateSquashingLayerAssignment m l i :: post →
          (∃ n ∈ Demo.rootWithThreeChildren.subnodes, n.layer = m)
          ∧ ∀ n ∈ Demo.rootWithThreeChildren.subnodes, n.layer = m →
              ∀ x ∈ n.layers, Visited pre x :=
  ⟨_, (Option.some_get Demo.assign_squashable_isSome).symm,
    (assign_paint_order_safety (Demo.env true Demo.boxes)
      (Demo.preventingReasonsExcludeSquashing true Demo.boxes) Demo.rootWithThreeChildren
      Demo.rootWithThreeChildren_nodup (Demo.start Demo.worldSquashable) _
      (Option.some_get Demo.assign_squashable_isSome).symm).1⟩

/-! ## Squashing disabled -/

theorem assignSelf_disabled {env : Env} (hdis : env.layerSquashingEnabled = false)
    (layer : LayerId) (a : Assigner) (hI : SquashingUntouched a) :
    ∃ a', assignSelf env layer a = some a' ∧ SquashingUntouched a' := by
  obtain ⟨hs, ht⟩ := hI
  unfold assignSelf mergeReasonsPreventingSquashing squashIfNeeded
  simp only [hdis, Bool.false_and, Bool.false_eq_true, if_false, Option.some_bind]
  refine ⟨_, rfl, ?_⟩
  generalize hu : computeCompositedLayerUpdate env
    (a.log (Event.visit layer a.squashingState)).world layer = u
  obtain ⟨h2s, h2t⟩ := allocateOrClearAndInvalidate_state env layer u
    (a.log (Event.visit layer a.squashingState))
  generalize allocateOrClearAndInvalidate env layer u
    (a.log (Event.visit layer a.squashingState)) = a2 at h2s h2t
  constructor
  · have : (assignReflection env layer a2).squashingState = a2.squashingState := by
      unfold assignReflection assignLayersToBackingsForReflectionLayer
      simp only
      split
      · split <;> split <;> rfl
      · rfl
    rw [this, h2s]
    exact hs
  · have : ∃ q, (assignReflection env layer a2).trace = a2.trace ++ q
        ∧ ∀ e ∈ q, e.withoutSquashing = true := by
      unfold assignReflection assignLayersToBackingsForReflectionLayer
      simp only
      split
      · split <;> split
        all_goals
          simp only [performCall_state, List.append_assoc]
          exact ⟨_, rfl, by simp [Event.withoutSquashing]⟩
      · exact ⟨[], by simp, by simp⟩
    obtain ⟨q, hq, hqs⟩ := this
    rw [hq, h2t]
    intro e he
    simp only [Assigner.log, List.mem_append, List.mem_singleton] at he
    rcases he with ((he | rfl) | rfl) | he
    · exact ht e he
    · simp [Event.withoutSquashing, hs]
    · rfl
    · exact hqs e he

theorem becomeMostRecentMapping_disabled {env : Env} (hdis : env.layerSquashingEnabled = false)
    (layer : LayerId) (a : Assigner) (hI : SquashingUntouched a) :
    ∃ a', becomeMostRecentMapping env layer a = some a' ∧ SquashingUntouched a' := by
  obtain ⟨hs, ht⟩ := hI
  unfold becomeMostRecentMapping
  simp only [hdis, Bool.false_and, Bool.false_eq_true, if_false, Option.map_some']
  refine ⟨_, rfl, ?_⟩
  unfold updateTopmostScrollChild
  cases hn : (env.layer layer).needsCompositedScrolling <;>
    cases hp : (env.layer layer).scrollParent
  all_goals
    refine ⟨hs, ?_⟩
    intro e he
    simp only [performCall, Bool.false_eq_true, if_false, if_true, List.mem_append,
      List.mem_singleton] at he
    first
      | exact ht e he
      | (rcases he with he | rfl
         · exact ht e he
         · rfl)
      | (rcases he with (he | rfl) | rfl
         · exact ht e he
         · rfl
         · rfl)

theorem finishSubtree_disabled (layer : LayerId) (a : Assigner) (hI : SquashingUntouched a) :
    ∃ a', finishSubtree layer a = some a' ∧ SquashingUntouched a' := by
  obtain ⟨hs, ht⟩ := hI
  have h1 : a.squashingState.hasMostRecentMapping = false := by rw [hs]; rfl
  unfold finishSubtree
  simp only [Assigner.log, h1, Bool.false_eq_true, if_false]
  refine ⟨_, rfl, hs, ?_⟩
  intro e he
  simp only [List.mem_append, List.mem_singleton] at he
  rcases he with he | rfl
  · exact ht e he
  · rfl

/-- C10 (scenario C): with squashing disabled, `computeCompositedLayerUpdate`
never returns `PutInSquashingLayer` or `RemoveFromSquashingLayer`; a layer that
can be composited, requires squashing and has no mapping is given
`AllocateOwnCompositedLayerMapping`; and `assign` always has a result, logs no
call of `updateSquashingAssignment`, no squashing assignment, no change of
candidate host and no finalization, finds the fresh squashing state at every
visit and leaves it fresh. -/
theorem squashing_disabled_never_squashes (env : Env)
    (hdis : env.layerSquashingEnabled = false) :
    (∀ w layer, computeCompositedLayerUpdate env w layer ≠ PutInSquashingLayer
      ∧ computeCompositedLayerUpdate env w layer ≠ RemoveFromSquashingLayer)
    ∧ (∀ w layer, env.canBeComposited layer = true →
        env.requiresSquashing (w.layers layer).compositingReasons = true →
        (w.layers layer).hasCompositedLayerMapping = false →
        computeCompositedLayerUpdate env w layer = AllocateOwnCompositedLayerMapping)
    ∧ (∀ updateRoot a, ∃ a', assign env updateRoot a = some a'
        ∧ a'.squashingState = SquashingState.fresh
        ∧ ∀ e ∈ a'.trace,
            (∀ l u, e ≠ Event.updateSquashingAssignment l u)
            ∧ (∀ m l i, e ≠ Event.updateSquashingLayerAssignment m l i)
            ∧ (∀ m has, e ≠ Event.updateSquashingStateForNewMapping m has)
            ∧ (∀ m i, e ≠ Event.call (ExternalCall.finishAccumulatingSquashingLayers m i))
            ∧ (∀ l s, e = Event.visit l s → s = SquashingState.fresh)) := by
  refine ⟨?_, ?_, ?_⟩
  · intro w layer
    unfold computeCompositedLayerUpdate
    simp only [hdis, Bool.false_eq_true, if_false]
    constructor <;> (split <;> split <;> simp)
  · intro w layer hcan hreq hno
    have : needsOwnBacking env w layer = true := by
      simp [needsOwnBacking, hcan, hreq, hdis]
    simp [computeCompositedLayerUpdate, this, hno]
  · intro updateRoot a
    obtain ⟨b, hb, hsb, htb⟩ :=
      assignLayersToBackingsInternal_total env SquashingUntouched
        (fun layer a hI => assignSelf_disabled hdis layer a hI)
        (fun layer a hI => becomeMostRecentMapping_disabled hdis layer a hI)
        (fun layer a hI => finishSubtree_disabled layer a hI)
        updateRoot { a with squashingState := SquashingState.fresh, trace := [] }
        ⟨rfl, by simp⟩
    refine ⟨b, ?_, hsb, ?_⟩
    · have h1 : b.squashingState.hasMostRecentMapping = false := by rw [hsb]; rfl
      unfold assign
      simp only []
      rw [hb]
      simp [h1]
    · intro e he
      have := htb e he
      refine ⟨?_, ?_, ?_, ?_, ?_⟩
      · rintro l u rfl; simp [Event.withoutSquashing] at this
      · rintro m l i rfl; simp [Event.withoutSquashing] at this
      · rintro m has rfl; simp [Event.withoutSquashing] at this
      · rintro m i rfl; simp [Event.withoutSquashing] at this
      · rintro l s rfl; simpa [Event.withoutSquashing] using this

/-- Witness for C10: three children flagged as requiring squashing, squashing
disabled. -/
theorem squashing_disabled_never_squashes_witness :
    computeCompositedLayerUpdate (Demo.env false Demo.boxes) Demo.worldSquashable 1
        = AllocateOwnCompositedLayerMapping
    ∧ ∃ a', assign (Demo.env false Demo.boxes) Demo.rootWithThreeChildren
        (Demo.start Demo.worldSquashable) = some a'
      ∧ a'.squashingState = SquashingState.fresh :=
  ⟨(squashing_disabled_never_squashes (Demo.env false Demo.boxes) rfl).2.1
      Demo.worldSquashable 1 rfl (by decide) (by decide),
   ((squashing_disabled_never_squashes (Demo.env false Demo.boxes) rfl).2.2
      Demo.rootWithThreeChildren (Demo.start Demo.worldSquashable)).imp
      fun _ h => ⟨h.1, h.2.1⟩⟩

/-! ## Index monotonicity -/

theorem assignmentsSinceHostChange_snoc (tr : List Event) (e : Event) :
    assignmentsSinceHostChange (tr ++ [e]) =
      match e with
      | Event.updateSquashingLayerAssignment _ _ _ => assignmentsSinceHostChange tr + 1
      | Event.updateSquashingStateForNewMapping _ _ => 0
      | _ => assignmentsSinceHostChange tr := by
  unfold assignmentsSinceHostChange
  rw [List.foldl_append]
  cases e <;> rfl

theorem candidateHost_snoc (tr : List Event) (e : Event) :
    candidateHost (tr ++ [e]) =
      match e with
      | Event.updateSquashingStateForNewMapping m _ => m
      | _ => candidateHost tr := by
  unfold candidateHost
  rw [List.foldl_append]
  cases e <;> rfl

/-- Events other than squashing assignments and changes of host leave the count
and the candidate host as they are. -/
theorem assignmentsSinceHostChange_append (tr q : List Event)
    (hq : ∀ e ∈ q, (∀ m l i, e ≠ Event.updateSquashingLayerAssignment m l i)
      ∧ ∀ m has, e ≠ Event.updateSquashingStateForNewMapping m has) :
    assignmentsSinceHostChange (tr ++ q) = assignmentsSinceHostChange tr
    ∧ candidateHost (tr ++ q) = candidateHost tr := by
  induction q using List.reverseRecOn with
  | nil => simp
  | append_singleton q e ih =>
    have ih := ih fun e he => hq e (List.mem_append_left _ he)
    have he := hq e (by simp)
    rw [← List.append_assoc, assignmentsSinceHostChange_snoc, candidateHost_snoc]
    cases e
    case updateSquashingLayerAssignment m l i => exact absurd rfl (he.1 m l i)
    case updateSquashingStateForNewMapping m has => exact absurd rfl (he.2 m has)
    all_goals exact ih

theorem Event.quiet_ne {e : Event} (h : e.quiet = true) :
    (∀ m l i, e ≠ Event.updateSquashingLayerAssignment m l i)
    ∧ ∀ m has, e ≠ Event.updateSquashingStateForNewMapping m has := by
  constructor
  · rintro m l i rfl; simp [Event.quiet] at h
  · rintro m has rfl; simp [Event.quiet] at h

theorem IndexInOrder.of_quiet_step (pre : List Event) (e : Event) (h : e.quiet = true) :
    IndexInOrder pre e := by
  constructor
  · intro m l i he; subst he; simp [Event.quiet] at h
  · intro l s he; subst he; simp [Event.quiet] at h

theorem TraceAll.append_quiet_index {tr : List Event} (h : TraceAll IndexInOrder tr)
    (q : List Event) (hq : ∀ e ∈ q, e.quiet = true) : TraceAll IndexInOrder (tr ++ q) :=
  h.append q fun pre e he => IndexInOrder.of_quiet_step pre e (hq e he)

/-- With squashing enabled, a layer given `NoCompositingStateChange` in a world
that keeps mutual exclusion has no grouped mapping. -/
theorem computeCompositedLayerUpdate_eq_noChange (env : Env) (w : World) (layer : LayerId)
    (hen : env.layerSquashingEnabled = true) (hex : Exclusive w)
    (h : computeCompositedLayerUpdate env w layer = NoCompositingStateChange) :
    (w.layers layer).groupedMapping = none := by
  unfold computeCompositedLayerUpdate at h
  simp only [hen, if_true] at h
  split at h
  · split at h
    · cases h
    · rename_i hm
      exact hex layer (by simpa using hm)
  · split at h
    · cases h
    · split at h
      · cases h
      · rename_i hg
        simp only [Bool.or_eq_true, not_or, Bool.not_eq_true] at hg
        cases hgm : (w.layers layer).groupedMapping with
        | none => rfl
        | some g => simp [hgm] at hg

/-- The second way in which `layerIsSquashed` may hold, no change for a layer
with a grouped mapping, does not occur where mutual exclusion holds. -/
theorem assignSelf_noChange_grouped {env : Env} (hc : CompositorContract env)
    (layer : LayerId) (a a' b : Assigner) (hex : Exclusive a.world)
    (h : assignSelf env layer a = some a')
    (hb : mergeReasonsPreventingSquashing env layer (a.log (Event.visit layer a.squashingState))
      = some b)
    (hen : env.layerSquashingEnabled = true)
    (hu : computeCompositedLayerUpdate env b.world layer = NoCompositingStateChange) :
    (a'.world.layers layer).groupedMapping.isSome = false := by
  have hexb : Exclusive b.world :=
    Exclusive.of_nothingGained (w := a.world) hex
      (mergeReasonsPreventingSquashing_gains env layer
        (a.log (Event.visit layer a.squashingState)) b hb)
  have hgb := computeCompositedLayerUpdate_eq_noChange env b.world layer hen hexb hu
  unfold assignSelf at h
  simp only [hb, Option.some_bind, hu] at h
  have h2 : ((allocateOrClearAndInvalidate env layer NoCompositingStateChange b).world.layers
      layer).groupedMapping.isSome = false := by
    rw [allocateOrClearAndInvalidate_world]
    cases hg : ((env.allocateOrClearCompositedLayerMapping b.world layer
      NoCompositingStateChange).1.layers layer).groupedMapping.isSome with
    | false => rfl
    | true => have := hc.allocate_grouped _ _ _ hg; simp [hgb] at this
  generalize allocateOrClearAndInvalidate env layer NoCompositingStateChange b = a2 at h h2
  have h3 : ((assignReflection env layer a2).world.layers layer).groupedMapping.isSome
      = false := by
    unfold assignReflection
    split
    · rename_i r hr
      cases hg : ((assignLayersToBackingsForReflectionLayer env r a2).world.layers
        layer).groupedMapping.isSome with
      | false => rfl
      | true =>
        have := (assignLayersToBackingsForReflectionLayer_world hc r a2).2.2 layer hg
        simp [h2] at this
    · exact h2
  generalize assignReflection env layer a2 = a3 at h h3
  rcases squashIfNeeded_world env layer NoCompositingStateChange a3 a' h with hw | ⟨c, hcq, hw⟩
  · rw [hw]; exact h3
  · rw [hw]
    unfold updateSquashingAssignment at hcq
    simp at hcq
    subst hcq
    exact h3

theorem assignSelf_index {env : Env} (hc : CompositorContract env)
    (hrefl : NoSelfReflection env) (hrs : PreventingReasonsExcludeSquashing env)
    (layer : LayerId) (a a' : Assigner) (hI : IndexInvariant a)
    (h : assignSelf env layer a = some a') : IndexInvariant a' := by
  obtain ⟨hex, hidx, hhost, hT⟩ := hI
  have hex' := assignSelf_exclusive hc hrefl layer a a' hex h
  obtain ⟨e1, -, -, b, hb, hcase⟩ := assignSelf_state hrs layer a a' h
  -- the log up to and including the visit
  have hvisit : TraceAll IndexInOrder (a.trace ++ [Event.visit layer a.squashingState]) := by
    refine hT.snoc ⟨?_, ?_⟩
    · intro m l i he; cases he
    · intro l s he
      cases he
      exact ⟨hidx, hhost⟩
  have hvn : assignmentsSinceHostChange (a.trace ++ [Event.visit layer a.squashingState])
      = assignmentsSinceHostChange a.trace := by
    rw [assignmentsSinceHostChange_snoc]
  have hvh : candidateHost (a.trace ++ [Event.visit layer a.squashingState])
      = candidateHost a.trace := by
    rw [candidateHost_snoc]
  rcases hcase with ⟨-, -, -, hnext, m, q1, q2, hm, ht, hq1, hq2⟩ | ⟨⟨q, ht, hq⟩, hnext⟩
  · have heq : a'.trace = (((a.trace ++ [Event.visit layer a.squashingState]) ++ q1)
        ++ [Event.updateSquashingLayerAssignment m layer
              a.squashingState.nextSquashedLayerIndex]) ++ q2 := by
      rw [ht]; simp
    obtain ⟨n1, c1⟩ := assignmentsSinceHostChange_append
      (a.trace ++ [Event.visit layer a.squashingState]) q1 fun e he => Event.quiet_ne (hq1 e he)
    obtain ⟨n2, c2⟩ := assignmentsSinceHostChange_append
      (((a.trace ++ [Event.visit layer a.squashingState]) ++ q1)
        ++ [Event.updateSquashingLayerAssignment m layer
              a.squashingState.nextSquashedLayerIndex]) q2 fun e he => Event.quiet_ne (hq2 e he)
    refine ⟨hex', ?_, ?_, ?_⟩
    · rw [hnext, heq, n2, assignmentsSinceHostChange_snoc, n1, hvn, hidx]
    · rw [e1, heq, c2, candidateHost_snoc, c1, hvh, hhost]
    · rw [heq]
      refine TraceAll.append_quiet_index
        (TraceAll.snoc (hvisit.append_quiet_index q1 hq1) ⟨?_, ?_⟩) q2 hq2
      · intro m' l i he
        cases he
        exact ⟨by rw [n1, hvn, hidx], by rw [c1, hvh, ← hhost, hm]⟩
      · intro l s he; cases he
  · have heq : a'.trace = (a.trace ++ [Event.visit layer a.squashingState]) ++ q := by
      rw [ht]; simp
    obtain ⟨n1, c1⟩ := assignmentsSinceHostChange_append
      (a.trace ++ [Event.visit layer a.squashingState]) q fun e he => Event.quiet_ne (hq e he)
    have hsame : a'.squashingState.nextSquashedLayerIndex
        = a.squashingState.nextSquashedLayerIndex := by
      rcases hnext with hn | ⟨-, hen, hu, hg⟩
      · exact hn
      · have := assignSelf_noChange_grouped hc layer a a' b hex h hb hen hu
        rw [hg] at this
        cases this
    refine ⟨hex', ?_, ?_, ?_⟩
    · rw [hsame, heq, n1, hvn, hidx]
    · rw [e1, heq, c1, hvh, hhost]
    · rw [heq]
      exact hvisit.append_quiet_index q hq

theorem becomeMostRecentMapping_index {env : Env} (hc : CompositorContract env)
    (layer : LayerId) (a a' : Assigner) (hI : IndexInvariant a)
    (h : becomeMostRecentMapping env layer a = some a') : IndexInvariant a' := by
  obtain ⟨hex, hidx, hhost, hT⟩ := hI
  have hex' : Exclusive a'.world :=
    hex.of_nothingGained (becomeMostRecentMapping_gains hc layer a a' h)
  rcases becomeMostRecentMapping_state env layer a a' h with
    ⟨hs, q, ht, hq⟩ | ⟨hm, -, -, hzero, q, ht, hq⟩
  · obtain ⟨n1, c1⟩ := assignmentsSinceHostChange_append a.trace q
      fun e he => Event.quiet_ne (hq e he)
    refine ⟨hex', ?_, ?_, ?_⟩
    · rw [hs, ht, n1, hidx]
    · rw [hs, ht, c1, hhost]
    · rw [ht]; exact hT.append_quiet_index q hq
  · have heq : a'.trace = (a.trace ++ [Event.updateSquashingStateForNewMapping
        (compositedLayerMapping a.world layer)
        (a.world.layers layer).hasCompositedLayerMapping]) ++ q := by
      rw [ht]; simp
    obtain ⟨n1, c1⟩ := assignmentsSinceHostChange_append
      (a.trace ++ [Event.updateSquashingStateForNewMapping
        (compositedLayerMapping a.world layer)
        (a.world.layers layer).hasCompositedLayerMapping]) q
      fun e he => Event.quiet_ne (hq e he)
    refine ⟨hex', ?_, ?_, ?_⟩
    · rw [hzero, heq, n1, assignmentsSinceHostChange_snoc]
    · rw [hm, heq, c1, candidateHost_snoc]
    · rw [heq]
      refine TraceAll.append_quiet_index (hT.snoc ⟨?_, ?_⟩) q hq
      · intro m l i he; cases he
      · intro l s he; cases he

theorem finishSubtree_index (layer : LayerId) (a a' : Assigner) (hI : IndexInvariant a)
    (h : finishSubtree layer a = some a') : IndexInvariant a' := by
  obtain ⟨hex, hidx, hhost, hT⟩ := hI
  obtain ⟨ht, e1, -, e4, -⟩ := finishSubtree_state layer a a' h
  refine ⟨?_, ?_, ?_, ?_⟩
  · rw [finishSubtree_world layer a a' h]; exact hex
  · rw [e4, ht, assignmentsSinceHostChange_snoc, hidx]
  · rw [e1, ht, candidateHost_snoc, hhost]
  · rw [ht]
    refine hT.snoc ⟨?_, ?_⟩
    · intro m l i he; cases he
    · intro l s he; cases he

/-- C4 (index monotonicity): under the contract of the collaborators, starting
from a world that keeps mutual exclusion, every squashing assignment logged by
`assign` goes into the current candidate host and passes as index the number of
assignments since that host became the candidate, so the indices of one host are
0, 1, 2, ... in visitation order; every visit finds that count in
`nextSquashedLayerIndex`, which therefore never decreases while the host is
unchanged and is 0 again after each change of host; and so does the end of the
walk. -/
theorem assign_index_monotonicity (env : Env) (hc : CompositorContract env)
    (hrefl : NoSelfReflection env) (hrs : PreventingReasonsExcludeSquashing env)
    (updateRoot : StackingNode) (a a' : Assigner) (hex : Exclusive a.world)
    (h : assign env updateRoot a = some a') :
    (∀ pre post m l i, a'.trace = pre ++ Event.updateSquashingLayerAssignment m l i :: post →
      i = assignmentsSinceHostChange pre ∧ candidateHost pre = some m)
    ∧ (∀ pre post l s, a'.trace = pre ++ Event.visit l s :: post →
      s.nextSquashedLayerIndex = assignmentsSinceHostChange pre
        ∧ s.mostRecentMapping = candidateHost pre)
    ∧ a'.squashingState.nextSquashedLayerIndex = assignmentsSinceHostChange a'.trace := by
  unfold assign at h
  simp only [Option.bind_eq_some] at h
  obtain ⟨b, hb, h⟩ := h
  obtain ⟨-, hidx, -, hT⟩ : IndexInvariant b :=
    assignLayersToBackingsInternal_preserves env IndexInvariant
      (fun layer a a' hI h => assignSelf_index hc hrefl hrs layer a a' hI h)
      (fun layer a a' hI h => becomeMostRecentMapping_index hc layer a a' hI h)
      (fun layer a a' hI h => finishSubtree_index layer a a' hI h)
      updateRoot { a with squashingState := SquashingState.fresh, trace := [] } b
      ⟨hex, rfl, rfl, TraceAll.nil _⟩ hb
  obtain ⟨q, hq, hquiet, hs⟩ : ∃ q, a'.trace = b.trace ++ q ∧ (∀ e ∈ q, e.quiet = true)
      ∧ a'.squashingState = b.squashingState := by
    split at h
    · split at h
      · cases h
      · cases h; exact ⟨[_], rfl, by simp [Event.quiet], rfl⟩
    · cases h; exact ⟨[], by simp, by simp, rfl⟩
  have hT' : TraceAll IndexInOrder a'.trace := by
    rw [hq]; exact hT.append_quiet_index q hquiet
  refine ⟨?_, ?_, ?_⟩
  · intro pre post m l i htr
    exact (hT' pre _ post htr).1 m l i rfl
  · intro pre post l s htr
    exact (hT' pre _ post htr).2 l s rfl
  · rw [hs, hq, (assignmentsSinceHostChange_append b.trace q
      fun e he => Event.quiet_ne (hquiet e he)).1, hidx]

set_option maxRecDepth 100000 in
/-- Witness for C4: layers 2 and 3 are squashed into the mapping of layer 1 at
indices 0 and 1. -/
theorem assign_index_monotonicity_witness :
    ∃ a', assign (Demo.env true Demo.boxes) Demo.rootWithThreeChildren
        (Demo.start Demo.worldSquashable) = some a'
      ∧ (∀ pre post m l i,
          a'.trace = pre ++ Event.updateSquashingLayerAssignment m l i :: post →
          i = assignmentsSinceHostChange pre ∧ candidateHost pre = some m)
      ∧ a'.trace.filterMap (fun e =>
          match e with
          | Event.updateSquashingLayerAssignment m l i => some (m, l, i)
          | _ => none) = [(1, 2, 0), (1, 3, 1)] :=
  ⟨_, (Option.some_get Demo.assign_squashable_isSome).symm,
    (assign_index_monotonicity (Demo.env true Demo.boxes) (Demo.contract true Demo.boxes)
      (Demo.boxes_noSelfReflection true)
      (Demo.preventingReasonsExcludeSquashing true Demo.boxes) Demo.rootWithThreeChildren
      (Demo.start Demo.worldSquashable) _ (by intro l h; rfl)
      (Option.some_get Demo.assign_squashable_isSome).symm).1,
    by decide!⟩

/-! ## The sparsity bound -/

set_option maxRecDepth 100000 in
/-- C3, the code at the failing input: in the walk of `Demo.rootWithFiveChildren`
layer 2 is squashed into host 1, then layers 4 and 5 into host 3.  The visit of
layer 5 finds `totalAreaOfSquashedRects` = 101, the area of layer 2 included.
Layer 5 is put in the squashing layer of host 3 although the bounding box of the
layers of that host, 4 and 5, has area 21 and their areas sum to 2, and
21 > 6 * 2: `squashingWouldExceedSparsityTolerance` answers false on the state
found and would answer true with the total of host 3 alone. -/
theorem assign_sparsity_stale_total :
    (assign (Demo.env true Demo.sparseBoxes) Demo.rootWithFiveChildren
        (Demo.start Demo.worldTwoHosts)).map (fun a =>
      (a.trace.filterMap (fun e =>
          match e with
          | Event.updateSquashingLayerAssignment m l i => some (m, l, i)
          | _ => none),
        squashedSinceHostChange a.trace,
        a.squashingState.boundingRect.area,
        a.squashingState.totalAreaOfSquashedRects))
      = some ([(1, 2, 0), (3, 4, 0), (3, 5, 1)], [4, 5], 21, 102)
    ∧ (assign (Demo.env true Demo.sparseBoxes) Demo.rootWithFiveChildren
        (Demo.start Demo.worldTwoHosts)).map (fun a =>
      a.trace.filterMap (fun e =>
          match e with
          | Event.visit l s => if l = 5 then some s else none
          | _ => none))
      = some [Demo.stateAtLayerFive]
    ∧ ([4, 5].foldl
          (fun r l => r.unite (Demo.sparseBoxes l).clippedAbsoluteBoundingBox) IntRect.zero).area
        = 21
    ∧ ([4, 5].map (fun l => (Demo.sparseBoxes l).clippedAbsoluteBoundingBox.area)).sum = 2
    ∧ 21 > gSquashingSparsityTolerance * 2
    ∧ squashingWouldExceedSparsityTolerance (Demo.env true Demo.sparseBoxes) 5
        Demo.stateAtLayerFive = false
    ∧ squashingWouldExceedSparsityTolerance (Demo.env true Demo.sparseBoxes) 5
        (SquashingState.mk (some 3) true true 1 ⟨0, 0, 1, 1⟩ 1) = true :=
  ⟨by decide!, by decide!, by decide, by decide, by decide, by decide, by decide⟩

/-! ## The walk has a result -/

theorem getReasonsPreventingSquashing_isSome (env : Env) (w : World) (layer : LayerId)
    (s : SquashingState)
    (h : s.haveAssignedBackingsToEntireSquashingLayerSubtree = true →
      s.mostRecentMapping.isSome = true) :
    ∃ r, getReasonsPreventingSquashing env w layer s = some r := by
  cases hf : s.haveAssignedBackingsToEntireSquashingLayerSubtree
  · exact ⟨_, getReasonsPreventingSquashing_eq_breakPaintOrder env w layer s hf⟩
  · obtain ⟨host, hhost⟩ := Option.isSome_iff_exists.1 (h hf)
    exact ⟨_, getReasonsPreventingSquashing_eq_firstFiringCheck env w layer s host hf hhost⟩

theorem mergeReasonsPreventingSquashing_isSome (env : Env) (layer : LayerId) (a : Assigner)
    (h : a.squashingState.haveAssignedBackingsToEntireSquashingLayerSubtree = true →
      a.squashingState.mostRecentMapping.isSome = true) :
    ∃ b, mergeReasonsPreventingSquashing env layer a = some b := by
  unfold mergeReasonsPreventingSquashing
  split
  · obtain ⟨r, hr⟩ := getReasonsPreventingSquashing_isSome env a.world layer a.squashingState h
    rw [hr]
    simp only
    split <;> exact ⟨_, rfl⟩
  · exact ⟨_, rfl⟩

theorem updateSquashingAssignment_isSome {env : Env} (hc : CompositorContract env)
    (layer : LayerId) (u : CompositingStateTransitionType) (a : Assigner)
    (h : u = PutInSquashingLayer → a.squashingState.mostRecentMapping.isSome = true) :
    ∃ b, updateSquashingAssignment env layer u a = some b := by
  unfold updateSquashingAssignment
  simp only [Assigner.log]
  split
  · rename_i hu
    obtain ⟨m, hm⟩ := Option.isSome_iff_exists.1 (h hu)
    simp only [hm]
    split <;> exact ⟨_, rfl⟩
  · split
    · split
      · rename_i hg
        have := hc.invalidation_keeps a.world layer hg
        obtain ⟨g, hg'⟩ := Option.isSome_iff_exists.1 this
        simp only [performCall, hg']
        exact ⟨_, rfl⟩
      · exact ⟨_, rfl⟩
    · exact ⟨_, rfl⟩

theorem assignSelf_isSome {env : Env} (hc : CompositorContract env)
    (hrs : PreventingReasonsExcludeSquashing env) (layer : LayerId) (a : Assigner)
    (hI : HostKnown a) : ∃ a', assignSelf env layer a = some a' ∧ HostKnown a' := by
  obtain ⟨b, hb⟩ := mergeReasonsPreventingSquashing_isSome env layer
    (a.log (Event.visit layer a.squashingState)) hI.1
  have hexists : ∃ a', assignSelf env layer a = some a' := by
    unfold assignSelf
    simp only [hb, Option.some_bind]
    obtain ⟨hbs, -⟩ := mergeReasonsPreventingSquashing_state env layer _ b hb
    have hput := mergeReasonsPreventingSquashing_put hrs layer _ b hb
    generalize computeCompositedLayerUpdate env b.world layer = u at hput ⊢
    obtain ⟨h2s, -⟩ := allocateOrClearAndInvalidate_state env layer u b
    generalize allocateOrClearAndInvalidate env layer u b = a2 at h2s ⊢
    obtain ⟨h3s, -⟩ := assignReflection_state env layer a2
    generalize assignReflection env layer a2 = a3 at h3s ⊢
    unfold squashIfNeeded
    split
    · obtain ⟨c, hcq⟩ := updateSquashingAssignment_isSome hc layer u a3 (by
        intro hu
        rw [h3s, h2s, hbs]
        exact hI.1 (hput hu))
      rw [hcq]
      exact ⟨_, rfl⟩
    · exact ⟨_, rfl⟩
  obtain ⟨a', h⟩ := hexists
  obtain ⟨e1, e2, e3, -⟩ := assignSelf_state hrs layer a a' h
  exact ⟨a', h, by rw [e1, e3]; exact hI.1, by rw [e1, e2]; exact hI.2⟩

theorem becomeMostRecentMapping_isSome (env : Env) (layer : LayerId) (a : Assigner)
    (hI : HostKnown a) :
    ∃ a', becomeMostRecentMapping env layer a = some a' ∧ HostKnown a' := by
  have hexists : ∃ a', becomeMostRecentMapping env layer a = some a' := by
    unfold becomeMostRecentMapping
    split
    · unfold updateSquashingStateForNewMapping
      simp only [Assigner.log]
      split
      · rename_i hhas
        obtain ⟨m, hm⟩ := Option.isSome_iff_exists.1 (hI.2 hhas)
        simp only [hm]
        exact ⟨_, rfl⟩
      · exact ⟨_, rfl⟩
    · exact ⟨_, rfl⟩
  obtain ⟨a', h⟩ := hexists
  refine ⟨a', h, ?_⟩
  rcases becomeMostRecentMapping_state env layer a a' h with ⟨hs, -⟩ | ⟨hm, hhas, hflag, -⟩
  · rw [HostKnown, hs]; exact hI
  · constructor
    · intro hf; rw [hflag] at hf; cases hf
    · intro hf
      rw [hhas] at hf
      rw [hm, compositedLayerMapping, if_pos hf]
      rfl

theorem finishSubtree_isSome (layer : LayerId) (a : Assigner) (hI : HostKnown a) :
    ∃ a', finishSubtree layer a = some a' ∧ HostKnown a' := by
  have hexists : ∃ a', finishSubtree layer a = some a' := by
    unfold finishSubtree
    simp only [Assigner.log]
    split
    · rename_i hhas
      obtain ⟨m, hm⟩ := Option.isSome_iff_exists.1 (hI.2 hhas)
      simp only [hm]
      split <;> exact ⟨_, rfl⟩
    · exact ⟨_, rfl⟩
  obtain ⟨a', h⟩ := hexists
  obtain ⟨-, e1, e2, -, -⟩ := finishSubtree_state layer a a' h
  refine ⟨a', h, ?_, ?_⟩
  · intro hf
    rw [e1]
    unfold finishSubtree at h
    simp only [Assigner.log] at h
    split at h
    · rename_i hhas
      exact hI.2 hhas
    · cases h
      exact hI.1 hf
  · rw [e1, e2]; exact hI.2

/-- Under the contract of the collaborators and the hypothesis on the reasons
that prevent squashing, `assign` has a result: the walk never dereferences a
null mapping. -/
theorem assign_isSome (env : Env) (hc : CompositorContract env)
    (hrs : PreventingReasonsExcludeSquashing env) (updateRoot : StackingNode) (a : Assigner) :
    ∃ a', assign env updateRoot a = some a' := by
  obtain ⟨b, hb, hI⟩ :=
    assignLayersToBackingsInternal_total env HostKnown
      (fun layer a hI => assignSelf_isSome hc hrs layer a hI)
      (fun layer a hI => becomeMostRecentMapping_isSome env layer a hI)
      (fun layer a hI => finishSubtree_isSome layer a hI)
      updateRoot { a with squashingState := SquashingState.fresh, trace := [] }
      ⟨by simp [SquashingState.fresh], by simp [SquashingState.fresh]⟩
  unfold assign
  simp only []
  rw [hb]
  simp only [Option.some_bind]
  split
  · rename_i hhas
    obtain ⟨m, hm⟩ := Option.isSome_iff_exists.1 (hI.2 hhas)
    simp only [hm]
    exact ⟨_, rfl⟩
  · exact ⟨_, rfl⟩

theorem IntRect.area_lt (r : IntRect) : r.area < 2 ^ 64 := by
  unfold IntRect.area
  have h := Int.emod_lt_of_pos (r.width * r.height) (show (0 : Int) < 2 ^ 64 by norm_num)
  have h0 := Int.emod_nonneg (r.width * r.height) (show (2 : Int) ^ 64 ≠ 0 by norm_num)
  omega

/-! ## The sparsity check and the change of candidate host, as functions -/

/-- C14 as stated fails: with a running total of 3074457345618258602 and a
running rectangle of 3 by 1, a 1 by 1 candidate inside it gives a united area of
3, and 6 times the new total is 18446744073709551618, so in exact arithmetic 3
is not greater; the function answers true, because the product is 2 modulo
`2 ^ 64`. -/
theorem squashingWouldExceedSparsityTolerance_iff_counterexample :
    squashingWouldExceedSparsityTolerance (Demo.env true fun _ => Demo.plainLayer) 1
        Demo.stateNearOverflow = true
    ∧ (Demo.stateNearOverflow.boundingRect.unite
        ((Demo.env true fun _ => Demo.plainLayer).layer 1).clippedAbsoluteBoundingBox).area = 3
    ∧ 6 * (Demo.stateNearOverflow.totalAreaOfSquashedRects
        + ((Demo.env true fun _ => Demo.plainLayer).layer 1).clippedAbsoluteBoundingBox.area)
        = 18446744073709551618
    ∧ ¬ ((Demo.stateNearOverflow.boundingRect.unite
          ((Demo.env true fun _ => Demo.plainLayer).layer 1).clippedAbsoluteBoundingBox).area
        > 6 * (Demo.stateNearOverflow.totalAreaOfSquashedRects
          + ((Demo.env true fun _ => Demo.plainLayer).layer 1).clippedAbsoluteBoundingBox.area))
    ∧ 18446744073709551618 % 2 ^ 64 = 2 := by
  refine ⟨by decide, by decide, by decide, by decide, by decide⟩

/-- C14, amended: `squashingWouldExceedSparsityTolerance` answers true exactly
when the area of the running bounding rectangle united with the bounds of the
candidate is greater than 6 times the running total plus the area of the
candidate, the sum and the product taken modulo `2 ^ 64` as `uint64_t`
arithmetic does; while 6 times the sum stays below `2 ^ 64` this is the
comparison of the exact numbers; the answer is false where the united area is
exactly 6 times the sum; and the check that calls it leaves the squashing state
as it was. -/
theorem squashingWouldExceedSparsityTolerance_iff (env : Env) (candidate : LayerId)
    (s : SquashingState) :
    (squashingWouldExceedSparsityTolerance env candidate s = true ↔
      (s.boundingRect.unite (env.layer candidate).clippedAbsoluteBoundingBox).area
        > (6 * ((s.totalAreaOfSquashedRects
          + (env.layer candidate).clippedAbsoluteBoundingBox.area) % 2 ^ 64)) % 2 ^ 64)
    ∧ (6 * (s.totalAreaOfSquashedRects
          + (env.layer candidate).clippedAbsoluteBoundingBox.area) < 2 ^ 64 →
        (squashingWouldExceedSparsityTolerance env candidate s = true ↔
          (s.boundingRect.unite (env.layer candidate).clippedAbsoluteBoundingBox).area
            > 6 * (s.totalAreaOfSquashedRects
              + (env.layer candidate).clippedAbsoluteBoundingBox.area)))
    ∧ ((s.boundingRect.unite (env.layer candidate).clippedAbsoluteBoundingBox).area
          = 6 * (s.totalAreaOfSquashedRects
            + (env.layer candidate).clippedAbsoluteBoundingBox.area) →
        squashingWouldExceedSparsityTolerance env candidate s = false)
    ∧ (∀ a a', mergeReasonsPreventingSquashing env candidate a = some a' →
        a'.squashingState = a.squashingState) := by
  have hdef : squashingWouldExceedSparsityTolerance env candidate s = true ↔
      (s.boundingRect.unite (env.layer candidate).clippedAbsoluteBoundingBox).area
        > (6 * ((s.totalAreaOfSquashedRects
          + (env.layer candidate).clippedAbsoluteBoundingBox.area) % 2 ^ 64)) % 2 ^ 64 := by
    simp [squashingWouldExceedSparsityTolerance, gSquashingSparsityTolerance]
  have hsmall : 6 * (s.totalAreaOfSquashedRects
        + (env.layer candidate).clippedAbsoluteBoundingBox.area) < 2 ^ 64 →
      (6 * ((s.totalAreaOfSquashedRects
        + (env.layer candidate).clippedAbsoluteBoundingBox.area) % 2 ^ 64)) % 2 ^ 64
        = 6 * (s.totalAreaOfSquashedRects
          + (env.layer candidate).clippedAbsoluteBoundingBox.area) := by
    intro h
    have h1 : s.totalAreaOfSquashedRects
        + (env.layer candidate).clippedAbsoluteBoundingBox.area < 2 ^ 64 := by omega
    rw [Nat.mod_eq_of_lt h1, Nat.mod_eq_of_lt h]
  refine ⟨hdef, ?_, ?_, ?_⟩
  · intro h
    rw [hdef, hsmall h]
  · intro heq
    have h : 6 * (s.totalAreaOfSquashedRects
        + (env.layer candidate).clippedAbsoluteBoundingBox.area) < 2 ^ 64 := by
      rw [← heq]
      exact IntRect.area_lt _
    have : ¬ squashingWouldExceedSparsityTolerance env candidate s = true := by
      rw [hdef, hsmall h, heq]
      exact lt_irrefl _
    simpa using this
  · intro a a' h
    exact (mergeReasonsPreventingSquashing_state env candidate a a' h).1

/-- Witness for C14: against the bounds of a 1 by 1 candidate, a running
rectangle of 6 by 1 is within the tolerance and one of 7 by 1 exceeds it. -/
theorem squashingWouldExceedSparsityTolerance_iff_witness :
    squashingWouldExceedSparsityTolerance (Demo.env true fun _ => Demo.plainLayer) 1
        (Demo.stateWithBounds ⟨0, 0, 6, 1⟩) = false
    ∧ squashingWouldExceedSparsityTolerance (Demo.env true fun _ => Demo.plainLayer) 1
        (Demo.stateWithBounds ⟨0, 0, 7, 1⟩) = true :=
  ⟨(squashingWouldExceedSparsityTolerance_iff (Demo.env true fun _ => Demo.plainLayer) 1
      (Demo.stateWithBounds ⟨0, 0, 6, 1⟩)).2.2.1 (by decide),
   ((squashingWouldExceedSparsityTolerance_iff (Demo.env true fun _ => Demo.plainLayer) 1
      (Demo.stateWithBounds ⟨0, 0, 7, 1⟩)).2.1 (by decide)).2 (by decide)⟩

/-- C15, the code at the failing input: `updateSquashingStateForNewMapping`
empties `boundingRect` and keeps `totalAreaOfSquashedRects`, whatever the prior
state; from the state that the visit of layer 5 finds in the walk of
`Demo.rootWithFiveChildren` it leaves a total of 101, not 0. -/
theorem updateSquashingStateForNewMapping_keeps_total :
    (∀ (env : Env) (m : Option LayerId) (has : Bool) (a : Assigner),
      (updateSquashingStateForNewMapping env m has a).map (fun a' =>
          (a'.squashingState.boundingRect, a'.squashingState.totalAreaOfSquashedRects))
        = (updateSquashingStateForNewMapping env m has a).map (fun _ =>
          (IntRect.zero, a.squashingState.totalAreaOfSquashedRects)))
    ∧ (updateSquashingStateForNewMapping (Demo.env true Demo.sparseBoxes) (some 5) true
          Demo.startAtLayerFive).map (fun a' =>
          (a'.squashingState.mostRecentMapping, a'.squashingState.nextSquashedLayerIndex,
            a'.squashingState.boundingRect, a'.squashingState.totalAreaOfSquashedRects))
        = some (some 5, 0, IntRect.zero, 101) := by
  constructor
  · intro env m has a
    unfold updateSquashingStateForNewMapping
    simp only [Assigner.log]
    split
    · split
      · rfl
      · rfl
    · rfl
  · decide

/-- C16: `updateSquashingStateForNewMapping` calls
`finishAccumulatingSquashingLayers` on the most recent mapping with
`nextSquashedLayerIndex` when `hasMostRecentMapping` is set, and makes no call
otherwise; in both cases it leaves `nextSquashedLayerIndex` = 0,
`mostRecentMapping` and `hasMostRecentMapping` as given, and the subtree flag
false. -/
theorem updateSquashingStateForNewMapping_finishes (env : Env) (m : Option LayerId)
    (has : Bool) (a : Assigner) :
    (a.squashingState.hasMostRecentMapping = false →
      updateSquashingStateForNewMapping env m has a = some
        { a with
          trace := a.trace ++ [Event.updateSquashingStateForNewMapping m has]
          squashingState :=
            { a.squashingState with
              nextSquashedLayerIndex := 0
              boundingRect := IntRect.zero
              mostRecentMapping := m
              hasMostRecentMapping := has
              haveAssignedBackingsToEntireSquashingLayerSubtree := false } })
    ∧ (∀ h, a.squashingState.hasMostRecentMapping = true →
      a.squashingState.mostRecentMapping = some h →
      updateSquashingStateForNewMapping env m has a = some
        { a with
          world := env.perform (ExternalCall.finishAccumulatingSquashingLayers h
            a.squashingState.nextSquashedLayerIndex) a.world
          trace := a.trace ++ [Event.updateSquashingStateForNewMapping m has,
            Event.call (ExternalCall.finishAccumulatingSquashingLayers h
              a.squashingState.nextSquashedLayerIndex)]
          squashingState :=
            { a.squashingState with
              nextSquashedLayerIndex := 0
              boundingRect := IntRect.zero
              mostRecentMapping := m
              hasMostRecentMapping := has
              haveAssignedBackingsToEntireSquashingLayerSubtree := false } }) := by
  constructor
  · intro hno
    simp [updateSquashingStateForNewMapping, Assigner.log, hno]
  · intro h hhas hm
    simp [updateSquashingStateForNewMapping, Assigner.log, hhas, hm, performCall]

/-- Witness for C16: from the state found at layer 5, host 3 is finalized with
index 1 and layer 5 becomes the candidate host. -/
theorem updateSquashingStateForNewMapping_finishes_witness :
    (updateSquashingStateForNewMapping (Demo.env true Demo.sparseBoxes) (some 5) true
        Demo.startAtLayerFive).map (fun a' => a'.trace)
      = some [Event.updateSquashingStateForNewMapping (some 5) true,
          Event.call (ExternalCall.finishAccumulatingSquashingLayers 3 1)] :=
  congrArg (Option.map fun a' => a'.trace)
    ((updateSquashingStateForNewMapping_finishes (Demo.env true Demo.sparseBoxes) (some 5) true
      Demo.startAtLayerFive).2 3 rfl rfl)

/-! ## The effects of `updateSquashingAssignment` -/

/-- C17: on `PutInSquashingLayer`, `updateSquashingAssignment` assigns the layer
into the squashing layer of `mostRecentMapping` at `nextSquashedLayerIndex`; if
the assignment reports a change it marks the host for a graphics-layer update,
clears the clip rects of the layer, appends the layer once to the
paint-invalidation list and sets the changed flag; if it reports none, the list
and the flag stay as they were; for a transition other than
`PutInSquashingLayer` and `RemoveFromSquashingLayer` nothing changes. -/
theorem updateSquashingAssignment_put (env : Env) (layer : LayerId) (a : Assigner) :
    (∀ m w', a.squashingState.mostRecentMapping = some m →
      env.updateSquashingLayerAssignment a.world m layer
        a.squashingState.nextSquashedLayerIndex = (w', true) →
      updateSquashingAssignment env layer PutInSquashingLayer a = some
        { a with
          world := env.perform (ExternalCall.clearClipRectsIncludingDescendants layer)
            (env.perform (ExternalCall.setNeedsGraphicsLayerUpdate m) w')
          layersNeedingPaintInvalidation := a.layersNeedingPaintInvalidation ++ [layer]
          m_layersChanged := true
          trace := a.trace ++ [Event.updateSquashingAssignment layer PutInSquashingLayer,
            Event.updateSquashingLayerAssignment m layer a.squashingState.nextSquashedLayerIndex,
            Event.call (ExternalCall.setNeedsGraphicsLayerUpdate m),
            Event.call (ExternalCall.clearClipRectsIncludingDescendants layer)] })
    ∧ (∀ m w', a.squashingState.mostRecentMapping = some m →
      env.updateSquashingLayerAssignment a.world m layer
        a.squashingState.nextSquashedLayerIndex = (w', false) →
      updateSquashingAssignment env layer PutInSquashingLayer a = some
        { a with
          world := w'
          trace := a.trace ++ [Event.updateSquashingAssignment layer PutInSquashingLayer,
            Event.updateSquashingLayerAssignment m layer
              a.squashingState.nextSquashedLayerIndex] })
    ∧ (∀ u, u ≠ PutInSquashingLayer → u ≠ RemoveFromSquashingLayer →
      updateSquashingAssignment env layer u a = some
        { a with trace := a.trace ++ [Event.updateSquashingAssignment layer u] }) := by
  refine ⟨?_, ?_, ?_⟩
  · intro m w' hm hr
    simp [updateSquashingAssignment, Assigner.log, hm, hr, performCall]
  · intro m w' hm hr
    simp [updateSquashingAssignment, Assigner.log, hm, hr]
  · intro u h1 h2
    simp [updateSquashingAssignment, Assigner.log, h1, h2]

/-- Witness for C17: with host 0 open, layer 1 is assigned at index 0, which is
a change of membership; assigned there again, nothing is recorded. -/
theorem updateSquashingAssignment_put_witness :
    (updateSquashingAssignment (Demo.env true fun _ => Demo.plainLayer) 1 PutInSquashingLayer
        { Demo.start Demo.worldSquashable with squashingState := Demo.openHost }).map
        (fun b => (b.layersNeedingPaintInvalidation, b.m_layersChanged,
          (b.world.layers 1).groupedMapping, (b.world.layers 0).squashedLayers))
      = some ([1], true, some 0, [1])
    ∧ (updateSquashingAssignment (Demo.env true fun _ => Demo.plainLayer) 1 PutInSquashingLayer
        { Demo.start ((Demo.updateSquashingLayerAssignment Demo.worldSquashable 0 1 0).1) with
          squashingState := Demo.openHost }).map
        (fun b => (b.layersNeedingPaintInvalidation, b.m_layersChanged))
      = some ([], false) :=
  ⟨by
    rw [(updateSquashingAssignment_put (Demo.env true fun _ => Demo.plainLayer) 1
      { Demo.start Demo.worldSquashable with squashingState := Demo.openHost }).1 0
      (Demo.updateSquashingLayerAssignment Demo.worldSquashable 0 1 0).1 rfl
      (Prod.ext rfl (by decide!))]
    decide!,
   by
    rw [(updateSquashingAssignment_put (Demo.env true fun _ => Demo.plainLayer) 1
      { Demo.start ((Demo.updateSquashingLayerAssignment Demo.worldSquashable 0 1 0).1) with
        squashingState := Demo.openHost }).2.1 0
      (Demo.updateSquashingLayerAssignment
        (Demo.updateSquashingLayerAssignment Demo.worldSquashable 0 1 0).1 0 1 0).1 rfl
      (Prod.ext rfl (by decide!))]
    rfl⟩

/-- C18: on `RemoveFromSquashingLayer`, `updateSquashingAssignment` leaves the
layer with no grouped mapping and its lost-grouped-mapping flag false, appends
the layer once to the paint-invalidation list and sets the changed flag, also
when the layer had no grouped mapping on entry; the compositor paint
invalidation and the graphics-layer update mark on the old mapping are issued
exactly when the layer had a grouped mapping on entry, and both act on the world
in which the reference is still set. -/
theorem updateSquashingAssignment_remove (env : Env) (layer : LayerId) (a : Assigner) :
    ((a.world.layers layer).groupedMapping = none →
      updateSquashingAssignment env layer RemoveFromSquashingLayer a = some
        { a with
          world := a.world.setLostGroupedMapping layer false
          layersNeedingPaintInvalidation := a.layersNeedingPaintInvalidation ++ [layer]
          m_layersChanged := true
          trace := a.trace ++ [Event.updateSquashingAssignment layer RemoveFromSquashingLayer] })
    ∧ (∀ g, (a.world.layers layer).groupedMapping.isSome = true →
      ((env.perform (ExternalCall.paintInvalidationOnCompositingChange layer) a.world).layers
        layer).groupedMapping = some g →
      updateSquashingAssignment env layer RemoveFromSquashingLayer a = some
        { a with
          world := ((env.perform (ExternalCall.setNeedsGraphicsLayerUpdate g)
            (env.perform (ExternalCall.paintInvalidationOnCompositingChange layer)
              a.world)).setGroupedMapping layer none).setLostGroupedMapping layer false
          layersNeedingPaintInvalidation := a.layersNeedingPaintInvalidation ++ [layer]
          m_layersChanged := true
          trace := a.trace ++ [Event.updateSquashingAssignment layer RemoveFromSquashingLayer,
            Event.call (ExternalCall.paintInvalidationOnCompositingChange layer),
            Event.call (ExternalCall.setNeedsGraphicsLayerUpdate g)] })
    ∧ (∀ b, updateSquashingAssignment env layer RemoveFromSquashingLayer a = some b →
      (b.world.layers layer).groupedMapping = none
        ∧ (b.world.layers layer).lostGroupedMapping = false
        ∧ b.layersNeedingPaintInvalidation = a.layersNeedingPaintInvalidation ++ [layer]
        ∧ b.m_layersChanged = true
        ∧ (Event.call (ExternalCall.paintInvalidationOnCompositingChange layer) ∈
            b.trace.drop a.trace.length ↔ (a.world.layers layer).groupedMapping.isSome = true)
        ∧ ((∃ g, Event.call (ExternalCall.setNeedsGraphicsLayerUpdate g) ∈
            b.trace.drop a.trace.length) ↔ (a.world.layers layer).groupedMapping.isSome = true))
    ∧ (CompositorContract env →
      (updateSquashingAssignment env layer RemoveFromSquashingLayer a).isSome = true) := by
  have hnone : (a.world.layers layer).groupedMapping = none →
      updateSquashingAssignment env layer RemoveFromSquashingLayer a = some
        { a with
          world := a.world.setLostGroupedMapping layer false
          layersNeedingPaintInvalidation := a.layersNeedingPaintInvalidation ++ [layer]
          m_layersChanged := true
          trace := a.trace ++
            [Event.updateSquashingAssignment layer RemoveFromSquashingLayer] } := by
    intro hg
    simp [updateSquashingAssignment, Assigner.log, hg]
  have hsome : ∀ g, (a.world.layers layer).groupedMapping.isSome = true →
      ((env.perform (ExternalCall.paintInvalidationOnCompositingChange layer) a.world).layers
        layer).groupedMapping = some g →
      updateSquashingAssignment env layer RemoveFromSquashingLayer a = some
        { a with
          world := ((env.perform (ExternalCall.setNeedsGraphicsLayerUpdate g)
            (env.perform (ExternalCall.paintInvalidationOnCompositingChange layer)
              a.world)).setGroupedMapping layer none).setLostGroupedMapping layer false
          layersNeedingPaintInvalidation := a.layersNeedingPaintInvalidation ++ [layer]
          m_layersChanged := true
          trace := a.trace ++ [Event.updateSquashingAssignment layer RemoveFromSquashingLayer,
            Event.call (ExternalCall.paintInvalidationOnCompositingChange layer),
            Event.call (ExternalCall.setNeedsGraphicsLayerUpdate g)] } := by
    intro g hg hg'
    simp [updateSquashingAssignment, Assigner.log, hg, hg', performCall]
  refine ⟨hnone, hsome, ?_, ?_⟩
  · intro b hb
    cases hg : (a.world.layers layer).groupedMapping with
    | none =>
      rw [hnone hg] at hb
      cases hb
      simp [World.setLostGroupedMapping, hg]
    | some g0 =>
      have hs : (a.world.layers layer).groupedMapping.isSome = true := by simp [hg]
      cases hg' : ((env.perform (ExternalCall.paintInvalidationOnCompositingChange layer)
          a.world).layers layer).groupedMapping with
      | none =>
        simp [updateSquashingAssignment, Assigner.log, hg, hg', performCall] at hb
      | some g =>
        rw [hsome g hs hg'] at hb
        cases hb
        simp [World.setLostGroupedMapping, World.setGroupedMapping]
  · intro hc
    cases hg : (a.world.layers layer).groupedMapping with
    | none => rw [hnone hg]; rfl
    | some g0 =>
      have hs : (a.world.layers layer).groupedMapping.isSome = true := by simp [hg]
      have hk := hc.invalidation_keeps a.world layer hs
      cases hg' : ((env.perform (ExternalCall.paintInvalidationOnCompositingChange layer)
          a.world).layers layer).groupedMapping with
      | none => rw [hg'] at hk; cases hk
      | some g => rw [hsome g hs hg']; rfl

/-- Witness for C18: layer 1, which lost its grouped mapping and has none, is
recorded without a call to the compositor; layer 2, squashed into the mapping of
layer 1, is taken out after the two calls. -/
theorem updateSquashingAssignment_remove_witness :
    (updateSquashingAssignment (Demo.env true fun _ => Demo.plainLayer) 1
        RemoveFromSquashingLayer (Demo.start (Demo.worldLostGroupedMapping fun _ => 0))).map
        (fun b => (b.layersNeedingPaintInvalidation, b.m_layersChanged, b.trace,
          (b.world.layers 1).lostGroupedMapping))
      = some ([1], true, [Event.updateSquashingAssignment 1 RemoveFromSquashingLayer], false)
    ∧ (updateSquashingAssignment (Demo.env true Demo.boxes) 2
        RemoveFromSquashingLayer (Demo.start Demo.worldPreviouslySquashed)).map
        (fun b => (b.layersNeedingPaintInvalidation, b.m_layersChanged, b.trace,
          (b.world.layers 2).groupedMapping))
      = some ([2], true, [Event.updateSquashingAssignment 2 RemoveFromSquashingLayer,
          Event.call (ExternalCall.paintInvalidationOnCompositingChange 2),
          Event.call (ExternalCall.setNeedsGraphicsLayerUpdate 1)], none) :=
  ⟨by
    rw [(updateSquashingAssignment_remove (Demo.env true fun _ => Demo.plainLayer) 1
      (Demo.start (Demo.worldLostGroupedMapping fun _ => 0))).1 (by decide!)]
    decide!,
   by
    rw [(updateSquashingAssignment_remove (Demo.env true Demo.boxes) 2
      (Demo.start Demo.worldPreviouslySquashed)).2.1 1 (by decide!) (by decide!)]
    decide!⟩

/-! ## A disqualified candidate -/

theorem Demo.requiresCompositing_or_two_pow (reasons k : Nat) (hk : 2 ≤ k) :
    Demo.requiresCompositing (reasons ||| 2 ^ k) = true := by
  have h1 : (reasons ||| 2 ^ k).testBit k = true := by
    simp [Nat.testBit_two_pow_self]
  have h2 : 2 ^ k ≤ reasons ||| 2 ^ k := Nat.testBit_implies_ge h1
  have h3 : 2 ^ 2 ≤ 2 ^ k := Nat.pow_le_pow_right (by decide) hk
  have h4 : 0 < (reasons ||| 2 ^ k) / 4 := Nat.div_pos (le_trans h3 h2) (by decide)
  simp only [Demo.requiresCompositing, Bool.or_eq_true, decide_eq_true_eq]
  exact Or.inr (Nat.pos_iff_ne_zero.1 h4)

theorem Demo.preventingReasonsRequireCompositing (squashing : Bool)
    (layer : LayerId → RenderLayer) :
    PreventingReasonsRequireCompositing (Demo.env squashing layer) := by
  intro reasons r hr
  cases r
  · exact absurd rfl hr
  all_goals exact Demo.requiresCompositing_or_two_pow reasons _ (by simp [Demo.env, Demo.reasonBit])

theorem Env.mask_pos (env : Env) (r : CompositingReason) (h : r ≠ CompositingReasonNone) :
    env.mask r ≠ 0 := fun h0 => h (env.mask_eq_zero r h0)

/-- What the merge does when a reason preventing squashing is found. -/
theorem mergeReasonsPreventingSquashing_found (env : Env) (layer : LayerId) (a : Assigner)
    (r : CompositingReason) (hen : env.layerSquashingEnabled = true)
    (hreq : env.requiresSquashing (a.world.layers layer).compositingReasons = true)
    (hget : getReasonsPreventingSquashing env a.world layer a.squashingState = some r)
    (hr : r ≠ CompositingReasonNone) :
    mergeReasonsPreventingSquashing env layer a = some
      { a with world := (a.world.setCompositingReasons layer
          ((a.world.layers layer).compositingReasons ||| env.mask r)) } := by
  simp [mergeReasonsPreventingSquashing, hen, hreq, hget, env.mask_pos r hr]

theorem World.setCompositingReasons_self (w : World) (layer : LayerId)
    (reasons : CompositingReasons) :
    ((w.setCompositingReasons layer reasons).layers layer).compositingReasons = reasons
    ∧ ((w.setCompositingReasons layer reasons).layers layer).hasCompositedLayerMapping
        = (w.layers layer).hasCompositedLayerMapping
    ∧ (w.setCompositingReasons layer reasons).inCompositingMode = w.inCompositingMode := by
  simp [World.setCompositingReasons]

/-- C11: a layer visited with squashing enabled, whose reasons request squashing
and for which `getReasonsPreventingSquashing` returns a reason other than none,
has that reason merged into its reasons before the transition is computed; the
transition computed in that visit is not `PutInSquashingLayer`, it is
`AllocateOwnCompositedLayerMapping` when the layer can be composited and has no
composited layer mapping, and the visit logs no squashing assignment. -/
theorem assignSelf_disqualified {env : Env} (hrs : PreventingReasonsExcludeSquashing env)
    (hrc : PreventingReasonsRequireCompositing env) (layer : LayerId) (a : Assigner)
    (r : CompositingReason) (hen : env.layerSquashingEnabled = true)
    (hreq : env.requiresSquashing (a.world.layers layer).compositingReasons = true)
    (hget : getReasonsPreventingSquashing env a.world layer a.squashingState = some r)
    (hr : r ≠ CompositingReasonNone) :
    computeCompositedLayerUpdate env (a.world.setCompositingReasons layer
        ((a.world.layers layer).compositingReasons ||| env.mask r)) layer ≠ PutInSquashingLayer
    ∧ (env.canBeComposited layer = true →
        (a.world.layers layer).hasCompositedLayerMapping = false →
        computeCompositedLayerUpdate env (a.world.setCompositingReasons layer
          ((a.world.layers layer).compositingReasons ||| env.mask r)) layer
          = AllocateOwnCompositedLayerMapping)
    ∧ (∀ b, assignSelf env layer a = some b →
        ∃ q, b.trace = a.trace ++ Event.visit layer a.squashingState
            :: Event.allocateOrClearCompositedLayerMapping layer
                (computeCompositedLayerUpdate env (a.world.setCompositingReasons layer
                  ((a.world.layers layer).compositingReasons ||| env.mask r)) layer) :: q
          ∧ ∀ e ∈ q, e.quiet = true)
    ∧ (CompositorContract env → HostKnown a → ∃ b, assignSelf env layer a = some b) := by
  have hput : computeCompositedLayerUpdate env (a.world.setCompositingReasons layer
      ((a.world.layers layer).compositingReasons ||| env.mask r)) layer
        ≠ PutInSquashingLayer := by
    intro hu
    have h2 := (computeCompositedLayerUpdate_eq_put env _ layer hu).2
    rw [(World.setCompositingReasons_self _ _ _).1,
      hrs (a.world.layers layer).compositingReasons r hr] at h2
    cases h2
  refine ⟨hput, ?_, ?_, ?_⟩
  rotate_right
  · intro hc hI
    obtain ⟨b, hb, -⟩ := assignSelf_isSome hc hrs layer a hI
    exact ⟨b, hb⟩
  · intro hcan hno
    have hneeds : needsOwnBacking env (a.world.setCompositingReasons layer
        ((a.world.layers layer).compositingReasons ||| env.mask r)) layer = true := by
      simp [needsOwnBacking, hcan, (World.setCompositingReasons_self _ _ _).1,
        hrc (a.world.layers layer).compositingReasons r hr]
    simp [computeCompositedLayerUpdate, hneeds, (World.setCompositingReasons_self _ _ _).2.1, hno]
  · intro b hb
    unfold assignSelf at hb
    simp only at hb
    rw [mergeReasonsPreventingSquashing_found env layer
      (a.log (Event.visit layer a.squashingState)) r hen hreq hget hr] at hb
    simp only [Option.some_bind, Assigner.log] at hb
    generalize computeCompositedLayerUpdate env (a.world.setCompositingReasons layer
      ((a.world.layers layer).compositingReasons ||| env.mask r)) layer = u at hput hb ⊢
    obtain ⟨-, h2t⟩ := allocateOrClearAndInvalidate_state env layer u
      { a with
        trace := a.trace ++ [Event.visit layer a.squashingState]
        world := (a.world.setCompositingReasons layer
          ((a.world.layers layer).compositingReasons ||| env.mask r)) }
    generalize allocateOrClearAndInvalidate env layer u _ = a2 at h2t hb
    obtain ⟨-, q1, h3t, hq1⟩ := assignReflection_state env layer a2
    generalize assignReflection env layer a2 = a3 at h3t hb
    obtain ⟨-, -, -, hcase⟩ := squashIfNeeded_state env layer u a3 b hb
    rcases hcase with ⟨-, hu, -⟩ | ⟨-, ⟨q2, h4t, hq2⟩, -⟩
    · exact absurd hu hput
    · refine ⟨q1 ++ q2, ?_, ?_⟩
      · rw [h4t, h3t, h2t]
        simp
      · intro e he
        rcases List.mem_append.1 he with h | h
        · exact hq1 e h
        · exact hq2 e h

/-- Witness for C11: a video candidate, layer 1, whose reasons request
squashing, is given a mapping of its own. -/
theorem assignSelf_disqualified_witness :
    getReasonsPreventingSquashing (Demo.env true Demo.videoLayers) (Demo.world fun _ => 2) 1
        Demo.openHost = some CompositingReasonSquashingVideoIsDisallowed
    ∧ computeCompositedLayerUpdate (Demo.env true Demo.videoLayers)
        ((Demo.world fun _ => 2).setCompositingReasons 1
          (2 ||| (Demo.env true Demo.videoLayers).mask
            CompositingReasonSquashingVideoIsDisallowed)) 1
        = AllocateOwnCompositedLayerMapping :=
  ⟨by decide,
   (assignSelf_disqualified (Demo.preventingReasonsExcludeSquashing true Demo.videoLayers)
      (Demo.preventingReasonsRequireCompositing true Demo.videoLayers) 1
      { Demo.start (Demo.world fun _ => 2) with squashingState := Demo.openHost }
      CompositingReasonSquashingVideoIsDisallowed rfl (by decide) (by decide)
      (by decide)).2.1 rfl rfl⟩

/-! ## Compositing reasons across the walk -/

theorem World.setGroupedMapping_reasons (w : World) (layer : LayerId) (m : Option LayerId)
    (l : LayerId) :
    ((w.setGroupedMapping layer m).layers l).compositingReasons
      = (w.layers l).compositingReasons := by
  unfold World.setGroupedMapping
  simp only
  split <;> rfl

theorem World.setLostGroupedMapping_reasons (w : World) (layer : LayerId) (b : Bool)
    (l : LayerId) :
    ((w.setLostGroupedMapping layer b).layers l).compositingReasons
      = (w.layers l).compositingReasons := by
  unfold World.setLostGroupedMapping
  simp only
  split <;> rfl

/-- What the merge does to the reasons of the layers. -/
theorem mergeReasonsPreventingSquashing_reasons (env : Env) (layer : LayerId) (a b : Assigner)
    (h : mergeReasonsPreventingSquashing env layer a = some b) :
    (∀ l, l ≠ layer →
      (b.world.layers l).compositingReasons = (a.world.layers l).compositingReasons)
    ∧ (env.layerSquashingEnabled = true →
        env.requiresSquashing (a.world.layers layer).compositingReasons = true →
        ∃ r, getReasonsPreventingSquashing env a.world layer a.squashingState = some r
          ∧ (b.world.layers layer).compositingReasons
              = (a.world.layers layer).compositingReasons ||| env.mask r)
    ∧ ((env.layerSquashingEnabled = false
          ∨ env.requiresSquashing (a.world.layers layer).compositingReasons = false
          ∨ getReasonsPreventingSquashing env a.world layer a.squashingState
              = some CompositingReasonNone) →
        (b.world.layers layer).compositingReasons = (a.world.layers layer).compositingReasons) := by
  unfold mergeReasonsPreventingSquashing at h
  split at h
  · rename_i hcond
    simp only [Bool.and_eq_true] at hcond
    split at h
    · cases h
    · rename_i r hr
      split at h
      · rename_i hm
        cases h
        refine ⟨?_, ?_, ?_⟩
        · intro l hl
          simp [World.setCompositingReasons, hl]
        · intro _ _
          exact ⟨r, hr, by simp [World.setCompositingReasons]⟩
        · rintro (h1 | h1 | h1)
          · rw [hcond.1] at h1; cases h1
          · rw [hcond.2] at h1; cases h1
          · rw [hr] at h1
            cases h1
            exact absurd rfl hm
      · rename_i hm
        cases h
        have hnone := env.mask_eq_zero r (by simpa using hm)
        subst hnone
        exact ⟨fun _ _ => rfl, fun _ _ => ⟨_, hr, by simp [Env.mask]⟩, fun _ => rfl⟩
  · rename_i hcond
    cases h
    refine ⟨fun _ _ => rfl, ?_, fun _ => rfl⟩
    intro h1 h2
    exact absurd (by simp [h1, h2]) hcond

theorem allocateOrClearAndInvalidate_reasons {env : Env} (hre : ReasonsContract env)
    (layer : LayerId) (u : CompositingStateTransitionType) (a : Assigner) (l : LayerId) :
    ((allocateOrClearAndInvalidate env layer u a).world.layers l).compositingReasons
      = (a.world.layers l).compositingReasons := by
  rw [allocateOrClearAndInvalidate_world]
  exact hre.allocate_reasons _ _ _ _

theorem assignLayersToBackingsForReflectionLayer_reasons {env : Env} (hre : ReasonsContract env)
    (r : LayerId) (a : Assigner) (l : LayerId) (hl : l ≠ r) :
    ((assignLayersToBackingsForReflectionLayer env r a).world.layers l).compositingReasons
      = (a.world.layers l).compositingReasons := by
  have hne : ExternalCall.updateDirectCompositingReasons r
      ≠ ExternalCall.updateDirectCompositingReasons l := by
    intro h
    cases h
    exact hl rfl
  unfold assignLayersToBackingsForReflectionLayer
  simp only
  split <;> split <;>
    simp only [performCall_world, hre.perform_reasons _ _ l hne,
      hre.perform_reasons _ _ l (show ExternalCall.updateGraphicsLayerConfiguration r
        ≠ ExternalCall.updateDirectCompositingReasons l by intro h; cases h),
      hre.allocate_reasons]

theorem assignReflection_reasons {env : Env} (hre : ReasonsContract env)
    (layer : LayerId) (a : Assigner) (l : LayerId)
    (hl : (env.layer layer).reflectionInfo ≠ some l) :
    ((assignReflection env layer a).world.layers l).compositingReasons
      = (a.world.layers l).compositingReasons := by
  unfold assignReflection
  split
  · rename_i r hr
    refine assignLayersToBackingsForReflectionLayer_reasons hre r a l ?_
    rintro rfl
    exact hl hr
  · rfl

theorem updateSquashingAssignment_reasons {env : Env} (hre : ReasonsContract env)
    (layer : LayerId) (u : CompositingStateTransitionType) (a b : Assigner)
    (h : updateSquashingAssignment env layer u a = some b) (l : LayerId) :
    (b.world.layers l).compositingReasons = (a.world.layers l).compositingReasons := by
  unfold updateSquashingAssignment at h
  simp only [Assigner.log] at h
  split at h
  · split at h
    · cases h
    · split at h
      · cases h
        exact hre.assignment_reasons _ _ _ _ _
      · cases h
        simp only [performCall_world]
        rw [hre.perform_reasons _ _ l (by intro h; cases h),
          hre.perform_reasons _ _ l (by intro h; cases h)]
        exact hre.assignment_reasons _ _ _ _ _
  · split at h
    · simp only [Option.map_eq_some'] at h
      obtain ⟨c, hc, rfl⟩ := h
      simp only [World.setLostGroupedMapping_reasons]
      split at hc
      · split at hc
        · cases hc
        · cases hc
          simp only [World.setGroupedMapping_reasons, performCall_world]
          rw [hre.perform_reasons _ _ l (by intro h; cases h),
            hre.perform_reasons _ _ l (by intro h; cases h)]
      · cases hc
        rfl
    · cases h
      rfl

theorem squashIfNeeded_reasons {env : Env} (hre : ReasonsContract env)
    (layer : LayerId) (u : CompositingStateTransitionType) (a b : Assigner)
    (h : squashIfNeeded env layer u a = some b) (l : LayerId) :
    (b.world.layers l).compositingReasons = (a.world.layers l).compositingReasons := by
  rcases squashIfNeeded_world env layer u a b h with hw | ⟨c, hc, hw⟩
  · rw [hw]
  · rw [hw]
    exact updateSquashingAssignment_reasons hre layer u a c hc l

theorem updateSquashingStateForNewMapping_reasons {env : Env} (hre : ReasonsContract env)
    (m : Option LayerId) (has : Bool) (a b : Assigner)
    (h : updateSquashingStateForNewMapping env m has a = some b) (l : LayerId) :
    (b.world.layers l).compositingReasons = (a.world.layers l).compositingReasons := by
  unfold updateSquashingStateForNewMapping at h
  simp only [Option.map_eq_some', Assigner.log] at h
  obtain ⟨c, hc, rfl⟩ := h
  split at hc
  · split at hc
    · cases hc
    · cases hc
      exact hre.perform_reasons _ _ l (by intro h; cases h)
  · cases hc
    rfl

theorem updateTopmostScrollChild_reasons {env : Env} (hre : ReasonsContract env)
    (layer : LayerId) (a : Assigner) (l : LayerId) :
    ((updateTopmostScrollChild env layer a).world.layers l).compositingReasons
      = (a.world.layers l).compositingReasons := by
  have hne : ∀ p q, ExternalCall.setTopmostScrollChild p q
      ≠ ExternalCall.updateDirectCompositingReasons l := by
    intro p q h
    cases h
  unfold updateTopmostScrollChild
  simp only
  split <;> split
  · rw [performCall_world, hre.perform_reasons _ _ l (hne _ _), performCall_world,
      hre.perform_reasons _ _ l (hne _ _)]
  · rw [performCall_world, hre.perform_reasons _ _ l (hne _ _)]
  · rw [performCall_world, hre.perform_reasons _ _ l (hne _ _)]
  · rfl

theorem becomeMostRecentMapping_reasons {env : Env} (hre : ReasonsContract env)
    (layer : LayerId) (a b : Assigner) (h : becomeMostRecentMapping env layer a = some b)
    (l : LayerId) :
    (b.world.layers l).compositingReasons = (a.world.layers l).compositingReasons := by
  unfold becomeMostRecentMapping at h
  simp only [Option.map_eq_some'] at h
  obtain ⟨c, hc, rfl⟩ := h
  rw [updateTopmostScrollChild_reasons hre]
  split at hc
  · exact updateSquashingStateForNewMapping_reasons hre _ _ a c hc l
  · cases hc
    rfl

theorem mergedReasons_snoc (env : Env) (reasons : CompositingReasons)
    (rs : List CompositingReason) (r : CompositingReason) :
    mergedReasons env reasons (rs ++ [r]) = mergedReasons env reasons rs ||| env.mask r := by
  simp [mergedReasons, List.foldl_append]

theorem mergedReasons_testBit (env : Env) (rs : List CompositingReason) :
    ∀ (reasons : CompositingReasons) (i : Nat), reasons.testBit i = true →
      (mergedReasons env reasons rs).testBit i = true := by
  induction rs with
  | nil => intro reasons i h; exact h
  | cons r rs ih =>
    intro reasons i h
    exact ih (reasons ||| env.mask r) i (by simp [Nat.testBit_or, h])

theorem World.modify_reasons (w : World) (layer : LayerId)
    (f : LayerCompositing → LayerCompositing)
    (hf : ∀ lc, (f lc).compositingReasons = lc.compositingReasons) (l : LayerId) :
    ((w.modify layer f).layers l).compositingReasons = (w.layers l).compositingReasons := by
  unfold World.modify
  simp only
  split
  · exact hf _
  · rfl

theorem Demo.reasonsContract (squashing : Bool) (layer : LayerId → RenderLayer) :
    ReasonsContract (Demo.env squashing layer) where
  allocate_reasons := by
    intro w l u l'
    cases u <;> simp only [Demo.env, Demo.allocateOrClearCompositedLayerMapping]
    · exact World.modify_reasons _ _ _ (by intro lc; rfl) _
    · split
      · dsimp only
        exact World.modify_reasons _ _ _ (by intro lc; rfl) _
      · rfl
    · split
      · dsimp only
        exact World.modify_reasons _ _ _ (by intro lc; rfl) _
      · rfl
  assignment_reasons := by
    intro w m l i l'
    simp only [Demo.env, Demo.updateSquashingLayerAssignment]
    rw [World.setGroupedMapping_reasons]
    exact World.modify_reasons _ _ _ (by intro lc; rfl) _
  perform_reasons := by
    intro c w l' _
    cases c <;> simp only [Demo.env, Demo.perform]
    exact World.modify_reasons _ _ _ (by intro lc; rfl) _

theorem Demo.boxes_notAReflection (squashing : Bool) (l : LayerId) :
    NotAReflection (Demo.env squashing Demo.boxes) l := by
  intro x
  simp only [Demo.env, Demo.boxes]
  split <;> simp [Demo.plainLayer]

/-- C19 as stated fails: layer 9, the reflection of the root, is visited by no
pre-check, and the refresh of its direct compositing reasons in the reflection
handling changes its reasons from 0 to 1. -/
theorem assign_reasons_only_merged_counterexample :
    9 ∉ Demo.rootAlone.layers
    ∧ ((Demo.start (Demo.world fun _ => 0)).world.layers 9).compositingReasons = 0
    ∧ (assign (Demo.envRefreshing (fun i => decide (i = 9)) Demo.reflectedRoot) Demo.rootAlone
        (Demo.start (Demo.world fun _ => 0))).map
          (fun a' => (a'.world.layers 9).compositingReasons) = some 1 := by
  refine ⟨by decide, by decide, by decide!⟩

/-! ## Finalization of the candidate hosts -/

theorem KeepsHosts.same (a : Assigner) : KeepsHosts a a := ⟨[], by simp, by simp⟩

theorem KeepsHosts.of_trace_eq {a b : Assigner} (h : b.trace = a.trace) : KeepsHosts a b :=
  ⟨[], by simp [h], by simp⟩

theorem KeepsHosts.followed {a b c : Assigner} (h1 : KeepsHosts a b) (h2 : KeepsHosts b c) :
    KeepsHosts a c := by
  obtain ⟨q1, e1, k1⟩ := h1
  obtain ⟨q2, e2, k2⟩ := h2
  refine ⟨q1 ++ q2, by rw [e2, e1, List.append_assoc], ?_⟩
  intro e he
  rcases List.mem_append.1 he with h | h
  · exact k1 e h
  · exact k2 e h

theorem KeepsHosts.one {a b : Assigner} (e : Event) (h : b.trace = a.trace ++ [e])
    (he : e.keepsHosts = true) : KeepsHosts a b :=
  ⟨[e], h, by simpa using he⟩

theorem allocateOrClearAndInvalidate_keepsHosts (env : Env) (layer : LayerId)
    (u : CompositingStateTransitionType) (a : Assigner) :
    KeepsHosts a (allocateOrClearAndInvalidate env layer u a) :=
  KeepsHosts.one _ (allocateOrClearAndInvalidate_state env layer u a).2 rfl

theorem assignReflection_keepsHosts (env : Env) (layer : LayerId) (a : Assigner) :
    KeepsHosts a (assignReflection env layer a) := by
  unfold assignReflection
  split
  · unfold assignLayersToBackingsForReflectionLayer
    simp only
    split <;> split
    all_goals
      unfold KeepsHosts
      simp only [performCall_state, List.append_assoc]
      refine ⟨_, rfl, ?_⟩
      simp [Event.keepsHosts]
  · exact KeepsHosts.same a

theorem updateSquashingAssignment_keepsHosts (env : Env) (layer : LayerId)
    (u : CompositingStateTransitionType) (a b : Assigner)
    (h : updateSquashingAssignment env layer u a = some b) : KeepsHosts a b := by
  unfold updateSquashingAssignment at h
  simp only [Assigner.log] at h
  split at h
  · split at h
    · cases h
    · split at h
      · cases h
        exact ⟨_, List.append_assoc _ _ _, by simp [Event.keepsHosts]⟩
      · cases h
        unfold KeepsHosts
        simp only [performCall_state, List.append_assoc]
        exact ⟨_, rfl, by simp [Event.keepsHosts]⟩
  · split at h
    · simp only [Option.map_eq_some'] at h
      obtain ⟨c, hc, rfl⟩ := h
      split at hc
      · split at hc
        · cases hc
        · cases hc
          unfold KeepsHosts
          simp only [performCall_state, List.append_assoc]
          exact ⟨_, rfl, by simp [Event.keepsHosts]⟩
      · cases hc
        exact ⟨_, rfl, by simp [Event.keepsHosts]⟩
    · cases h
      exact ⟨_, rfl, by simp [Event.keepsHosts]⟩

theorem squashIfNeeded_keepsHosts (env : Env) (layer : LayerId)
    (u : CompositingStateTransitionType) (a b : Assigner)
    (h : squashIfNeeded env layer u a = some b) : KeepsHosts a b := by
  unfold squashIfNeeded at h
  split at h
  · simp only [Option.map_eq_some'] at h
    obtain ⟨c, hc, rfl⟩ := h
    refine (updateSquashingAssignment_keepsHosts env layer u a c hc).followed
      (KeepsHosts.of_trace_eq ?_)
    split <;> rfl
  · cases h
    exact KeepsHosts.same a

theorem assignSelf_keepsHosts (env : Env) (layer : LayerId) (a b : Assigner)
    (h : assignSelf env layer a = some b) : KeepsHosts a b := by
  unfold assignSelf at h
  simp only [Option.bind_eq_some] at h
  obtain ⟨a1, h1, h2⟩ := h
  have k1 : KeepsHosts a a1 :=
    KeepsHosts.one (Event.visit layer a.squashingState)
      (by rw [(mergeReasonsPreventingSquashing_state env layer _ a1 h1).2]; rfl) rfl
  exact k1.followed ((allocateOrClearAndInvalidate_keepsHosts env layer _ a1).followed
    ((assignReflection_keepsHosts env layer _).followed
      (squashIfNeeded_keepsHosts env layer _ _ b h2)))

theorem updateTopmostScrollChild_keepsHosts (env : Env) (layer : LayerId) (a : Assigner) :
    KeepsHosts a (updateTopmostScrollChild env layer a) := by
  unfold updateTopmostScrollChild
  cases hn : (env.layer layer).needsCompositedScrolling <;>
    cases hp : (env.layer layer).scrollParent
  · exact KeepsHosts.same a
  · exact ⟨[_], rfl, by simp [Event.keepsHosts]⟩
  · exact ⟨[_], rfl, by simp [Event.keepsHosts]⟩
  · rename_i p
    exact ⟨[Event.call (ExternalCall.setTopmostScrollChild p (some layer)),
      Event.call (ExternalCall.setTopmostScrollChild layer none)],
      by simp [performCall_state], by simp [Event.keepsHosts]⟩

theorem finalizations_snoc (tr : List Event) (e : Event) :
    finalizations (tr ++ [e]) =
      match e with
      | Event.call (ExternalCall.finishAccumulatingSquashingLayers m n) =>
        finalizations tr ++ [(m, n)]
      | _ => finalizations tr := by
  unfold finalizations
  rw [List.filterMap_append]
  cases e
  case call c => cases c <;> simp
  all_goals simp

theorem hostLedger_snoc (tr : List Event) (e : Event) :
    hostLedger (tr ++ [e]) = (hostLedger tr).step e := by
  unfold hostLedger
  rw [List.foldl_append]
  rfl

theorem hostLedger_count (tr : List Event) :
    (hostLedger tr).count = assignmentsSinceHostChange tr := by
  induction tr using List.reverseRecOn with
  | nil => rfl
  | append_singleton tr e ih =>
    rw [hostLedger_snoc, assignmentsSinceHostChange_snoc]
    cases e <;> simp [HostLedger.step, ih]

/-- Events that keep the hosts leave the closed hosts, the candidate and the
finalizations as they are. -/
theorem hostLedger_append_keepsHosts (tr q : List Event)
    (hq : ∀ e ∈ q, e.keepsHosts = true) :
    (hostLedger (tr ++ q)).closed = (hostLedger tr).closed
    ∧ (hostLedger (tr ++ q)).current = (hostLedger tr).current
    ∧ finalizations (tr ++ q) = finalizations tr := by
  induction q using List.reverseRecOn with
  | nil => simp
  | append_singleton q e ih =>
    have ih := ih fun e he => hq e (List.mem_append_left _ he)
    have he := hq e (by simp)
    rw [← List.append_assoc, hostLedger_snoc, finalizations_snoc]
    cases e
    case updateSquashingStateForNewMapping m has => cases he
    case call c =>
      cases c
      case finishAccumulatingSquashingLayers m n => cases he
      all_goals exact ih
    all_goals exact ih

theorem HostsFinalized.of_keepsHosts {a b : Assigner} (hJ : HostsFinalized a)
    (hk : KeepsHosts a b)
    (h1 : b.squashingState.hasMostRecentMapping = a.squashingState.hasMostRecentMapping)
    (h2 : b.squashingState.mostRecentMapping = a.squashingState.mostRecentMapping) :
    HostsFinalized b := by
  obtain ⟨q, hq, hk⟩ := hk
  obtain ⟨e1, e2, e3⟩ := hostLedger_append_keepsHosts a.trace q hk
  unfold HostsFinalized
  rw [hq, e1, e2, e3, h1, h2]
  exact hJ

theorem assignSelf_hosts {env : Env} (hrs : PreventingReasonsExcludeSquashing env)
    (layer : LayerId) (a b : Assigner) (hJ : HostsFinalized a)
    (h : assignSelf env layer a = some b) : HostsFinalized b := by
  obtain ⟨e1, e2, -⟩ := assignSelf_state hrs layer a b h
  exact hJ.of_keepsHosts (assignSelf_keepsHosts env layer a b h) e2 e1

theorem finishSubtree_hosts (layer : LayerId) (a b : Assigner) (hJ : HostsFinalized a)
    (h : finishSubtree layer a = some b) : HostsFinalized b := by
  obtain ⟨ht, e1, e2, -⟩ := finishSubtree_state layer a b h
  exact hJ.of_keepsHosts (KeepsHosts.one _ ht rfl) e2 e1

/-- A change of the candidate host finalizes the host it replaces, with the count
of assignments since that host became the candidate. -/
theorem updateSquashingStateForNewMapping_hosts (env : Env) (m : Option LayerId) (has : Bool)
    (a b : Assigner) (hJ : HostsFinalized a)
    (hidx : a.squashingState.nextSquashedLayerIndex = assignmentsSinceHostChange a.trace)
    (h : updateSquashingStateForNewMapping env m has a = some b) :
    HostsFinalized b
    ∧ b.squashingState.hasMostRecentMapping = has
    ∧ b.squashingState.mostRecentMapping = m := by
  obtain ⟨hfin, hcur⟩ := hJ
  unfold updateSquashingStateForNewMapping at h
  simp only [Option.map_eq_some', Assigner.log] at h
  obtain ⟨c, hc, rfl⟩ := h
  refine ⟨?_, rfl, rfl⟩
  unfold HostsFinalized
  simp only
  split at hc
  · rename_i hhas
    split at hc
    · cases hc
    · rename_i old hold
      cases hc
      simp only [performCall_state]
      rw [finalizations_snoc, finalizations_snoc, hostLedger_snoc, hostLedger_snoc]
      simp only [HostLedger.step]
      rw [hcur, hfin, hostLedger_count, ← hidx]
      simp [hhas, hold]
  · rename_i hhas
    cases hc
    rw [finalizations_snoc, hostLedger_snoc]
    simp only [HostLedger.step]
    rw [hcur, hfin]
    simp [hhas]

theorem becomeMostRecentMapping_hosts (env : Env) (layer : LayerId) (a b : Assigner)
    (hJ : HostsFinalized a)
    (hidx : a.squashingState.nextSquashedLayerIndex = assignmentsSinceHostChange a.trace)
    (h : becomeMostRecentMapping env layer a = some b) : HostsFinalized b := by
  unfold becomeMostRecentMapping at h
  simp only [Option.map_eq_some'] at h
  obtain ⟨c, hc, rfl⟩ := h
  have hJc : HostsFinalized c := by
    split at hc
    · exact (updateSquashingStateForNewMapping_hosts env _ _ a c hJ hidx hc).1
    · cases hc
      exact hJ
  have hs := (updateTopmostScrollChild_state env layer c).1
  exact hJc.of_keepsHosts (updateTopmostScrollChild_keepsHosts env layer c)
    (by rw [hs]) (by rw [hs])

/-- C20: `assign` runs the walk from the root with the fresh squashing state
(no candidate host, next index 0, subtree flag false) and afterwards calls
`finishAccumulatingSquashingLayers` on the most recent mapping with the final
`nextSquashedLayerIndex` exactly when a host is still recorded; so, under the
contract of the collaborators and from a world that keeps mutual exclusion, the
finalizations logged are, in order, the mappings that were the candidate host,
one finalization for each time a mapping became the candidate, each with the
number of squashing assignments logged while it was the candidate, all of which
went into it. -/
theorem assign_finalizes_hosts (env : Env) (updateRoot : StackingNode) (a a' : Assigner)
    (h : assign env updateRoot a = some a') :
    (SquashingState.fresh.mostRecentMapping = none
      ∧ SquashingState.fresh.hasMostRecentMapping = false
      ∧ SquashingState.fresh.nextSquashedLayerIndex = 0
      ∧ SquashingState.fresh.haveAssignedBackingsToEntireSquashingLayerSubtree = false)
    ∧ (∃ b, assignLayersToBackingsInternal env updateRoot
          { a with squashingState := SquashingState.fresh, trace := [] } = some b
        ∧ ((b.squashingState.hasMostRecentMapping = false ∧ a' = b)
          ∨ (∃ m, b.squashingState.hasMostRecentMapping = true
              ∧ b.squashingState.mostRecentMapping = some m
              ∧ a' = performCall env (ExternalCall.finishAccumulatingSquashingLayers m
                  b.squashingState.nextSquashedLayerIndex) b)))
    ∧ (CompositorContract env → NoSelfReflection env → PreventingReasonsExcludeSquashing env →
        Exclusive a.world →
        finalizations a'.trace = hostsWithCounts a'.trace
        ∧ ∀ pre post m l i,
            a'.trace = pre ++ Event.updateSquashingLayerAssignment m l i :: post →
            candidateHost pre = some m) := by
  unfold assign at h
  simp only [Option.bind_eq_some] at h
  obtain ⟨b, hb, h⟩ := h
  have hend : (b.squashingState.hasMostRecentMapping = false ∧ a' = b)
      ∨ (∃ m, b.squashingState.hasMostRecentMapping = true
          ∧ b.squashingState.mostRecentMapping = some m
          ∧ a' = performCall env (ExternalCall.finishAccumulatingSquashingLayers m
              b.squashingState.nextSquashedLayerIndex) b) := by
    split at h
    · rename_i hhas
      split at h
      · cases h
      · rename_i m hm
        cases h
        exact Or.inr ⟨m, hhas, hm, rfl⟩
    · rename_i hhas
      cases h
      exact Or.inl ⟨by simpa using hhas, rfl⟩
  refine ⟨⟨rfl, rfl, rfl, rfl⟩, ⟨b, hb, hend⟩, ?_⟩
  intro hc hrefl hrs hex
  obtain ⟨⟨-, hidx, -, hT⟩, hfin, hcur⟩ : IndexInvariant b ∧ HostsFinalized b :=
    assignLayersToBackingsInternal_preserves env (fun x => IndexInvariant x ∧ HostsFinalized x)
      (fun layer x y hI hy =>
        ⟨assignSelf_index hc hrefl hrs layer x y hI.1 hy, assignSelf_hosts hrs layer x y hI.2 hy⟩)
      (fun layer x y hI hy =>
        ⟨becomeMostRecentMapping_index hc layer x y hI.1 hy,
          becomeMostRecentMapping_hosts env layer x y hI.2 hI.1.2.1 hy⟩)
      (fun layer x y hI hy =>
        ⟨finishSubtree_index layer x y hI.1 hy, finishSubtree_hosts layer x y hI.2 hy⟩)
      updateRoot { a with squashingState := SquashingState.fresh, trace := [] } b
      ⟨⟨hex, rfl, rfl, TraceAll.nil _⟩, rfl, rfl⟩ hb
  rcases hend with ⟨hhas, rfl⟩ | ⟨m, hhas, hm, rfl⟩
  · refine ⟨?_, ?_⟩
    · unfold hostsWithCounts
      rw [hfin, hcur]
      simp [hhas]
    · intro pre post m l i htr
      exact ((hT pre _ post htr).1 m l i rfl).2
  · refine ⟨?_, ?_⟩
    · unfold hostsWithCounts
      simp only [performCall_state]
      rw [finalizations_snoc, hostLedger_snoc]
      simp only [HostLedger.step]
      rw [hfin, hcur, hostLedger_count, ← hidx]
      simp [hhas, hm]
    · have hT' : TraceAll IndexInOrder (b.trace ++ [Event.call
          (ExternalCall.finishAccumulatingSquashingLayers m
            b.squashingState.nextSquashedLayerIndex)]) :=
        hT.append_quiet_index _ (by simp [Event.quiet])
      intro pre post m' l i htr
      exact ((hT' pre _ post htr).1 m' l i rfl).2

set_option maxRecDepth 100000 in
theorem Demo.assign_twoHosts_isSome :
    (assign (Demo.env true Demo.sparseBoxes) Demo.rootWithFiveChildren
      (Demo.start Demo.worldTwoHosts)).isSome = true := by
  decide!

theorem Demo.world_exclusive (reasons : LayerId → CompositingReasons) :
    Exclusive (Demo.world reasons) := by
  intro l h
  rfl

theorem Demo.sparseBoxes_noSelfReflection (squashing : Bool) :
    NoSelfReflection (Demo.env squashing Demo.sparseBoxes) := by
  intro l
  simp only [Demo.env, Demo.sparseBoxes]
  split_ifs <;> simp [Demo.plainLayer]

set_option maxRecDepth 100000 in
/-- Witness for C20: in the walk over five children the root, layer 1 and layer
3 are the candidate hosts, finalized with 0, 1 and 2 squashed layers. -/
theorem assign_finalizes_hosts_witness :
    ∃ a', assign (Demo.env true Demo.sparseBoxes) Demo.rootWithFiveChildren
        (Demo.start Demo.worldTwoHosts) = some a'
      ∧ finalizations a'.trace = hostsWithCounts a'.trace
      ∧ hostsWithCounts a'.trace = [(0, 0), (1, 1), (3, 2)] :=
  ⟨_, (Option.some_get Demo.assign_twoHosts_isSome).symm,
    ((assign_finalizes_hosts (Demo.env true Demo.sparseBoxes) Demo.rootWithFiveChildren
      (Demo.start Demo.worldTwoHosts) _ (Option.some_get Demo.assign_twoHosts_isSome).symm).2.2
      (Demo.contract true Demo.sparseBoxes) (Demo.sparseBoxes_noSelfReflection true)
      (Demo.preventingReasonsExcludeSquashing true Demo.sparseBoxes)
      (Demo.world_exclusive _)).1,
    by decide!⟩

/-! ## Scenario A: a root and three squashable siblings -/

theorem computeCompositedLayerUpdate_merged {env : Env}
    (hrc : PreventingReasonsRequireCompositing env) (w : World) (layer : LayerId)
    (r : CompositingReason) (hr : r ≠ CompositingReasonNone)
    (hcan : env.canBeComposited layer = true)
    (hno : (w.layers layer).hasCompositedLayerMapping = false) :
    computeCompositedLayerUpdate env (w.setCompositingReasons layer
      ((w.layers layer).compositingReasons ||| env.mask r)) layer
      = AllocateOwnCompositedLayerMapping := by
  have hneeds : needsOwnBacking env (w.setCompositingReasons layer
      ((w.layers layer).compositingReasons ||| env.mask r)) layer = true := by
    simp [needsOwnBacking, hcan, (World.setCompositingReasons_self _ _ _).1,
      hrc (w.layers layer).compositingReasons r hr]
  simp [computeCompositedLayerUpdate, hneeds, (World.setCompositingReasons_self _ _ _).2.1, hno]

/-- The visit of a squashing candidate that finds the subtree flag unset: the layer
is given a mapping of its own. -/
theorem assignSelf_breaksPaintOrder {env : Env}
    (hrc : PreventingReasonsRequireCompositing env) (hre : ReasonsContract env)
    (hgive : ∀ w l, ((env.allocateOrClearCompositedLayerMapping w l
      AllocateOwnCompositedLayerMapping).1.layers l).hasCompositedLayerMapping = true)
    (c : LayerId) (a : Assigner) (hen : env.layerSquashingEnabled = true)
    (hflag : a.squashingState.haveAssignedBackingsToEntireSquashingLayerSubtree = false)
    (hreq : env.requiresSquashing (a.world.layers c).compositingReasons = true)
    (hcan : env.canBeComposited c = true)
    (hno : (a.world.layers c).hasCompositedLayerMapping = false)
    (hrefl : (env.layer c).reflectionInfo = none) :
    ∃ b, assignSelf env c a = some b
      ∧ b.squashingState = a.squashingState
      ∧ (b.world.layers c).hasCompositedLayerMapping = true
      ∧ b.trace = a.trace ++ [Event.visit c a.squashingState,
          Event.allocateOrClearCompositedLayerMapping c AllocateOwnCompositedLayerMapping,
          Event.updateSquashingAssignment c AllocateOwnCompositedLayerMapping]
      ∧ (∀ l, l ≠ c →
          (b.world.layers l).compositingReasons = (a.world.layers l).compositingReasons)
      ∧ (b.world.layers c).compositingReasons
          = (a.world.layers c).compositingReasons
            ||| env.mask CompositingReasonSquashingWouldBreakPaintOrder := by
  have hget : getReasonsPreventingSquashing env a.world c a.squashingState
      = some CompositingReasonSquashingWouldBreakPaintOrder := by
    simp [getReasonsPreventingSquashing, hflag]
  have hmerge := mergeReasonsPreventingSquashing_found env c
    (a.log (Event.visit c a.squashingState)) CompositingReasonSquashingWouldBreakPaintOrder
    hen hreq hget (by decide)
  have hu := computeCompositedLayerUpdate_merged hrc a.world c
    CompositingReasonSquashingWouldBreakPaintOrder (by decide) hcan hno
  unfold assignSelf
  simp only []
  rw [hmerge]
  simp only [Option.some_bind, Assigner.log]
  rw [hu]
  simp only [assignReflection, hrefl, squashIfNeeded, hen, if_true, updateSquashingAssignment,
    Assigner.log]
  simp only [decide_eq_true_eq, reduceCtorEq, Bool.false_and, Bool.or_self, Bool.false_eq_true,
    if_false, Option.map_some', Option.some.injEq, exists_eq_left', decide_False]
  refine ⟨(allocateOrClearAndInvalidate_state env c _ _).1, ?_, ?_, ?_, ?_⟩
  · rw [allocateOrClearAndInvalidate_world]
    exact hgive _ _
  · rw [(allocateOrClearAndInvalidate_state env c _ _).2]
    simp
  · intro l hl
    rw [allocateOrClearAndInvalidate_reasons hre]
    simp [World.setCompositingReasons, hl]
  · rw [allocateOrClearAndInvalidate_reasons hre]
    simp [World.setCompositingReasons]


/-- The transition of a squashing candidate that needs no mapping of its own. -/
theorem computeCompositedLayerUpdate_squashable (env : Env) (w : World) (c : LayerId)
    (hen : env.layerSquashingEnabled = true)
    (hreq : env.requiresSquashing (w.layers c).compositingReasons = true)
    (hnc : env.requiresCompositing (w.layers c).compositingReasons = false)
    (hroot : (env.layer c).isRootLayer = false)
    (hvis : (env.layer c).subtreeIsInvisible = false) :
    computeCompositedLayerUpdate env w c = PutInSquashingLayer := by
  have hneeds : needsOwnBacking env w c = false := by
    simp [needsOwnBacking, hnc, hen, hroot]
  simp [computeCompositedLayerUpdate, hneeds, hen, hvis, hreq]

/-- A layer without a mapping of its own has none after it is put in a squashing
layer. -/
theorem updateSquashingAssignment_keeps_unmapped {env : Env} (hc : CompositorContract env)
    (c m : LayerId) (a b : Assigner) (hm : a.squashingState.mostRecentMapping = some m)
    (h : updateSquashingAssignment env c PutInSquashingLayer a = some b)
    (hb : (b.world.layers c).hasCompositedLayerMapping = true) :
    (a.world.layers c).hasCompositedLayerMapping = true := by
  unfold updateSquashingAssignment at h
  simp only [Assigner.log, if_true, hm] at h
  split at h
  · cases h
    exact hc.assignment_mapping _ _ _ _ hb
  · cases h
    simp only [performCall_world] at hb
    exact hc.assignment_mapping _ _ _ _
      ((hc.perform_gains _ _ c).1 ((hc.perform_gains _ _ c).1 hb))

/-- A layer put in the squashing layer of the candidate host has the mapping of
the host for grouped mapping; the grouped mappings of the other layers stay. -/
theorem updateSquashingAssignment_put_grouped {env : Env} (hgm : GroupedMappingContract env)
    (c m : LayerId) (a b : Assigner) (hm : a.squashingState.mostRecentMapping = some m)
    (h : updateSquashingAssignment env c PutInSquashingLayer a = some b) :
    (b.world.layers c).groupedMapping = some m
    ∧ ∀ l, l ≠ c → (b.world.layers l).groupedMapping = (a.world.layers l).groupedMapping := by
  unfold updateSquashingAssignment at h
  simp only [Assigner.log, if_true, hm] at h
  split at h
  · cases h
    exact ⟨hgm.assignment_sets _ _ _ _, fun l hl => hgm.assignment_keeps _ _ _ _ l hl⟩
  · cases h
    simp only [performCall_world, hgm.perform_keeps]
    exact ⟨hgm.assignment_sets _ _ _ _, fun l hl => hgm.assignment_keeps _ _ _ _ l hl⟩

/-- The promotion step and the scroll bookkeeping write no grouped mapping. -/
theorem becomeMostRecentMapping_grouped {env : Env} (hgm : GroupedMappingContract env)
    (layer : LayerId) (a b : Assigner) (h : becomeMostRecentMapping env layer a = some b)
    (l : LayerId) :
    (b.world.layers l).groupedMapping = (a.world.layers l).groupedMapping := by
  unfold becomeMostRecentMapping at h
  simp only [Option.map_eq_some'] at h
  obtain ⟨c, hc, rfl⟩ := h
  have hscroll : ∀ x : Assigner,
      ((updateTopmostScrollChild env layer x).world.layers l).groupedMapping
        = (x.world.layers l).groupedMapping := by
    intro x
    unfold updateTopmostScrollChild
    cases (env.layer layer).needsCompositedScrolling <;>
      cases (env.layer layer).scrollParent <;>
        simp only [performCall_world, hgm.perform_keeps, Bool.false_eq_true, if_false, if_true]
  rw [hscroll]
  split at hc
  · unfold updateSquashingStateForNewMapping at hc
    simp only [Option.map_eq_some', Assigner.log] at hc
    obtain ⟨d, hd, rfl⟩ := hc
    split at hd
    · split at hd
      · cases hd
      · cases hd
        simp only [performCall_world, hgm.perform_keeps]
    · cases hd
      rfl
  · cases hc
    rfl

/-- The visit of a squashing candidate that nothing disqualifies: the layer is
put in the squashing layer of the candidate host at the next index, its bounds
are accumulated, and the mapping of the host is its grouped mapping. -/
theorem assignSelf_squashes {env : Env} (hc : CompositorContract env)
    (hre : ReasonsContract env) (hgm : GroupedMappingContract env) (c m : LayerId)
    (a : Assigner)
    (hen : env.layerSquashingEnabled = true)
    (hm : a.squashingState.mostRecentMapping = some m)
    (hget : getReasonsPreventingSquashing env a.world c a.squashingState
      = some CompositingReasonNone)
    (hreq : env.requiresSquashing (a.world.layers c).compositingReasons = true)
    (hnc : env.requiresCompositing (a.world.layers c).compositingReasons = false)
    (hroot : (env.layer c).isRootLayer = false)
    (hvis : (env.layer c).subtreeIsInvisible = false)
    (hrefl : (env.layer c).reflectionInfo = none) :
    ∃ b, assignSelf env c a = some b
      ∧ b.squashingState =
          { a.squashingState with
            nextSquashedLayerIndex := a.squashingState.nextSquashedLayerIndex + 1
            totalAreaOfSquashedRects :=
              (a.squashingState.totalAreaOfSquashedRects
                + (env.layer c).clippedAbsoluteBoundingBox.area) % 2 ^ 64
            boundingRect :=
              a.squashingState.boundingRect.unite (env.layer c).clippedAbsoluteBoundingBox }
      ∧ (b.world.layers c).hasCompositedLayerMapping = false
      ∧ a.trace ⊆ b.trace
      ∧ Event.allocateOrClearCompositedLayerMapping c PutInSquashingLayer ∈ b.trace
      ∧ Event.updateSquashingLayerAssignment m c a.squashingState.nextSquashedLayerIndex
          ∈ b.trace
      ∧ (∀ l, (b.world.layers l).compositingReasons = (a.world.layers l).compositingReasons)
      ∧ (b.world.layers c).groupedMapping = some m
      ∧ ∀ l, l ≠ c → (b.world.layers l).groupedMapping = (a.world.layers l).groupedMapping := by
  have hmerge : mergeReasonsPreventingSquashing env c (a.log (Event.visit c a.squashingState))
      = some (a.log (Event.visit c a.squashingState)) := by
    simp [mergeReasonsPreventingSquashing, Assigner.log, hen, hreq, hget, Env.mask]
  have hu := computeCompositedLayerUpdate_squashable env a.world c hen hreq hnc hroot hvis
  unfold assignSelf
  simp only []
  rw [hmerge]
  simp only [Option.some_bind, Assigner.log]
  rw [hu]
  simp only [assignReflection, hrefl, squashIfNeeded, hen, if_true]
  obtain ⟨h2s, h2t⟩ := allocateOrClearAndInvalidate_state env c PutInSquashingLayer
    { a with trace := a.trace ++ [Event.visit c a.squashingState] }
  have h2w := allocateOrClearAndInvalidate_world env c PutInSquashingLayer
    { a with trace := a.trace ++ [Event.visit c a.squashingState] }
  have h2r := allocateOrClearAndInvalidate_reasons hre c PutInSquashingLayer
    { a with trace := a.trace ++ [Event.visit c a.squashingState] }
  generalize allocateOrClearAndInvalidate env c PutInSquashingLayer
    { a with trace := a.trace ++ [Event.visit c a.squashingState] } = a2 at h2s h2t h2w h2r ⊢
  simp only at h2s h2t h2w h2r
  have hno2 : (a2.world.layers c).hasCompositedLayerMapping = false := by
    rw [h2w]; exact hc.put_removes _ _
  obtain ⟨a3, h3⟩ := updateSquashingAssignment_isSome hc c PutInSquashingLayer a2
    (fun _ => by rw [h2s, hm]; rfl)
  obtain ⟨h3s, h3t⟩ := updateSquashingAssignment_state env c PutInSquashingLayer a2 a3 h3
  have h3r := updateSquashingAssignment_reasons hre c PutInSquashingLayer a2 a3 h3
  have hno3 : (a3.world.layers c).hasCompositedLayerMapping = false := by
    cases hh : (a3.world.layers c).hasCompositedLayerMapping
    · rfl
    · rw [updateSquashingAssignment_keeps_unmapped hc c m a2 a3 (by rw [h2s, hm]) h3 hh] at hno2
      cases hno2
  have htr : ∃ q, a3.trace = a.trace ++ Event.visit c a.squashingState
      :: Event.allocateOrClearCompositedLayerMapping c PutInSquashingLayer
      :: Event.updateSquashingAssignment c PutInSquashingLayer
      :: Event.updateSquashingLayerAssignment m c a.squashingState.nextSquashedLayerIndex
      :: q := by
    rcases h3t with ⟨-, m', q, hm', ht, -⟩ | ⟨hne, -⟩
    · rw [h2s, hm] at hm'
      cases hm'
      refine ⟨q, ?_⟩
      rw [ht, h2t, h2s]
      simp
    · exact absurd rfl hne
  obtain ⟨q, htr⟩ := htr
  obtain ⟨h3g, h3o⟩ := updateSquashingAssignment_put_grouped hgm c m a2 a3
    (by rw [h2s, hm]) h3
  rw [h3]
  simp only [Option.map_some', decide_True, Bool.true_or, if_true]
  refine ⟨_, rfl, ?_, hno3, ?_, ?_, ?_, ?_, h3g, ?_⟩
  · simp only [h3s, h2s]
  · simp only [htr]
    exact List.subset_append_left _ _
  · simp only [htr]
    simp
  · simp only [htr]
    simp
  · intro l
    simp only
    rw [h3r, h2r]
  · intro l hl
    simp only
    rw [h3o l hl, h2w]
    exact hgm.allocate_keeps _ _ _ l hl


theorem updateTopmostScrollChild_subset (env : Env) (layer : LayerId) (a : Assigner) :
    a.trace ⊆ (updateTopmostScrollChild env layer a).trace := by
  obtain ⟨-, q, hq, -⟩ := updateTopmostScrollChild_state env layer a
  rw [hq]
  exact List.subset_append_left _ _

/-- A layer that has a mapping after its visit becomes the candidate host. -/
theorem becomeMostRecentMapping_promotes {env : Env} (hre : ReasonsContract env)
    (c : LayerId) (a : Assigner) (hen : env.layerSquashingEnabled = true)
    (hclm : (a.world.layers c).hasCompositedLayerMapping = true)
    (hK : a.squashingState.hasMostRecentMapping = true →
      a.squashingState.mostRecentMapping.isSome = true) :
    ∃ b, becomeMostRecentMapping env c a = some b
      ∧ b.squashingState =
          { a.squashingState with
            nextSquashedLayerIndex := 0
            boundingRect := IntRect.zero
            mostRecentMapping := some c
            hasMostRecentMapping := true
            haveAssignedBackingsToEntireSquashingLayerSubtree := false }
      ∧ a.trace ⊆ b.trace
      ∧ ∀ l, (b.world.layers l).compositingReasons = (a.world.layers l).compositingReasons := by
  have hex : ∃ b, updateSquashingStateForNewMapping env (some c) true a = some b
      ∧ b.squashingState =
          { a.squashingState with
            nextSquashedLayerIndex := 0
            boundingRect := IntRect.zero
            mostRecentMapping := some c
            hasMostRecentMapping := true
            haveAssignedBackingsToEntireSquashingLayerSubtree := false }
      ∧ a.trace ⊆ b.trace := by
    unfold updateSquashingStateForNewMapping
    simp only [Assigner.log]
    cases hhas : a.squashingState.hasMostRecentMapping
    · refine ⟨_, rfl, rfl, ?_⟩
      exact List.subset_append_left _ _
    · obtain ⟨old, hold⟩ := Option.isSome_iff_exists.1 (hK hhas)
      simp only [hold, if_true, Option.map_some']
      refine ⟨_, rfl, rfl, ?_⟩
      simp only [performCall_state]
      exact (List.subset_append_left _ _).trans (List.subset_append_left _ _)
  obtain ⟨b, hb, hbs, hbt⟩ := hex
  have hbr := updateSquashingStateForNewMapping_reasons hre (some c) true a b hb
  unfold becomeMostRecentMapping
  simp only [hen, hasOwnBackingState, compositedLayerMapping, hclm, Bool.and_self, if_true, hb,
    Option.map_some']
  refine ⟨_, rfl, ?_, ?_, ?_⟩
  · rw [(updateTopmostScrollChild_state env c b).1, hbs]
  · exact hbt.trans (updateTopmostScrollChild_subset env c b)
  · intro l
    rw [updateTopmostScrollChild_reasons hre, hbr]

/-- A layer without a mapping after its visit leaves the candidate host as it is. -/
theorem becomeMostRecentMapping_stays {env : Env} (hre : ReasonsContract env)
    (c : LayerId) (a : Assigner)
    (hclm : (a.world.layers c).hasCompositedLayerMapping = false) :
    ∃ b, becomeMostRecentMapping env c a = some b
      ∧ b.squashingState = a.squashingState
      ∧ a.trace ⊆ b.trace
      ∧ ∀ l, (b.world.layers l).compositingReasons = (a.world.layers l).compositingReasons := by
  unfold becomeMostRecentMapping
  simp only [hasOwnBackingState, hclm, Bool.and_false, Bool.false_eq_true, if_false,
    Option.map_some']
  refine ⟨_, rfl, (updateTopmostScrollChild_state env c a).1,
    updateTopmostScrollChild_subset env c a, ?_⟩
  intro l
  rw [updateTopmostScrollChild_reasons hre]

/-- The end of the subtree of a layer, with a candidate host recorded. -/
theorem finishSubtree_host (c m : LayerId) (a : Assigner)
    (hhas : a.squashingState.hasMostRecentMapping = true)
    (hm : a.squashingState.mostRecentMapping = some m) :
    ∃ b, finishSubtree c a = some b
      ∧ b.squashingState =
          (if m = c then
            { a.squashingState with haveAssignedBackingsToEntireSquashingLayerSubtree := true }
          else a.squashingState)
      ∧ a.trace ⊆ b.trace
      ∧ b.world = a.world := by
  unfold finishSubtree
  simp only [Assigner.log, hhas, hm, if_true]
  split
  · rename_i h
    exact ⟨_, rfl, by simp [h], List.subset_append_left _ _, rfl⟩
  · rename_i h
    exact ⟨_, rfl, by simp [h], List.subset_append_left _ _, rfl⟩

/-- The walk of a childless layer. -/
theorem assignLayersToBackingsInternal_leaf (env : Env) (c : LayerId) (sc : Bool)
    (a : Assigner) :
    assignLayersToBackingsInternal env (StackingNode.mk c sc [] []) a =
      (assignSelf env c a).bind fun a =>
        (becomeMostRecentMapping env c a).bind fun a => finishSubtree c a := by
  rw [assignLayersToBackingsInternal_mk]
  congr 1
  funext a1
  cases sc <;> simp [assignChildren_nil]


/-- Only `PutInSquashingLayer` lets `updateSquashingAssignment` give a layer a
mapping of either kind. -/
theorem updateSquashingAssignment_gains {env : Env} (hc : CompositorContract env)
    (layer : LayerId) (u : CompositingStateTransitionType) (a b : Assigner)
    (hu : u ≠ PutInSquashingLayer) (h : updateSquashingAssignment env layer u a = some b)
    (l : LayerId) : NothingGainedAt a.world b.world l := by
  unfold updateSquashingAssignment at h
  simp only [Assigner.log, hu, if_false] at h
  split at h
  · simp only [Option.map_eq_some'] at h
    obtain ⟨c, hcq, rfl⟩ := h
    refine NothingGainedAt.trans ?_ (NothingGainedAt.setLostGroupedMapping _ _ _ _)
    split at hcq
    · split at hcq
      · cases hcq
      · cases hcq
        exact ((hc.perform_gains _ _ l).trans (hc.perform_gains _ _ l)).trans
          (NothingGainedAt.setGroupedMapping_none _ _ _)
    · cases hcq
      exact NothingGainedAt.refl _ _
  · cases h
    exact NothingGainedAt.refl _ _

/-- The visit of a layer that is no squashing candidate and has no grouped
mapping: the squashing state stays as it is. -/
theorem assignSelf_notCandidate {env : Env} (hc : CompositorContract env)
    (hre : ReasonsContract env) (r : LayerId) (a : Assigner)
    (hreq : env.requiresSquashing (a.world.layers r).compositingReasons = false)
    (hg : (a.world.layers r).groupedMapping = none)
    (hrefl : (env.layer r).reflectionInfo = none) :
    ∃ b, assignSelf env r a = some b
      ∧ b.squashingState = a.squashingState
      ∧ a.trace ⊆ b.trace
      ∧ (∀ l, (b.world.layers l).compositingReasons = (a.world.layers l).compositingReasons)
      ∧ ∀ l, l ≠ r → (b.world.layers l).hasCompositedLayerMapping = true →
          (a.world.layers l).hasCompositedLayerMapping = true := by
  have hmerge : mergeReasonsPreventingSquashing env r (a.log (Event.visit r a.squashingState))
      = some (a.log (Event.visit r a.squashingState)) := by
    simp [mergeReasonsPreventingSquashing, Assigner.log, hreq]
  have hput : computeCompositedLayerUpdate env a.world r ≠ PutInSquashingLayer := by
    intro hu
    have := (computeCompositedLayerUpdate_eq_put env a.world r hu).2
    rw [hreq] at this
    cases this
  unfold assignSelf
  simp only []
  rw [hmerge]
  simp only [Option.some_bind, Assigner.log]
  generalize computeCompositedLayerUpdate env a.world r = u at hput ⊢
  simp only [assignReflection, hrefl]
  obtain ⟨h2s, h2t⟩ := allocateOrClearAndInvalidate_state env r u
    { a with trace := a.trace ++ [Event.visit r a.squashingState] }
  have h2w := allocateOrClearAndInvalidate_world env r u
    { a with trace := a.trace ++ [Event.visit r a.squashingState] }
  have h2r := allocateOrClearAndInvalidate_reasons hre r u
    { a with trace := a.trace ++ [Event.visit r a.squashingState] }
  generalize allocateOrClearAndInvalidate env r u
    { a with trace := a.trace ++ [Event.visit r a.squashingState] } = a2 at h2s h2t h2w h2r ⊢
  simp only at h2s h2t h2w h2r
  have hsub2 : a.trace ⊆ a2.trace := by
    rw [h2t]
    exact (List.subset_append_left _ _).trans (List.subset_append_left _ _)
  have hg2 : (a2.world.layers r).groupedMapping = none := by
    cases hgg : (a2.world.layers r).groupedMapping with
    | none => rfl
    | some g =>
      have := hc.allocate_grouped a.world r u (by rw [← h2w, hgg]; rfl)
      rw [hg] at this
      cases this
  have hmap2 : ∀ l, l ≠ r → (a2.world.layers l).hasCompositedLayerMapping = true →
      (a.world.layers l).hasCompositedLayerMapping = true := by
    intro l hl h
    rw [h2w] at h
    exact (hc.allocate_other a.world r u l hl).1 h
  unfold squashIfNeeded
  split
  · obtain ⟨a3, h3⟩ := updateSquashingAssignment_isSome hc r u a2 (fun h => absurd h hput)
    obtain ⟨h3s, h3t⟩ := updateSquashingAssignment_state env r u a2 a3 h3
    have h3r := updateSquashingAssignment_reasons hre r u a2 a3 h3
    have h3g := updateSquashingAssignment_gains hc r u a2 a3 hput h3
    have hg3 : (a3.world.layers r).groupedMapping = none := by
      cases hgg : (a3.world.layers r).groupedMapping with
      | none => rfl
      | some g =>
        have := (h3g r).2 (by rw [hgg]; rfl)
        rw [hg2] at this
        cases this
    have hsub3 : a2.trace ⊆ a3.trace := by
      rcases h3t with ⟨hu, -⟩ | ⟨-, q, hq, -⟩
      · exact absurd hu hput
      · rw [hq]
        exact List.subset_append_left _ _
    rw [h3]
    simp only [Option.map_some', hg3, Option.isSome_none, Bool.and_false, Bool.or_false,
      decide_eq_true_eq, hput, if_false]
    refine ⟨_, rfl, by rw [h3s, h2s], hsub2.trans hsub3, ?_, ?_⟩
    · intro l
      rw [h3r, h2r]
    · intro l hl h
      exact hmap2 l hl ((h3g l).1 h)
  · exact ⟨_, rfl, h2s, hsub2, h2r, hmap2⟩


/-- Nothing disqualifies a candidate that is nothing special against the host
and keeps within the sparsity tolerance. -/
theorem getReasonsPreventingSquashing_nothingSpecial {env : Env} {c h : LayerId}
    (hns : NothingSpecial env c h) (w : World) (index : Nat) (boundingRect : IntRect)
    (total : Nat)
    (hsp : squashingWouldExceedSparsityTolerance env c
      (SquashingState.withHost h index boundingRect total) = false) :
    getReasonsPreventingSquashing env w c (SquashingState.withHost h index boundingRect total)
      = some CompositingReasonNone := by
  unfold getReasonsPreventingSquashing
  rw [hsp]
  simp [SquashingState.withHost, hns.video, hns.renderPart, hns.reflection, hns.blendMode,
    hns.filter, hns.clippingContainer, hns.opacityAncestor, hns.transformAncestor,
    hns.filterAncestor, hns.clips, hns.scrolls]

/-- The walk of a childless squashing candidate that finds the subtree flag
unset: the layer is given a mapping of its own, which becomes the candidate host
with its whole subtree assigned. -/
theorem assignLayersToBackingsInternal_leaf_own {env : Env}
    (hrc : PreventingReasonsRequireCompositing env) (hre : ReasonsContract env)
    (hgive : ∀ w l, ((env.allocateOrClearCompositedLayerMapping w l
      AllocateOwnCompositedLayerMapping).1.layers l).hasCompositedLayerMapping = true)
    (c : LayerId) (sc : Bool) (a : Assigner) (hen : env.layerSquashingEnabled = true)
    (hflag : a.squashingState.haveAssignedBackingsToEntireSquashingLayerSubtree = false)
    (hK : a.squashingState.hasMostRecentMapping = true →
      a.squashingState.mostRecentMapping.isSome = true)
    (hreq : env.requiresSquashing (a.world.layers c).compositingReasons = true)
    (hcan : env.canBeComposited c = true)
    (hno : (a.world.layers c).hasCompositedLayerMapping = false)
    (hrefl : (env.layer c).reflectionInfo = none) :
    ∃ b, assignLayersToBackingsInternal env (StackingNode.mk c sc [] []) a = some b
      ∧ b.squashingState = SquashingState.withHost c 0 IntRect.zero
          a.squashingState.totalAreaOfSquashedRects
      ∧ a.trace ⊆ b.trace
      ∧ Event.allocateOrClearCompositedLayerMapping c AllocateOwnCompositedLayerMapping ∈ b.trace
      ∧ (∀ l, l ≠ c →
          (b.world.layers l).compositingReasons = (a.world.layers l).compositingReasons)
      ∧ (b.world.layers c).compositingReasons
          = (a.world.layers c).compositingReasons
            ||| env.mask CompositingReasonSquashingWouldBreakPaintOrder := by
  obtain ⟨a1, h1, h1s, h1m, h1t, h1r, h1c⟩ :=
    assignSelf_breaksPaintOrder hrc hre hgive c a hen hflag hreq hcan hno hrefl
  obtain ⟨a2, h2, h2s, h2t, h2r⟩ :=
    becomeMostRecentMapping_promotes hre c a1 hen h1m (by rw [h1s]; exact hK)
  obtain ⟨a3, h3, h3s, h3t, h3w⟩ := finishSubtree_host c c a2 (by rw [h2s]) (by rw [h2s])
  refine ⟨a3, ?_, ?_, ?_, ?_, ?_, ?_⟩
  · rw [assignLayersToBackingsInternal_leaf, h1, Option.some_bind, h2, Option.some_bind, h3]
  · rw [h3s, h2s, h1s]
    simp [SquashingState.withHost]
  · refine List.Subset.trans ?_ (h2t.trans h3t)
    rw [h1t]
    exact List.subset_append_left _ _
  · refine h3t (h2t ?_)
    rw [h1t]
    simp
  · intro l hl
    rw [h3w, h2r, h1r l hl]
  · rw [h3w, h2r, h1c]

/-- The walk of a childless squashing candidate that nothing disqualifies: the
layer is put in the squashing layer of the candidate host at the next index, and
the host stays the candidate. -/
theorem assignLayersToBackingsInternal_leaf_squashed {env : Env}
    (hc : CompositorContract env) (hre : ReasonsContract env)
    (hgm : GroupedMappingContract env) (c m : LayerId) (sc : Bool)
    (a : Assigner) (index : Nat) (boundingRect : IntRect) (total : Nat)
    (hen : env.layerSquashingEnabled = true)
    (hs : a.squashingState = SquashingState.withHost m index boundingRect total)
    (hns : NothingSpecial env c m)
    (hsp : squashingWouldExceedSparsityTolerance env c
      (SquashingState.withHost m index boundingRect total) = false)
    (hreq : env.requiresSquashing (a.world.layers c).compositingReasons = true)
    (hnc : env.requiresCompositing (a.world.layers c).compositingReasons = false) :
    ∃ b, assignLayersToBackingsInternal env (StackingNode.mk c sc [] []) a = some b
      ∧ b.squashingState = SquashingState.withHost m (index + 1)
          (boundingRect.unite (env.layer c).clippedAbsoluteBoundingBox)
          ((total + (env.layer c).clippedAbsoluteBoundingBox.area) % 2 ^ 64)
      ∧ a.trace ⊆ b.trace
      ∧ Event.allocateOrClearCompositedLayerMapping c PutInSquashingLayer ∈ b.trace
      ∧ Event.updateSquashingLayerAssignment m c index ∈ b.trace
      ∧ (∀ l, (b.world.layers l).compositingReasons = (a.world.layers l).compositingReasons)
      ∧ (b.world.layers c).groupedMapping = some m
      ∧ ∀ l, l ≠ c → (b.world.layers l).groupedMapping = (a.world.layers l).groupedMapping := by
  obtain ⟨a1, h1, h1s, h1m, h1t, h1a, h1i, h1r, h1g, h1o⟩ :=
    assignSelf_squashes hc hre hgm c m a hen (by rw [hs]; rfl)
      (by rw [hs]; exact getReasonsPreventingSquashing_nothingSpecial hns _ _ _ _ hsp)
      hreq hnc hns.root hns.visible hns.reflection
  obtain ⟨a2, h2, h2s, h2t, h2r⟩ := becomeMostRecentMapping_stays hre c a1 h1m
  obtain ⟨a3, h3, h3s, h3t, h3w⟩ := finishSubtree_host c m a2
    (by rw [h2s, h1s, hs]; rfl) (by rw [h2s, h1s, hs]; rfl)
  refine ⟨a3, ?_, ?_, ?_, ?_, ?_, ?_, ?_, ?_⟩
  · rw [assignLayersToBackingsInternal_leaf, h1, Option.some_bind, h2, Option.some_bind, h3]
  · rw [h3s, h2s, h1s, hs]
    split <;> simp [SquashingState.withHost]
  · exact h1t.trans (h2t.trans h3t)
  · exact h3t (h2t h1a)
  · refine h3t (h2t ?_)
    rw [hs] at h1i
    exact h1i
  · intro l
    rw [h3w, h2r, h1r]
  · rw [h3w, becomeMostRecentMapping_grouped hgm c a1 a2 h2, h1g]
  · intro l hl
    rw [h3w, becomeMostRecentMapping_grouped hgm c a1 a2 h2, h1o l hl]


/-- C13, amended (scenario A): in a walk with squashing enabled over a root and
three childless siblings whose reasons request squashing, the first child is
visited before the subtree of any candidate host is assigned, so it is
disqualified, `SquashingWouldBreakPaintOrder` being merged into its reasons, is
given `AllocateOwnCompositedLayerMapping`, and its mapping becomes the candidate
host and is so at the end; the second and the third child, nothing special
against the first and within the sparsity tolerance, are given
`PutInSquashingLayer`, are assigned into the squashing layer of the mapping of
the first child at the indices 0 and 1, and end up with that mapping for grouped
mapping; and that mapping is finalized with 2 squashed layers. -/
theorem assign_scenarioA {env : Env} (hc : CompositorContract env)
    (hre : ReasonsContract env) (hgm : GroupedMappingContract env)
    (hrc : PreventingReasonsRequireCompositing env)
    (hgive : ∀ w l, ((env.allocateOrClearCompositedLayerMapping w l
      AllocateOwnCompositedLayerMapping).1.layers l).hasCompositedLayerMapping = true)
    (r c₁ c₂ c₃ : LayerId) (a : Assigner) (hA : ScenarioA env a.world r c₁ c₂ c₃) :
    ∃ a', assign env (rootWithChildren r [c₁, c₂, c₃]) a = some a'
      ∧ Event.allocateOrClearCompositedLayerMapping c₁ AllocateOwnCompositedLayerMapping
          ∈ a'.trace
      ∧ Event.allocateOrClearCompositedLayerMapping c₂ PutInSquashingLayer ∈ a'.trace
      ∧ Event.updateSquashingLayerAssignment c₁ c₂ 0 ∈ a'.trace
      ∧ Event.allocateOrClearCompositedLayerMapping c₃ PutInSquashingLayer ∈ a'.trace
      ∧ Event.updateSquashingLayerAssignment c₁ c₃ 1 ∈ a'.trace
      ∧ Event.call (ExternalCall.finishAccumulatingSquashingLayers c₁ 2) ∈ a'.trace
      ∧ (a'.world.layers c₁).compositingReasons
          = (a.world.layers c₁).compositingReasons
            ||| env.mask CompositingReasonSquashingWouldBreakPaintOrder
      ∧ a'.squashingState.hasMostRecentMapping = true
      ∧ a'.squashingState.mostRecentMapping = some c₁
      ∧ a'.squashingState.nextSquashedLayerIndex = 2
      ∧ (a'.world.layers c₂).groupedMapping = some c₁
      ∧ (a'.world.layers c₃).groupedMapping = some c₁ := by
  have hen := hA.enabled
  obtain ⟨hr1, h21, h31⟩ := hA.distinct
  -- the root
  obtain ⟨a1, h1, h1s, -, h1r, h1m⟩ := assignSelf_notCandidate hc hre r
    { a with squashingState := SquashingState.fresh, trace := [] }
    hA.rootReasons hA.rootGrouped hA.rootReflection
  simp only at h1s h1r h1m
  obtain ⟨a2, h2, h2flag, h2total, h2K, h2r⟩ :
      ∃ a2, becomeMostRecentMapping env r a1 = some a2
        ∧ a2.squashingState.haveAssignedBackingsToEntireSquashingLayerSubtree = false
        ∧ a2.squashingState.totalAreaOfSquashedRects = 0
        ∧ (a2.squashingState.hasMostRecentMapping = true →
            a2.squashingState.mostRecentMapping.isSome = true)
        ∧ ∀ l, (a2.world.layers l).compositingReasons
            = (a1.world.layers l).compositingReasons := by
    cases hclm : (a1.world.layers r).hasCompositedLayerMapping
    · obtain ⟨a2, h2, h2s, -, h2r⟩ := becomeMostRecentMapping_stays hre r a1 hclm
      refine ⟨a2, h2, ?_, ?_, ?_, h2r⟩
      · rw [h2s, h1s]; rfl
      · rw [h2s, h1s]; rfl
      · rw [h2s, h1s]; intro h; cases h
    · obtain ⟨a2, h2, h2s, -, h2r⟩ := becomeMostRecentMapping_promotes hre r a1 hen hclm
        (by rw [h1s]; intro h; cases h)
      refine ⟨a2, h2, ?_, ?_, ?_, h2r⟩
      · rw [h2s]
      · rw [h2s, h1s]; rfl
      · rw [h2s]; intro _; rfl
  have h2m : (a2.world.layers c₁).hasCompositedLayerMapping = false := by
    cases hh : (a2.world.layers c₁).hasCompositedLayerMapping
    · rfl
    · have := h1m c₁ (Ne.symm hr1) ((becomeMostRecentMapping_gains hc r a1 a2 h2 c₁).1 hh)
      rw [hA.firstUnmapped] at this
      cases this
  have hreasons2 : ∀ l, (a2.world.layers l).compositingReasons
      = (a.world.layers l).compositingReasons := fun l => by rw [h2r, h1r]
  -- the first child
  obtain ⟨a3, h3, h3s, -, h3a, h3r, h3c⟩ := assignLayersToBackingsInternal_leaf_own hrc hre hgive
    c₁ false a2 hen h2flag h2K
    (by rw [hreasons2]; exact (hA.squashing c₁ (by simp)).1) hA.firstCan h2m hA.firstReflection
  rw [h2total] at h3s
  -- the second child
  obtain ⟨a4, h4, h4s, h4t, h4a, h4i, h4r, h4g, -⟩ :=
    assignLayersToBackingsInternal_leaf_squashed hc hre hgm
      c₂ c₁ false a3 0 IntRect.zero 0 hen h3s hA.second hA.secondSparsity
    (by rw [h3r c₂ h21, hreasons2]; exact (hA.squashing c₂ (by simp)).1)
    (by rw [h3r c₂ h21, hreasons2]; exact (hA.squashing c₂ (by simp)).2)
  -- the third child
  obtain ⟨a5, h5, h5s, h5t, h5a, h5i, h5r, h5g, h5o⟩ :=
    assignLayersToBackingsInternal_leaf_squashed hc hre hgm
      c₃ c₁ false a4 1 _ _ hen h4s hA.third hA.thirdSparsity
    (by rw [h4r, h3r c₃ h31, hreasons2]; exact (hA.squashing c₃ (by simp)).1)
    (by rw [h4r, h3r c₃ h31, hreasons2]; exact (hA.squashing c₃ (by simp)).2)
  -- the end of the root and of the walk
  obtain ⟨a6, h6, h6s, h6t, h6w⟩ := finishSubtree_host r c₁ a5 (by rw [h5s]; rfl)
    (by rw [h5s]; rfl)
  have h6s' : a6.squashingState.hasMostRecentMapping = true
      ∧ a6.squashingState.mostRecentMapping = some c₁
      ∧ a6.squashingState.nextSquashedLayerIndex = 2 := by
    rw [h6s, h5s]
    split <;> exact ⟨rfl, rfl, rfl⟩
  have hwalk : assignLayersToBackingsInternal env (rootWithChildren r [c₁, c₂, c₃])
      { a with squashingState := SquashingState.fresh, trace := [] } = some a6 := by
    unfold rootWithChildren
    rw [assignLayersToBackingsInternal_mk, h1]
    simp only [Option.some_bind, if_true, assignChildren_nil, h2, List.map_cons, List.map_nil,
      assignChildren_cons, h3, h4, h5, h6]
  refine ⟨performCall env (ExternalCall.finishAccumulatingSquashingLayers c₁ 2) a6, ?_, ?_⟩
  · unfold assign
    simp only [hwalk, Option.some_bind, h6s'.1, h6s'.2.1, h6s'.2.2, if_true]
  · have hsub : a6.trace ⊆ (performCall env
        (ExternalCall.finishAccumulatingSquashingLayers c₁ 2) a6).trace := by
      rw [(performCall_state env _ a6).2]
      exact List.subset_append_left _ _
    have h5g₂ : (a5.world.layers c₂).groupedMapping = some c₁ := by
      by_cases h23 : c₂ = c₃
      · rw [h23]; exact h5g
      · rw [h5o c₂ h23, h4g]
    refine ⟨hsub (h6t (h5t (h4t h3a))), hsub (h6t (h5t h4a)), hsub (h6t (h5t h4i)),
      hsub (h6t h5a), hsub (h6t h5i), ?_, ?_, h6s'.1, h6s'.2.1, h6s'.2.2, ?_, ?_⟩
    · rw [(performCall_state env _ a6).2]
      simp
    · rw [performCall_world, hre.perform_reasons _ _ c₁ (by intro h; cases h), h6w, h5r, h4r,
        h3c, hreasons2]
    · rw [performCall_world, hgm.perform_keeps, h6w]
      exact h5g₂
    · rw [performCall_world, hgm.perform_keeps, h6w]
      exact h5g

theorem Demo.groupedMappingContract (squashing : Bool) (layer : LayerId → RenderLayer) :
    GroupedMappingContract (Demo.env squashing layer) where
  assignment_sets := by
    intro w m l i
    simp [Demo.env, Demo.updateSquashingLayerAssignment, World.setGroupedMapping]
  assignment_keeps := by
    intro w m l i l' h
    simp only [Demo.env, Demo.updateSquashingLayerAssignment, World.setGroupedMapping,
      World.modify, h, if_false]
    split <;> rfl
  allocate_keeps := by
    intro w l u l' h
    cases u <;> simp only [Demo.env, Demo.allocateOrClearCompositedLayerMapping, World.modify]
    · simp [h]
    · split <;> simp [h]
    · split <;> simp [h]
  perform_keeps := by
    intro c w l
    cases c <;> simp only [Demo.env, Demo.perform, World.modify]
    split <;> rfl

theorem Demo.allocate_gives (squashing : Bool) (layer : LayerId → RenderLayer) (w : World)
    (l : LayerId) :
    (((Demo.env squashing layer).allocateOrClearCompositedLayerMapping w l
      AllocateOwnCompositedLayerMapping).1.layers l).hasCompositedLayerMapping = true := by
  simp [Demo.env, Demo.allocateOrClearCompositedLayerMapping, World.modify]

theorem Demo.boxes_nothingSpecial (c : LayerId) (hc : c ≠ 0) :
    NothingSpecial (Demo.env true Demo.boxes) c 1 := by
  constructor <;> simp [Demo.env, Demo.boxes, Demo.plainLayer, hc]

theorem Demo.scenarioA :
    ScenarioA (Demo.env true Demo.boxes) (Demo.start Demo.worldSquashable).world 0 1 2 3 where
  enabled := rfl
  distinct := by decide
  rootReflection := rfl
  rootReasons := by decide
  rootGrouped := rfl
  squashing := by decide
  firstCan := rfl
  firstReflection := rfl
  firstUnmapped := rfl
  second := Demo.boxes_nothingSpecial 2 (by decide)
  third := Demo.boxes_nothingSpecial 3 (by decide)
  secondSparsity := by decide
  thirdSparsity := by decide

/-- C13 as stated fails: in scenario A the first child, layer 1, is not put in a
squashing layer but given a mapping of its own, and ends up with no grouped
mapping; layers 2 and 3 are squashed into the mapping of layer 1, at the indices
0 and 1. With the same boxes 1000 apart, which are no less non-overlapping and
equally sized, layer 3 exceeds the sparsity tolerance and is not squashed
either; nor is it when it clips its compositing descendants, when it scrolls
with respect to layer 1, or when its subtree is invisible. A first child that
cannot be composited, or that has a mapping already, is not given
`AllocateOwnCompositedLayerMapping`. -/
theorem assign_scenarioA_counterexample :
    (assign (Demo.env true Demo.boxes) Demo.rootWithThreeChildren
        (Demo.start Demo.worldSquashable)).map (fun a' =>
          (decide (Event.allocateOrClearCompositedLayerMapping 1 PutInSquashingLayer ∈ a'.trace),
            decide (Event.allocateOrClearCompositedLayerMapping 1
              AllocateOwnCompositedLayerMapping ∈ a'.trace)))
      = some (false, true)
    ∧ (assign (Demo.env true Demo.boxes) Demo.rootWithThreeChildren
        (Demo.start Demo.worldSquashable)).map (fun a' =>
          ((a'.world.layers 1).groupedMapping, (a'.world.layers 2).groupedMapping,
            (a'.world.layers 3).groupedMapping, (a'.world.layers 1).squashedLayers))
      = some (none, some 1, some 1, [2, 3])
    ∧ (assign (Demo.env true Demo.farBoxes) Demo.rootWithThreeChildren
        (Demo.start Demo.worldSquashable)).map (fun a' =>
          (decide (Event.allocateOrClearCompositedLayerMapping 3 PutInSquashingLayer ∈ a'.trace),
            (a'.world.layers 3).groupedMapping))
      = some (false, none)
    ∧ (assign (Demo.envBoxesWith (fun l => decide (l = 3)) (fun _ => false) (fun _ => false)
          (fun _ => false)) Demo.rootWithThreeChildren
        (Demo.start Demo.worldSquashable)).map (fun a' =>
          (decide (Event.allocateOrClearCompositedLayerMapping 3 PutInSquashingLayer ∈ a'.trace),
            (a'.world.layers 3).groupedMapping))
      = some (false, none)
    ∧ (assign (Demo.envBoxesWith (fun _ => false) (fun l => decide (l = 3)) (fun _ => false)
          (fun _ => false)) Demo.rootWithThreeChildren
        (Demo.start Demo.worldSquashable)).map (fun a' =>
          (decide (Event.allocateOrClearCompositedLayerMapping 3 PutInSquashingLayer ∈ a'.trace),
            (a'.world.layers 3).groupedMapping))
      = some (false, none)
    ∧ (assign (Demo.envBoxesWith (fun _ => false) (fun _ => false) (fun l => decide (l = 3))
          (fun _ => false)) Demo.rootWithThreeChildren
        (Demo.start Demo.worldSquashable)).map (fun a' =>
          (decide (Event.allocateOrClearCompositedLayerMapping 3 PutInSquashingLayer ∈ a'.trace),
            (a'.world.layers 3).groupedMapping))
      = some (false, none)
    ∧ (assign (Demo.envBoxesWith (fun _ => false) (fun _ => false) (fun _ => false)
          (fun l => decide (l = 1))) Demo.rootWithThreeChildren
        (Demo.start Demo.worldSquashable)).map (fun a' =>
          (decide (Event.allocateOrClearCompositedLayerMapping 1
              AllocateOwnCompositedLayerMapping ∈ a'.trace),
            (a'.world.layers 2).groupedMapping))
      = some (false, none)
    ∧ (assign (Demo.env true Demo.boxes) Demo.rootWithThreeChildren
        (Demo.start Demo.worldSquashableMapped)).map (fun a' =>
          decide (Event.allocateOrClearCompositedLayerMapping 1
            AllocateOwnCompositedLayerMapping ∈ a'.trace))
      = some false := by
  refine ⟨?_, ?_, ?_, ?_, ?_, ?_, ?_, ?_⟩ <;> decide!

/-- Witness for C13: the scenario with three 10 by 10 boxes side by side. -/
theorem assign_scenarioA_witness :
    ∃ a', assign (Demo.env true Demo.boxes) (rootWithChildren 0 [1, 2, 3])
        (Demo.start Demo.worldSquashable) = some a'
      ∧ Event.allocateOrClearCompositedLayerMapping 1 AllocateOwnCompositedLayerMapping
          ∈ a'.trace
      ∧ Event.allocateOrClearCompositedLayerMapping 2 PutInSquashingLayer ∈ a'.trace
      ∧ Event.updateSquashingLayerAssignment 1 2 0 ∈ a'.trace
      ∧ Event.allocateOrClearCompositedLayerMapping 3 PutInSquashingLayer ∈ a'.trace
      ∧ Event.updateSquashingLayerAssignment 1 3 1 ∈ a'.trace
      ∧ Event.call (ExternalCall.finishAccumulatingSquashingLayers 1 2) ∈ a'.trace
      ∧ (a'.world.layers 1).compositingReasons
          = ((Demo.start Demo.worldSquashable).world.layers 1).compositingReasons
            ||| (Demo.env true Demo.boxes).mask CompositingReasonSquashingWouldBreakPaintOrder
      ∧ a'.squashingState.hasMostRecentMapping = true
      ∧ a'.squashingState.mostRecentMapping = some 1
      ∧ a'.squashingState.nextSquashedLayerIndex = 2
      ∧ (a'.world.layers 2).groupedMapping = some 1
      ∧ (a'.world.layers 3).groupedMapping = some 1 :=
  assign_scenarioA (Demo.contract true Demo.boxes) (Demo.reasonsContract true Demo.boxes)
    (Demo.groupedMappingContract true Demo.boxes)
    (Demo.preventingReasonsRequireCompositing true Demo.boxes)
    (Demo.allocate_gives true Demo.boxes) 0 1 2 3 (Demo.start Demo.worldSquashable)
    Demo.scenarioA

/-! ## A second run of the walk -/

theorem World.ext_layers {w w' : World} (h1 : ∀ l, w.layers l = w'.layers l)
    (h2 : w.inCompositingMode = w'.inCompositingMode) : w = w' := by
  cases w; cases w'
  simp only [World.mk.injEq]
  exact ⟨funext h1, h2⟩

theorem Demo.settlingContract (squashing : Bool) (layer : LayerId → RenderLayer) :
    SettlingContract (Demo.env squashing layer) where
  containing_world := by intros; rfl
  allocate_frame := by
    intro w l u l' h
    cases u <;> simp [Demo.env, Demo.allocateOrClearCompositedLayerMapping, SameLayerData,
      World.modify, h]
    all_goals split <;> simp [h]
  allocate_mode := by
    intro w l u h
    cases u <;> simp [Demo.env, Demo.allocateOrClearCompositedLayerMapping, World.modify, h]
    all_goals split <;> simp [h]
  allocate_own := by
    intro w l
    simp [Demo.env, Demo.allocateOrClearCompositedLayerMapping, World.modify]
  allocate_clear := by
    intro w l u hu
    rcases hu with rfl | rfl <;>
      simp only [Demo.env, Demo.allocateOrClearCompositedLayerMapping, World.modify]
    all_goals
      split
      · simp
      · rename_i h
        simpa using h
  allocate_none := by
    intro w l u hu
    rcases hu with rfl | rfl <;> rfl
  allocate_unmapped := by
    intro w l h
    simp [Demo.env, Demo.allocateOrClearCompositedLayerMapping, h]
  assignment_frame := by
    intro w m l i l' h
    simp only [Demo.env, Demo.updateSquashingLayerAssignment, SameLayerData, World.modify,
      World.setGroupedMapping, h, if_false]
    by_cases hm : l' = m <;> simp [hm]
  assignment_mode := by
    intro w m l i h
    exact h
  assignment_own := by
    intro w m l i
    simp only [Demo.env, Demo.updateSquashingLayerAssignment, World.modify,
      World.setGroupedMapping, if_true]
    by_cases hm : l = m <;> simp [hm]
  assignment_held := by
    intro w m l i hi hg
    have hlt : i < (w.layers m).squashedLayers.length := by
      by_contra hge
      rw [List.get?_eq_none.2 (by omega)] at hi
      cases hi
    simp only [Demo.env, Demo.updateSquashingLayerAssignment, hlt, if_true, hi, ne_eq,
      not_true_eq_false, if_false]
    refine Prod.ext (World.ext_layers ?_ rfl) rfl
    intro x
    simp only [World.setGroupedMapping, World.modify]
    by_cases hx : x = l
    · subst hx
      by_cases hxm : x = m
      · subst hxm
        simp [← hg]
      · simp [hxm, ← hg]
    · by_cases hxm : x = m
      · subst hxm
        simp [hx]
      · simp [hx, hxm]
  perform_frame := by
    intro c w l
    cases c <;> simp only [Demo.env, Demo.perform, SameLayerData, World.modify]
    all_goals first | (split <;> simp) | simp
  perform_mode := by
    intro c w h
    cases c <;> exact h
  finish_held := by
    intro w m n h
    simp only [Demo.env, Demo.perform]
    refine World.ext_layers ?_ rfl
    intro x
    simp only [World.modify]
    split
    · rename_i hx
      subst hx
      rw [List.take_of_length_le h]
    · rfl
  scroll_none := by intros; rfl


theorem SameLayerData.unchanged (w : World) (l : LayerId) : SameLayerData w w l :=
  ⟨rfl, rfl, rfl, rfl⟩

theorem SameLayerData.chain {w₁ w₂ w₃ : World} {l : LayerId} (h₁ : SameLayerData w₁ w₂ l)
    (h₂ : SameLayerData w₂ w₃ l) : SameLayerData w₁ w₃ l :=
  ⟨h₂.1.trans h₁.1, h₂.2.1.trans h₁.2.1, h₂.2.2.1.trans h₁.2.2.1, h₂.2.2.2.trans h₁.2.2.2⟩

theorem SameLayerData.reversed {w₁ w₂ : World} {l : LayerId} (h : SameLayerData w₁ w₂ l) :
    SameLayerData w₂ w₁ l :=
  ⟨h.1.symm, h.2.1.symm, h.2.2.1.symm, h.2.2.2.symm⟩

theorem needsOwnBacking_congr (env : Env) (w w' : World) (l : LayerId)
    (hr : (w'.layers l).compositingReasons = (w.layers l).compositingReasons)
    (hm : w'.inCompositingMode = w.inCompositingMode) :
    needsOwnBacking env w' l = needsOwnBacking env w l := by
  unfold needsOwnBacking
  rw [hr, hm]

theorem computeCompositedLayerUpdate_congr (env : Env) (w w' : World) (l : LayerId)
    (h : SameLayerData w w' l) (hm : w'.inCompositingMode = w.inCompositingMode) :
    computeCompositedLayerUpdate env w' l = computeCompositedLayerUpdate env w l := by
  unfold computeCompositedLayerUpdate
  rw [needsOwnBacking_congr env w w' l h.1 hm, h.1, h.2.1, h.2.2.1, h.2.2.2]

theorem getReasonsPreventingSquashing_world {env : Env} (hsc : SettlingContract env)
    (w w' : World) (l : LayerId) (s : SquashingState) :
    getReasonsPreventingSquashing env w l s = getReasonsPreventingSquashing env w' l s := by
  unfold getReasonsPreventingSquashing
  simp only [hsc.containing_world w w']

/-- What the transition computed for a layer tells about the layer. -/
theorem computeCompositedLayerUpdate_cases (env : Env) (w : World) (l : LayerId) :
    (computeCompositedLayerUpdate env w l = NoCompositingStateChange
      ∧ ((needsOwnBacking env w l = true ∧ (w.layers l).hasCompositedLayerMapping = true)
        ∨ (needsOwnBacking env w l = false ∧ (w.layers l).hasCompositedLayerMapping = false
          ∧ (env.layerSquashingEnabled = true →
              ((env.layer l).subtreeIsInvisible = true
                ∨ env.requiresSquashing (w.layers l).compositingReasons = false)
              ∧ (w.layers l).groupedMapping = none
              ∧ (w.layers l).lostGroupedMapping = false))))
    ∨ (computeCompositedLayerUpdate env w l = AllocateOwnCompositedLayerMapping
      ∧ needsOwnBacking env w l = true ∧ (w.layers l).hasCompositedLayerMapping = false)
    ∨ (computeCompositedLayerUpdate env w l = RemoveOwnCompositedLayerMapping
      ∧ needsOwnBacking env w l = false ∧ (w.layers l).hasCompositedLayerMapping = true
      ∧ (env.layerSquashingEnabled = true →
          ((env.layer l).subtreeIsInvisible = true
            ∨ env.requiresSquashing (w.layers l).compositingReasons = false)
          ∧ (w.layers l).groupedMapping = none ∧ (w.layers l).lostGroupedMapping = false))
    ∨ (computeCompositedLayerUpdate env w l = PutInSquashingLayer
      ∧ needsOwnBacking env w l = false ∧ env.layerSquashingEnabled = true
      ∧ (env.layer l).subtreeIsInvisible = false
      ∧ env.requiresSquashing (w.layers l).compositingReasons = true)
    ∨ (computeCompositedLayerUpdate env w l = RemoveFromSquashingLayer
      ∧ needsOwnBacking env w l = false ∧ env.layerSquashingEnabled = true
      ∧ ((env.layer l).subtreeIsInvisible = true
        ∨ env.requiresSquashing (w.layers l).compositingReasons = false)
      ∧ ((w.layers l).groupedMapping.isSome = true
        ∨ (w.layers l).lostGroupedMapping = true)) := by
  unfold computeCompositedLayerUpdate
  cases hN : needsOwnBacking env w l <;> cases hc : (w.layers l).hasCompositedLayerMapping <;>
    cases hs : env.layerSquashingEnabled <;>
    cases hv : (env.layer l).subtreeIsInvisible <;>
    cases hq : env.requiresSquashing (w.layers l).compositingReasons <;>
    cases hg : (w.layers l).groupedMapping <;>
    cases hl : (w.layers l).lostGroupedMapping <;> simp

/-- A visible layer that needs no mapping of its own and whose reasons request
squashing is put in a squashing layer. -/
theorem computeCompositedLayerUpdate_put (env : Env) (w : World) (l : LayerId)
    (hN : needsOwnBacking env w l = false) (hs : env.layerSquashingEnabled = true)
    (hv : (env.layer l).subtreeIsInvisible = false)
    (hq : env.requiresSquashing (w.layers l).compositingReasons = true) :
    computeCompositedLayerUpdate env w l = PutInSquashingLayer := by
  simp [computeCompositedLayerUpdate, hN, hs, hv, hq]

/-- A layer that keeps its needs and has the mapping it needs, or none when it
needs none and no squashing row matches, is given no change. -/
theorem computeCompositedLayerUpdate_settled (env : Env) (w : World) (l : LayerId)
    (h : (needsOwnBacking env w l = true ∧ (w.layers l).hasCompositedLayerMapping = true)
      ∨ (needsOwnBacking env w l = false ∧ (w.layers l).hasCompositedLayerMapping = false
        ∧ (env.layerSquashingEnabled = true →
            ((env.layer l).subtreeIsInvisible = true
              ∨ env.requiresSquashing (w.layers l).compositingReasons = false)
            ∧ (w.layers l).groupedMapping = none ∧ (w.layers l).lostGroupedMapping = false))) :
    computeCompositedLayerUpdate env w l = NoCompositingStateChange := by
  unfold computeCompositedLayerUpdate
  rcases h with ⟨hN, hc⟩ | ⟨hN, hc, hs⟩
  · simp [hN, hc]
  · cases hsq : env.layerSquashingEnabled
    · simp [hN, hc]
    · obtain ⟨he, hg, hl⟩ := hs hsq
      rcases he with he | he <;> simp [hN, hc, he, hg, hl]


theorem SameLayerData.of_setGroupedMapping (w : World) (layer : LayerId) (m : Option LayerId)
    (l : LayerId) (hl : l ≠ layer) : SameLayerData w (w.setGroupedMapping layer m) l := by
  simp [SameLayerData, World.setGroupedMapping, hl]

theorem SameLayerData.of_setLostGroupedMapping (w : World) (layer : LayerId) (b : Bool)
    (l : LayerId) (hl : l ≠ layer) : SameLayerData w (w.setLostGroupedMapping layer b) l := by
  simp [SameLayerData, World.setLostGroupedMapping, hl]

/-- What `updateSquashingAssignment` does to the layers. -/
theorem updateSquashingAssignment_data {env : Env} (hsc : SettlingContract env)
    (l : LayerId) (u : CompositingStateTransitionType) (a b : Assigner)
    (h : updateSquashingAssignment env l u a = some b) :
    (∀ l', l' ≠ l → SameLayerData a.world b.world l')
    ∧ (a.world.inCompositingMode = true → b.world.inCompositingMode = true)
    ∧ (b.world.layers l).hasCompositedLayerMapping = (a.world.layers l).hasCompositedLayerMapping
    ∧ (u = PutInSquashingLayer → ∃ m, a.squashingState.mostRecentMapping = some m
        ∧ (b.world.layers l).groupedMapping = some m
        ∧ (b.world.layers l).lostGroupedMapping = (a.world.layers l).lostGroupedMapping
        ∧ Event.updateSquashingLayerAssignment m l a.squashingState.nextSquashedLayerIndex
            ∈ b.trace)
    ∧ (u = RemoveFromSquashingLayer →
        (b.world.layers l).groupedMapping = none ∧ (b.world.layers l).lostGroupedMapping = false)
    ∧ (u ≠ PutInSquashingLayer → u ≠ RemoveFromSquashingLayer → b.world = a.world) := by
  unfold updateSquashingAssignment at h
  simp only [Assigner.log] at h
  split at h
  · rename_i hu
    subst hu
    split at h
    · cases h
    · rename_i m hm
      have hA := hsc.assignment_own a.world m l a.squashingState.nextSquashedLayerIndex
      have hF := hsc.assignment_frame a.world m l a.squashingState.nextSquashedLayerIndex
      have hM := hsc.assignment_mode a.world m l a.squashingState.nextSquashedLayerIndex
      split at h
      · cases h
        refine ⟨hF, hM, hA.2.1, fun _ => ⟨m, hm, hA.1, hA.2.2, by simp⟩, (fun h => by cases h),
          fun h => absurd rfl h⟩
      · cases h
        simp only [performCall_world, performCall_state]
        have hP : ∀ x, SameLayerData
            (env.updateSquashingLayerAssignment a.world m l
              a.squashingState.nextSquashedLayerIndex).1
            (env.perform (ExternalCall.clearClipRectsIncludingDescendants l)
              (env.perform (ExternalCall.setNeedsGraphicsLayerUpdate m)
                (env.updateSquashingLayerAssignment a.world m l
                  a.squashingState.nextSquashedLayerIndex).1)) x :=
          fun x => (hsc.perform_frame _ _ x).chain (hsc.perform_frame _ _ x)
        refine ⟨fun l' hl' => (hF l' hl').chain (hP l'),
          fun hm' => hsc.perform_mode _ _ (hsc.perform_mode _ _ (hM hm')),
          (hP l).2.1.trans hA.2.1,
          fun _ => ⟨m, hm, (hP l).2.2.1.trans hA.1, (hP l).2.2.2.trans hA.2.2, by simp⟩,
          (fun h => by cases h), fun h => absurd rfl h⟩
  · rename_i hu
    split at h
    · rename_i hu'
      subst hu'
      simp only [Option.map_eq_some'] at h
      obtain ⟨c, hc, rfl⟩ := h
      have hcd : (∀ x, x ≠ l → SameLayerData a.world c.world x)
          ∧ (a.world.inCompositingMode = true → c.world.inCompositingMode = true)
          ∧ (c.world.layers l).hasCompositedLayerMapping
              = (a.world.layers l).hasCompositedLayerMapping
          ∧ (c.world.layers l).groupedMapping = none := by
        split at hc
        · split at hc
          · cases hc
          · rename_i hg g hg'
            cases hc
            simp only [performCall_world]
            have hP : ∀ x, SameLayerData a.world
                (env.perform (ExternalCall.setNeedsGraphicsLayerUpdate g)
                  (env.perform (ExternalCall.paintInvalidationOnCompositingChange l) a.world))
                x :=
              fun x => (hsc.perform_frame _ _ x).chain (hsc.perform_frame _ _ x)
            refine ⟨fun x hx => (hP x).chain (SameLayerData.of_setGroupedMapping _ _ _ _ hx),
              fun hm => hsc.perform_mode _ _ (hsc.perform_mode _ _ hm), ?_, ?_⟩
            · simp only [World.setGroupedMapping, if_true]
              exact (hP l).2.1
            · simp [World.setGroupedMapping]
        · rename_i hg
          cases hc
          refine ⟨fun x _ => SameLayerData.unchanged _ _, id, rfl, ?_⟩
          cases hgg : (a.world.layers l).groupedMapping with
          | none => rfl
          | some g => simp [hgg] at hg
      obtain ⟨h1, h2, h3, h4⟩ := hcd
      refine ⟨fun x hx => (h1 x hx).chain (SameLayerData.of_setLostGroupedMapping _ _ _ _ hx),
        h2, ?_, (fun h => by cases h), fun _ => ⟨?_, ?_⟩, fun _ h => absurd rfl h⟩
      · simp only [World.setLostGroupedMapping, if_true]
        exact h3
      · simp only [World.setLostGroupedMapping, if_true]
        exact h4
      · simp [World.setLostGroupedMapping]
    · cases h
      exact ⟨fun x _ => SameLayerData.unchanged _ _, id, rfl, fun h => absurd h hu,
        fun h => absurd h (by assumption), fun _ _ => rfl⟩


/-- What the merge of a reason does to the layers: it writes the reasons of the
layer, when a reason is found, and nothing else. -/
theorem mergeReasonsPreventingSquashing_data (env : Env) (l : LayerId) (a b : Assigner)
    (h : mergeReasonsPreventingSquashing env l a = some b) :
    b.squashingState = a.squashingState ∧ b.trace = a.trace
    ∧ b.world.inCompositingMode = a.world.inCompositingMode
    ∧ (∀ l', (b.world.layers l').hasCompositedLayerMapping
          = (a.world.layers l').hasCompositedLayerMapping
        ∧ (b.world.layers l').groupedMapping = (a.world.layers l').groupedMapping
        ∧ (b.world.layers l').lostGroupedMapping = (a.world.layers l').lostGroupedMapping)
    ∧ (∀ l', l' ≠ l →
        (b.world.layers l').compositingReasons = (a.world.layers l').compositingReasons)
    ∧ (((b.world.layers l).compositingReasons = (a.world.layers l).compositingReasons
        ∧ (env.layerSquashingEnabled = true →
            env.requiresSquashing (a.world.layers l).compositingReasons = true →
            getReasonsPreventingSquashing env a.world l a.squashingState
              = some CompositingReasonNone))
      ∨ ∃ r, r ≠ CompositingReasonNone
        ∧ (b.world.layers l).compositingReasons
            = (a.world.layers l).compositingReasons ||| env.mask r) := by
  obtain ⟨hs, ht⟩ := mergeReasonsPreventingSquashing_state env l a b h
  obtain ⟨hother, hput, hsame⟩ := mergeReasonsPreventingSquashing_reasons env l a b h
  refine ⟨hs, ht, ?_, ?_, hother, ?_⟩
  · unfold mergeReasonsPreventingSquashing at h
    split at h
    · split at h
      · cases h
      · split at h <;> cases h <;> rfl
    · cases h; rfl
  · intro l'
    unfold mergeReasonsPreventingSquashing at h
    split at h
    · split at h
      · cases h
      · split at h
        · cases h
          by_cases hl : l' = l <;> simp [World.setCompositingReasons, hl]
        · cases h
          exact ⟨rfl, rfl, rfl⟩
    · cases h
      exact ⟨rfl, rfl, rfl⟩
  · by_cases hen : env.layerSquashingEnabled = true
    · by_cases hreq : env.requiresSquashing (a.world.layers l).compositingReasons = true
      · obtain ⟨r, hr, hb⟩ := hput hen hreq
        by_cases hn : r = CompositingReasonNone
        · subst hn
          exact Or.inl ⟨hsame (Or.inr (Or.inr hr)), fun _ _ => hr⟩
        · exact Or.inr ⟨r, hn, hb⟩
      · exact Or.inl ⟨hsame (Or.inr (Or.inl (by simpa using hreq))),
          fun _ h => absurd h hreq⟩
    · exact Or.inl ⟨hsame (Or.inl (by simpa using hen)), fun h => absurd h hen⟩

/-- What the squashing step of a visit does to the layers and to the squashing
state. -/
theorem squashIfNeeded_data {env : Env} (hsc : SettlingContract env)
    (l : LayerId) (u : CompositingStateTransitionType) (a b : Assigner)
    (h : squashIfNeeded env l u a = some b) :
    (∀ l', l' ≠ l → SameLayerData a.world b.world l')
    ∧ (a.world.inCompositingMode = true → b.world.inCompositingMode = true)
    ∧ (b.world.layers l).hasCompositedLayerMapping = (a.world.layers l).hasCompositedLayerMapping
    ∧ a.trace ⊆ b.trace
    ∧ (u = PutInSquashingLayer → env.layerSquashingEnabled = true →
        ∃ m, a.squashingState.mostRecentMapping = some m
          ∧ (b.world.layers l).groupedMapping = some m
          ∧ (b.world.layers l).lostGroupedMapping = (a.world.layers l).lostGroupedMapping
          ∧ Event.updateSquashingLayerAssignment m l a.squashingState.nextSquashedLayerIndex
              ∈ b.trace
          ∧ b.squashingState =
              { a.squashingState with
                nextSquashedLayerIndex := a.squashingState.nextSquashedLayerIndex + 1
                totalAreaOfSquashedRects :=
                  (a.squashingState.totalAreaOfSquashedRects
                    + (env.layer l).clippedAbsoluteBoundingBox.area) % 2 ^ 64
                boundingRect :=
                  a.squashingState.boundingRect.unite
                    (env.layer l).clippedAbsoluteBoundingBox })
    ∧ (u = RemoveFromSquashingLayer → env.layerSquashingEnabled = true →
        (b.world.layers l).groupedMapping = none
        ∧ (b.world.layers l).lostGroupedMapping = false
        ∧ b.squashingState = a.squashingState)
    ∧ (u ≠ PutInSquashingLayer → u ≠ RemoveFromSquashingLayer →
        b.world = a.world
        ∧ ((a.world.layers l).groupedMapping = none → b.squashingState = a.squashingState))
    ∧ (env.layerSquashingEnabled = false → b = a) := by
  unfold squashIfNeeded at h
  split at h
  · rename_i hen
    simp only [Option.map_eq_some'] at h
    obtain ⟨c, hc, rfl⟩ := h
    obtain ⟨d1, d2, d3, d4, d5, d6⟩ := updateSquashingAssignment_data hsc l u a c hc
    obtain ⟨hcs, hct⟩ := updateSquashingAssignment_state env l u a c hc
    have hsub : a.trace ⊆ c.trace := by
      rcases hct with ⟨-, m, q, -, hq, -⟩ | ⟨-, q, hq, -⟩
      · rw [hq]; exact List.subset_append_left _ _
      · rw [hq]; exact List.subset_append_left _ _
    have hw : ∀ (p : Prop) [Decidable p] (s : SquashingState),
        (if p then ({ c with squashingState := s } : Assigner) else c).world = c.world := by
      intro p _ s
      split <;> rfl
    have htr : ∀ (p : Prop) [Decidable p] (s : SquashingState),
        (if p then ({ c with squashingState := s } : Assigner) else c).trace = c.trace := by
      intro p _ s
      split <;> rfl
    refine ⟨?_, ?_, ?_, ?_, ?_, ?_, ?_, fun h => by rw [hen] at h; cases h⟩
    · intro l' hl'
      rw [hw]
      exact d1 l' hl'
    · rw [hw]
      exact d2
    · rw [hw]
      exact d3
    · rw [htr]
      exact hsub
    · intro hu _
      obtain ⟨m, hm, hg, hl, he⟩ := d4 hu
      refine ⟨m, hm, by rw [hw]; exact hg, by rw [hw]; exact hl, by rw [htr]; exact he, ?_⟩
      simp only [hu, decide_True, Bool.true_or, if_true, hcs]
    · intro hu _
      obtain ⟨hg, hl⟩ := d5 hu
      refine ⟨by rw [hw]; exact hg, by rw [hw]; exact hl, ?_⟩
      simp only [hu, hg, Option.isSome_none, Bool.and_false, Bool.or_false, decide_eq_true_eq,
        reduceCtorEq, if_false, hcs]
    · intro hu1 hu2
      have hcw := d6 hu1 hu2
      refine ⟨by rw [hw]; exact hcw, ?_⟩
      intro hg
      rw [hcw, hg]
      simp only [hu1, decide_False, Bool.false_or, Option.isSome_none, Bool.and_false,
        Bool.false_eq_true, if_false, hcs]
  · rename_i hen
    cases h
    exact ⟨fun _ _ => SameLayerData.unchanged _ _, id, rfl, fun _ hx => hx,
      fun _ h => absurd h hen, fun _ h => absurd h hen, fun _ _ => ⟨rfl, fun _ => rfl⟩,
      fun _ => rfl⟩


/-- A visit settles its layer: computed again on the world that the visit
leaves, the transition of the layer is `NoCompositingStateChange`, or
`PutInSquashingLayer` for a layer that the visit has put in the squashing layer
of the candidate host; no reason is left to merge; the other layers are as they
were. -/
theorem assignSelf_settles {env : Env} (hsc : SettlingContract env)
    (hre : ReasonsContract env) (hrs : PreventingReasonsExcludeSquashing env)
    (l : LayerId) (a b : Assigner) (hnr : (env.layer l).reflectionInfo = none)
    (hwf : Settleable a.world) (h : assignSelf env l a = some b) :
    Settleable b.world
    ∧ (∀ l', l' ≠ l → SameLayerData a.world b.world l')
    ∧ a.trace ⊆ b.trace
    ∧ (env.layerSquashingEnabled = true →
        env.requiresSquashing (b.world.layers l).compositingReasons = true →
        getReasonsPreventingSquashing env b.world l a.squashingState
          = some CompositingReasonNone)
    ∧ ((computeCompositedLayerUpdate env b.world l = NoCompositingStateChange
        ∧ (env.layerSquashingEnabled = true → (b.world.layers l).groupedMapping = none)
        ∧ b.squashingState = a.squashingState)
      ∨ (computeCompositedLayerUpdate env b.world l = PutInSquashingLayer
        ∧ (b.world.layers l).hasCompositedLayerMapping = false
        ∧ ∃ m, a.squashingState.mostRecentMapping = some m
          ∧ (b.world.layers l).groupedMapping = some m
          ∧ Event.updateSquashingLayerAssignment m l a.squashingState.nextSquashedLayerIndex
              ∈ b.trace
          ∧ b.squashingState =
              { a.squashingState with
                nextSquashedLayerIndex := a.squashingState.nextSquashedLayerIndex + 1
                totalAreaOfSquashedRects :=
                  (a.squashingState.totalAreaOfSquashedRects
                    + (env.layer l).clippedAbsoluteBoundingBox.area) % 2 ^ 64
                boundingRect :=
                  a.squashingState.boundingRect.unite
                    (env.layer l).clippedAbsoluteBoundingBox })) := by
  unfold assignSelf at h
  simp only [Option.bind_eq_some] at h
  obtain ⟨a1, h1, h2⟩ := h
  simp only [assignReflection, hnr] at h2
  -- the merge
  obtain ⟨m1s, m1t, m1m, m1d, m1o, m1r⟩ := mergeReasonsPreventingSquashing_data env l _ a1 h1
  simp only [Assigner.log] at m1s m1t m1m m1d m1o m1r
  have hmode1 : a1.world.inCompositingMode = true := by rw [m1m]; exact hwf.mode
  -- the allocation
  obtain ⟨h2s, h2t⟩ := allocateOrClearAndInvalidate_state env l
    (computeCompositedLayerUpdate env a1.world l) a1
  have h2w := allocateOrClearAndInvalidate_world env l
    (computeCompositedLayerUpdate env a1.world l) a1
  have h2r := allocateOrClearAndInvalidate_reasons hre l
    (computeCompositedLayerUpdate env a1.world l) a1
  generalize allocateOrClearAndInvalidate env l (computeCompositedLayerUpdate env a1.world l) a1
    = a2 at h2 h2s h2t h2w h2r
  have hmode2 : a2.world.inCompositingMode = true := by
    rw [h2w]; exact hsc.allocate_mode _ _ _ hmode1
  -- the squashing step
  obtain ⟨q1, q2, q3, q4, q5, q6, q7, q8⟩ := squashIfNeeded_data hsc l _ a2 b h2
  have q9 := squashIfNeeded_reasons hre l _ a2 b h2
  have hmodeb : b.world.inCompositingMode = true := q2 hmode2
  have hreasons : ∀ l', (b.world.layers l').compositingReasons
      = (a1.world.layers l').compositingReasons := fun l' => by rw [q9, h2r]
  have hN : needsOwnBacking env b.world l = needsOwnBacking env a1.world l :=
    needsOwnBacking_congr env a1.world b.world l (hreasons l) (by rw [hmodeb, hmode1])
  have hframe : ∀ l', l' ≠ l → SameLayerData a.world b.world l' := by
    intro l' hl'
    have e1 : SameLayerData a.world a1.world l' :=
      ⟨m1o l' hl', (m1d l').1, (m1d l').2.1, (m1d l').2.2⟩
    have e2 : SameLayerData a1.world a2.world l' := by
      rw [h2w]; exact hsc.allocate_frame _ _ _ l' hl'
    exact (e1.chain e2).chain (q1 l' hl')
  have hsub : a.trace ⊆ b.trace := by
    refine List.Subset.trans ?_ q4
    rw [h2t, m1t]
    exact (List.subset_append_left _ _).trans (List.subset_append_left _ _)
  have hnone : env.layerSquashingEnabled = true →
      env.requiresSquashing (b.world.layers l).compositingReasons = true →
      getReasonsPreventingSquashing env b.world l a.squashingState
        = some CompositingReasonNone := by
    intro hen hreq
    rw [hreasons] at hreq
    rcases m1r with ⟨e, hget⟩ | ⟨r, hr, e⟩
    · rw [getReasonsPreventingSquashing_world hsc b.world a.world]
      exact hget hen (by rw [← e]; exact hreq)
    · rw [e, hrs _ r hr] at hreq
      cases hreq
  -- the data of the layer before the visit
  have hwfl := hwf.mapped l
  rw [← (m1d l).1, ← (m1d l).2.1, ← (m1d l).2.2] at hwfl
  have hsettle : ∀ (hc : (b.world.layers l).hasCompositedLayerMapping = true →
      (b.world.layers l).groupedMapping = none ∧ (b.world.layers l).lostGroupedMapping = false),
      Settleable b.world := by
    intro hc
    refine ⟨hmodeb, ?_⟩
    intro l' hm
    by_cases hl' : l' = l
    · subst hl'
      exact hc hm
    · obtain ⟨-, f2, f3, f4⟩ := hframe l' hl'
      rw [f3, f4]
      exact hwf.mapped l' (by rw [← f2]; exact hm)
  rcases computeCompositedLayerUpdate_cases env a1.world l with
    ⟨hu, hcase⟩ | ⟨hu, hNa, hca⟩ | ⟨hu, hNa, hca, hsq⟩ | ⟨hu, hNa, hen, hv, hq⟩
      | ⟨hu, hNa, hen, helig, hgl⟩
  · -- no change
    rw [hu] at h2w q5 q6 q7
    have hw2 : a2.world = a1.world := by
      rw [h2w, hsc.allocate_none _ _ _ (Or.inl rfl)]
    obtain ⟨hbw, hbs⟩ := q7 (by decide) (by decide)
    have hb1 : b.world = a1.world := by rw [hbw, hw2]
    have hg1 : env.layerSquashingEnabled = true → (a1.world.layers l).groupedMapping = none := by
      intro hen
      rcases hcase with ⟨-, hc⟩ | ⟨-, -, hs⟩
      · exact (hwfl hc).1
      · exact (hs hen).2.1
    have hss : b.squashingState = a.squashingState := by
      by_cases hen : env.layerSquashingEnabled = true
      · rw [hbs (by rw [hw2]; exact hg1 hen), h2s, m1s]
      · rw [q8 (by simpa using hen), h2s, m1s]
    refine ⟨hsettle ?_, hframe, hsub, hnone, Or.inl ⟨?_, ?_, hss⟩⟩
    · rw [hb1]
      exact hwfl
    · rw [hb1]
      exact hu
    · rw [hb1]
      exact hg1
  · -- a mapping of its own is allocated
    rw [hu] at h2w q5 q6 q7
    obtain ⟨hbw, hbs⟩ := q7 (by decide) (by decide)
    obtain ⟨o1, o2, o3⟩ := hsc.allocate_own a1.world l
    rw [← h2w, ← hbw] at o1 o2 o3
    have hss : b.squashingState = a.squashingState := by
      by_cases hen : env.layerSquashingEnabled = true
      · rw [hbs (by rw [← hbw]; exact o2), h2s, m1s]
      · rw [q8 (by simpa using hen), h2s, m1s]
    refine ⟨hsettle fun _ => ⟨o2, o3⟩, hframe, hsub, hnone, Or.inl ⟨?_, fun _ => o2, hss⟩⟩
    exact computeCompositedLayerUpdate_settled env b.world l
      (Or.inl ⟨by rw [hN]; exact hNa, o1⟩)
  · -- the mapping is removed
    rw [hu] at h2w q5 q6 q7
    obtain ⟨hbw, hbs⟩ := q7 (by decide) (by decide)
    obtain ⟨o1, o2, o3⟩ := hsc.allocate_clear a1.world l _ (Or.inl rfl)
    rw [← h2w, ← hbw] at o1 o2 o3
    have hgl := hwfl hca
    rw [hgl.1] at o2
    rw [hgl.2] at o3
    have hss : b.squashingState = a.squashingState := by
      by_cases hen : env.layerSquashingEnabled = true
      · rw [hbs (by rw [← hbw]; exact o2), h2s, m1s]
      · rw [q8 (by simpa using hen), h2s, m1s]
    refine ⟨hsettle (fun hc => by rw [o1] at hc; cases hc), hframe, hsub, hnone,
      Or.inl ⟨?_, fun _ => o2, hss⟩⟩
    refine computeCompositedLayerUpdate_settled env b.world l
      (Or.inr ⟨by rw [hN]; exact hNa, o1, fun hen => ⟨?_, o2, o3⟩⟩)
    rw [hreasons]
    exact (hsq hen).1
  · -- the layer is put in the squashing layer
    rw [hu] at h2w q5 q6 q7
    obtain ⟨o1, -, -⟩ := hsc.allocate_clear a1.world l _ (Or.inr rfl)
    rw [← h2w] at o1
    obtain ⟨m, hm, hg, -, he, hs⟩ := q5 rfl hen
    have hcb : (b.world.layers l).hasCompositedLayerMapping = false := by rw [q3, o1]
    refine ⟨hsettle (fun hc => by rw [hcb] at hc; cases hc), hframe, hsub, hnone,
      Or.inr ⟨?_, hcb, m, by rw [← m1s, ← h2s]; exact hm, hg,
        by rw [← m1s, ← h2s]; exact he, by rw [hs, h2s, m1s]⟩⟩
    exact computeCompositedLayerUpdate_put env b.world l (by rw [hN]; exact hNa) hen hv
      (by rw [hreasons]; exact hq)
  · -- the layer is taken out of its squashing layer
    rw [hu] at h2w q5 q6 q7
    have hw2 : a2.world = a1.world := by
      rw [h2w, hsc.allocate_none _ _ _ (Or.inr rfl)]
    obtain ⟨hg, hl, hs⟩ := q6 rfl hen
    have hca : (a1.world.layers l).hasCompositedLayerMapping = false := by
      cases hc : (a1.world.layers l).hasCompositedLayerMapping
      · rfl
      · obtain ⟨g1, g2⟩ := hwfl hc
        rw [g1, g2] at hgl
        simp at hgl
    have hcb : (b.world.layers l).hasCompositedLayerMapping = false := by
      rw [q3, hw2, hca]
    refine ⟨hsettle (fun hc => by rw [hcb] at hc; cases hc), hframe, hsub, hnone,
      Or.inl ⟨?_, fun _ => hg, by rw [hs, h2s, m1s]⟩⟩
    refine computeCompositedLayerUpdate_settled env b.world l
      (Or.inr ⟨by rw [hN]; exact hNa, hcb, fun _ => ⟨?_, hg, hl⟩⟩)
    rw [hreasons]
    exact helig


/-- The visit of a settled layer changes nothing but the squashing state: the
compositor and the mapping report no change, and nothing is recorded. -/
theorem assignSelf_settled {env : Env} (hsc : SettlingContract env) (l : LayerId)
    (a : Assigner) (hnr : (env.layer l).reflectionInfo = none)
    (hnone : env.layerSquashingEnabled = true →
      env.requiresSquashing (a.world.layers l).compositingReasons = true →
      getReasonsPreventingSquashing env a.world l a.squashingState
        = some CompositingReasonNone)
    (hu : (computeCompositedLayerUpdate env a.world l = NoCompositingStateChange
        ∧ (env.layerSquashingEnabled = true → (a.world.layers l).groupedMapping = none))
      ∨ (computeCompositedLayerUpdate env a.world l = PutInSquashingLayer
        ∧ (a.world.layers l).hasCompositedLayerMapping = false
        ∧ ∃ m, a.squashingState.mostRecentMapping = some m
          ∧ (a.world.layers l).groupedMapping = some m
          ∧ (a.world.layers m).squashedLayers.get? a.squashingState.nextSquashedLayerIndex
              = some l)) :
    ∃ b, assignSelf env l a = some b
      ∧ b.world = a.world
      ∧ b.layersNeedingPaintInvalidation = a.layersNeedingPaintInvalidation
      ∧ b.m_layersChanged = a.m_layersChanged
      ∧ b.squashingState =
          (if computeCompositedLayerUpdate env a.world l = PutInSquashingLayer then
            { a.squashingState with
              nextSquashedLayerIndex := a.squashingState.nextSquashedLayerIndex + 1
              totalAreaOfSquashedRects :=
                (a.squashingState.totalAreaOfSquashedRects
                  + (env.layer l).clippedAbsoluteBoundingBox.area) % 2 ^ 64
              boundingRect :=
                a.squashingState.boundingRect.unite (env.layer l).clippedAbsoluteBoundingBox }
          else a.squashingState)
      ∧ ∃ t, b.trace = a.trace ++ t ∧ ∀ e ∈ t, SettledTransition env a.world e := by
  have hmerge : mergeReasonsPreventingSquashing env l (a.log (Event.visit l a.squashingState))
      = some (a.log (Event.visit l a.squashingState)) := by
    unfold mergeReasonsPreventingSquashing
    split
    · rename_i hcond
      simp only [Bool.and_eq_true] at hcond
      have := hnone hcond.1 hcond.2
      simp only [Assigner.log] at this ⊢
      rw [this]
      simp [Env.mask]
    · rfl
  unfold assignSelf
  simp only []
  rw [hmerge]
  simp only [Option.some_bind, Assigner.log, assignReflection, hnr]
  rcases hu with ⟨hu, hg⟩ | ⟨hu, hc, m, hm, hg, hl⟩
  · rw [hu]
    simp only [allocateOrClearAndInvalidate, hsc.allocate_none _ _ _ (Or.inl rfl),
      Bool.false_eq_true, if_false, squashIfNeeded, updateSquashingAssignment, Assigner.log,
      reduceCtorEq, Option.map_some']
    by_cases hen : env.layerSquashingEnabled = true
    · simp only [hen, if_true, hg hen, Option.isSome_none, Bool.and_false, Bool.or_false,
        decide_False, Bool.false_eq_true, if_false, Option.map_some']
      refine ⟨_, rfl, rfl, rfl, rfl, rfl, [Event.visit l a.squashingState,
        Event.allocateOrClearCompositedLayerMapping l NoCompositingStateChange,
        Event.updateSquashingAssignment l NoCompositingStateChange], by simp, ?_⟩
      intro e he
      simp only [List.mem_cons, List.mem_singleton, List.not_mem_nil, or_false] at he
      rcases he with rfl | rfl | rfl
      · trivial
      · exact Or.inl ⟨rfl, hg⟩
      · trivial
    · simp only [hen, if_false]
      refine ⟨_, rfl, rfl, rfl, rfl, rfl, [Event.visit l a.squashingState,
        Event.allocateOrClearCompositedLayerMapping l NoCompositingStateChange], by simp, ?_⟩
      intro e he
      simp only [List.mem_cons, List.mem_singleton, List.not_mem_nil, or_false] at he
      rcases he with rfl | rfl
      · trivial
      · exact Or.inl ⟨rfl, fun h => absurd h hen⟩
  · have hen := (computeCompositedLayerUpdate_eq_put env a.world l hu).1
    rw [hu]
    simp only [allocateOrClearAndInvalidate, hsc.allocate_unmapped _ _ hc,
      Bool.false_eq_true, if_false, squashIfNeeded, hen, if_true, updateSquashingAssignment,
      Assigner.log, hm, hsc.assignment_held _ _ _ _ hl hg, Bool.not_false, Option.map_some',
      decide_True, Bool.true_or]
    refine ⟨_, rfl, rfl, rfl, rfl, rfl, [Event.visit l a.squashingState,
      Event.allocateOrClearCompositedLayerMapping l PutInSquashingLayer,
      Event.updateSquashingAssignment l PutInSquashingLayer,
      Event.updateSquashingLayerAssignment m l a.squashingState.nextSquashedLayerIndex],
      by simp, ?_⟩
    · intro e he
      simp only [List.mem_cons, List.mem_singleton, List.not_mem_nil, or_false] at he
      rcases he with rfl | rfl | rfl | rfl
      · trivial
      · exact Or.inr ⟨rfl, by rw [hg]; rfl⟩
      · trivial
      · trivial


theorem updateTopmostScrollChild_data {env : Env} (hsc : SettlingContract env) (l : LayerId)
    (a : Assigner) :
    updateTopmostScrollChild env l a
      = { a with trace := (updateTopmostScrollChild env l a).trace }
    ∧ ∃ t, (updateTopmostScrollChild env l a).trace = a.trace ++ t
      ∧ ∀ e ∈ t, ∃ p q, e = Event.call (ExternalCall.setTopmostScrollChild p q) := by
  unfold updateTopmostScrollChild
  cases hn : (env.layer l).needsCompositedScrolling <;> cases hp : (env.layer l).scrollParent
  · exact ⟨rfl, [], by simp, by simp⟩
  · simp only [performCall, hsc.scroll_none]
    exact ⟨rfl, [_], rfl, by simp⟩
  · simp only [performCall, hsc.scroll_none]
    exact ⟨rfl, [_], rfl, by simp⟩
  · rename_i p
    simp only [performCall, hsc.scroll_none]
    exact ⟨rfl, [Event.call (ExternalCall.setTopmostScrollChild p (some l)),
      Event.call (ExternalCall.setTopmostScrollChild l none)], by simp, by simp⟩

/-- What the change of the candidate host does to the layers in the first run. -/
theorem becomeMostRecentMapping_data {env : Env} (hsc : SettlingContract env) (l : LayerId)
    (a b : Assigner) (h : becomeMostRecentMapping env l a = some b) :
    (∀ l', SameLayerData a.world b.world l')
    ∧ (a.world.inCompositingMode = true → b.world.inCompositingMode = true)
    ∧ a.trace ⊆ b.trace := by
  unfold becomeMostRecentMapping at h
  simp only [Option.map_eq_some'] at h
  obtain ⟨c, hc, rfl⟩ := h
  obtain ⟨hsame, t, ht, -⟩ := updateTopmostScrollChild_data hsc l c
  have hw : (updateTopmostScrollChild env l c).world = c.world := by rw [hsame]
  rw [hw, ht]
  have hac : (∀ l', SameLayerData a.world c.world l')
      ∧ (a.world.inCompositingMode = true → c.world.inCompositingMode = true)
      ∧ a.trace ⊆ c.trace := by
    split at hc
    · unfold updateSquashingStateForNewMapping at hc
      simp only [Option.map_eq_some', Assigner.log] at hc
      obtain ⟨d, hd, rfl⟩ := hc
      split at hd
      · split at hd
        · cases hd
        · cases hd
          simp only [performCall_world, performCall_state]
          exact ⟨fun l' => hsc.perform_frame _ _ l', hsc.perform_mode _ _,
            (List.subset_append_left _ _).trans (List.subset_append_left _ _)⟩
      · cases hd
        exact ⟨fun l' => SameLayerData.unchanged _ _, id, List.subset_append_left _ _⟩
    · cases hc
      exact ⟨fun l' => SameLayerData.unchanged _ _, id, fun _ hx => hx⟩
  exact ⟨hac.1, hac.2.1, hac.2.2.trans (List.subset_append_left _ _)⟩

/-- The change of the candidate host in a second run: with the squashing state
of the first run, the same mapping of the layer and the mappings keeping the
members of the first run, the state changes as in the first run and nothing
else changes. -/
theorem becomeMostRecentMapping_replay {env : Env} (hsc : SettlingContract env) (l : LayerId)
    (a b a₂ : Assigner) (h : becomeMostRecentMapping env l a = some b)
    (hss : a₂.squashingState = a.squashingState)
    (hclm : (a₂.world.layers l).hasCompositedLayerMapping
      = (a.world.layers l).hasCompositedLayerMapping)
    (hkept : ∀ e ∈ b.trace, MembersKept a₂.world e) :
    ∃ b₂, becomeMostRecentMapping env l a₂ = some b₂
      ∧ b₂.world = a₂.world
      ∧ b₂.layersNeedingPaintInvalidation = a₂.layersNeedingPaintInvalidation
      ∧ b₂.m_layersChanged = a₂.m_layersChanged
      ∧ b₂.squashingState = b.squashingState
      ∧ ∃ t, b₂.trace = a₂.trace ++ t ∧ ∀ e ∈ t, SettledTransition env a₂.world e := by
  unfold becomeMostRecentMapping at h ⊢
  simp only [Option.map_eq_some'] at h
  obtain ⟨c, hc, rfl⟩ := h
  obtain ⟨hsame, t, ht, hcalls⟩ := updateTopmostScrollChild_data hsc l c
  have hsub : c.trace ⊆ (updateTopmostScrollChild env l c).trace := by
    rw [ht]; exact List.subset_append_left _ _
  have hcs : (updateTopmostScrollChild env l c).squashingState = c.squashingState := by
    rw [hsame]
  rw [hcs]
  -- the promotion in the second run
  have hpromoted : ∃ c₂, (if (env.layerSquashingEnabled && hasOwnBackingState a₂.world l) = true
        then updateSquashingStateForNewMapping env (compositedLayerMapping a₂.world l)
          (a₂.world.layers l).hasCompositedLayerMapping a₂
        else some a₂) = some c₂
      ∧ c₂.world = a₂.world
      ∧ c₂.layersNeedingPaintInvalidation = a₂.layersNeedingPaintInvalidation
      ∧ c₂.m_layersChanged = a₂.m_layersChanged
      ∧ c₂.squashingState = c.squashingState
      ∧ ∃ t, c₂.trace = a₂.trace ++ t ∧ ∀ e ∈ t, SettledTransition env a₂.world e := by
    simp only [hasOwnBackingState, compositedLayerMapping, hclm]
    simp only [hasOwnBackingState, compositedLayerMapping] at hc
    split at hc
    · rename_i hcond
      simp only [hcond, if_true]
      unfold updateSquashingStateForNewMapping at hc ⊢
      simp only [Option.map_eq_some', Assigner.log] at hc
      obtain ⟨d, hd, rfl⟩ := hc
      simp only [Assigner.log, hss]
      split at hd
      · rename_i hhas
        split at hd
        · cases hd
        · rename_i old hold
          cases hd
          have hk := hkept (Event.call (ExternalCall.finishAccumulatingSquashingLayers old
            a.squashingState.nextSquashedLayerIndex)) (hsub (by simp [performCall]))
          simp only [MembersKept] at hk
          simp only [hhas, if_true, hold, performCall, hsc.finish_held _ _ _ hk,
            Option.map_some']
          refine ⟨_, rfl, rfl, rfl, rfl, rfl, _, List.append_assoc _ _ _, ?_⟩
          intro e he
          simp only [List.cons_append, List.nil_append, List.mem_cons, List.mem_singleton,
            List.not_mem_nil, or_false] at he
          rcases he with rfl | rfl <;> trivial
      · rename_i hhas
        cases hd
        simp only [hhas, if_false, Option.map_some']
        refine ⟨_, rfl, rfl, rfl, rfl, rfl, _, rfl, ?_⟩
        intro e he
        simp only [List.mem_singleton] at he
        subst he
        trivial
    · rename_i hcond
      cases hc
      simp only [hcond, if_false]
      exact ⟨_, rfl, rfl, rfl, rfl, hss, [], by simp, by simp⟩
  obtain ⟨c₂, hc₂, e1, e2, e3, e4, t₂, ht₂, hok⟩ := hpromoted
  obtain ⟨hsame₂, t₃, ht₃, hcalls₃⟩ := updateTopmostScrollChild_data hsc l c₂
  refine ⟨updateTopmostScrollChild env l c₂, by rw [hc₂]; rfl, ?_, ?_, ?_, ?_, ?_⟩
  · rw [hsame₂]; exact e1
  · rw [hsame₂]; exact e2
  · rw [hsame₂]; exact e3
  · rw [hsame₂]; exact e4
  · refine ⟨t₂ ++ t₃, by rw [ht₃, ht₂, List.append_assoc], ?_⟩
    intro e he
    rcases List.mem_append.1 he with h | h
    · exact hok e h
    · obtain ⟨p, q, rfl⟩ := hcalls₃ e h
      trivial

/-- The end of a subtree in a second run. -/
theorem finishSubtree_replay (env : Env) (l : LayerId) (a b a₂ : Assigner)
    (h : finishSubtree l a = some b) (hss : a₂.squashingState = a.squashingState) :
    ∃ b₂, finishSubtree l a₂ = some b₂
      ∧ b₂.world = a₂.world
      ∧ b₂.layersNeedingPaintInvalidation = a₂.layersNeedingPaintInvalidation
      ∧ b₂.m_layersChanged = a₂.m_layersChanged
      ∧ b₂.squashingState = b.squashingState
      ∧ ∃ t, b₂.trace = a₂.trace ++ t ∧ ∀ e ∈ t, SettledTransition env a₂.world e := by
  unfold finishSubtree at h ⊢
  simp only [Assigner.log] at h ⊢
  rw [hss]
  split at h
  · rename_i hhas
    simp only [hhas, if_true]
    split at h
    · cases h
    · rename_i m hm
      simp only [hm]
      split at h
      · rename_i hml
        cases h
        simp only [hml, if_true]
        exact ⟨_, rfl, rfl, rfl, rfl, by simp [hss, hm, hml, hhas], [_], rfl,
          by simp [SettledTransition]⟩
      · rename_i hml
        cases h
        simp only [hml, if_false]
        exact ⟨_, rfl, rfl, rfl, rfl, by simp [hss], [_], rfl, by simp [SettledTransition]⟩
  · rename_i hhas
    cases h
    simp only [hhas, if_false]
    exact ⟨_, rfl, rfl, rfl, rfl, by simp [hss], [_], rfl, by simp [SettledTransition]⟩


theorem FirstRun.thenRun {ls₁ ls₂ ls : List LayerId} {a b c : Assigner}
    (h₁ : FirstRun ls₁ a b) (h₂ : FirstRun ls₂ b c) (s₁ : ls₁ ⊆ ls) (s₂ : ls₂ ⊆ ls) :
    FirstRun ls a c :=
  ⟨h₂.1, fun l hl => (h₁.2.1 l fun h => hl (s₁ h)).chain (h₂.2.1 l fun h => hl (s₂ h)),
    h₁.2.2.trans h₂.2.2⟩

theorem FirstRun.stays {a : Assigner} (h : Settleable a.world) (ls : List LayerId) :
    FirstRun ls a a :=
  ⟨h, fun _ _ => SameLayerData.unchanged _ _, fun _ hx => hx⟩

theorem Replays.thenReplays {env : Env} {a b c : Assigner} {s s' : SquashingState}
    (h₁ : Replays env a b s) (h₂ : Replays env b c s') : Replays env a c s' := by
  obtain ⟨w1, l1, c1, -, t1, ht1, hok1⟩ := h₁
  obtain ⟨w2, l2, c2, s2, t2, ht2, hok2⟩ := h₂
  refine ⟨w2.trans w1, l2.trans l1, c2.trans c1, s2, t1 ++ t2,
    by rw [ht2, ht1, List.append_assoc], ?_⟩
  intro e he
  rcases List.mem_append.1 he with h | h
  · exact hok1 e h
  · rw [← w1]
    exact hok2 e h

theorem Replays.nothing (env : Env) (a : Assigner) : Replays env a a a.squashingState :=
  ⟨rfl, rfl, rfl, rfl, [], by simp, by simp⟩

/-- A visit in the first run, and the visit of the same layer in a second run. -/
theorem assignSelf_lockstep {env : Env} (hsc : SettlingContract env)
    (hre : ReasonsContract env) (hrs : PreventingReasonsExcludeSquashing env)
    (hnr : ∀ l, (env.layer l).reflectionInfo = none) (l : LayerId) (a b : Assigner)
    (hwf : Settleable a.world) (h : assignSelf env l a = some b) :
    FirstRun [l] a b
    ∧ ∀ a₂ : Assigner, a₂.squashingState = a.squashingState →
        a₂.world.inCompositingMode = true → SameLayerData b.world a₂.world l →
        (∀ e ∈ b.trace, MembersKept a₂.world e) →
        ∃ b₂, assignSelf env l a₂ = some b₂ ∧ Replays env a₂ b₂ b.squashingState := by
  obtain ⟨hwfb, hframe, hsub, hnone, hcase⟩ := assignSelf_settles hsc hre hrs l a b (hnr l) hwf h
  refine ⟨⟨hwfb, fun l' hl' => hframe l' (by simpa using hl'), hsub⟩, ?_⟩
  intro a₂ hss hmode hdata hkept
  have hcompute : computeCompositedLayerUpdate env a₂.world l
      = computeCompositedLayerUpdate env b.world l :=
    computeCompositedLayerUpdate_congr env b.world a₂.world l hdata (by rw [hmode, hwfb.mode])
  have hnone₂ : env.layerSquashingEnabled = true →
      env.requiresSquashing (a₂.world.layers l).compositingReasons = true →
      getReasonsPreventingSquashing env a₂.world l a₂.squashingState
        = some CompositingReasonNone := by
    intro hen hreq
    rw [hss, getReasonsPreventingSquashing_world hsc a₂.world b.world]
    exact hnone hen (by rw [← hdata.1]; exact hreq)
  rcases hcase with ⟨hu, hg, hs⟩ | ⟨hu, hc, m, hm, hg, he, hs⟩
  · obtain ⟨b₂, hb₂, r1, r2, r3, r4, r5⟩ := assignSelf_settled hsc l a₂ (hnr l) hnone₂
      (Or.inl ⟨by rw [hcompute]; exact hu, fun hen => by rw [hdata.2.2.1]; exact hg hen⟩)
    refine ⟨b₂, hb₂, r1, r2, r3, ?_, r5⟩
    rw [r4, hcompute, hu, hs, hss]
    simp
  · have hk := hkept _ he
    simp only [MembersKept] at hk
    obtain ⟨b₂, hb₂, r1, r2, r3, r4, r5⟩ := assignSelf_settled hsc l a₂ (hnr l) hnone₂
      (Or.inr ⟨by rw [hcompute]; exact hu, by rw [hdata.2.1]; exact hc, m,
        by rw [hss]; exact hm, by rw [hdata.2.2.1]; exact hg, by rw [hss]; exact hk⟩)
    refine ⟨b₂, hb₂, r1, r2, r3, ?_, r5⟩
    rw [r4, hcompute, hu, hs, hss]
    simp

theorem Settleable.of_same {w w' : World} (h : Settleable w)
    (hd : ∀ l, SameLayerData w w' l) (hm : w'.inCompositingMode = true) : Settleable w' := by
  refine ⟨hm, fun l hc => ?_⟩
  obtain ⟨-, d2, d3, d4⟩ := hd l
  rw [d3, d4]
  exact h.mapped l (by rw [← d2]; exact hc)

/-- A change of the candidate host in the first run, and the same in a second
run. -/
theorem becomeMostRecentMapping_lockstep {env : Env} (hsc : SettlingContract env)
    (l : LayerId) (a b : Assigner) (hwf : Settleable a.world)
    (h : becomeMostRecentMapping env l a = some b) :
    FirstRun [] a b
    ∧ ∀ a₂ : Assigner, a₂.squashingState = a.squashingState →
        (a₂.world.layers l).hasCompositedLayerMapping
          = (a.world.layers l).hasCompositedLayerMapping →
        (∀ e ∈ b.trace, MembersKept a₂.world e) →
        ∃ b₂, becomeMostRecentMapping env l a₂ = some b₂
          ∧ Replays env a₂ b₂ b.squashingState := by
  obtain ⟨hd, hm, hsub⟩ := becomeMostRecentMapping_data hsc l a b h
  refine ⟨⟨hwf.of_same hd (hm hwf.mode), fun l' _ => hd l', hsub⟩, ?_⟩
  intro a₂ hss hclm hkept
  obtain ⟨b₂, hb₂, r⟩ := becomeMostRecentMapping_replay hsc l a b a₂ h hss hclm hkept
  exact ⟨b₂, hb₂, r⟩

/-- The end of a subtree in the first run, and the same in a second run. -/
theorem finishSubtree_lockstep (env : Env) (l : LayerId) (a b : Assigner)
    (hwf : Settleable a.world) (h : finishSubtree l a = some b) :
    FirstRun [] a b
    ∧ ∀ a₂ : Assigner, a₂.squashingState = a.squashingState →
        ∃ b₂, finishSubtree l a₂ = some b₂ ∧ Replays env a₂ b₂ b.squashingState := by
  have hw := finishSubtree_world l a b h
  have ht := (finishSubtree_state l a b h).1
  refine ⟨⟨by rw [hw]; exact hwf, fun l' _ => by rw [hw]; exact SameLayerData.unchanged _ _,
    by rw [ht]; exact List.subset_append_left _ _⟩, ?_⟩
  intro a₂ hss
  obtain ⟨b₂, hb₂, r⟩ := finishSubtree_replay env l a b a₂ h hss
  exact ⟨b₂, hb₂, r⟩


theorem StackingNode.layers_mk (layer : LayerId) (sc : Bool) (negZ rest : List StackingNode) :
    (StackingNode.mk layer sc negZ rest).layers
      = layer :: (StackingNode.layersOfList (if sc then negZ else [])
          ++ StackingNode.layersOfList rest) := by
  unfold StackingNode.layers StackingNode.layersOfList
  rw [StackingNode.subnodes_mk]
  cases sc <;> simp [StackingNode.layer, StackingNode.subnodesOfList_nil]

theorem StackingNode.layersOfList_nil : StackingNode.layersOfList [] = [] := by
  simp [StackingNode.layersOfList, StackingNode.subnodesOfList_nil]

theorem StackingNode.layersOfList_cons (n : StackingNode) (ns : List StackingNode) :
    StackingNode.layersOfList (n :: ns) = n.layers ++ StackingNode.layersOfList ns := by
  simp [StackingNode.layersOfList, StackingNode.layers, StackingNode.subnodesOfList_cons]

/-- The walk of a subtree in the first run, and the walk of the same subtree in a
second run that starts with the squashing state of the first, on a world that
has, for the layers of the subtree, the data that the first run leaves, and
whose mappings keep the members of the first run: the second walk changes
nothing but the squashing state, which it leaves as the first does. -/
theorem assignLayersToBackingsInternal_lockstep {env : Env} (hsc : SettlingContract env)
    (hre : ReasonsContract env) (hrs : PreventingReasonsExcludeSquashing env)
    (hnr : ∀ l, (env.layer l).reflectionInfo = none) :
    ∀ n a b, n.layers.Nodup → assignLayersToBackingsInternal env n a = some b →
      Settleable a.world →
      FirstRun n.layers a b
      ∧ ∀ a₂ : Assigner, a₂.squashingState = a.squashingState →
          a₂.world.inCompositingMode = true →
          (∀ l ∈ n.layers, SameLayerData b.world a₂.world l) →
          (∀ e ∈ b.trace, MembersKept a₂.world e) →
          ∃ b₂, assignLayersToBackingsInternal env n a₂ = some b₂
            ∧ Replays env a₂ b₂ b.squashingState := by
  have hQnil : ∀ a b, assignChildren env [] a = some b → Settleable a.world →
      FirstRun (StackingNode.layersOfList []) a b
      ∧ ∀ a₂ : Assigner, a₂.squashingState = a.squashingState →
          ∃ b₂, assignChildren env [] a₂ = some b₂ ∧ Replays env a₂ b₂ b.squashingState := by
    intro a b h hwf
    rw [assignChildren_nil] at h
    cases h
    refine ⟨FirstRun.stays hwf _, fun a₂ hss => ⟨a₂, assignChildren_nil env a₂, ?_⟩⟩
    rw [← hss]
    exact Replays.nothing env a₂
  refine StackingNode.induction
    (fun n => ∀ a b, n.layers.Nodup → assignLayersToBackingsInternal env n a = some b →
      Settleable a.world →
      FirstRun n.layers a b
      ∧ ∀ a₂ : Assigner, a₂.squashingState = a.squashingState →
          a₂.world.inCompositingMode = true →
          (∀ l ∈ n.layers, SameLayerData b.world a₂.world l) →
          (∀ e ∈ b.trace, MembersKept a₂.world e) →
          ∃ b₂, assignLayersToBackingsInternal env n a₂ = some b₂
            ∧ Replays env a₂ b₂ b.squashingState)
    (fun ns => ∀ a b, (StackingNode.layersOfList ns).Nodup →
      assignChildren env ns a = some b → Settleable a.world →
      FirstRun (StackingNode.layersOfList ns) a b
      ∧ ∀ a₂ : Assigner, a₂.squashingState = a.squashingState →
          a₂.world.inCompositingMode = true →
          (∀ l ∈ StackingNode.layersOfList ns, SameLayerData b.world a₂.world l) →
          (∀ e ∈ b.trace, MembersKept a₂.world e) →
          ∃ b₂, assignChildren env ns a₂ = some b₂ ∧ Replays env a₂ b₂ b.squashingState)
    ?_ ?_ ?_
  · intro layer sc negZ rest hneg hrest a b hnodup h hwf
    rw [assignLayersToBackingsInternal_mk] at h
    simp only [Option.bind_eq_some] at h
    obtain ⟨a1, h1, a2, h2, a3, h3, a4, h4, h5⟩ := h
    rw [StackingNode.layers_mk] at hnodup ⊢
    obtain ⟨hlayer, hnodup'⟩ := List.nodup_cons.1 hnodup
    obtain ⟨hnd1, hnd2, hdisj⟩ := List.nodup_append.1 hnodup'
    -- the walk of the negative z-order children, for a stacking context only
    have h2' : assignChildren env (if sc then negZ else []) a1 = some a2 := by
      cases sc
      · simpa [assignChildren_nil] using h2
      · simpa using h2
    have hneg' : ∀ a b, (StackingNode.layersOfList (if sc then negZ else [])).Nodup →
        assignChildren env (if sc then negZ else []) a = some b → Settleable a.world →
        FirstRun (StackingNode.layersOfList (if sc then negZ else [])) a b
        ∧ ∀ a₂ : Assigner, a₂.squashingState = a.squashingState →
            a₂.world.inCompositingMode = true →
            (∀ l ∈ StackingNode.layersOfList (if sc then negZ else []),
              SameLayerData b.world a₂.world l) →
            (∀ e ∈ b.trace, MembersKept a₂.world e) →
            ∃ b₂, assignChildren env (if sc then negZ else []) a₂ = some b₂
              ∧ Replays env a₂ b₂ b.squashingState := by
      cases sc
      · intro a b _ h hwf
        obtain ⟨f, r⟩ := hQnil a b h hwf
        exact ⟨f, fun a₂ hss _ _ _ => r a₂ hss⟩
      · exact hneg
    obtain ⟨negZ', hnz⟩ : ∃ x, x = (if sc then negZ else []) := ⟨_, rfl⟩
    rw [← hnz] at h2' hneg' hlayer hnd1 hdisj ⊢
    -- the first run
    obtain ⟨f1, r1⟩ := assignSelf_lockstep hsc hre hrs hnr layer a a1 hwf h1
    obtain ⟨f2, r2⟩ := hneg' a1 a2 hnd1 h2' f1.1
    obtain ⟨f3, r3⟩ := becomeMostRecentMapping_lockstep hsc layer a2 a3 f2.1 h3
    obtain ⟨f4, r4⟩ := hrest a3 a4 hnd2 h4 f3.1
    obtain ⟨f5, r5⟩ := finishSubtree_lockstep env layer a4 b f4.1 h5
    have hlneg : layer ∉ StackingNode.layersOfList negZ' :=
      fun hx => hlayer (List.mem_append_left _ hx)
    have hlrest : layer ∉ StackingNode.layersOfList rest :=
      fun hx => hlayer (List.mem_append_right _ hx)
    have f45 : FirstRun (StackingNode.layersOfList rest) a3 b :=
      f4.thenRun f5 (fun _ hx => hx) (List.nil_subset _)
    have f35 : FirstRun (StackingNode.layersOfList rest) a2 b :=
      f3.thenRun f45 (List.nil_subset _) (fun _ hx => hx)
    have f25 : FirstRun (StackingNode.layersOfList negZ' ++ StackingNode.layersOfList rest)
        a1 b :=
      f2.thenRun f35 (List.subset_append_left _ _) (List.subset_append_right _ _)
    refine ⟨f1.thenRun f25 (by simp) (List.subset_cons_of_subset _ (fun _ hx => hx)), ?_⟩
    -- the second run
    intro a₂ hss hmode hdata hkept
    have hd1 : SameLayerData a1.world a₂.world layer :=
      (f25.2.1 layer (by simp [hlneg, hlrest])).chain (hdata layer (List.mem_cons_self _ _))
    obtain ⟨b1, hb1, p1⟩ := r1 a₂ hss hmode hd1
      (fun e he => hkept e (f25.2.2 he))
    have hw1 : b1.world = a₂.world := p1.1
    obtain ⟨b2, hb2, p2⟩ := r2 b1 p1.2.2.2.1 (by rw [hw1]; exact hmode)
      (fun l hl => by
        rw [hw1]
        exact (f35.2.1 l (fun hx => hdisj hl hx)).chain
          (hdata l (List.mem_cons_of_mem _ (List.mem_append_left _ hl))))
      (fun e he => by rw [hw1]; exact hkept e (f35.2.2 he))
    have hw2 : b2.world = a₂.world := p2.1.trans hw1
    obtain ⟨b3, hb3, p3⟩ := r3 b2 p2.2.2.2.1
      (by
        rw [hw2]
        exact ((f35.2.1 layer hlrest).chain (hdata layer (List.mem_cons_self _ _))).2.1)
      (fun e he => by rw [hw2]; exact hkept e (f45.2.2 he))
    have hw3 : b3.world = a₂.world := p3.1.trans hw2
    obtain ⟨b4, hb4, p4⟩ := r4 b3 p3.2.2.2.1 (by rw [hw3]; exact hmode)
      (fun l hl => by
        rw [hw3]
        exact (f5.2.1 l (by simp)).chain
          (hdata l (List.mem_cons_of_mem _ (List.mem_append_right _ hl))))
      (fun e he => by rw [hw3]; exact hkept e (f5.2.2 he))
    obtain ⟨b5, hb5, p5⟩ := r5 b4 p4.2.2.2.1
    refine ⟨b5, ?_, (((p1.thenReplays p2).thenReplays p3).thenReplays p4).thenReplays p5⟩
    rw [assignLayersToBackingsInternal_mk, hb1]
    simp only [Option.some_bind]
    have hb2' : (if sc then assignChildren env negZ b1 else some b1) = some b2 := by
      subst hnz
      cases sc
      · simpa [assignChildren_nil] using hb2
      · simpa using hb2
    rw [hb2', Option.some_bind, hb3, Option.some_bind, hb4, Option.some_bind, hb5]
  · intro a b _ h hwf
    obtain ⟨f, r⟩ := hQnil a b h hwf
    exact ⟨f, fun a₂ hss _ _ _ => r a₂ hss⟩
  · intro n ns hn hns a b hnodup h hwf
    rw [assignChildren_cons] at h
    simp only [Option.bind_eq_some] at h
    obtain ⟨a1, h1, h2⟩ := h
    rw [StackingNode.layersOfList_cons] at hnodup ⊢
    obtain ⟨hnd1, hnd2, hdisj⟩ := List.nodup_append.1 hnodup
    obtain ⟨f1, r1⟩ := hn a a1 hnd1 h1 hwf
    obtain ⟨f2, r2⟩ := hns a1 b hnd2 h2 f1.1
    refine ⟨f1.thenRun f2 (List.subset_append_left _ _) (List.subset_append_right _ _), ?_⟩
    intro a₂ hss hmode hdata hkept
    obtain ⟨b1, hb1, p1⟩ := r1 a₂ hss hmode
      (fun l hl => (f2.2.1 l (fun hx => hdisj hl hx)).chain
        (hdata l (List.mem_append_left _ hl)))
      (fun e he => hkept e (f2.2.2 he))
    have hw1 : b1.world = a₂.world := p1.1
    obtain ⟨b2, hb2, p2⟩ := r2 b1 p1.2.2.2.1 (by rw [hw1]; exact hmode)
      (fun l hl => by rw [hw1]; exact hdata l (List.mem_append_right _ hl))
      (fun e he => by rw [hw1]; exact hkept e he)
    refine ⟨b2, ?_, p1.thenReplays p2⟩
    rw [assignChildren_cons, hb1, Option.some_bind, hb2]


/-- C12 as stated fails: in a second run over the tree left by the first run on
scenario A, layer 2, which is and remains squashed into the mapping of layer 1,
is computed `PutInSquashingLayer` again, not `NoCompositingStateChange`; nothing
is appended to the paint-invalidation list there. A reflection layer whose
reasons request squashing, layer 9, is computed `PutInSquashingLayer` and
appended to the list by every run. When the compositor was not in compositing
mode before the first run, which turns it on for layer 1, the second run gives
the root `AllocateOwnCompositedLayerMapping` and appends it. When layer 1 had a
mapping of its own and had lost a grouped mapping before the first run, the
second run gives it `RemoveOwnCompositedLayerMapping` and appends it. -/
theorem assign_idempotent_counterexample :
    ((assign (Demo.env true Demo.boxes) Demo.rootWithThreeChildren
        (Demo.start Demo.worldSquashable)).bind fun b =>
      (assign (Demo.env true Demo.boxes) Demo.rootWithThreeChildren b).map fun c =>
        (decide (Event.allocateOrClearCompositedLayerMapping 2 PutInSquashingLayer ∈ c.trace),
          decide (Event.allocateOrClearCompositedLayerMapping 2 NoCompositingStateChange
            ∈ c.trace),
          (b.world.layers 2).groupedMapping, (c.world.layers 2).groupedMapping,
          decide (c.layersNeedingPaintInvalidation = b.layersNeedingPaintInvalidation)))
      = some (true, false, some 1, some 1, true)
    ∧ ((assign (Demo.env true Demo.reflectedRoot) Demo.rootAlone
        (Demo.start Demo.worldReflectionSquashable)).bind fun b =>
      (assign (Demo.env true Demo.reflectedRoot) Demo.rootAlone b).map fun c =>
        (b.layersNeedingPaintInvalidation, c.layersNeedingPaintInvalidation,
          decide (Event.allocateOrClearCompositedLayerMapping 9 PutInSquashingLayer
            ∈ c.trace)))
      = some ([0, 9], [0, 9, 9], true)
    ∧ ((assign (Demo.env true Demo.boxes) Demo.rootWithThreeChildren
        (Demo.start Demo.worldModeOff)).bind fun b =>
      (assign (Demo.env true Demo.boxes) Demo.rootWithThreeChildren b).map fun c =>
        (b.layersNeedingPaintInvalidation, c.layersNeedingPaintInvalidation,
          decide (Event.allocateOrClearCompositedLayerMapping 0
            AllocateOwnCompositedLayerMapping ∈ c.trace)))
      = some ([1], [1, 0], true)
    ∧ ((assign (Demo.env true Demo.boxes) Demo.rootWithThreeChildren
        (Demo.start Demo.worldMappedLost)).bind fun b =>
      (assign (Demo.env true Demo.boxes) Demo.rootWithThreeChildren b).map fun c =>
        (b.layersNeedingPaintInvalidation, c.layersNeedingPaintInvalidation,
          decide (Event.allocateOrClearCompositedLayerMapping 1
            RemoveOwnCompositedLayerMapping ∈ c.trace)))
      = some ([0, 1], [0, 1, 1], true) := by
  refine ⟨?_, ?_, ?_, ?_⟩ <;> decide!

/-! ## Rule 8 of the eligibility check -/

/-- C21 as stated fails: with checks 1 to 7 silent, a candidate, layer 1, that
does not clip its compositing descendants is not disqualified by rule 8 although
the layer that owns the host backing, layer 0, clips its own; and a candidate
that clips is disqualified although the host layer does not clip. -/
theorem getReasonsPreventingSquashing_clips_counterexample :
    (Demo.envClipping fun l => decide (l = 0)).clipsCompositingDescendants 0 = true
    ∧ (Demo.envClipping fun l => decide (l = 0)).clipsCompositingDescendants 1 = false
    ∧ getReasonsPreventingSquashing (Demo.envClipping fun l => decide (l = 0))
        (Demo.world fun _ => 2) 1 Demo.openHost = some CompositingReasonNone
    ∧ (Demo.envClipping fun l => decide (l = 1)).clipsCompositingDescendants 0 = false
    ∧ (Demo.envClipping fun l => decide (l = 1)).clipsCompositingDescendants 1 = true
    ∧ getReasonsPreventingSquashing (Demo.envClipping fun l => decide (l = 1))
        (Demo.world fun _ => 2) 1 Demo.openHost
          = some CompositingReasonSquashedLayerClipsCompositingDescendants
    ∧ (disqualifyingChecks (Demo.envClipping fun l => decide (l = 1))
        (Demo.world fun _ => 2) 1 Demo.openHost 0).take 6
          = [(false, CompositingReasonSquashingVideoIsDisallowed),
             (false, CompositingReasonSquashingRenderPartIsDisallowed),
             (false, CompositingReasonSquashingReflectionIsDisallowed),
             (false, CompositingReasonSquashingSparsityExceeded),
             (false, CompositingReasonSquashingBlendingIsDisallowed),
             (false, CompositingReasonSquashingClippingContainerMismatch)] := by
  refine ⟨rfl, rfl, ?_, rfl, rfl, ?_, ?_⟩ <;> decide

/-- C21, amended (rule 8 is decided by the candidate): when checks 1 to 7 do not
fire, `getReasonsPreventingSquashing` returns
`SquashedLayerClipsCompositingDescendants` if and only if the candidate layer
clips its compositing descendants; and the result is the same in any
environment that differs only in which other layers clip theirs, the layer that
owns the host backing among them. -/
theorem getReasonsPreventingSquashing_clips (env : Env) (w : World) (layer : LayerId)
    (s : SquashingState) (host : LayerId)
    (hflag : s.haveAssignedBackingsToEntireSquashingLayerSubtree = true)
    (hm : s.mostRecentMapping = some host)
    (hvideo : (env.layer layer).isVideo = false ∧ (env.layer host).isVideo = false)
    (hpart : (env.layer layer).isRenderPart = false ∧ (env.layer host).isRenderPart = false)
    (hreflection : (env.layer layer).reflectionInfo = none)
    (hsparsity : squashingWouldExceedSparsityTolerance env layer s = false)
    (hblend : (env.layer layer).hasBlendMode = false)
    (hclip : (env.layer layer).clippingContainer = (env.layer host).clippingContainer
      ∨ env.containingSquashedLayer w host (env.layer layer).clippingContainer
          s.nextSquashedLayerIndex = true) :
    (getReasonsPreventingSquashing env w layer s
        = some CompositingReasonSquashedLayerClipsCompositingDescendants
      ↔ env.clipsCompositingDescendants layer = true)
    ∧ ∀ clips : LayerId → Bool, clips layer = env.clipsCompositingDescendants layer →
        getReasonsPreventingSquashing { env with clipsCompositingDescendants := clips } w layer s
          = getReasonsPreventingSquashing env w layer s := by
  have h7 : (decide ((env.layer layer).clippingContainer ≠ (env.layer host).clippingContainer)
      && !env.containingSquashedLayer w host (env.layer layer).clippingContainer
            s.nextSquashedLayerIndex) = false := by
    rcases hclip with h | h
    · simp [h]
    · simp [h]
  constructor
  · simp only [getReasonsPreventingSquashing, hflag, hm, hvideo.1, hvideo.2, hpart.1, hpart.2,
      hreflection, hsparsity, hblend, h7]
    simp only [Bool.not_true, Bool.false_eq_true, if_false, Bool.or_self, Option.isSome_none]
    cases hc : env.clipsCompositingDescendants layer
    · simp only [Bool.false_eq_true, if_false, iff_false]
      split
      · simp
      · split
        · simp
        · split
          · simp
          · split <;> simp
    · simp
  · intro clips hcl
    simp only [getReasonsPreventingSquashing, squashingWouldExceedSparsityTolerance, hcl]

/-- Witness for C21: a candidate that clips its compositing descendants, with a
host layer that does not. -/
theorem getReasonsPreventingSquashing_clips_witness :
    (getReasonsPreventingSquashing (Demo.envClipping fun l => decide (l = 1))
        (Demo.world fun _ => 2) 1 Demo.openHost
          = some CompositingReasonSquashedLayerClipsCompositingDescendants
      ↔ (Demo.envClipping fun l => decide (l = 1)).clipsCompositingDescendants 1 = true)
    ∧ ∀ clips : LayerId → Bool,
        clips 1 = (Demo.envClipping fun l => decide (l = 1)).clipsCompositingDescendants 1 →
        getReasonsPreventingSquashing
            { Demo.envClipping fun l => decide (l = 1) with clipsCompositingDescendants := clips }
            (Demo.world fun _ => 2) 1 Demo.openHost
          = getReasonsPreventingSquashing (Demo.envClipping fun l => decide (l = 1))
              (Demo.world fun _ => 2) 1 Demo.openHost :=
  getReasonsPreventingSquashing_clips (Demo.envClipping fun l => decide (l = 1))
    (Demo.world fun _ => 2) 1 Demo.openHost 0 rfl rfl ⟨rfl, rfl⟩ ⟨rfl, rfl⟩ rfl (by decide) rfl
    (Or.inl rfl)

/-! ## The paint-invalidation list and the changed flag -/

theorem invalidationsAppended_of_same {allowed : LayerId → Prop} {a b : Assigner}
    (hl : b.layersNeedingPaintInvalidation = a.layersNeedingPaintInvalidation)
    (hc : b.m_layersChanged = a.m_layersChanged) : InvalidationsAppended allowed a b :=
  ⟨[], by simp [hl], by simp [hc], by simp⟩

theorem invalidationsAppended_single {allowed : LayerId → Prop} {a b : Assigner} (x : LayerId)
    (hx : allowed x)
    (hl : b.layersNeedingPaintInvalidation = a.layersNeedingPaintInvalidation ++ [x])
    (hc : b.m_layersChanged = true) : InvalidationsAppended allowed a b :=
  ⟨[x], hl, by simp [hc], by simpa using hx⟩

theorem invalidationsAppended_trans {allowed : LayerId → Prop} {a b c : Assigner}
    (h1 : InvalidationsAppended allowed a b) (h2 : InvalidationsAppended allowed b c) :
    InvalidationsAppended allowed a c := by
  obtain ⟨t1, hl1, hc1, ha1⟩ := h1
  obtain ⟨t2, hl2, hc2, ha2⟩ := h2
  refine ⟨t1 ++ t2, by rw [hl2, hl1, List.append_assoc], ?_, ?_⟩
  · rw [hc2, hc1]
    cases a.m_layersChanged <;> cases t1 <;> cases t2 <;> rfl
  · intro x hx
    rcases List.mem_append.1 hx with h | h
    · exact ha1 x h
    · exact ha2 x h

theorem invalidationsAppended_mono {allowed allowed' : LayerId → Prop} {a b : Assigner}
    (h : InvalidationsAppended allowed a b) (hsub : ∀ x, allowed x → allowed' x) :
    InvalidationsAppended allowed' a b := by
  obtain ⟨t, hl, hc, ha⟩ := h
  exact ⟨t, hl, hc, fun x hx => hsub x (ha x hx)⟩

theorem mergeReasonsPreventingSquashing_invalidations (env : Env) (layer : LayerId)
    (a b : Assigner) (h : mergeReasonsPreventingSquashing env layer a = some b) :
    b.layersNeedingPaintInvalidation = a.layersNeedingPaintInvalidation
    ∧ b.m_layersChanged = a.m_layersChanged := by
  unfold mergeReasonsPreventingSquashing at h
  split at h
  · split at h
    · cases h
    · split at h <;> cases h <;> exact ⟨rfl, rfl⟩
  · cases h; exact ⟨rfl, rfl⟩

theorem allocateOrClearAndInvalidate_invalidations (env : Env) (allowed : LayerId → Prop)
    (layer : LayerId) (hl : allowed layer) (u : CompositingStateTransitionType) (a : Assigner) :
    InvalidationsAppended allowed a (allocateOrClearAndInvalidate env layer u a) := by
  unfold allocateOrClearAndInvalidate
  simp only
  split
  · exact invalidationsAppended_single layer hl rfl rfl
  · exact invalidationsAppended_of_same rfl rfl

theorem assignLayersToBackingsForReflectionLayer_invalidations (env : Env)
    (allowed : LayerId → Prop) (reflectionLayer : LayerId) (hr : allowed reflectionLayer)
    (a : Assigner) :
    InvalidationsAppended allowed a
      (assignLayersToBackingsForReflectionLayer env reflectionLayer a) := by
  unfold assignLayersToBackingsForReflectionLayer
  simp only
  split <;> split
  · exact invalidationsAppended_single reflectionLayer hr rfl rfl
  · exact invalidationsAppended_single reflectionLayer hr rfl rfl
  · exact invalidationsAppended_of_same rfl rfl
  · exact invalidationsAppended_of_same rfl rfl

theorem assignReflection_invalidations (env : Env) (layer : LayerId) (a : Assigner) :
    InvalidationsAppended (fun x => (env.layer layer).reflectionInfo = some x) a
      (assignReflection env layer a) := by
  unfold assignReflection
  split
  · rename_i r hr
    exact assignLayersToBackingsForReflectionLayer_invalidations env _ r hr a
  · exact invalidationsAppended_of_same rfl rfl

theorem updateSquashingAssignment_invalidations (env : Env) (allowed : LayerId → Prop)
    (layer : LayerId) (hl : allowed layer) (u : CompositingStateTransitionType)
    (a b : Assigner) (h : updateSquashingAssignment env layer u a = some b) :
    InvalidationsAppended allowed a b := by
  unfold updateSquashingAssignment at h
  simp only [Assigner.log] at h
  split at h
  · split at h
    · cases h
    · split at h
      · cases h
        exact invalidationsAppended_of_same rfl rfl
      · cases h
        exact invalidationsAppended_single layer hl rfl rfl
  · split at h
    · simp only [Option.map_eq_some'] at h
      obtain ⟨c, hc, rfl⟩ := h
      have hcl : c.layersNeedingPaintInvalidation = a.layersNeedingPaintInvalidation := by
        split at hc
        · split at hc
          · cases hc
          · cases hc; rfl
        · cases hc; rfl
      exact invalidationsAppended_single layer hl (by rw [← hcl]) rfl
    · cases h
      exact invalidationsAppended_of_same rfl rfl

theorem squashIfNeeded_invalidations (env : Env) (allowed : LayerId → Prop)
    (layer : LayerId) (hl : allowed layer) (u : CompositingStateTransitionType)
    (a b : Assigner) (h : squashIfNeeded env layer u a = some b) :
    InvalidationsAppended allowed a b := by
  unfold squashIfNeeded at h
  split at h
  · simp only [Option.map_eq_some'] at h
    obtain ⟨c, hc, rfl⟩ := h
    have := updateSquashingAssignment_invalidations env allowed layer hl u a c hc
    refine invalidationsAppended_trans this ?_
    split <;> exact invalidationsAppended_of_same rfl rfl
  · cases h
    exact invalidationsAppended_of_same rfl rfl

/-- A visit records only the layer itself and its reflection layer. -/
theorem assignSelf_invalidations (env : Env) (layer : LayerId) (a b : Assigner)
    (h : assignSelf env layer a = some b) :
    InvalidationsAppended (MayInvalidate env [layer]) a b := by
  have hself : MayInvalidate env [layer] layer := Or.inl (by simp)
  unfold assignSelf at h
  simp only [Option.bind_eq_some] at h
  obtain ⟨c, hc, h2⟩ := h
  obtain ⟨hcl, hcc⟩ := mergeReasonsPreventingSquashing_invalidations env layer _ c hc
  have s1 : InvalidationsAppended (MayInvalidate env [layer]) a c :=
    invalidationsAppended_of_same hcl hcc
  have s2 := allocateOrClearAndInvalidate_invalidations env (MayInvalidate env [layer]) layer
    hself (computeCompositedLayerUpdate env c.world layer) c
  have s3 := invalidationsAppended_mono
    (assignReflection_invalidations env layer
      (allocateOrClearAndInvalidate env layer (computeCompositedLayerUpdate env c.world layer) c))
    (fun x hx => (Or.inr ⟨layer, by simp, hx⟩ : MayInvalidate env [layer] x))
  have s4 := squashIfNeeded_invalidations env (MayInvalidate env [layer]) layer hself _ _ b h2
  exact invalidationsAppended_trans (invalidationsAppended_trans
    (invalidationsAppended_trans s1 s2) s3) s4

theorem becomeMostRecentMapping_invalidations (env : Env) (layer : LayerId) (a b : Assigner)
    (h : becomeMostRecentMapping env layer a = some b) :
    b.layersNeedingPaintInvalidation = a.layersNeedingPaintInvalidation
    ∧ b.m_layersChanged = a.m_layersChanged := by
  unfold becomeMostRecentMapping at h
  simp only [Option.map_eq_some'] at h
  obtain ⟨c, hc, rfl⟩ := h
  have hscroll : ∀ x : Assigner,
      (updateTopmostScrollChild env layer x).layersNeedingPaintInvalidation
          = x.layersNeedingPaintInvalidation
        ∧ (updateTopmostScrollChild env layer x).m_layersChanged = x.m_layersChanged := by
    intro x
    unfold updateTopmostScrollChild
    cases (env.layer layer).needsCompositedScrolling <;>
      cases (env.layer layer).scrollParent <;> exact ⟨rfl, rfl⟩
  have hpromote : c.layersNeedingPaintInvalidation = a.layersNeedingPaintInvalidation
      ∧ c.m_layersChanged = a.m_layersChanged := by
    split at hc
    · unfold updateSquashingStateForNewMapping at hc
      simp only [Option.map_eq_some', Assigner.log] at hc
      obtain ⟨d, hd, rfl⟩ := hc
      split at hd
      · split at hd
        · cases hd
        · cases hd; exact ⟨rfl, rfl⟩
      · cases hd; exact ⟨rfl, rfl⟩
    · cases hc; exact ⟨rfl, rfl⟩
  exact ⟨(hscroll c).1.trans hpromote.1, (hscroll c).2.trans hpromote.2⟩

theorem finishSubtree_invalidations (layer : LayerId) (a b : Assigner)
    (h : finishSubtree layer a = some b) :
    b.layersNeedingPaintInvalidation = a.layersNeedingPaintInvalidation
    ∧ b.m_layersChanged = a.m_layersChanged := by
  unfold finishSubtree at h
  simp only [Assigner.log] at h
  split at h
  · split at h
    · cases h
    · split at h <;> cases h <;> exact ⟨rfl, rfl⟩
  · cases h; exact ⟨rfl, rfl⟩

theorem mayInvalidate_mono (env : Env) {ls ls' : List LayerId} (hsub : ls ⊆ ls') (x : LayerId)
    (h : MayInvalidate env ls x) : MayInvalidate env ls' x := by
  rcases h with h | ⟨l, hl, hr⟩
  · exact Or.inl (hsub h)
  · exact Or.inr ⟨l, hsub hl, hr⟩

/-- The walk of a subtree only appends to the paint-invalidation list, layers of
the subtree and their reflection layers, and sets `m_layersChanged` exactly when
it appends. -/
theorem assignLayersToBackingsInternal_invalidations (env : Env) :
    ∀ n a b, assignLayersToBackingsInternal env n a = some b →
      InvalidationsAppended (MayInvalidate env n.layers) a b := by
  refine StackingNode.induction
    (fun n => ∀ a b, assignLayersToBackingsInternal env n a = some b →
      InvalidationsAppended (MayInvalidate env n.layers) a b)
    (fun ns => ∀ a b, assignChildren env ns a = some b →
      InvalidationsAppended (MayInvalidate env (StackingNode.layersOfList ns)) a b) ?_ ?_ ?_
  · intro layer sc negZ rest hneg hrest a b h
    rw [assignLayersToBackingsInternal_mk] at h
    simp only [Option.bind_eq_some] at h
    obtain ⟨a1, h1, a2, h2, a3, h3, a4, h4, h5⟩ := h
    rw [StackingNode.layers_mk]
    have s1 : InvalidationsAppended (MayInvalidate env (layer
        :: (StackingNode.layersOfList (if sc then negZ else [])
          ++ StackingNode.layersOfList rest))) a a1 :=
      invalidationsAppended_mono (assignSelf_invalidations env layer a a1 h1)
        (mayInvalidate_mono env (by simp))
    have s2 : InvalidationsAppended (MayInvalidate env (layer
        :: (StackingNode.layersOfList (if sc then negZ else [])
          ++ StackingNode.layersOfList rest))) a1 a2 := by
      cases sc
      · simp only [Bool.false_eq_true, if_false, Option.some.injEq] at h2
        subst h2
        exact invalidationsAppended_of_same rfl rfl
      · simp only [if_true] at h2 ⊢
        exact invalidationsAppended_mono (hneg a1 a2 h2)
          (mayInvalidate_mono env (by
            intro x hx
            simp only [List.mem_cons, List.mem_append]
            exact Or.inr (Or.inl hx)))
    obtain ⟨h3l, h3c⟩ := becomeMostRecentMapping_invalidations env layer a2 a3 h3
    have s4 : InvalidationsAppended (MayInvalidate env (layer
        :: (StackingNode.layersOfList (if sc then negZ else [])
          ++ StackingNode.layersOfList rest))) a3 a4 :=
      invalidationsAppended_mono (hrest a3 a4 h4)
        (mayInvalidate_mono env (by
          intro x hx
          simp only [List.mem_cons, List.mem_append]
          exact Or.inr (Or.inr hx)))
    obtain ⟨h5l, h5c⟩ := finishSubtree_invalidations layer a4 b h5
    exact invalidationsAppended_trans (invalidationsAppended_trans
      (invalidationsAppended_trans (invalidationsAppended_trans s1 s2)
        (invalidationsAppended_of_same h3l h3c)) s4) (invalidationsAppended_of_same h5l h5c)
  · intro a b h
    rw [assignChildren_nil] at h
    cases h
    exact invalidationsAppended_of_same rfl rfl
  · intro n ns hn hns a b h
    rw [assignChildren_cons] at h
    simp only [Option.bind_eq_some] at h
    obtain ⟨a1, h1, h2⟩ := h
    rw [StackingNode.layersOfList_cons]
    exact invalidationsAppended_trans
      (invalidationsAppended_mono (hn a a1 h1)
        (mayInvalidate_mono env (List.subset_append_left _ _)))
      (invalidationsAppended_mono (hns a1 b h2)
        (mayInvalidate_mono env (List.subset_append_right _ _)))

/-- C24 (the changed flag and the paint-invalidation list): `assign` only appends
to the paint-invalidation list, so the entries already in it stay, in their
order; what it appends are layers of the tree and reflection layers of such;
`m_layersChanged` is afterwards set exactly when it was set before or something
was appended, so it is never reset, and for an assigner whose flag was false it
is set if and only if at least one layer was appended. -/
theorem assign_layersChanged (env : Env) (updateRoot : StackingNode) (a b : Assigner)
    (h : assign env updateRoot a = some b) :
    ∃ t, b.layersNeedingPaintInvalidation = a.layersNeedingPaintInvalidation ++ t
      ∧ b.m_layersChanged = (a.m_layersChanged || !t.isEmpty)
      ∧ (a.m_layersChanged = true → b.m_layersChanged = true)
      ∧ (a.m_layersChanged = false → (b.m_layersChanged = true ↔ t ≠ []))
      ∧ ∀ x ∈ t, x ∈ updateRoot.layers
          ∨ ∃ l ∈ updateRoot.layers, (env.layer l).reflectionInfo = some x := by
  unfold assign at h
  simp only [Option.bind_eq_some] at h
  obtain ⟨c, hc, hend⟩ := h
  obtain ⟨t, hl, hf, hallowed⟩ := assignLayersToBackingsInternal_invalidations env updateRoot _ c hc
  have hb : b.layersNeedingPaintInvalidation = c.layersNeedingPaintInvalidation
      ∧ b.m_layersChanged = c.m_layersChanged := by
    split at hend
    · split at hend
      · cases hend
      · cases hend; exact ⟨rfl, rfl⟩
    · cases hend; exact ⟨rfl, rfl⟩
  simp only at hl hf
  refine ⟨t, by rw [hb.1, hl], by rw [hb.2, hf], ?_, ?_, hallowed⟩
  · intro ha
    rw [hb.2, hf, ha]
    rfl
  · intro ha
    rw [hb.2, hf, ha]
    cases t <;> simp

set_option maxRecDepth 100000 in
/-- Witness for C24: the walk of scenario A, from a newly constructed assigner,
appends layers 0 to 3 and sets the flag. -/
theorem assign_layersChanged_witness :
    (∃ t, ((assign (Demo.env true Demo.boxes) Demo.rootWithThreeChildren
          (Demo.start Demo.worldSquashable)).get
            Demo.assign_squashable_isSome).layersNeedingPaintInvalidation
        = (Demo.start Demo.worldSquashable).layersNeedingPaintInvalidation ++ t
      ∧ ((assign (Demo.env true Demo.boxes) Demo.rootWithThreeChildren
          (Demo.start Demo.worldSquashable)).get Demo.assign_squashable_isSome).m_layersChanged
        = ((Demo.start Demo.worldSquashable).m_layersChanged || !t.isEmpty)
      ∧ ((Demo.start Demo.worldSquashable).m_layersChanged = true →
          ((assign (Demo.env true Demo.boxes) Demo.rootWithThreeChildren
            (Demo.start Demo.worldSquashable)).get
              Demo.assign_squashable_isSome).m_layersChanged = true)
      ∧ ((Demo.start Demo.worldSquashable).m_layersChanged = false →
          (((assign (Demo.env true Demo.boxes) Demo.rootWithThreeChildren
            (Demo.start Demo.worldSquashable)).get
              Demo.assign_squashable_isSome).m_layersChanged = true ↔ t ≠ []))
      ∧ ∀ x ∈ t, x ∈ Demo.rootWithThreeChildren.layers
          ∨ ∃ l ∈ Demo.rootWithThreeChildren.layers,
              ((Demo.env true Demo.boxes).layer l).reflectionInfo = some x)
    ∧ (assign (Demo.env true Demo.boxes) Demo.rootWithThreeChildren
        (Demo.start Demo.worldSquashable)).map
          (fun b => (b.layersNeedingPaintInvalidation, b.m_layersChanged))
        = some ([0, 1, 2, 3], true) :=
  ⟨assign_layersChanged (Demo.env true Demo.boxes) Demo.rootWithThreeChildren
      (Demo.start Demo.worldSquashable) _
      (Option.some_get Demo.assign_squashable_isSome).symm,
    by decide!⟩

/-! ## The candidate host is known where it is asserted -/

/-- The visit of a layer itself writes neither the candidate host nor the
subtree flag. -/
theorem assignSelf_hostFields (env : Env) (layer : LayerId) (a a' : Assigner)
    (h : assignSelf env layer a = some a') :
    a'.squashingState.mostRecentMapping = a.squashingState.mostRecentMapping
    ∧ a'.squashingState.hasMostRecentMapping = a.squashingState.hasMostRecentMapping
    ∧ a'.squashingState.haveAssignedBackingsToEntireSquashingLayerSubtree
        = a.squashingState.haveAssignedBackingsToEntireSquashingLayerSubtree := by
  unfold assignSelf at h
  simp only [Option.bind_eq_some] at h
  obtain ⟨b, hb, h2⟩ := h
  obtain ⟨hbs, -⟩ := mergeReasonsPreventingSquashing_state env layer _ b hb
  simp only [Assigner.log] at hbs
  obtain ⟨h2s, -⟩ := allocateOrClearAndInvalidate_state env layer
    (computeCompositedLayerUpdate env b.world layer) b
  obtain ⟨h3s, -⟩ := assignReflection_state env layer
    (allocateOrClearAndInvalidate env layer (computeCompositedLayerUpdate env b.world layer) b)
  obtain ⟨e1, e2, e3, -⟩ := squashIfNeeded_state env layer _ _ a' h2
  rw [h3s, h2s, hbs] at e1 e2 e3
  exact ⟨e1, e2, e3⟩

/-- The closing of a subtree sets the subtree flag only where a most recent
mapping is recorded. -/
theorem finishSubtree_flag (layer : LayerId) (a a' : Assigner)
    (h : finishSubtree layer a = some a')
    (hf : a'.squashingState.haveAssignedBackingsToEntireSquashingLayerSubtree = true) :
    a.squashingState.haveAssignedBackingsToEntireSquashingLayerSubtree = true
    ∨ a.squashingState.hasMostRecentMapping = true := by
  unfold finishSubtree at h
  simp only [Assigner.log] at h
  split at h
  · rename_i hhas
    exact Or.inr hhas
  · cases h
    exact Or.inl hf

/-- The squashing state that `updateSquashingAssignment` is called with in a
visit is the one the visit found. -/
theorem assignReflection_allocate_state (env : Env) (layer : LayerId)
    (u : CompositingStateTransitionType) (a b : Assigner)
    (hb : mergeReasonsPreventingSquashing env layer
      (a.log (Event.visit layer a.squashingState)) = some b) :
    (assignReflection env layer (allocateOrClearAndInvalidate env layer u b)).squashingState
      = a.squashingState := by
  obtain ⟨hbs, -⟩ := mergeReasonsPreventingSquashing_state env layer _ b hb
  rw [(assignReflection_state env layer _).1, (allocateOrClearAndInvalidate_state env layer u b).1,
    hbs]
  rfl

/-- The walk of a subtree from a reachable assigner ends in a reachable one. -/
theorem assignLayersToBackingsInternal_reachable (env : Env) (n : StackingNode)
    (a b : Assigner) (hr : Reachable env a)
    (h : assignLayersToBackingsInternal env n a = some b) : Reachable env b :=
  assignLayersToBackingsInternal_preserves env (Reachable env)
    (fun layer _ _ hI h => Reachable.self layer hI h)
    (fun layer _ _ hI h => Reachable.become layer hI h)
    (fun layer _ _ hI h => Reachable.finish layer hI h) n a b hr h

theorem reachable_hostRecorded {env : Env} (a : Assigner) (hr : Reachable env a) :
    (a.squashingState.haveAssignedBackingsToEntireSquashingLayerSubtree = true →
      a.squashingState.hasMostRecentMapping = true)
    ∧ (a.squashingState.hasMostRecentMapping = true →
      a.squashingState.mostRecentMapping.isSome = true) := by
  induction hr with
  | start a => exact ⟨(fun h => by cases h), (fun h => by cases h)⟩
  | self layer _ h ih =>
    obtain ⟨e1, e2, e3⟩ := assignSelf_hostFields env layer _ _ h
    rw [e1, e2, e3]
    exact ih
  | become layer _ h ih =>
    rcases becomeMostRecentMapping_state env layer _ _ h with ⟨hs, -⟩ | ⟨hm, hhas, hflag, -⟩
    · rw [hs]; exact ih
    · refine ⟨fun hf => ?_, fun hf => ?_⟩
      · rw [hflag] at hf; cases hf
      · rw [hhas] at hf
        rw [hm, compositedLayerMapping, if_pos hf]
        rfl
  | finish layer _ h ih =>
    obtain ⟨-, e1, e2, -, -⟩ := finishSubtree_state layer _ _ h
    refine ⟨fun hf => ?_, fun hf => ?_⟩
    · rw [e2]
      rcases finishSubtree_flag layer _ _ h hf with h' | h'
      · exact ih.1 h'
      · exact h'
    · rw [e1]
      rw [e2] at hf
      exact ih.2 hf

/-- C23 (the candidate host is known where it is asserted): in every assigner
that a walk started by `assign` passes through, the subtree flag implies
`hasMostRecentMapping`, which is what `ASSERT(hasMostRecentMapping)` in
`getReasonsPreventingSquashing` asks for on the state the visit finds, and
`hasMostRecentMapping` implies that the most recent mapping is not null; taking
`requiresSquashing` to be false once a reason that prevents squashing is merged,
when a visit from there computes `PutInSquashingLayer` with squashing enabled,
the squashing state that `updateSquashingAssignment` is called with has
`hasMostRecentMapping` set and a mapping that is not null; and the walk of any
subtree from there ends in an assigner of the same kind. -/
theorem reachable_hostKnown {env : Env} (a : Assigner) (hr : Reachable env a) :
    (a.squashingState.haveAssignedBackingsToEntireSquashingLayerSubtree = true →
      a.squashingState.hasMostRecentMapping = true)
    ∧ (a.squashingState.hasMostRecentMapping = true →
      a.squashingState.mostRecentMapping.isSome = true)
    ∧ (PreventingReasonsExcludeSquashing env → ∀ layer b,
        mergeReasonsPreventingSquashing env layer
          (a.log (Event.visit layer a.squashingState)) = some b →
        env.layerSquashingEnabled = true →
        computeCompositedLayerUpdate env b.world layer = PutInSquashingLayer →
        (assignReflection env layer (allocateOrClearAndInvalidate env layer
            PutInSquashingLayer b)).squashingState.hasMostRecentMapping = true
        ∧ (assignReflection env layer (allocateOrClearAndInvalidate env layer
            PutInSquashingLayer b)).squashingState.mostRecentMapping.isSome = true)
    ∧ ∀ n b, assignLayersToBackingsInternal env n a = some b → Reachable env b := by
  obtain ⟨h1, h2⟩ := reachable_hostRecorded a hr
  refine ⟨h1, h2, ?_, fun n b h => assignLayersToBackingsInternal_reachable env n a b hr h⟩
  intro hrs layer b hb _ hu
  have hflag := mergeReasonsPreventingSquashing_put hrs layer _ b hb hu
  simp only [Assigner.log] at hflag
  rw [assignReflection_allocate_state env layer PutInSquashingLayer a b hb]
  exact ⟨h1 hflag, h2 (h1 hflag)⟩

theorem Demo.afterFirstChild_isSome : Demo.afterFirstChild.isSome = true := by
  decide!

theorem Demo.afterFirstChild_reachable (b : Assigner) (h : Demo.afterFirstChild = some b) :
    Reachable (Demo.env true Demo.boxes) b := by
  unfold Demo.afterFirstChild at h
  simp only [Option.bind_eq_some] at h
  obtain ⟨a1, h1, a2, h2, a3, h3, a4, h4, h5⟩ := h
  exact Reachable.finish 1 (Reachable.become 1 (Reachable.self 1 (Reachable.become 0
    (Reachable.self 0 (Reachable.start (Demo.start Demo.worldSquashable)) h1) h2) h3) h4) h5

set_option maxRecDepth 100000 in
/-- Witness for C23: the assigner that the walk of scenario A has reached once
the subtree of layer 1 is closed, where the subtree flag is set and the mapping
of layer 1 is the candidate host; the visit of layer 2 from there computes
`PutInSquashingLayer`. -/
theorem reachable_hostKnown_witness :
    (Demo.afterFirstChild.map fun b =>
        (b.squashingState.haveAssignedBackingsToEntireSquashingLayerSubtree,
          b.squashingState.hasMostRecentMapping, b.squashingState.mostRecentMapping,
          (mergeReasonsPreventingSquashing (Demo.env true Demo.boxes) 2
            (b.log (Event.visit 2 b.squashingState))).map fun c =>
              computeCompositedLayerUpdate (Demo.env true Demo.boxes) c.world 2))
      = some (true, true, some 1, some PutInSquashingLayer)
    ∧ (((Demo.afterFirstChild.get
          Demo.afterFirstChild_isSome).squashingState).haveAssignedBackingsToEntireSquashingLayerSubtree
          = true →
        ((Demo.afterFirstChild.get Demo.afterFirstChild_isSome).squashingState).hasMostRecentMapping
          = true)
    ∧ (PreventingReasonsExcludeSquashing (Demo.env true Demo.boxes) → ∀ layer b,
        mergeReasonsPreventingSquashing (Demo.env true Demo.boxes) layer
          ((Demo.afterFirstChild.get Demo.afterFirstChild_isSome).log
            (Event.visit layer
              (Demo.afterFirstChild.get Demo.afterFirstChild_isSome).squashingState)) = some b →
        (Demo.env true Demo.boxes).layerSquashingEnabled = true →
        computeCompositedLayerUpdate (Demo.env true Demo.boxes) b.world layer
          = PutInSquashingLayer →
        (assignReflection (Demo.env true Demo.boxes) layer
            (allocateOrClearAndInvalidate (Demo.env true Demo.boxes) layer
              PutInSquashingLayer b)).squashingState.hasMostRecentMapping = true
        ∧ (assignReflection (Demo.env true Demo.boxes) layer
            (allocateOrClearAndInvalidate (Demo.env true Demo.boxes) layer
              PutInSquashingLayer b)).squashingState.mostRecentMapping.isSome = true) :=
  ⟨by decide!,
    (reachable_hostKnown (Demo.afterFirstChild.get Demo.afterFirstChild_isSome)
      (Demo.afterFirstChild_reachable _
        (Option.some_get Demo.afterFirstChild_isSome).symm)).1,
    (reachable_hostKnown (Demo.afterFirstChild.get Demo.afterFirstChild_isSome)
      (Demo.afterFirstChild_reachable _
        (Option.some_get Demo.afterFirstChild_isSome).symm)).2.2.1⟩

/-! ## Paint order -/

theorem phases_append (t q : List Event) : phases (t ++ q) = phases t ++ phases q := by
  simp [phases, List.filterMap_append]

theorem phases_quiet (q : List Event) (hq : ∀ e ∈ q, e.quiet = true) : phases q = [] := by
  induction q with
  | nil => rfl
  | cons e q ih =>
    have he := hq e (List.mem_cons_self _ _)
    have ih := ih fun x hx => hq x (List.mem_cons_of_mem _ hx)
    unfold phases at ih ⊢
    cases e <;> simp [Event.quiet] at he <;> simpa [List.filterMap_cons, Event.phase] using ih

/-- The visit of a layer itself logs one phase, the visit. -/
theorem assignSelf_phases (env : Env) (layer : LayerId) (a a' : Assigner)
    (h : assignSelf env layer a = some a') :
    ∃ t, a'.trace = a.trace ++ t ∧ phases t = [Phase.visit layer] := by
  unfold assignSelf at h
  simp only [Option.bind_eq_some] at h
  obtain ⟨b, hb, h2⟩ := h
  obtain ⟨-, hbt⟩ := mergeReasonsPreventingSquashing_state env layer _ b hb
  simp only [Assigner.log] at hbt
  obtain ⟨-, h2t⟩ := allocateOrClearAndInvalidate_state env layer
    (computeCompositedLayerUpdate env b.world layer) b
  obtain ⟨-, q3, h3t, hq3⟩ := assignReflection_state env layer
    (allocateOrClearAndInvalidate env layer (computeCompositedLayerUpdate env b.world layer) b)
  obtain ⟨-, -, -, h4⟩ := squashIfNeeded_state env layer _ _ a' h2
  obtain ⟨q4, h4t, hq4⟩ : ∃ q4, a'.trace = (assignReflection env layer
      (allocateOrClearAndInvalidate env layer (computeCompositedLayerUpdate env b.world layer)
        b)).trace ++ q4 ∧ phases q4 = [] := by
    rcases h4 with ⟨-, -, -, m, q, -, htr, hq⟩ | ⟨-, ⟨q, htr, hq⟩, -⟩
    · refine ⟨_, htr, ?_⟩
      have e2 := phases_quiet q hq
      unfold phases at e2 ⊢
      simp [List.filterMap_cons, Event.phase, e2]
    · exact ⟨q, htr, phases_quiet q hq⟩
  refine ⟨Event.visit layer a.squashingState
    :: Event.allocateOrClearCompositedLayerMapping layer
        (computeCompositedLayerUpdate env b.world layer)
    :: (q3 ++ q4), ?_, ?_⟩
  · rw [h4t, h3t, h2t, hbt]; simp
  · have e1 := phases_quiet q3 hq3
    unfold phases at e1 hq4 ⊢
    simp [List.filterMap_cons, List.filterMap_append, Event.phase, e1, hq4]

/-- After the negative z-order children, a layer logs no phase, or its own
promotion to candidate host. -/
theorem becomeMostRecentMapping_phases (env : Env) (layer : LayerId) (a a' : Assigner)
    (h : becomeMostRecentMapping env layer a = some a') :
    ∃ t, a'.trace = a.trace ++ t
      ∧ (phases t = [] ∨ phases t = [Phase.promotion (some layer)]) := by
  by_cases hcond : (env.layerSquashingEnabled && hasOwnBackingState a.world layer) = true
  · have hhas : (a.world.layers layer).hasCompositedLayerMapping = true := by
      simp only [Bool.and_eq_true, hasOwnBackingState] at hcond
      exact hcond.2
    rcases becomeMostRecentMapping_state env layer a a' h with ⟨-, q, ht, hq⟩ | ⟨-, -, -, -, q, ht, hq⟩
    · exact ⟨q, ht, Or.inl (phases_quiet q hq)⟩
    · refine ⟨_, ht, Or.inr ?_⟩
      have e1 := phases_quiet q hq
      unfold phases at e1 ⊢
      simp [List.filterMap_cons, Event.phase, e1, compositedLayerMapping, hhas]
  · unfold becomeMostRecentMapping at h
    rw [if_neg hcond] at h
    simp only [Option.map_some', Option.some.injEq] at h
    subst h
    obtain ⟨-, q, ht, hq⟩ := updateTopmostScrollChild_state env layer a
    exact ⟨q, ht, Or.inl (phases_quiet q hq)⟩

theorem StackingNode.paintOrder_mk (layer : LayerId) (sc : Bool)
    (negZ rest : List StackingNode) :
    (StackingNode.mk layer sc negZ rest).paintOrder =
      Phase.visit layer
        :: ((if sc then StackingNode.paintOrderOfList negZ else [])
            ++ Phase.promotion (some layer)
              :: (StackingNode.paintOrderOfList rest ++ [Phase.closing layer])) := by
  rw [StackingNode.paintOrder]

theorem StackingNode.paintOrderOfList_nil : StackingNode.paintOrderOfList [] = [] := by
  rw [StackingNode.paintOrderOfList]

theorem StackingNode.paintOrderOfList_cons (n : StackingNode) (ns : List StackingNode) :
    StackingNode.paintOrderOfList (n :: ns) = n.paintOrder ++ StackingNode.paintOrderOfList ns := by
  rw [StackingNode.paintOrderOfList]

/-- The phases that the walk of a subtree logs are those of paint order over the
subtree, all of them but promotions, in that order. -/
theorem assignLayersToBackingsInternal_phases (env : Env) :
    ∀ n a b, assignLayersToBackingsInternal env n a = some b →
      ∃ t, b.trace = a.trace ++ t
        ∧ (phases t).Sublist n.paintOrder
        ∧ (phases t).filter Phase.unconditional = n.paintOrder.filter Phase.unconditional := by
  refine StackingNode.induction
    (fun n => ∀ a b, assignLayersToBackingsInternal env n a = some b →
      ∃ t, b.trace = a.trace ++ t
        ∧ (phases t).Sublist n.paintOrder
        ∧ (phases t).filter Phase.unconditional = n.paintOrder.filter Phase.unconditional)
    (fun ns => ∀ a b, assignChildren env ns a = some b →
      ∃ t, b.trace = a.trace ++ t
        ∧ (phases t).Sublist (StackingNode.paintOrderOfList ns)
        ∧ (phases t).filter Phase.unconditional
            = (StackingNode.paintOrderOfList ns).filter Phase.unconditional) ?_ ?_ ?_
  · intro layer sc negZ rest hneg hrest a b h
    rw [assignLayersToBackingsInternal_mk] at h
    simp only [Option.bind_eq_some] at h
    obtain ⟨a1, h1, a2, h2, a3, h3, a4, h4, h5⟩ := h
    obtain ⟨t1, ht1, hp1⟩ := assignSelf_phases env layer a a1 h1
    obtain ⟨t2, ht2, hs2, hf2⟩ : ∃ t, a2.trace = a1.trace ++ t
        ∧ (phases t).Sublist (if sc then StackingNode.paintOrderOfList negZ else [])
        ∧ (phases t).filter Phase.unconditional
            = (if sc then StackingNode.paintOrderOfList negZ else []).filter
                Phase.unconditional := by
      cases sc
      · simp only [Bool.false_eq_true, if_false, Option.some.injEq] at h2
        subst h2
        exact ⟨[], by simp, by simp [phases], by simp [phases]⟩
      · simp only [if_true] at h2 ⊢
        exact hneg a1 a2 h2
    obtain ⟨t3, ht3, hp3⟩ := becomeMostRecentMapping_phases env layer a2 a3 h3
    obtain ⟨t4, ht4, hs4, hf4⟩ := hrest a3 a4 h4
    obtain ⟨ht5, -⟩ := finishSubtree_state layer a4 b h5
    refine ⟨t1 ++ (t2 ++ (t3 ++ (t4 ++ [Event.subtreeAssigned layer]))), ?_, ?_, ?_⟩
    · rw [ht5, ht4, ht3, ht2, ht1]; simp
    · rw [StackingNode.paintOrder_mk]
      simp only [phases_append, hp1, List.singleton_append]
      refine List.Sublist.cons₂ _ (List.Sublist.append hs2 ?_)
      have h3' : (phases t3).Sublist [Phase.promotion (some layer)] := by
        rcases hp3 with h | h <;> simp [h]
      have := List.Sublist.append h3' (List.Sublist.append hs4
        (List.Sublist.refl [Phase.closing layer]))
      simpa [phases, Event.phase] using this
    · rw [StackingNode.paintOrder_mk]
      simp only [phases_append, hp1, List.singleton_append, List.filter_append, List.filter_cons,
        hf2, hf4]
      rcases hp3 with h | h <;> (rw [h]; simp [phases, Event.phase, Phase.unconditional])
  · intro a b h
    rw [assignChildren_nil] at h
    cases h
    exact ⟨[], by simp, by simp [phases, StackingNode.paintOrderOfList_nil],
      by simp [phases, StackingNode.paintOrderOfList_nil]⟩
  · intro n ns hn hns a b h
    rw [assignChildren_cons] at h
    simp only [Option.bind_eq_some] at h
    obtain ⟨a1, h1, h2⟩ := h
    obtain ⟨t1, ht1, hs1, hf1⟩ := hn a a1 h1
    obtain ⟨t2, ht2, hs2, hf2⟩ := hns a1 b h2
    refine ⟨t1 ++ t2, by rw [ht2, ht1, List.append_assoc], ?_, ?_⟩
    · rw [StackingNode.paintOrderOfList_cons, phases_append]
      exact List.Sublist.append hs1 hs2
    · rw [StackingNode.paintOrderOfList_cons, phases_append, List.filter_append,
        List.filter_append, hf1, hf2]

theorem filterMap_visited_unconditional (ps : List Phase) :
    (ps.filter Phase.unconditional).filterMap Phase.visited = ps.filterMap Phase.visited := by
  induction ps with
  | nil => rfl
  | cons p ps ih =>
    cases p <;>
      simp [List.filter_cons, List.filterMap_cons, Phase.unconditional, Phase.visited, ih]

/-- The visits of paint order over a subtree are the layers of the subtree. -/
theorem StackingNode.paintOrder_visited :
    ∀ n : StackingNode, n.paintOrder.filterMap Phase.visited = n.layers := by
  refine StackingNode.induction
    (fun n => n.paintOrder.filterMap Phase.visited = n.layers)
    (fun ns => (StackingNode.paintOrderOfList ns).filterMap Phase.visited
      = StackingNode.layersOfList ns) ?_ ?_ ?_
  · intro layer sc negZ rest hneg hrest
    rw [StackingNode.paintOrder_mk, StackingNode.layers_mk]
    cases sc
    · simp [List.filterMap_cons, List.filterMap_append, Phase.visited, hrest,
        StackingNode.layersOfList_nil]
    · simp [List.filterMap_cons, List.filterMap_append, Phase.visited, hrest, hneg]
  · show (StackingNode.paintOrderOfList []).filterMap Phase.visited
      = StackingNode.layersOfList []
    rw [StackingNode.paintOrderOfList_nil, StackingNode.layersOfList_nil]
    rfl
  · intro n ns hn hns
    show (StackingNode.paintOrderOfList (n :: ns)).filterMap Phase.visited
      = StackingNode.layersOfList (n :: ns)
    rw [StackingNode.paintOrderOfList_cons, StackingNode.layersOfList_cons,
      List.filterMap_append, hn, hns]

/-! ## The one squashing state of a walk -/

theorem squashingStateAfter_snoc (env : Env) (tr : List Event) (e : Event) :
    squashingStateAfter env (tr ++ [e]) = (squashingStateAfter env tr).afterEvent env e := by
  unfold squashingStateAfter
  rw [List.foldl_append]
  rfl

theorem SquashingState.afterEvent_quiet (env : Env) (s : SquashingState) (e : Event)
    (he : e.quiet = true) : s.afterEvent env e = s := by
  cases e <;> simp [Event.quiet] at he <;> rfl

/-- Quiet events leave the squashing state of the log as it is. -/
theorem squashingStateAfter_quiet (env : Env) (tr q : List Event)
    (hq : ∀ e ∈ q, e.quiet = true) :
    squashingStateAfter env (tr ++ q) = squashingStateAfter env tr := by
  induction q using List.reverseRecOn with
  | nil => simp
  | append_singleton q e ih =>
    rw [← List.append_assoc, squashingStateAfter_snoc,
      ih fun x hx => hq x (List.mem_append_left _ hx),
      SquashingState.afterEvent_quiet env _ e (hq e (by simp))]

theorem traceAll_visitFindsState_append (env : Env) {tr : List Event}
    (hT : TraceAll (VisitFindsState env) tr) (t : List Event)
    (ht : ∀ e ∈ t, ∀ l s, e ≠ Event.visit l s) : TraceAll (VisitFindsState env) (tr ++ t) :=
  hT.append t fun _ e he l s heq => absurd heq (ht e he l s)

theorem Event.quiet_ne_visit {e : Event} (h : e.quiet = true) (l : LayerId)
    (s : SquashingState) : e ≠ Event.visit l s := by
  rintro rfl
  simp [Event.quiet] at h

/-- What `squashIfNeeded` leaves of the squashing state: the one it found, or
that one with the layer accounted for. -/
theorem squashIfNeeded_squashingState (env : Env) (layer : LayerId)
    (u : CompositingStateTransitionType) (a a' : Assigner)
    (h : squashIfNeeded env layer u a = some a') :
    a'.squashingState = a.squashingState
    ∨ ∀ m i, a'.squashingState
        = a.squashingState.afterEvent env (Event.updateSquashingLayerAssignment m layer i) := by
  unfold squashIfNeeded at h
  split at h
  · simp only [Option.map_eq_some'] at h
    obtain ⟨b, hb, rfl⟩ := h
    obtain ⟨hs, -⟩ := updateSquashingAssignment_state env layer u a b hb
    split
    · right
      intro m i
      simp only [SquashingState.afterEvent, hs]
    · exact Or.inl hs
  · cases h
    exact Or.inl rfl

theorem assignSelf_squashingState (env : Env) (layer : LayerId) (a a' : Assigner)
    (h : assignSelf env layer a = some a') :
    a'.squashingState = a.squashingState
    ∨ ∀ m i, a'.squashingState
        = a.squashingState.afterEvent env (Event.updateSquashingLayerAssignment m layer i) := by
  unfold assignSelf at h
  simp only [Option.bind_eq_some] at h
  obtain ⟨b, hb, h2⟩ := h
  have hs := assignReflection_allocate_state env layer
    (computeCompositedLayerUpdate env b.world layer) a b hb
  have := squashIfNeeded_squashingState env layer _ _ a' h2
  rw [hs] at this
  exact this

/-- What `becomeMostRecentMapping` leaves of the squashing state and of the log:
nothing but quiet events and the state it found, or a change of candidate host
and the state that this event makes of the one it found. -/
theorem becomeMostRecentMapping_squashingState (env : Env) (layer : LayerId)
    (a a' : Assigner) (h : becomeMostRecentMapping env layer a = some a') :
    (a'.squashingState = a.squashingState
      ∧ ∃ q, a'.trace = a.trace ++ q ∧ ∀ e ∈ q, e.quiet = true)
    ∨ ∃ m has q, a'.squashingState
          = a.squashingState.afterEvent env (Event.updateSquashingStateForNewMapping m has)
        ∧ a'.trace = a.trace ++ Event.updateSquashingStateForNewMapping m has :: q
        ∧ ∀ e ∈ q, e.quiet = true := by
  unfold becomeMostRecentMapping at h
  simp only [Option.map_eq_some'] at h
  obtain ⟨b, hb, rfl⟩ := h
  obtain ⟨hs, q, ht, hq⟩ := updateTopmostScrollChild_state env layer b
  split at hb
  · unfold updateSquashingStateForNewMapping at hb
    simp only [Option.map_eq_some', Assigner.log] at hb
    obtain ⟨c, hc, rfl⟩ := hb
    have hct : c.squashingState = a.squashingState
        ∧ ∃ q', c.trace = a.trace ++ Event.updateSquashingStateForNewMapping
            (compositedLayerMapping a.world layer)
            (a.world.layers layer).hasCompositedLayerMapping :: q'
          ∧ ∀ e ∈ q', e.quiet = true := by
      split at hc
      · split at hc
        · cases hc
        · rename_i m hm
          cases hc
          exact ⟨rfl, [Event.call (ExternalCall.finishAccumulatingSquashingLayers m
            a.squashingState.nextSquashedLayerIndex)], by simp [performCall_state],
            by simp [Event.quiet]⟩
      · cases hc
        exact ⟨rfl, [], rfl, by simp⟩
    obtain ⟨hcs, q', hct, hq'⟩ := hct
    refine Or.inr ⟨compositedLayerMapping a.world layer,
      (a.world.layers layer).hasCompositedLayerMapping, q' ++ q, ?_, ?_, ?_⟩
    · rw [hs]
      simp only [SquashingState.afterEvent, hcs]
    · rw [ht]
      show c.trace ++ q = _
      rw [hct]; simp
    · intro e he
      rcases List.mem_append.1 he with he | he
      · exact hq' e he
      · exact hq e he
  · cases hb
    exact Or.inl ⟨hs, q, ht, hq⟩

theorem finishSubtree_squashingState (env : Env) (layer : LayerId) (a a' : Assigner)
    (h : finishSubtree layer a = some a') :
    a'.squashingState = a.squashingState.afterEvent env (Event.subtreeAssigned layer) := by
  unfold finishSubtree at h
  simp only [Assigner.log] at h
  split at h
  · rename_i hhas
    split at h
    · cases h
    · rename_i m hm
      split at h
      · rename_i hml
        cases h
        simp [SquashingState.afterEvent, hhas, hm, hml]
      · rename_i hml
        cases h
        simp [SquashingState.afterEvent, hhas, hm, hml]
  · rename_i hhas
    cases h
    simp [SquashingState.afterEvent, hhas]

theorem assignSelf_threaded {env : Env} (hc : CompositorContract env)
    (hrefl : NoSelfReflection env) (hrs : PreventingReasonsExcludeSquashing env)
    (layer : LayerId) (a a' : Assigner) (hI : Threaded env a)
    (h : assignSelf env layer a = some a') : Threaded env a' := by
  obtain ⟨hex, hst, hT⟩ := hI
  have hex' := assignSelf_exclusive hc hrefl layer a a' hex h
  obtain ⟨-, -, -, b, hb, hcase⟩ := assignSelf_state hrs layer a a' h
  have hfull := assignSelf_squashingState env layer a a' h
  have hvisit : TraceAll (VisitFindsState env)
      (a.trace ++ [Event.visit layer a.squashingState]) := by
    refine hT.snoc ?_
    intro l s he
    cases he
    exact hst
  have hvs : squashingStateAfter env (a.trace ++ [Event.visit layer a.squashingState])
      = a.squashingState := by
    rw [squashingStateAfter_snoc, ← hst]
    rfl
  rcases hcase with ⟨-, -, -, hnext, m, q1, q2, -, ht, hq1, hq2⟩ | ⟨⟨q, ht, hq⟩, hnext⟩
  · have heq : a'.trace = (((a.trace ++ [Event.visit layer a.squashingState]) ++ q1)
        ++ [Event.updateSquashingLayerAssignment m layer
              a.squashingState.nextSquashedLayerIndex]) ++ q2 := by
      rw [ht]; simp
    have hs' : a'.squashingState = a.squashingState.afterEvent env
        (Event.updateSquashingLayerAssignment m layer
          a.squashingState.nextSquashedLayerIndex) := by
      rcases hfull with hf | hf
      · rw [hf] at hnext
        omega
      · exact hf m _
    refine ⟨hex', ?_, ?_⟩
    · rw [heq, squashingStateAfter_quiet env _ q2 hq2, squashingStateAfter_snoc,
        squashingStateAfter_quiet env _ q1 hq1, hvs, hs']
    · rw [heq]
      refine traceAll_visitFindsState_append env
        (TraceAll.snoc (traceAll_visitFindsState_append env hvisit q1
          fun e he l s => Event.quiet_ne_visit (hq1 e he) l s) ?_) q2
        fun e he l s => Event.quiet_ne_visit (hq2 e he) l s
      intro l s he
      cases he
  · have heq : a'.trace = (a.trace ++ [Event.visit layer a.squashingState]) ++ q := by
      rw [ht]; simp
    have hsame : a'.squashingState.nextSquashedLayerIndex
        = a.squashingState.nextSquashedLayerIndex := by
      rcases hnext with hn | ⟨-, hen, hu, hg⟩
      · exact hn
      · have := assignSelf_noChange_grouped hc layer a a' b hex h hb hen hu
        rw [hg] at this
        cases this
    have hs' : a'.squashingState = a.squashingState := by
      rcases hfull with hf | hf
      · exact hf
      · have := hf 0 0
        rw [this] at hsame
        simp only [SquashingState.afterEvent] at hsame
        omega
    refine ⟨hex', ?_, ?_⟩
    · rw [heq, squashingStateAfter_quiet env _ q hq, hvs, hs']
    · rw [heq]
      exact traceAll_visitFindsState_append env hvisit q
        fun e he l s => Event.quiet_ne_visit (hq e he) l s

theorem becomeMostRecentMapping_threaded {env : Env} (hc : CompositorContract env)
    (layer : LayerId) (a a' : Assigner) (hI : Threaded env a)
    (h : becomeMostRecentMapping env layer a = some a') : Threaded env a' := by
  obtain ⟨hex, hst, hT⟩ := hI
  have hex' : Exclusive a'.world :=
    hex.of_nothingGained (becomeMostRecentMapping_gains hc layer a a' h)
  rcases becomeMostRecentMapping_squashingState env layer a a' h with
    ⟨hs, q, ht, hq⟩ | ⟨m, has, q, hs, ht, hq⟩
  · refine ⟨hex', ?_, ?_⟩
    · rw [hs, ht, squashingStateAfter_quiet env _ q hq, hst]
    · rw [ht]
      exact traceAll_visitFindsState_append env hT q
        fun e he l s => Event.quiet_ne_visit (hq e he) l s
  · have heq : a'.trace = (a.trace ++ [Event.updateSquashingStateForNewMapping m has]) ++ q := by
      rw [ht]; simp
    refine ⟨hex', ?_, ?_⟩
    · rw [hs, heq, squashingStateAfter_quiet env _ q hq, squashingStateAfter_snoc, hst]
    · rw [heq]
      refine traceAll_visitFindsState_append env (hT.snoc ?_) q
        fun e he l s => Event.quiet_ne_visit (hq e he) l s
      intro l s he
      cases he

theorem finishSubtree_threaded (env : Env) (layer : LayerId) (a a' : Assigner)
    (hI : Threaded env a) (h : finishSubtree layer a = some a') : Threaded env a' := by
  obtain ⟨hex, hst, hT⟩ := hI
  obtain ⟨ht, -⟩ := finishSubtree_state layer a a' h
  refine ⟨?_, ?_, ?_⟩
  · rw [finishSubtree_world layer a a' h]; exact hex
  · rw [finishSubtree_squashingState env layer a a' h, ht, squashingStateAfter_snoc, hst]
  · rw [ht]
    refine hT.snoc ?_
    intro l s he
    cases he

/-- C22 (the walk terminates and keeps paint order): under the contract of the
collaborators, from a world that keeps mutual exclusion, `assign` has a result
on every stacking tree; the phases it logs are those of paint order over the
tree (for each node the layer itself, the subtrees of its negative z-order
children when it is a stacking context, its promotion to candidate host, the
subtrees of its normal-flow and positive z-order children, the closing of its
subtree), promotions being logged only for layers that are promoted and all
other phases for every node, so the layers visited are the layers of the tree
in that order, each node once, and each layer once when the layers of the tree
are pairwise distinct; and one squashing state is threaded through the walk:
every visit finds the state that the whole log before it has left, and so does
the end of the walk. -/
theorem assign_paintOrder (env : Env) (hc : CompositorContract env)
    (hrefl : NoSelfReflection env) (hrs : PreventingReasonsExcludeSquashing env)
    (updateRoot : StackingNode) (a : Assigner) (hex : Exclusive a.world) :
    ∃ b, assign env updateRoot a = some b
      ∧ (phases b.trace).Sublist updateRoot.paintOrder
      ∧ (phases b.trace).filter Phase.unconditional
          = updateRoot.paintOrder.filter Phase.unconditional
      ∧ (phases b.trace).filterMap Phase.visited = updateRoot.layers
      ∧ (updateRoot.layers.Nodup →
          ∀ l ∈ updateRoot.layers, ((phases b.trace).filterMap Phase.visited).count l = 1)
      ∧ (∀ pre post l s, b.trace = pre ++ Event.visit l s :: post →
          s = squashingStateAfter env pre)
      ∧ b.squashingState = squashingStateAfter env b.trace := by
  obtain ⟨b, hb⟩ := assign_isSome env hc hrs updateRoot a
  refine ⟨b, hb, ?_⟩
  unfold assign at hb
  simp only [Option.bind_eq_some] at hb
  obtain ⟨c, hwalk, hend⟩ := hb
  obtain ⟨t, ht, hsub, hfil⟩ := assignLayersToBackingsInternal_phases env updateRoot _ c hwalk
  simp only [List.nil_append] at ht
  obtain ⟨-, hst, hT⟩ : Threaded env c :=
    assignLayersToBackingsInternal_preserves env (Threaded env)
      (fun layer a a' hI h => assignSelf_threaded hc hrefl hrs layer a a' hI h)
      (fun layer a a' hI h => becomeMostRecentMapping_threaded hc layer a a' hI h)
      (fun layer a a' hI h => finishSubtree_threaded env layer a a' hI h)
      updateRoot { a with squashingState := SquashingState.fresh, trace := [] } c
      ⟨hex, rfl, TraceAll.nil _⟩ hwalk
  obtain ⟨q, hq, hquiet, hs⟩ : ∃ q, b.trace = c.trace ++ q ∧ (∀ e ∈ q, e.quiet = true)
      ∧ b.squashingState = c.squashingState := by
    split at hend
    · split at hend
      · cases hend
      · cases hend; exact ⟨[_], rfl, by simp [Event.quiet], rfl⟩
    · cases hend; exact ⟨[], by simp, by simp, rfl⟩
  have hph : phases b.trace = phases t := by
    rw [hq, phases_append, phases_quiet q hquiet, List.append_nil, ht]
  have hvis : (phases b.trace).filterMap Phase.visited = updateRoot.layers := by
    rw [← filterMap_visited_unconditional, hph, hfil, filterMap_visited_unconditional,
      StackingNode.paintOrder_visited]
  refine ⟨by rw [hph]; exact hsub, by rw [hph]; exact hfil, hvis, ?_, ?_, ?_⟩
  · intro hnodup l hl
    rw [hvis]
    exact List.count_eq_one_of_mem hnodup hl
  · intro pre post l s htr
    have hT' : TraceAll (VisitFindsState env) b.trace := by
      rw [hq]
      exact traceAll_visitFindsState_append env hT q
        fun e he l s => Event.quiet_ne_visit (hquiet e he) l s
    exact hT' pre _ post htr l s rfl
  · rw [hs, hq, squashingStateAfter_quiet env _ q hquiet, hst]

set_option maxRecDepth 100000 in
/-- Witness for C22: the walk of scenario A visits the root and promotes it,
visits layer 1, promotes it and closes its subtree, visits and closes layers 2
and 3, which are squashed and not promoted, and closes the root; the visit of
layer 3 finds the state that the squashing of layer 2 into the mapping of layer
1 has left. -/
theorem assign_paintOrder_witness :
    (∃ b, assign (Demo.env true Demo.boxes) Demo.rootWithThreeChildren
          (Demo.start Demo.worldSquashable) = some b
      ∧ (phases b.trace).Sublist Demo.rootWithThreeChildren.paintOrder
      ∧ (phases b.trace).filter Phase.unconditional
          = Demo.rootWithThreeChildren.paintOrder.filter Phase.unconditional
      ∧ (phases b.trace).filterMap Phase.visited = Demo.rootWithThreeChildren.layers
      ∧ (Demo.rootWithThreeChildren.layers.Nodup →
          ∀ l ∈ Demo.rootWithThreeChildren.layers,
            ((phases b.trace).filterMap Phase.visited).count l = 1)
      ∧ (∀ pre post l s, b.trace = pre ++ Event.visit l s :: post →
          s = squashingStateAfter (Demo.env true Demo.boxes) pre)
      ∧ b.squashingState = squashingStateAfter (Demo.env true Demo.boxes) b.trace)
    ∧ (assign (Demo.env true Demo.boxes) Demo.rootWithThreeChildren
        (Demo.start Demo.worldSquashable)).map (fun b => phases b.trace)
        = some [Phase.visit 0, Phase.promotion (some 0), Phase.visit 1,
            Phase.promotion (some 1), Phase.closing 1, Phase.visit 2, Phase.closing 2,
            Phase.visit 3, Phase.closing 3, Phase.closing 0]
    ∧ (assign (Demo.env true Demo.boxes) Demo.rootWithThreeChildren
        (Demo.start Demo.worldSquashable)).map (fun b =>
          b.trace.filterMap fun e =>
            match e with
            | Event.visit l s => if l = 3 then some s else none
            | _ => none)
        = some [SquashingState.withHost 1 1 ⟨20, 0, 10, 10⟩ 100] :=
  ⟨assign_paintOrder (Demo.env true Demo.boxes) (Demo.contract true Demo.boxes)
      (Demo.boxes_noSelfReflection true)
      (Demo.preventingReasonsExcludeSquashing true Demo.boxes) Demo.rootWithThreeChildren
      (Demo.start Demo.worldSquashable) (by intro l h; cases h),
    by decide!, by decide!⟩

/-! ## The reasons that a walk merges -/

/-- The log of a visit starts with the visit and the state it found. -/
theorem assignSelf_trace_visit (env : Env) (layer : LayerId) (a b : Assigner)
    (h : assignSelf env layer a = some b) :
    ∃ t, b.trace = a.trace ++ Event.visit layer a.squashingState :: t := by
  unfold assignSelf at h
  simp only [Option.bind_eq_some] at h
  obtain ⟨c, hc, h2⟩ := h
  obtain ⟨-, hct⟩ := mergeReasonsPreventingSquashing_state env layer _ c hc
  simp only [Assigner.log] at hct
  obtain ⟨-, h2t⟩ := allocateOrClearAndInvalidate_state env layer
    (computeCompositedLayerUpdate env c.world layer) c
  obtain ⟨-, q3, h3t, -⟩ := assignReflection_state env layer
    (allocateOrClearAndInvalidate env layer (computeCompositedLayerUpdate env c.world layer) c)
  obtain ⟨-, -, -, h4⟩ := squashIfNeeded_state env layer _ _ b h2
  obtain ⟨q4, h4t⟩ : ∃ q4, b.trace = (assignReflection env layer
      (allocateOrClearAndInvalidate env layer (computeCompositedLayerUpdate env c.world layer)
        c)).trace ++ q4 := by
    rcases h4 with ⟨-, -, -, m, q, -, htr, -⟩ | ⟨-, ⟨q, htr, -⟩, -⟩
    · exact ⟨_, htr⟩
    · exact ⟨q, htr⟩
  refine ⟨Event.allocateOrClearCompositedLayerMapping layer
    (computeCompositedLayerUpdate env c.world layer) :: (q3 ++ q4), ?_⟩
  rw [h4t, h3t, h2t, hct]
  simp

/-- What a visit does to the reasons of a layer that is not the reflection of the
visited layer: nothing, or, for the visited layer, with squashing enabled and
reasons that request squashing, the merge of the reason that the pre-check
found. -/
theorem assignSelf_reasons_merged {env : Env} (hre : ReasonsContract env)
    (layer : LayerId) (a b : Assigner) (h : assignSelf env layer a = some b) (l : LayerId)
    (hl : (env.layer layer).reflectionInfo ≠ some l) :
    (b.world.layers l).compositingReasons = (a.world.layers l).compositingReasons
    ∨ (l = layer ∧ ∃ r, MergedAtVisit env b.trace l r
        ∧ (b.world.layers l).compositingReasons
            = (a.world.layers l).compositingReasons ||| env.mask r) := by
  obtain ⟨t, ht⟩ := assignSelf_trace_visit env layer a b h
  unfold assignSelf at h
  simp only [Option.bind_eq_some] at h
  obtain ⟨a1, h1, h2⟩ := h
  have hrest : (b.world.layers l).compositingReasons
      = (a1.world.layers l).compositingReasons := by
    rw [squashIfNeeded_reasons hre layer _ _ b h2 l, assignReflection_reasons hre layer _ l hl,
      allocateOrClearAndInvalidate_reasons hre]
  obtain ⟨hother, hput, hsame⟩ := mergeReasonsPreventingSquashing_reasons env layer _ a1 h1
  simp only [Assigner.log] at hother hput hsame
  by_cases hll : l = layer
  · subst hll
    by_cases hen : env.layerSquashingEnabled = true
    · by_cases hreq : env.requiresSquashing (a.world.layers l).compositingReasons = true
      · obtain ⟨r, hget, hr⟩ := hput hen hreq
        by_cases hnone : r = CompositingReasonNone
        · left
          rw [hrest, hr, hnone]
          simp [Env.mask]
        · right
          refine ⟨rfl, r, ⟨hnone, hen, a.world, a.squashingState, ?_, hreq, hget⟩, ?_⟩
          · rw [ht]
            simp
          · rw [hrest, hr]
      · left
        rw [hrest, hsame (Or.inr (Or.inl (by simpa using hreq)))]
    · left
      rw [hrest, hsame (Or.inl (by simpa using hen))]
  · left
    rw [hrest, hother l hll]

theorem mergedAtVisit_mono {env : Env} {tr tr' : List Event} (hsub : tr ⊆ tr') {l : LayerId}
    {r : CompositingReason} (h : MergedAtVisit env tr l r) : MergedAtVisit env tr' l r := by
  obtain ⟨h1, h2, w, s, hv, h3, h4⟩ := h
  exact ⟨h1, h2, w, s, hsub hv, h3, h4⟩

theorem reasonsMergedAtVisits_of_same {env : Env} {w : World} {a b : Assigner}
    (hI : ReasonsMergedAtVisits env w a)
    (h : ∀ l, (b.world.layers l).compositingReasons = (a.world.layers l).compositingReasons)
    (hsub : a.trace ⊆ b.trace) : ReasonsMergedAtVisits env w b := by
  intro l hl
  obtain ⟨rs, hrs, htied⟩ := hI l hl
  exact ⟨rs, by rw [h l, hrs], fun r hr => mergedAtVisit_mono hsub (htied r hr)⟩

/-- The walk keeps `ReasonsMergedAtVisits`. -/
theorem assignLayersToBackingsInternal_reasonsMerged {env : Env} (hre : ReasonsContract env)
    (w : World) (n : StackingNode) (a a' : Assigner) (hI : ReasonsMergedAtVisits env w a)
    (h : assignLayersToBackingsInternal env n a = some a') : ReasonsMergedAtVisits env w a' := by
  refine assignLayersToBackingsInternal_preserves env (ReasonsMergedAtVisits env w) ?_ ?_ ?_ n
    a a' hI h
  · intro layer a b hI hb l hl
    obtain ⟨rs, hrs, htied⟩ := hI l hl
    obtain ⟨t, ht⟩ := assignSelf_trace_visit env layer a b hb
    have hsub : a.trace ⊆ b.trace := by
      rw [ht]
      exact List.subset_append_left _ _
    rcases assignSelf_reasons_merged hre layer a b hb l (hl layer) with hsame | ⟨-, r, hr, hm⟩
    · exact ⟨rs, by rw [hsame, hrs], fun r hr => mergedAtVisit_mono hsub (htied r hr)⟩
    · refine ⟨rs ++ [r], by rw [mergedReasons_snoc, hm, hrs], ?_⟩
      intro r' hr'
      rcases List.mem_append.1 hr' with h' | h'
      · exact mergedAtVisit_mono hsub (htied r' h')
      · simp only [List.mem_singleton] at h'
        subst h'
        exact hr
  · intro layer a b hI hb
    refine reasonsMergedAtVisits_of_same hI (becomeMostRecentMapping_reasons hre layer a b hb) ?_
    rcases becomeMostRecentMapping_state env layer a b hb with ⟨-, q, ht, -⟩ | ⟨-, -, -, -, q, ht, -⟩
    · rw [ht]; exact List.subset_append_left _ _
    · rw [ht]; exact List.subset_append_left _ _
  · intro layer a b hI hb
    refine reasonsMergedAtVisits_of_same hI
      (fun l => by rw [finishSubtree_world layer a b hb]) ?_
    rw [(finishSubtree_state layer a b hb).1]
    exact List.subset_append_left _ _

theorem assign_reasonsMerged {env : Env} (hre : ReasonsContract env) (updateRoot : StackingNode)
    (a a' : Assigner) (h : assign env updateRoot a = some a') :
    ReasonsMergedAtVisits env a.world a' := by
  unfold assign at h
  simp only [Option.bind_eq_some] at h
  obtain ⟨b, hb, hfin⟩ := h
  have hI := assignLayersToBackingsInternal_reasonsMerged hre a.world updateRoot
    { a with squashingState := SquashingState.fresh, trace := [] } b
    (fun _ _ => ⟨[], rfl, fun _ hr => by cases hr⟩) hb
  split at hfin
  · split at hfin
    · cases hfin
    · cases hfin
      refine reasonsMergedAtVisits_of_same hI
        (fun l => hre.perform_reasons _ _ l (by intro h; cases h)) ?_
      rw [(performCall_state env _ b).2]
      exact List.subset_append_left _ _
  · cases hfin
    exact hI

/-- The visits that `assign` logs are the layers of the tree, in paint order. -/
theorem assign_visited (env : Env) (updateRoot : StackingNode) (a b : Assigner)
    (h : assign env updateRoot a = some b) :
    (phases b.trace).filterMap Phase.visited = updateRoot.layers := by
  unfold assign at h
  simp only [Option.bind_eq_some] at h
  obtain ⟨c, hwalk, hend⟩ := h
  obtain ⟨t, ht, -, hfil⟩ := assignLayersToBackingsInternal_phases env updateRoot _ c hwalk
  simp only [List.nil_append] at ht
  obtain ⟨q, hq, hquiet⟩ : ∃ q, b.trace = c.trace ++ q ∧ ∀ e ∈ q, e.quiet = true := by
    split at hend
    · split at hend
      · cases hend
      · cases hend; exact ⟨[_], rfl, by simp [Event.quiet]⟩
    · cases hend; exact ⟨[], by simp, by simp⟩
  rw [hq, phases_append, phases_quiet q hquiet, List.append_nil, ht,
    ← filterMap_visited_unconditional, hfil, filterMap_visited_unconditional,
    StackingNode.paintOrder_visited]

theorem assign_visit_mem (env : Env) (updateRoot : StackingNode) (a b : Assigner)
    (h : assign env updateRoot a = some b) (l : LayerId) (s : SquashingState)
    (hv : Event.visit l s ∈ b.trace) : l ∈ updateRoot.layers := by
  rw [← assign_visited env updateRoot a b h]
  simp only [List.mem_filterMap, phases]
  exact ⟨Phase.visit l, ⟨Event.visit l s, hv, rfl⟩, rfl⟩

/-- C19, amended: the merge of a disqualifying reason is a set union: after the
pre-check of a visit the reasons of the layer are the reasons before or-ed with
the reason returned by `getReasonsPreventingSquashing`, so every bit set before
is still set, and the reasons of the other layers are as before; they are
unchanged when squashing is disabled, when the reasons do not request
squashing, or when no disqualifying reason is found; and, the collaborators
writing no reasons but `updateDirectCompositingReasons` those of the layer it is
called for, no other step of the walk modifies the reasons of a layer, except
that the reflection handling may change those of the reflection layer: the
allocation, the squashing assignment, the promotion to candidate host and the
closing of the subtree leave the reasons of every layer as they are, the
reflection handling those of every layer but the reflection layer, and after
`assign` the reasons of a layer that is no reflection are those from before
with, merged in, only reasons that pre-checks of visits of that layer have
found, none for a layer outside the tree and none when squashing is disabled. -/
theorem assign_reasons_only_merged (env : Env) :
    (∀ layer a b, mergeReasonsPreventingSquashing env layer a = some b →
      (∀ l, l ≠ layer →
        (b.world.layers l).compositingReasons = (a.world.layers l).compositingReasons)
      ∧ (env.layerSquashingEnabled = true →
          env.requiresSquashing (a.world.layers layer).compositingReasons = true →
          ∃ r, getReasonsPreventingSquashing env a.world layer a.squashingState = some r
            ∧ (b.world.layers layer).compositingReasons
                = (a.world.layers layer).compositingReasons ||| env.mask r)
      ∧ ((env.layerSquashingEnabled = false
            ∨ env.requiresSquashing (a.world.layers layer).compositingReasons = false
            ∨ getReasonsPreventingSquashing env a.world layer a.squashingState
                = some CompositingReasonNone) →
          (b.world.layers layer).compositingReasons
            = (a.world.layers layer).compositingReasons)
      ∧ (∀ i, (a.world.layers layer).compositingReasons.testBit i = true →
          (b.world.layers layer).compositingReasons.testBit i = true))
    ∧ (ReasonsContract env →
        (∀ layer u a l,
          ((allocateOrClearAndInvalidate env layer u a).world.layers l).compositingReasons
            = (a.world.layers l).compositingReasons)
        ∧ (∀ layer a l, (env.layer layer).reflectionInfo ≠ some l →
          ((assignReflection env layer a).world.layers l).compositingReasons
            = (a.world.layers l).compositingReasons)
        ∧ (∀ layer u a b, squashIfNeeded env layer u a = some b → ∀ l,
          (b.world.layers l).compositingReasons = (a.world.layers l).compositingReasons)
        ∧ (∀ layer a b, becomeMostRecentMapping env layer a = some b → ∀ l,
          (b.world.layers l).compositingReasons = (a.world.layers l).compositingReasons)
        ∧ (∀ layer a b, finishSubtree layer a = some b → ∀ l,
          (b.world.layers l).compositingReasons = (a.world.layers l).compositingReasons)
        ∧ ∀ updateRoot a a', assign env updateRoot a = some a' →
          ∀ l, NotAReflection env l →
            ∃ rs, (a'.world.layers l).compositingReasons
                = mergedReasons env (a.world.layers l).compositingReasons rs
              ∧ (∀ r ∈ rs, MergedAtVisit env a'.trace l r)
              ∧ (l ∉ updateRoot.layers → rs = [])
              ∧ (env.layerSquashingEnabled = false → rs = [])
              ∧ ∀ i, (a.world.layers l).compositingReasons.testBit i = true →
                  (a'.world.layers l).compositingReasons.testBit i = true) := by
  constructor
  · intro layer a b h
    obtain ⟨h1, h2, h3⟩ := mergeReasonsPreventingSquashing_reasons env layer a b h
    refine ⟨h1, h2, h3, ?_⟩
    intro i hi
    by_cases hen : env.layerSquashingEnabled = true
    · by_cases hreq : env.requiresSquashing (a.world.layers layer).compositingReasons = true
      · obtain ⟨r, -, hr⟩ := h2 hen hreq
        rw [hr]
        simp [Nat.testBit_or, hi]
      · rw [h3 (Or.inr (Or.inl (by simpa using hreq)))]
        exact hi
    · rw [h3 (Or.inl (by simpa using hen))]
      exact hi
  · intro hre
    refine ⟨fun layer u a l => allocateOrClearAndInvalidate_reasons hre layer u a l,
      fun layer a l hl => assignReflection_reasons hre layer a l hl,
      fun layer u a b h l => squashIfNeeded_reasons hre layer u a b h l,
      fun layer a b h l => becomeMostRecentMapping_reasons hre layer a b h l,
      fun layer a b h l => by rw [finishSubtree_world layer a b h], ?_⟩
    intro updateRoot a a' h l hl
    obtain ⟨rs, hrs, htied⟩ := assign_reasonsMerged hre updateRoot a a' h l hl
    refine ⟨rs, hrs, htied, ?_, ?_, ?_⟩
    · intro hout
      refine List.eq_nil_iff_forall_not_mem.2 fun r hr => ?_
      obtain ⟨-, -, w, s, hv, -⟩ := htied r hr
      exact hout (assign_visit_mem env updateRoot a a' h l s hv)
    · intro hdis
      refine List.eq_nil_iff_forall_not_mem.2 fun r hr => ?_
      obtain ⟨-, hen, -⟩ := htied r hr
      rw [hdis] at hen
      cases hen
    · intro i hi
      rw [hrs]
      exact mergedReasons_testBit env rs _ i hi

set_option maxRecDepth 100000 in
/-- Witness for C19: in the walk over three squashable children the reasons of
the first child, 2, get the reason `SquashingWouldBreakPaintOrder`, bit 2,
merged in, and the reasons of the other layers stay as they are. -/
theorem assign_reasons_only_merged_witness :
    (∃ a', assign (Demo.env true Demo.boxes) Demo.rootWithThreeChildren
        (Demo.start Demo.worldSquashable) = some a'
      ∧ ∀ l, ∃ rs, (a'.world.layers l).compositingReasons
            = mergedReasons (Demo.env true Demo.boxes)
                ((Demo.start Demo.worldSquashable).world.layers l).compositingReasons rs
          ∧ (∀ r ∈ rs, MergedAtVisit (Demo.env true Demo.boxes) a'.trace l r)
          ∧ (l ∉ Demo.rootWithThreeChildren.layers → rs = [])
          ∧ ((Demo.env true Demo.boxes).layerSquashingEnabled = false → rs = [])
          ∧ ∀ i, ((Demo.start Demo.worldSquashable).world.layers l).compositingReasons.testBit i
                = true → (a'.world.layers l).compositingReasons.testBit i = true)
    ∧ (assign (Demo.env true Demo.boxes) Demo.rootWithThreeChildren
        (Demo.start Demo.worldSquashable)).map
          (fun a' => [0, 1, 2, 3, 4].map fun l => (a'.world.layers l).compositingReasons)
        = some [0, 6, 2, 2, 2] :=
  ⟨⟨_, (Option.some_get Demo.assign_squashable_isSome).symm, fun l =>
      ((assign_reasons_only_merged (Demo.env true Demo.boxes)).2
        (Demo.reasonsContract true Demo.boxes)).2.2.2.2.2 Demo.rootWithThreeChildren
        (Demo.start Demo.worldSquashable) _
        (Option.some_get Demo.assign_squashable_isSome).symm l
        (Demo.boxes_notAReflection true l)⟩,
    by decide!⟩

/-! ## The second run of the walk, layer by layer -/

/-- Every layer that is visited has its transition logged. -/
theorem assignSelf_trace_transition (env : Env) (layer : LayerId) (a b : Assigner)
    (h : assignSelf env layer a = some b) :
    ∃ u, Event.allocateOrClearCompositedLayerMapping layer u ∈ b.trace := by
  unfold assignSelf at h
  simp only [Option.bind_eq_some] at h
  obtain ⟨c, hc, h2⟩ := h
  obtain ⟨-, h2t⟩ := allocateOrClearAndInvalidate_state env layer
    (computeCompositedLayerUpdate env c.world layer) c
  obtain ⟨-, q3, h3t, -⟩ := assignReflection_state env layer
    (allocateOrClearAndInvalidate env layer (computeCompositedLayerUpdate env c.world layer) c)
  obtain ⟨-, -, -, h4⟩ := squashIfNeeded_state env layer _ _ b h2
  obtain ⟨q4, h4t⟩ : ∃ q4, b.trace = (assignReflection env layer
      (allocateOrClearAndInvalidate env layer (computeCompositedLayerUpdate env c.world layer)
        c)).trace ++ q4 := by
    rcases h4 with ⟨-, -, -, m, q, -, htr, -⟩ | ⟨-, ⟨q, htr, -⟩, -⟩
    · exact ⟨_, htr⟩
    · exact ⟨q, htr⟩
  refine ⟨computeCompositedLayerUpdate env c.world layer, ?_⟩
  rw [h4t, h3t, h2t]
  simp

/-- The assertion that every visit logged has its transition logged. -/
theorem assignLayersToBackingsInternal_transitions (env : Env) (n : StackingNode)
    (a b : Assigner)
    (hI : ∀ l s, Event.visit l s ∈ a.trace →
      ∃ u, Event.allocateOrClearCompositedLayerMapping l u ∈ a.trace)
    (h : assignLayersToBackingsInternal env n a = some b) :
    ∀ l s, Event.visit l s ∈ b.trace →
      ∃ u, Event.allocateOrClearCompositedLayerMapping l u ∈ b.trace := by
  refine assignLayersToBackingsInternal_preserves env
    (fun x => ∀ l s, Event.visit l s ∈ x.trace →
      ∃ u, Event.allocateOrClearCompositedLayerMapping l u ∈ x.trace) ?_ ?_ ?_ n a b hI h
  · intro layer x y hI hy l s hv
    obtain ⟨t, ht, hp⟩ := assignSelf_phases env layer x y hy
    rw [ht] at hv
    rcases List.mem_append.1 hv with hv | hv
    · obtain ⟨u, hu⟩ := hI l s hv
      exact ⟨u, by rw [ht]; exact List.mem_append_left _ hu⟩
    · have hmem : Phase.visit l ∈ phases t := by
        simp only [phases, List.mem_filterMap]
        exact ⟨Event.visit l s, hv, rfl⟩
      rw [hp] at hmem
      simp only [List.mem_singleton, Phase.visit.injEq] at hmem
      subst hmem
      exact assignSelf_trace_transition env l x y hy
  · intro layer x y hI hy l s hv
    obtain ⟨t, ht, hp⟩ := becomeMostRecentMapping_phases env layer x y hy
    rw [ht] at hv
    rcases List.mem_append.1 hv with hv | hv
    · obtain ⟨u, hu⟩ := hI l s hv
      exact ⟨u, by rw [ht]; exact List.mem_append_left _ hu⟩
    · have hmem : Phase.visit l ∈ phases t := by
        simp only [phases, List.mem_filterMap]
        exact ⟨Event.visit l s, hv, rfl⟩
      rcases hp with hp | hp <;> rw [hp] at hmem <;> simp at hmem
  · intro layer x y hI hy l s hv
    rw [(finishSubtree_state layer x y hy).1] at hv ⊢
    rcases List.mem_append.1 hv with hv | hv
    · obtain ⟨u, hu⟩ := hI l s hv
      exact ⟨u, List.mem_append_left _ hu⟩
    · simp at hv

/-- The log of `assign` has a transition for every layer of the tree. -/
theorem assign_transitions (env : Env) (updateRoot : StackingNode) (a b : Assigner)
    (h : assign env updateRoot a = some b) (l : LayerId) (hl : l ∈ updateRoot.layers) :
    ∃ u, Event.allocateOrClearCompositedLayerMapping l u ∈ b.trace := by
  have hvis := assign_visited env updateRoot a b h
  rw [← hvis] at hl
  simp only [List.mem_filterMap, phases] at hl
  obtain ⟨p, ⟨e, he, hep⟩, hpl⟩ := hl
  have hev : ∃ s, e = Event.visit l s := by
    cases e <;> simp [Event.phase] at hep <;> subst hep <;> simp [Phase.visited] at hpl
    subst hpl
    exact ⟨_, rfl⟩
  obtain ⟨s, rfl⟩ := hev
  unfold assign at h
  simp only [Option.bind_eq_some] at h
  obtain ⟨c, hc, hend⟩ := h
  have hsub : c.trace ⊆ b.trace ∧ ∀ e ∈ b.trace, e ∈ c.trace ∨ ∃ m n,
      e = Event.call (ExternalCall.finishAccumulatingSquashingLayers m n) := by
    split at hend
    · split at hend
      · cases hend
      · cases hend
        refine ⟨List.subset_append_left _ _, ?_⟩
        intro e he
        simp only [performCall, List.mem_append, List.mem_singleton] at he
        rcases he with he | he
        · exact Or.inl he
        · exact Or.inr ⟨_, _, he⟩
    · cases hend
      exact ⟨fun _ hx => hx, fun e he => Or.inl he⟩
  have hvc : Event.visit l s ∈ c.trace := by
    rcases hsub.2 _ he with h' | ⟨m, n, h'⟩
    · exact h'
    · cases h'
  obtain ⟨u, hu⟩ := assignLayersToBackingsInternal_transitions env updateRoot _ c
    (fun _ _ hx => by cases hx) hc l s hvc
  exact ⟨u, hsub.1 hu⟩

/-- The squashing assignment logs no transition. -/
theorem updateSquashingAssignment_transitions (env : Env) (layer : LayerId)
    (u : CompositingStateTransitionType) (a b : Assigner)
    (h : updateSquashingAssignment env layer u a = some b) (l : LayerId)
    (v : CompositingStateTransitionType)
    (hm : Event.allocateOrClearCompositedLayerMapping l v ∈ b.trace) :
    Event.allocateOrClearCompositedLayerMapping l v ∈ a.trace := by
  unfold updateSquashingAssignment at h
  simp only [Assigner.log] at h
  split at h
  · split at h
    · cases h
    · split at h
      all_goals
        cases h
        simpa [performCall] using hm
  · split at h
    · simp only [Option.map_eq_some'] at h
      obtain ⟨c, hc, rfl⟩ := h
      split at hc
      · split at hc
        · cases hc
        · cases hc
          simpa [performCall] using hm
      · cases hc
        simpa using hm
    · cases h
      simpa using hm

/-- The bookkeeping after the squashing assignment logs no transition. -/
theorem squashIfNeeded_transitions (env : Env) (layer : LayerId)
    (u : CompositingStateTransitionType) (a b : Assigner)
    (h : squashIfNeeded env layer u a = some b) (l : LayerId)
    (v : CompositingStateTransitionType)
    (hm : Event.allocateOrClearCompositedLayerMapping l v ∈ b.trace) :
    Event.allocateOrClearCompositedLayerMapping l v ∈ a.trace := by
  unfold squashIfNeeded at h
  split at h
  · simp only [Option.map_eq_some'] at h
    obtain ⟨c, hc, rfl⟩ := h
    apply updateSquashingAssignment_transitions env layer u a c hc l v
    split at hm <;> exact hm
  · cases h
    exact hm

/-- A transition that the reflection handling logs was computed by
`computeCompositedLayerUpdate`. -/
theorem assignReflection_transitions (env : Env) (layer : LayerId) (a : Assigner)
    (l : LayerId) (v : CompositingStateTransitionType)
    (hm : Event.allocateOrClearCompositedLayerMapping l v ∈ (assignReflection env layer a).trace) :
    Event.allocateOrClearCompositedLayerMapping l v ∈ a.trace
    ∨ ∃ w, v = computeCompositedLayerUpdate env w l := by
  unfold assignReflection assignLayersToBackingsForReflectionLayer at hm
  simp only at hm
  split at hm
  · split at hm <;> split at hm
    all_goals
      simp only [performCall, List.mem_append, List.mem_singleton, Event.allocateOrClearCompositedLayerMapping.injEq, reduceCtorEq, or_false] at hm
      first
        | exact Or.inl hm
        | (rcases hm with hm | ⟨rfl, rfl⟩
           · exact Or.inl hm
           · exact Or.inr ⟨_, rfl⟩)
  · exact Or.inl hm

/-- A transition that the visit of a layer logs was computed by
`computeCompositedLayerUpdate`. -/
theorem assignSelf_transitions (env : Env) (layer : LayerId) (a b : Assigner)
    (h : assignSelf env layer a = some b) (l : LayerId) (v : CompositingStateTransitionType)
    (hm : Event.allocateOrClearCompositedLayerMapping l v ∈ b.trace) :
    Event.allocateOrClearCompositedLayerMapping l v ∈ a.trace
    ∨ ∃ w, v = computeCompositedLayerUpdate env w l := by
  unfold assignSelf at h
  simp only [Option.bind_eq_some] at h
  obtain ⟨c, hc, h2⟩ := h
  obtain ⟨-, hct⟩ := mergeReasonsPreventingSquashing_state env layer _ c hc
  have h3 := squashIfNeeded_transitions env layer _ _ b h2 l v hm
  rcases assignReflection_transitions env layer _ l v h3 with h4 | h4
  · rw [(allocateOrClearAndInvalidate_state env layer _ c).2, hct] at h4
    simp only [Assigner.log, List.mem_append, List.mem_singleton,
      Event.allocateOrClearCompositedLayerMapping.injEq, reduceCtorEq, or_false] at h4
    rcases h4 with h4 | ⟨rfl, rfl⟩
    · exact Or.inl h4
    · exact Or.inr ⟨_, rfl⟩
  · exact Or.inr h4

/-- The promotion of a mapping and the scroll bookkeeping log no transition. -/
theorem becomeMostRecentMapping_transitions (env : Env) (layer : LayerId) (a b : Assigner)
    (h : becomeMostRecentMapping env layer a = some b) (l : LayerId)
    (v : CompositingStateTransitionType)
    (hm : Event.allocateOrClearCompositedLayerMapping l v ∈ b.trace) :
    Event.allocateOrClearCompositedLayerMapping l v ∈ a.trace := by
  unfold becomeMostRecentMapping at h
  simp only [Option.map_eq_some'] at h
  obtain ⟨c, hc, rfl⟩ := h
  have h1 : Event.allocateOrClearCompositedLayerMapping l v ∈ c.trace := by
    unfold updateTopmostScrollChild at hm
    cases hn : (env.layer layer).needsCompositedScrolling <;>
      cases hp : (env.layer layer).scrollParent <;>
      simp only [hn, hp, performCall, Bool.false_eq_true, if_false, if_true] at hm <;>
      simpa using hm
  split at hc
  · unfold updateSquashingStateForNewMapping at hc
    simp only [Option.map_eq_some', Assigner.log] at hc
    obtain ⟨d, hd, rfl⟩ := hc
    split at hd
    · split at hd
      · cases hd
      · cases hd
        simpa [performCall] using h1
    · cases hd
      simpa using h1
  · cases hc
    exact h1

/-- Every transition that `assign` logs was computed by
`computeCompositedLayerUpdate`. -/
theorem assign_computed (env : Env) (updateRoot : StackingNode) (a b : Assigner)
    (h : assign env updateRoot a = some b) (l : LayerId) (v : CompositingStateTransitionType)
    (hm : Event.allocateOrClearCompositedLayerMapping l v ∈ b.trace) :
    ∃ w, v = computeCompositedLayerUpdate env w l := by
  unfold assign at h
  simp only [Option.bind_eq_some] at h
  obtain ⟨c, hc, hend⟩ := h
  have hI := assignLayersToBackingsInternal_preserves env
    (fun x => ∀ l v, Event.allocateOrClearCompositedLayerMapping l v ∈ x.trace →
      ∃ w, v = computeCompositedLayerUpdate env w l)
    (fun layer x y hI hy l v hv => by
      rcases assignSelf_transitions env layer x y hy l v hv with h1 | h1
      · exact hI l v h1
      · exact h1)
    (fun layer x y hI hy l v hv =>
      hI l v (becomeMostRecentMapping_transitions env layer x y hy l v hv))
    (fun layer x y hI hy l v hv => by
      rw [(finishSubtree_state layer x y hy).1] at hv
      simp only [List.mem_append, List.mem_singleton, reduceCtorEq, or_false] at hv
      exact hI l v hv)
    updateRoot _ c (fun _ _ hx => by cases hx) hc
  apply hI l v
  split at hend
  · split at hend
    · cases hend
    · cases hend
      simpa [performCall] using hm
  · cases hend
    exact hm

/-- A second `assign` on what the first has left changes nothing and logs only
settled transitions. -/
theorem assign_secondRun {env : Env} (hsc : SettlingContract env)
    (hre : ReasonsContract env) (hrs : PreventingReasonsExcludeSquashing env)
    (hnr : ∀ l, (env.layer l).reflectionInfo = none) (updateRoot : StackingNode)
    (hnodup : updateRoot.layers.Nodup) (a b : Assigner) (hwf : Settleable a.world)
    (h : assign env updateRoot a = some b)
    (hkept : ∀ e ∈ b.trace, MembersKept b.world e) :
    ∃ c, assign env updateRoot b = some c
      ∧ c.world = b.world
      ∧ c.layersNeedingPaintInvalidation = b.layersNeedingPaintInvalidation
      ∧ c.m_layersChanged = b.m_layersChanged
      ∧ ∀ e ∈ c.trace, SettledTransition env b.world e := by
  unfold assign at h
  simp only [Option.bind_eq_some] at h
  obtain ⟨b', hb', hend⟩ := h
  obtain ⟨f, r⟩ := assignLayersToBackingsInternal_lockstep hsc hre hrs hnr updateRoot
    { a with squashingState := SquashingState.fresh, trace := [] } b' hnodup hb' hwf
  -- what the end of the first run does
  have hfin : (∀ l, SameLayerData b'.world b.world l)
      ∧ b.world.inCompositingMode = true ∧ b'.trace ⊆ b.trace
      ∧ ((b'.squashingState.hasMostRecentMapping = false ∧ b = b')
        ∨ ∃ m, b'.squashingState.hasMostRecentMapping = true
          ∧ b'.squashingState.mostRecentMapping = some m
          ∧ b = performCall env (ExternalCall.finishAccumulatingSquashingLayers m
              b'.squashingState.nextSquashedLayerIndex) b') := by
    split at hend
    · rename_i hhas
      split at hend
      · cases hend
      · rename_i m hm
        cases hend
        exact ⟨fun l => hsc.perform_frame _ _ l, hsc.perform_mode _ _ f.1.mode,
          List.subset_append_left _ _, Or.inr ⟨m, hhas, hm, rfl⟩⟩
    · rename_i hhas
      cases hend
      exact ⟨fun l => SameLayerData.unchanged _ _, f.1.mode, fun _ hx => hx,
        Or.inl ⟨by simpa using hhas, rfl⟩⟩
  obtain ⟨hd, hmode, hsub, hcases⟩ := hfin
  obtain ⟨c', hc', p⟩ := r { b with squashingState := SquashingState.fresh, trace := [] } rfl
    hmode (fun l _ => hd l) (fun e he => hkept e (hsub he))
  obtain ⟨pw, pl, pc, ps, t, pt, pok⟩ := p
  simp only [List.nil_append] at pt
  unfold assign
  simp only [hc', Option.some_bind, ps]
  rcases hcases with ⟨hhas, -⟩ | ⟨m, hhas, hm, rfl⟩
  · simp only [hhas, Bool.false_eq_true, if_false]
    refine ⟨c', rfl, pw, pl, pc, ?_⟩
    rw [pt]
    exact pok
  · have hk := hkept (Event.call (ExternalCall.finishAccumulatingSquashingLayers m
      b'.squashingState.nextSquashedLayerIndex)) (by simp [performCall])
    simp only [MembersKept] at hk
    simp only [hhas, if_true, hm]
    refine ⟨_, rfl, ?_, pl, pc, ?_⟩
    · simp only [performCall_world, pw]
      exact hsc.finish_held _ _ _ hk
    · simp only [performCall_state, pt]
      intro e he
      rcases List.mem_append.1 he with h | h
      · exact pok e h
      · simp only [List.mem_singleton] at h
        subst h
        trivial


/-- C12, amended (idempotence): under the contract of the collaborators for a
second run, over a tree of pairwise distinct layers without reflections and from
a settleable world (compositing mode on, no layer with a mapping of its own
having or having lost a grouped mapping), a second `assign` on what the first
has left, the mappings still holding the squashed layers of the first run at
their indices and no more layers than were counted when they were finalized,
changes nothing: the world, the paint-invalidation list and `m_layersChanged`
are as the first run left them; every transition computed is
`NoCompositingStateChange`, or, with squashing enabled and for a layer that has
a grouped mapping, `PutInSquashingLayer`; with squashing enabled a layer given
`NoCompositingStateChange` has no grouped mapping; and a transition is computed
for every layer of the tree. -/
theorem assign_idempotent {env : Env} (hsc : SettlingContract env)
    (hre : ReasonsContract env) (hrs : PreventingReasonsExcludeSquashing env)
    (hnr : ∀ l, (env.layer l).reflectionInfo = none) (updateRoot : StackingNode)
    (hnodup : updateRoot.layers.Nodup) (a b : Assigner) (hwf : Settleable a.world)
    (h : assign env updateRoot a = some b)
    (hkept : ∀ e ∈ b.trace, MembersKept b.world e) :
    ∃ c, assign env updateRoot b = some c
      ∧ c.world = b.world
      ∧ c.layersNeedingPaintInvalidation = b.layersNeedingPaintInvalidation
      ∧ c.m_layersChanged = b.m_layersChanged
      ∧ (∀ l u, Event.allocateOrClearCompositedLayerMapping l u ∈ c.trace →
          (u = NoCompositingStateChange
            ∧ (env.layerSquashingEnabled = true → (b.world.layers l).groupedMapping = none))
          ∨ (u = PutInSquashingLayer ∧ env.layerSquashingEnabled = true
            ∧ (b.world.layers l).groupedMapping.isSome = true))
      ∧ ∀ l ∈ updateRoot.layers,
          ∃ u, Event.allocateOrClearCompositedLayerMapping l u ∈ c.trace := by
  obtain ⟨c, hc, hw, hl, hm, hok⟩ :=
    assign_secondRun hsc hre hrs hnr updateRoot hnodup a b hwf h hkept
  refine ⟨c, hc, hw, hl, hm, ?_, ?_⟩
  · intro l u hu
    have hs := hok _ hu
    simp only [SettledTransition] at hs
    rcases hs with ⟨rfl, hg⟩ | ⟨rfl, hg⟩
    · exact Or.inl ⟨rfl, hg⟩
    · obtain ⟨w, hw⟩ := assign_computed env updateRoot b c hc l _ hu
      exact Or.inr ⟨rfl, (computeCompositedLayerUpdate_eq_put env w l hw.symm).1, hg⟩
  · intro l hmem
    exact assign_transitions env updateRoot b c hc l hmem

theorem Demo.assign_squashable_kept :
    ∀ e ∈ ((assign (Demo.env true Demo.boxes) Demo.rootWithThreeChildren
        (Demo.start Demo.worldSquashable)).get Demo.assign_squashable_isSome).trace,
      MembersKept ((assign (Demo.env true Demo.boxes) Demo.rootWithThreeChildren
        (Demo.start Demo.worldSquashable)).get Demo.assign_squashable_isSome).world e := by
  decide!

theorem Demo.world_settleable (reasons : LayerId → CompositingReasons) :
    Settleable (Demo.world reasons) :=
  ⟨rfl, fun _ h => by cases h⟩

set_option maxRecDepth 100000 in
/-- Witness for C12: the second run over scenario A. -/
theorem assign_idempotent_witness :
    (∃ c, assign (Demo.env true Demo.boxes) Demo.rootWithThreeChildren
        ((assign (Demo.env true Demo.boxes) Demo.rootWithThreeChildren
          (Demo.start Demo.worldSquashable)).get Demo.assign_squashable_isSome) = some c
      ∧ c.world = ((assign (Demo.env true Demo.boxes) Demo.rootWithThreeChildren
          (Demo.start Demo.worldSquashable)).get Demo.assign_squashable_isSome).world
      ∧ c.layersNeedingPaintInvalidation
          = ((assign (Demo.env true Demo.boxes) Demo.rootWithThreeChildren
              (Demo.start Demo.worldSquashable)).get
                Demo.assign_squashable_isSome).layersNeedingPaintInvalidation
      ∧ c.m_layersChanged
          = ((assign (Demo.env true Demo.boxes) Demo.rootWithThreeChildren
              (Demo.start Demo.worldSquashable)).get
                Demo.assign_squashable_isSome).m_layersChanged
      ∧ (∀ l u, Event.allocateOrClearCompositedLayerMapping l u ∈ c.trace →
          (u = NoCompositingStateChange
            ∧ ((Demo.env true Demo.boxes).layerSquashingEnabled = true →
              (((assign (Demo.env true Demo.boxes) Demo.rootWithThreeChildren
                (Demo.start Demo.worldSquashable)).get
                  Demo.assign_squashable_isSome).world.layers l).groupedMapping = none))
          ∨ (u = PutInSquashingLayer
            ∧ (Demo.env true Demo.boxes).layerSquashingEnabled = true
            ∧ (((assign (Demo.env true Demo.boxes) Demo.rootWithThreeChildren
                (Demo.start Demo.worldSquashable)).get
                  Demo.assign_squashable_isSome).world.layers l).groupedMapping.isSome = true))
      ∧ ∀ l ∈ Demo.rootWithThreeChildren.layers,
          ∃ u, Event.allocateOrClearCompositedLayerMapping l u ∈ c.trace)
    ∧ ((assign (Demo.env true Demo.boxes) Demo.rootWithThreeChildren
        (Demo.start Demo.worldSquashable)).bind fun b =>
      (assign (Demo.env true Demo.boxes) Demo.rootWithThreeChildren b).map fun c =>
        (b.layersNeedingPaintInvalidation, c.layersNeedingPaintInvalidation,
          c.trace.filterMap fun e =>
            match e with
            | Event.allocateOrClearCompositedLayerMapping l u => some (l, u)
            | _ => none))
      = some ([0, 1, 2, 3], [0, 1, 2, 3],
          [(0, NoCompositingStateChange), (1, NoCompositingStateChange),
            (2, PutInSquashingLayer), (3, PutInSquashingLayer)])
    ∧ (assign (Demo.env true Demo.boxes) Demo.rootWithThreeChildren
        (Demo.start Demo.worldSquashable)).map (fun b =>
          Demo.rootWithThreeChildren.layers.map fun l => (b.world.layers l).groupedMapping)
      = some [none, none, some 1, some 1] :=
  ⟨assign_idempotent (Demo.settlingContract true Demo.boxes)
      (Demo.reasonsContract true Demo.boxes)
      (Demo.preventingReasonsExcludeSquashing true Demo.boxes)
      (fun l => by simp only [Demo.env, Demo.boxes]; split <;> rfl)
      Demo.rootWithThreeChildren Demo.rootWithThreeChildren_nodup
      (Demo.start Demo.worldSquashable) _ (Demo.world_settleable _)
      (Option.some_get Demo.assign_squashable_isSome).symm Demo.assign_squashable_kept,
    by decide!, by decide!⟩

end blink
